import Mathlib

/-!
# librcb4: command messages and wire frames

A shallow embedding of the command builder of librcb4 (`rcb4_command.c`,
`rcb4_command_src.c`, `rcb4_command_dst.c`) and of the frames that
`rcb4_connection.c` and `rcb4_control.c` put on the serial line.

`struct s_rcb4_comm` is packed: one `size` byte, one `type` byte and a union
of per-opcode payloads.  The union is embedded as its 125 bytes, addressed by
the offset inside the union, so that the aliasing of the C members is kept: two
members that share an offset share the byte.  Bytes are natural numbers and
every store reduces modulo 256.  `uint16_t` members are stored least
significant byte first, as on the little-endian hosts the library runs on.

A setter of the C API mutates the message through a pointer and returns an
`int`; here it returns the pair of the return code and the message after the
call.
-/

namespace Rcb4

/-! ## Constants of `rcb4_config.h`, `rcb4_private.h` and `rcb4.h` -/

abbrev RCB4_ACK : Nat := 0x06
abbrev RCB4_NCK : Nat := 0x15
abbrev RCB4_MAX_RAM_ADDRESS : Nat := 0x048F
abbrev RCB4_MAX_ROM_ADDRESS : Nat := 0x03FFFF
abbrev RCB4_MAX_ICS_SRC_SIZE : Nat := 64
abbrev RCB4_ICS_QTY : Nat := 36
abbrev RCB4_COMM_MESSAGE_SIZE_ALLOWED : Nat := 128
abbrev COMM_LITERAL_MAX_LEN : Nat := RCB4_COMM_MESSAGE_SIZE_ALLOWED - 7

abbrev COMM_DST_MASK : Nat := 0x30
abbrev COMM_DST_RAM : Nat := 0x00
abbrev COMM_DST_ICS : Nat := 0x10
abbrev COMM_DST_COM : Nat := 0x20
abbrev COMM_DST_ROM : Nat := 0x30
abbrev COMM_SRC_MASK : Nat := 0x03
abbrev COMM_SRC_RAM : Nat := 0x00
abbrev COMM_SRC_ICS : Nat := 0x01
abbrev COMM_SRC_LIT : Nat := 0x02
abbrev COMM_SRC_ROM : Nat := 0x03
abbrev COMM_NUPDATE : Nat := 0x80

abbrev RCB4_COMM_MOV : Nat := 0x00
abbrev RCB4_COMM_AND : Nat := 0x01
abbrev RCB4_COMM_OR : Nat := 0x02
abbrev RCB4_COMM_XOR : Nat := 0x03
abbrev RCB4_COMM_NOT : Nat := 0x04
abbrev RCB4_COMM_SHIFT : Nat := 0x05
abbrev RCB4_COMM_ADD : Nat := 0x06
abbrev RCB4_COMM_SUB : Nat := 0x07
abbrev RCB4_COMM_MUL : Nat := 0x08
abbrev RCB4_COMM_DIV : Nat := 0x09
abbrev RCB4_COMM_MOD : Nat := 0x0A
abbrev RCB4_COMM_ICS : Nat := 0x0E
abbrev RCB4_COMM_SINGLE : Nat := 0x0F
abbrev RCB4_COMM_CONST : Nat := 0x10
abbrev RCB4_COMM_SERIES : Nat := 0x11
abbrev RCB4_COMM_SPEED : Nat := 0x12

/-! ## The message object -/

/-- The union `command` of `struct s_rcb4_comm` as raw memory: its 125 bytes
(the largest members, `s_rcb4_mov`, `s_rcb4_logic` and `s_rcb4_math`, are one
type byte, a 3-byte destination and a 121-byte source). -/
abbrev Payload : Type := { l : List Nat // l.length = 125 }

/-- The packed `struct s_rcb4_comm`: the `size` byte, the `type` byte and the
union `command`. -/
structure rcb4_comm where
  size : Nat
  type : Nat
  command : Payload
deriving DecidableEq

/-- The union after `memset(comm, 0, sizeof(rcb4_comm))`. -/
def zero_payload : Payload := ⟨List.replicate 125 0, by simp⟩

/-- Load of the `uint8_t` at offset `off` of the union. -/
def get8 (mem : Payload) (off : Nat) : Nat :=
  mem.1.getD off 0

/-- Store of one `uint8_t` at offset `off` of the union. -/
def put8 (mem : Payload) (off v : Nat) : Payload :=
  ⟨mem.1.set off (v % 256), by simp [mem.2]⟩

/-- Store of one `uint16_t` at offset `off` of the union, low byte first. -/
def put16 (mem : Payload) (off v : Nat) : Payload :=
  put8 (put8 mem off v) (off + 1) (v / 256)

/-- Load of one `uint16_t` at offset `off` of the union, low byte first. -/
def get16 (mem : Payload) (off : Nat) : Nat :=
  get8 mem off + 256 * get8 mem (off + 1)

/-- The 127 bytes of the object as `(const uint8_t*)comm` sees them: the size
byte, the type byte, then the union. -/
def object_bytes (comm : rcb4_comm) : List Nat :=
  comm.size :: comm.type :: comm.command.1

/-- Byte `i` of the object (a byte past the end of the object reads as 0). -/
def byte_at (comm : rcb4_comm) (i : Nat) : Nat :=
  (object_bytes comm).getD i 0

/-- Every byte of the object is a `uint8_t`. -/
def bytes_ok (comm : rcb4_comm) : Prop :=
  comm.size < 256 ∧ comm.type < 256 ∧ ∀ b ∈ comm.command.1, b < 256

instance (comm : rcb4_comm) : Decidable (bytes_ok comm) := by
  unfold bytes_ok; infer_instance

/-! ### Offsets of the union members

`s_rcb4_mov` and `s_rcb4_logic` are `{type, dst, src}` with a 3-byte
destination union and a 121-byte source union; `s_rcb4_not` is
`{type, dst, zero[2], size}`, `s_rcb4_shift` is
`{type, dst, zero, shifts, size}`. -/

abbrev off_type : Nat := 0
abbrev off_dst : Nat := 1
abbrev off_src : Nat := 4
abbrev off_src_ram_size : Nat := 6
abbrev off_src_ics_size : Nat := 6
abbrev off_src_rom_size : Nat := 7
abbrev off_not_size : Nat := 6
abbrev off_shift_shifts : Nat := 5
abbrev off_shift_size : Nat := 6
abbrev off_ics_id : Nat := 0
abbrev off_ics_data_size : Nat := 1
abbrev off_ics_src : Nat := 2
abbrev off_ics_dst : Nat := 4
abbrev off_single_ics_id : Nat := 0
abbrev off_single_speed : Nat := 1
abbrev off_single_pos : Nat := 2
abbrev off_const_speed : Nat := 5

/-- Offset of `servo_const.pos[k]`. -/
def off_const_pos (k : Nat) : Nat := 6 + 2 * k

/-- Offset of `servo_series.speedpos[k].speed`; the position follows it. -/
def off_series_speed (k : Nat) : Nat := 5 + 3 * k

/-- Offset of `servo_series.speedpos[k].pos`. -/
def off_series_pos (k : Nat) : Nat := 6 + 3 * k

/-- Modelled from the spec: `struct s_rcb4_math` of `rcb4_comm_math.h`, which
is included by `rcb4_command.h` but is not among the sources.  The spec gives
ADD, SUB, MUL, DIV and MOD the same `{type_byte, destination, source}` shape as
MOV and the logic opcodes, so `math.type`, `math.dst` and `math.src` sit at the
offsets of `mov.type`, `mov.dst` and `mov.src`.  The value is the offset of
`math.type`; `math.dst` is 1 and `math.src` is 4 bytes further. -/
abbrev off_math_type : Nat := 0

/-- The opcodes of the logic family: AND, OR, XOR. -/
def is_logic (t : Nat) : Prop :=
  t = RCB4_COMM_AND ∨ t = RCB4_COMM_OR ∨ t = RCB4_COMM_XOR

instance (t : Nat) : Decidable (is_logic t) := by
  unfold is_logic; infer_instance

/-- The opcodes of the arithmetic family: ADD, SUB, MUL, DIV, MOD. -/
def is_math (t : Nat) : Prop :=
  t = RCB4_COMM_ADD ∨ t = RCB4_COMM_SUB ∨ t = RCB4_COMM_MUL ∨ t = RCB4_COMM_DIV ∨
    t = RCB4_COMM_MOD

instance (t : Nat) : Decidable (is_math t) := by
  unfold is_math; infer_instance

/-- The member of the union `command` that a type byte selects in the
`switch (comm->type)` statements of the library: the `case` labels always
come in these groups, and `unknown` is the `default` label. -/
inductive member where
  | mov
  | logic
  | logic_not
  | shift
  | math
  | ics
  | servo_single
  | servo_const
  | servo_series
  | servo_speed
  | unknown
deriving DecidableEq, Repr

/-- The `case` label that a type byte matches. -/
def member_of (t : Nat) : member :=
  if t = RCB4_COMM_MOV then member.mov
  else if is_logic t then member.logic
  else if t = RCB4_COMM_NOT then member.logic_not
  else if t = RCB4_COMM_SHIFT then member.shift
  else if is_math t then member.math
  else if t = RCB4_COMM_ICS then member.ics
  else if t = RCB4_COMM_SINGLE then member.servo_single
  else if t = RCB4_COMM_CONST then member.servo_const
  else if t = RCB4_COMM_SERIES then member.servo_series
  else if t = RCB4_COMM_SPEED then member.servo_speed
  else member.unknown

/-! ## `rcb4_command.c`: creation -/

/-- The function `rcb4_command_recreate`: zero the object, store the type, then
set the size of the fixed-size opcodes (0 for the variable ones).  An unknown
type returns -1 after the object has been zeroed and the type stored. -/
def rcb4_command_recreate (_comm : rcb4_comm) (type : Nat) : Int × rcb4_comm :=
  let comm : rcb4_comm := { size := 0, type := type % 256, command := zero_payload }
  match member_of comm.type with
  | member.mov | member.logic | member.math | member.servo_const | member.servo_series
  | member.servo_speed => (0, { comm with size := 0 })
  | member.logic_not => (0, { comm with size := 10 })
  | member.shift => (0, { comm with size := 10 })
  | member.ics => (0, { comm with size := 9 })
  | member.servo_single => (0, { comm with size := 7 })
  | member.unknown => (-1, comm)

/-- The loop of `rcb4_command_calculate_checksum`: `n` iterations left, `i` the
index of the next byte, `sum` the `uint16_t` accumulator. -/
def checksum_loop (comm : rcb4_comm) : Nat → Nat → Nat → Nat
  | 0, _, sum => sum
  | n + 1, i, sum => checksum_loop comm n (i + 1) ((sum + byte_at comm i) % 65536)

/-- The function `rcb4_command_calculate_checksum`: the loop runs for
`i < size - 1` (no iteration when `size` is 0 or 1) and the low byte of the
accumulator is returned. -/
def rcb4_command_calculate_checksum (comm : rcb4_comm) : Nat :=
  checksum_loop comm (comm.size - 1) 0 0 % 256

/-- The inner `switch` of `rcb4_command_get_response_size`: the size member of
the selected source, or `size - 7` as a `uint8_t` for a literal. -/
def response_size_of_src (comm : rcb4_comm) : Nat :=
  let t := get8 comm.command off_type &&& COMM_SRC_MASK
  if t = COMM_SRC_RAM then get8 comm.command off_src_ram_size
  else if t = COMM_SRC_ICS then get8 comm.command off_src_ics_size
  else if t = COMM_SRC_ROM then get8 comm.command off_src_rom_size
  else if t = COMM_SRC_LIT then (comm.size + 256 - 7) % 256
  else 0

/-- The function `rcb4_command_get_response_size`. -/
def rcb4_command_get_response_size (comm : rcb4_comm) : Nat :=
  match member_of comm.type with
  | member.mov =>
    if get8 comm.command off_type &&& COMM_DST_COM = 0 then 0
    else response_size_of_src comm
  | member.logic => response_size_of_src comm
  | member.logic_not => get8 comm.command off_not_size
  | member.shift => get8 comm.command off_shift_size
  | member.math => response_size_of_src comm
  | member.ics | member.servo_single | member.servo_const | member.servo_series
  | member.servo_speed => 0
  | member.unknown => 0

/-! ## `rcb4_command.c`: shift count, data size, ICS id, speed -/

/-- The private function `rcb4_command_set_shifts`: `shifts` is the byte the
robot expects. -/
def rcb4_command_set_shifts (comm : rcb4_comm) (shifts : Nat) : Int × rcb4_comm :=
  if comm.type ≠ RCB4_COMM_SHIFT then (-1, comm)
  else (0, { comm with command := put8 comm.command off_shift_shifts shifts })

/-- The function `rcb4_command_set_shift_left`. -/
def rcb4_command_set_shift_left (comm : rcb4_comm) (shifts : Nat) : Int × rcb4_comm :=
  if comm.type ≠ RCB4_COMM_SHIFT then (-1, comm)
  else if shifts > 127 then (-1, comm)
  else rcb4_command_set_shifts comm shifts

/-- The function `rcb4_command_set_shift_right`: the count is stored as
`256 - shifts`, and as 0 when `shifts` is 0. -/
def rcb4_command_set_shift_right (comm : rcb4_comm) (shifts : Nat) : Int × rcb4_comm :=
  if comm.type ≠ RCB4_COMM_SHIFT then (-1, comm)
  else if shifts > 127 then (-1, comm)
  else if shifts = 0 then rcb4_command_set_shifts comm 0
  else rcb4_command_set_shifts comm (256 - shifts)

/-- The final `switch (type & COMM_SRC_MASK)` of `rcb4_command_set_data_size`:
the size goes to the size member of the selected source, and nowhere for a
literal source. -/
def store_src_size (comm : rcb4_comm) (type size : Nat) : rcb4_comm :=
  let t := type &&& COMM_SRC_MASK
  if t = COMM_SRC_RAM then { comm with command := put8 comm.command off_src_ram_size size }
  else if t = COMM_SRC_ICS then { comm with command := put8 comm.command off_src_ics_size size }
  else if t = COMM_SRC_ROM then { comm with command := put8 comm.command off_src_rom_size size }
  else comm

/-- The function `rcb4_command_set_data_size`. -/
def rcb4_command_set_data_size (comm : rcb4_comm) (size : Nat) : Int × rcb4_comm :=
  if size = 0 ∨ size > 128 then (-1, comm)
  else
    match member_of comm.type with
    | member.mov => (0, store_src_size comm (get8 comm.command off_type) size)
    | member.logic => (0, store_src_size comm (get8 comm.command off_type) size)
    | member.logic_not => (0, { comm with command := put8 comm.command off_not_size size })
    | member.shift => (0, { comm with command := put8 comm.command off_shift_size size })
    | member.math =>
      if size ≠ 1 ∧ size ≠ 2 then (-1, comm)
      else (0, store_src_size comm (get8 comm.command off_math_type) size)
    | member.ics =>
      if size > 64 then (-1, comm)
      else (0, { comm with command := put8 comm.command off_ics_data_size size })
    | member.servo_single | member.servo_const | member.servo_series | member.servo_speed
    | member.unknown => (-1, comm)

/-- The function `rcb4_command_set_ics`. -/
def rcb4_command_set_ics (comm : rcb4_comm) (ics : Nat) : Int × rcb4_comm :=
  if comm.type = RCB4_COMM_ICS then
    (0, { comm with command := put8 comm.command off_ics_id ics })
  else (-1, comm)

/-- The function `rcb4_command_set_speed`: the robot counts speeds the other
way round, so `256 - speed` is stored. -/
def rcb4_command_set_speed (comm : rcb4_comm) (speed : Nat) : Int × rcb4_comm :=
  if speed = 0 then (-1, comm)
  else
    let speed := (256 - speed) % 256
    if comm.type = RCB4_COMM_CONST then
      (0, { comm with command := put8 comm.command off_const_speed speed })
    else (-1, comm)

/-- The function `rcb4_command_set_stretch`: not implemented in the library. -/
def rcb4_command_set_stretch (comm : rcb4_comm) (_stretch : Nat) : Int × rcb4_comm :=
  (-1, comm)

/-! ## `rcb4_command.c`: the servo list -/

/-- The inner loop of the index scan of `rcb4_command_set_servo`, over the
bits still to visit: it stops at the first bit whose servo number
`block * 8 + bit + 1` exceeds `ics`.  The state is `(i, overwrite)`. -/
def servo_scan_bits (check_byte block ics : Nat) : List Nat → Nat × Nat → Nat × Nat
  | [], st => st
  | bit :: rest, st =>
    if block * 8 + bit + 1 ≤ ics then
      if (check_byte >>> bit) &&& 1 ≠ 0 then
        if block * 8 + bit + 1 = ics then
          servo_scan_bits check_byte block ics rest (st.1, 1)
        else
          servo_scan_bits check_byte block ics rest (st.1 + 1, st.2)
      else servo_scan_bits check_byte block ics rest st
    else st

/-- The outer loop of the index scan, over the blocks still to visit. -/
def servo_scan_blocks (ics_set : Payload) (ics : Nat) : List Nat → Nat × Nat → Nat × Nat
  | [], st => st
  | block :: rest, st =>
    servo_scan_blocks ics_set ics rest
      (servo_scan_bits (get8 ics_set block) block ics (List.range 8) st)

/-- The index scan of `rcb4_command_set_servo`: blocks 0 to 4, bits 0 to 7,
starting from `i = 0` and `overwrite = 0`. -/
def servo_scan (ics_set : Payload) (ics : Nat) : Nat × Nat :=
  servo_scan_blocks ics_set ics (List.range 5) (0, 0)

/-- The assignment of one array element to another, `width` bytes from offset
`src` to offset `dst` of the union (the two elements do not overlap). -/
def copy_bytes (mem : Payload) (dst src : Nat) : Nat → Payload
  | 0 => mem
  | n + 1 => put8 (copy_bytes mem dst src n) (dst + n) (get8 mem (src + n))

/-- The loop `for (block = n; block > i; --block) arr[block] = arr[block - 1]`
on an array that starts at offset `base` of the union and whose elements are
`width` bytes long: `servo_const.pos` (offset 6, `uint16_t`) or
`servo_series.speedpos` (offset 5, a packed speed byte and `uint16_t`). -/
def shift_elements (base width i : Nat) : Nat → Payload → Payload
  | 0, mem => mem
  | block + 1, mem =>
    if block + 1 > i then
      shift_elements base width i block
        (copy_bytes mem (base + width * (block + 1)) (base + width * block) width)
    else mem

/-- The builtin `__builtin_popcount` on an `unsigned int`. -/
def popcount (x : Nat) : Nat :=
  ((List.range 32).filter (fun b => x.testBit b)).length

/-- The number of servos set: the sum of the popcounts of the five bytes of
`ics_set`, each count held in a `uint8_t`. -/
def servos_set (mem : Payload) : Nat :=
  popcount (get8 mem 0) % 256 + popcount (get8 mem 1) % 256 + popcount (get8 mem 2) % 256 +
    popcount (get8 mem 3) % 256 + popcount (get8 mem 4) % 256

/-- The statement `ics_set[new_block] |= ((uint8_t)1) << ((ics - 1) % 8)`. -/
def set_ics_bit (mem : Payload) (ics : Nat) : Payload :=
  put8 mem ((ics - 1) / 8) (get8 mem ((ics - 1) / 8) ||| (1 <<< ((ics - 1) % 8)))

/-- The `RCB4_COMM_CONST` branch of `rcb4_command_set_servo`: scan, shift
unless the servo is already set, set the bit, store the position (the speed is
ignored) and recompute the size. -/
def set_servo_const (comm : rcb4_comm) (ics position : Nat) : rcb4_comm :=
  let st := servo_scan comm.command ics
  let i := st.1
  let mem :=
    if st.2 = 0 then shift_elements (off_const_pos 0) 2 i (RCB4_ICS_QTY - 1) comm.command
    else comm.command
  let mem := set_ics_bit mem ics
  let mem := put16 mem (off_const_pos i) position
  { comm with command := mem, size := (9 + 2 * servos_set mem) % 256 }

/-- The `RCB4_COMM_SERIES` branch of `rcb4_command_set_servo`; `speed` is the
byte to store. -/
def set_servo_series (comm : rcb4_comm) (ics speed position : Nat) : rcb4_comm :=
  let st := servo_scan comm.command ics
  let i := st.1
  let mem :=
    if st.2 = 0 then shift_elements (off_series_speed 0) 3 i (RCB4_ICS_QTY - 1) comm.command
    else comm.command
  let mem := set_ics_bit mem ics
  let mem := put8 mem (off_series_speed i) speed
  let mem := put16 mem (off_series_pos i) position
  { comm with command := mem, size := (8 + 3 * servos_set mem) % 256 }

/-- The function `rcb4_command_set_servo`.  `speed` is replaced by
`256 - speed` as a `uint8_t` before it is stored. -/
def rcb4_command_set_servo (comm : rcb4_comm) (ics speed position : Nat) : Int × rcb4_comm :=
  if speed = 0 ∧ comm.type ≠ RCB4_COMM_CONST then (-1, comm)
  else if ics = 0 ∨ ics > RCB4_ICS_QTY then (-1, comm)
  else
    let speed := (256 - speed) % 256
    if comm.type = RCB4_COMM_SINGLE then
      let mem := put8 comm.command off_single_ics_id (ics - 1)
      let mem := put8 mem off_single_speed speed
      let mem := put16 mem off_single_pos position
      (0, { comm with command := mem })
    else if comm.type = RCB4_COMM_CONST then (0, set_servo_const comm ics position)
    else if comm.type = RCB4_COMM_SERIES then (0, set_servo_series comm ics speed position)
    else (-1, comm)

/-! ## `rcb4_command_src.c`: the source setters -/

/-- The type byte after a source setter: the destination bits and the
do-not-save bit are kept, the source kind is replaced by `kind`. -/
def src_type_byte (t kind : Nat) : Nat :=
  (t &&& (COMM_DST_MASK ||| COMM_NUPDATE)) ||| kind

/-- The stores of one `case` of `rcb4_command_set_src_ram`, on a `{type, dst,
src}` payload whose type byte is at `ty`. -/
def write_src_ram (mem : Payload) (ty addr size : Nat) : Payload :=
  let mem := put8 mem ty (src_type_byte (get8 mem ty) COMM_SRC_RAM)
  let mem := put8 mem (ty + off_src) addr
  let mem := put8 mem (ty + off_src + 1) (addr / 256)
  put8 mem (ty + off_src_ram_size) size

/-- The function `rcb4_command_set_src_ram`. -/
def rcb4_command_set_src_ram (comm : rcb4_comm) (addr size : Nat) : Int × rcb4_comm :=
  if size = 0 ∨ size > RCB4_COMM_MESSAGE_SIZE_ALLOWED - 10 then (-1, comm)
  else if addr > RCB4_MAX_RAM_ADDRESS then (-1, comm)
  else
    match member_of comm.type with
    | member.mov =>
      (0, { comm with command := write_src_ram comm.command off_type addr size, size := 10 })
    | member.logic =>
      (0, { comm with command := write_src_ram comm.command off_type addr size, size := 10 })
    | member.math =>
      (0, { comm with command := write_src_ram comm.command off_math_type addr size, size := 10 })
    | member.ics =>
      if size > RCB4_MAX_ICS_SRC_SIZE then (-1, comm)
      else
        let mem := put8 comm.command off_ics_data_size size
        let mem := put16 mem off_ics_src addr
        (0, { comm with command := mem, size := 9 })
    | member.logic_not | member.shift | member.servo_single | member.servo_const
    | member.servo_series | member.servo_speed => (-2, comm)
    | member.unknown => (-1, comm)

/-- The stores of one `case` of `rcb4_command_set_src_ics`; `ics` is already
decremented. -/
def write_src_ics (mem : Payload) (ty offset ics size : Nat) : Payload :=
  let mem := put8 mem ty (src_type_byte (get8 mem ty) COMM_SRC_ICS)
  let mem := put8 mem (ty + off_src) offset
  let mem := put8 mem (ty + off_src + 1) ics
  put8 mem (ty + off_src_ics_size) size

/-- The function `rcb4_command_set_src_ics`. -/
def rcb4_command_set_src_ics (comm : rcb4_comm) (offset ics size : Nat) : Int × rcb4_comm :=
  if size = 0 ∨ size > RCB4_COMM_MESSAGE_SIZE_ALLOWED then (-1, comm)
  else if ics = 0 ∨ ics > RCB4_ICS_QTY then (-1, comm)
  else
    let ics := ics - 1
    match member_of comm.type with
    | member.mov =>
      (0, { comm with command := write_src_ics comm.command off_type offset ics size, size := 10 })
    | member.logic =>
      (0, { comm with command := write_src_ics comm.command off_type offset ics size, size := 10 })
    | member.math =>
      (0, { comm with command := write_src_ics comm.command off_math_type offset ics size,
                      size := 10 })
    | member.logic_not | member.shift | member.ics | member.servo_single | member.servo_const
    | member.servo_series | member.servo_speed => (-2, comm)
    | member.unknown => (-1, comm)

/-- The call `memcpy(ptr, literal, n)` with `ptr` at offset `off` of the
union, byte by byte.  `literal` lists the bytes of the caller's buffer (a byte
past its end reads as 0). -/
def copy_literal (mem : Payload) (off : Nat) (literal : List Nat) : Nat → Payload
  | 0 => mem
  | n + 1 => put8 (copy_literal mem off literal n) (off + n) (literal.getD n 0)

/-- The stores of one `case` of `rcb4_command_set_src_literal` followed by the
`memcpy` after the `switch`. -/
def write_src_lit (mem : Payload) (ty : Nat) (literal : List Nat) (length : Nat) : Payload :=
  let mem := put8 mem ty (src_type_byte (get8 mem ty) COMM_SRC_LIT)
  copy_literal mem (ty + off_src) literal length

/-- The function `rcb4_command_set_src_literal`. -/
def rcb4_command_set_src_literal (comm : rcb4_comm) (literal : List Nat) (length : Nat) :
    Int × rcb4_comm :=
  if length = 0 ∨ length ≥ COMM_LITERAL_MAX_LEN then (-1, comm)
  else
    match member_of comm.type with
    | member.mov =>
      (0, { comm with command := write_src_lit comm.command off_type literal length,
                      size := (length + 7) % 256 })
    | member.logic =>
      (0, { comm with command := write_src_lit comm.command off_type literal length,
                      size := (length + 7) % 256 })
    | member.math =>
      (0, { comm with command := write_src_lit comm.command off_math_type literal length,
                      size := (length + 7) % 256 })
    | member.logic_not | member.shift | member.ics | member.servo_single | member.servo_const
    | member.servo_series | member.servo_speed => (-2, comm)
    | member.unknown => (-1, comm)

/-- The stores of one `case` of `rcb4_command_set_src_rom`. -/
def write_src_rom (mem : Payload) (ty addr size : Nat) : Payload :=
  let mem := put8 mem ty (src_type_byte (get8 mem ty) COMM_SRC_ROM)
  let mem := put8 mem (ty + off_src) addr
  let mem := put8 mem (ty + off_src + 1) (addr / 256)
  let mem := put8 mem (ty + off_src + 2) (addr / 65536)
  put8 mem (ty + off_src_rom_size) size

/-- The function `rcb4_command_set_src_rom`. -/
def rcb4_command_set_src_rom (comm : rcb4_comm) (addr size : Nat) : Int × rcb4_comm :=
  if size = 0 ∨ size > RCB4_COMM_MESSAGE_SIZE_ALLOWED then (-1, comm)
  else if addr > RCB4_MAX_ROM_ADDRESS then (-1, comm)
  else
    match member_of comm.type with
    | member.mov =>
      (0, { comm with command := write_src_rom comm.command off_type addr size, size := 11 })
    | member.logic =>
      (0, { comm with command := write_src_rom comm.command off_type addr size, size := 11 })
    | member.math =>
      (0, { comm with command := write_src_rom comm.command off_math_type addr size, size := 11 })
    | member.logic_not | member.shift | member.ics | member.servo_single | member.servo_const
    | member.servo_series | member.servo_speed => (-2, comm)
    | member.unknown => (-1, comm)

/-! ## `rcb4_command_dst.c`: the destination setters -/

/-- The type byte after a destination setter: only the source kind is kept,
the destination kind is replaced by `kind`. -/
def dst_type_byte (t kind : Nat) : Nat :=
  (t &&& COMM_SRC_MASK) ||| kind

/-- The stores of one `case` of `rcb4_command_set_dst_ram`. -/
def write_dst_ram (mem : Payload) (ty addr : Nat) : Payload :=
  let mem := put8 mem ty (dst_type_byte (get8 mem ty) COMM_DST_RAM)
  let mem := put8 mem (ty + off_dst) addr
  put8 mem (ty + off_dst + 1) (addr / 256)

/-- The function `rcb4_command_set_dst_ram`. -/
def rcb4_command_set_dst_ram (comm : rcb4_comm) (addr : Nat) : Int × rcb4_comm :=
  if addr > RCB4_MAX_RAM_ADDRESS then (-1, comm)
  else
    match member_of comm.type with
    | member.mov => (0, { comm with command := write_dst_ram comm.command off_type addr })
    | member.logic => (0, { comm with command := write_dst_ram comm.command off_type addr })
    | member.math => (0, { comm with command := write_dst_ram comm.command off_math_type addr })
    | member.ics => (0, { comm with command := put16 comm.command off_ics_dst addr })
    | member.logic_not => (0, { comm with command := write_dst_ram comm.command off_type addr })
    | member.shift => (0, { comm with command := write_dst_ram comm.command off_type addr })
    | member.servo_single | member.servo_const | member.servo_series
    | member.servo_speed => (-2, comm)
    | member.unknown => (-1, comm)

/-- The stores of one `case` of `rcb4_command_set_dst_ics`; `ics` is already
decremented. -/
def write_dst_ics (mem : Payload) (ty offset ics : Nat) : Payload :=
  let mem := put8 mem ty (dst_type_byte (get8 mem ty) COMM_DST_ICS)
  let mem := put8 mem (ty + off_dst) offset
  put8 mem (ty + off_dst + 1) ics

/-- The function `rcb4_command_set_dst_ics`. -/
def rcb4_command_set_dst_ics (comm : rcb4_comm) (offset ics : Nat) : Int × rcb4_comm :=
  if ics = 0 ∨ ics > RCB4_ICS_QTY then (-1, comm)
  else
    let ics := ics - 1
    match member_of comm.type with
    | member.mov => (0, { comm with command := write_dst_ics comm.command off_type offset ics })
    | member.logic => (0, { comm with command := write_dst_ics comm.command off_type offset ics })
    | member.math =>
      (0, { comm with command := write_dst_ics comm.command off_math_type offset ics })
    | member.logic_not =>
      (0, { comm with command := write_dst_ics comm.command off_type offset ics })
    | member.shift => (0, { comm with command := write_dst_ics comm.command off_type offset ics })
    | member.ics | member.servo_single | member.servo_const | member.servo_series
    | member.servo_speed => (-2, comm)
    | member.unknown => (-1, comm)

/-- The store of one `case` of `rcb4_command_set_dst_com`. -/
def write_dst_com (mem : Payload) (ty : Nat) : Payload :=
  put8 mem ty (dst_type_byte (get8 mem ty) COMM_DST_COM)

/-- The function `rcb4_command_set_dst_com`. -/
def rcb4_command_set_dst_com (comm : rcb4_comm) : Int × rcb4_comm :=
  match member_of comm.type with
  | member.mov => (0, { comm with command := write_dst_com comm.command off_type })
  | member.math => (0, { comm with command := write_dst_com comm.command off_math_type })
  | member.logic | member.ics | member.servo_single | member.servo_const
  | member.servo_series | member.servo_speed | member.logic_not | member.shift => (-2, comm)
  | member.unknown => (-1, comm)

/-- The stores of one `case` of `rcb4_command_set_dst_rom`. -/
def write_dst_rom (mem : Payload) (ty addr : Nat) : Payload :=
  let mem := put8 mem ty (dst_type_byte (get8 mem ty) COMM_DST_ROM)
  let mem := put8 mem (ty + off_dst) addr
  let mem := put8 mem (ty + off_dst + 1) (addr / 256)
  put8 mem (ty + off_dst + 2) (addr / 65536)

/-- The function `rcb4_command_set_dst_rom`. -/
def rcb4_command_set_dst_rom (comm : rcb4_comm) (addr : Nat) : Int × rcb4_comm :=
  if addr > RCB4_MAX_ROM_ADDRESS then (-1, comm)
  else
    match member_of comm.type with
    | member.mov => (0, { comm with command := write_dst_rom comm.command off_type addr })
    | member.logic => (0, { comm with command := write_dst_rom comm.command off_type addr })
    | member.math => (0, { comm with command := write_dst_rom comm.command off_math_type addr })
    | member.logic_not => (0, { comm with command := write_dst_rom comm.command off_type addr })
    | member.shift => (0, { comm with command := write_dst_rom comm.command off_type addr })
    | member.ics | member.servo_single | member.servo_const | member.servo_series
    | member.servo_speed => (-2, comm)
    | member.unknown => (-1, comm)

/-- The store of one `case` of `rcb4_command_set_dst_do_not_save`:
`type |= COMM_NUPDATE`. -/
def write_do_not_save (mem : Payload) (ty : Nat) : Payload :=
  put8 mem ty (get8 mem ty ||| COMM_NUPDATE)

/-- The function `rcb4_command_set_dst_do_not_save`. -/
def rcb4_command_set_dst_do_not_save (comm : rcb4_comm) : Int × rcb4_comm :=
  match member_of comm.type with
  | member.logic => (0, { comm with command := write_do_not_save comm.command off_type })
  | member.math => (0, { comm with command := write_do_not_save comm.command off_math_type })
  | member.logic_not => (0, { comm with command := write_do_not_save comm.command off_type })
  | member.shift => (0, { comm with command := write_do_not_save comm.command off_type })
  | member.mov | member.ics | member.servo_single | member.servo_const
  | member.servo_series | member.servo_speed => (-2, comm)
  | member.unknown => (-1, comm)

/-! ## `rcb4_connection.c` and `rcb4_control.c`: the frames written -/

/-- The buffer `command` that `rcb4_send_command` hands to `write`, with the
length `comm->size` it passes: the first `size - 1` bytes of the object
followed by the checksum.  The result is `none` where the C code has no defined
behaviour: `size = 0` (the `memcpy` length `size - 1` is negative) and
`size > 128` (the 128-byte buffer overflows). -/
def rcb4_send_command_frame (comm : rcb4_comm) : Option (List Nat) :=
  if comm.size = 0 ∨ comm.size > 128 then none
  else some ((object_bytes comm).take (comm.size - 1) ++ [rcb4_command_calculate_checksum comm])

/-- The array `command` that `rcb4_command_ping` writes, all `sizeof(command)`
bytes of it. -/
def rcb4_command_ping_frame : List Nat := [0x03, 0xFE, 0x01]

/-- The array `msg` that `rcb4_ret` writes, all `sizeof(msg)` bytes of it. -/
def rcb4_ret_frame : List Nat := [0x03, 0x0D, 0x10]

/-! ## Messages and predicates used in the statements -/

/-- The message that `rcb4_command_create(type)` returns: the object left by
`rcb4_command_recreate` on zeroed memory. -/
def created (type : Nat) : rcb4_comm :=
  (rcb4_command_recreate { size := 0, type := 0, command := zero_payload } type).2

/-- The message of `samples/test_math_logic.c`: a MOV with the RAM source
`0x0000` of size 2 and the COM destination. -/
def mov_ram_to_com : rcb4_comm :=
  (rcb4_command_set_dst_com (rcb4_command_set_src_ram (created RCB4_COMM_MOV) 0x0000 2).2).2

/-- The wire format of a frame: `[size][opcode][payload][checksum]`, where
`size` counts the whole frame and the checksum is the low byte of the sum of
all the bytes before it. -/
def wire_format (frame : List Nat) (s opcode : Nat) (payload : List Nat) : Prop :=
  frame.length = s ∧ payload.length = s - 3 ∧
    frame = s :: opcode :: payload ++ [(s + opcode + payload.sum) % 256]

/-- The nine opcodes with a `{type, dst, src}` payload: MOV, the logic family
and the arithmetic family. -/
def has_src (t : Nat) : Prop :=
  t = RCB4_COMM_MOV ∨ is_logic t ∨ is_math t

instance (t : Nat) : Decidable (has_src t) := by
  unfold has_src; infer_instance

/-- The sixteen values of `enum e_rcb4_command_types`. -/
def is_command_type (t : Nat) : Prop :=
  t = RCB4_COMM_MOV ∨ is_logic t ∨ t = RCB4_COMM_NOT ∨ t = RCB4_COMM_SHIFT ∨ is_math t ∨
    t = RCB4_COMM_ICS ∨ t = RCB4_COMM_SINGLE ∨ t = RCB4_COMM_CONST ∨
    t = RCB4_COMM_SERIES ∨ t = RCB4_COMM_SPEED

instance (t : Nat) : Decidable (is_command_type t) := by
  unfold is_command_type; infer_instance

/-- The destination kind of a message: bits 4 and 5 of its type byte. -/
def dst_kind (comm : rcb4_comm) : Nat :=
  get8 comm.command off_type &&& COMM_DST_MASK

/-- An AND with the RAM source `0x0000` of size 2 and the RAM destination
`0x0000`. -/
def and_ram_to_ram : rcb4_comm :=
  (rcb4_command_set_dst_ram (rcb4_command_set_src_ram (created RCB4_COMM_AND) 0x0000 2).2 0x0000).2

/-- A MOV with the RAM source `0x0000` of size 2 and the ROM destination
`0x000000`. -/
def mov_ram_to_rom : rcb4_comm :=
  (rcb4_command_set_dst_rom (rcb4_command_set_src_ram (created RCB4_COMM_MOV) 0x0000 2).2
    0x000000).2

/-! ### The opcodes on which each setter is legal

For each setter, the opcodes whose `case` label (or `if`) leads to the stores
and to `return 0`. -/

/-- The opcodes accepted by `rcb4_command_set_src_ram`. -/
def legal_src_ram (t : Nat) : Prop :=
  has_src t ∨ t = RCB4_COMM_ICS

instance (t : Nat) : Decidable (legal_src_ram t) := by
  unfold legal_src_ram; infer_instance

/-- The opcodes accepted by `rcb4_command_set_dst_ram`. -/
def legal_dst_ram (t : Nat) : Prop :=
  has_src t ∨ t = RCB4_COMM_NOT ∨ t = RCB4_COMM_SHIFT ∨ t = RCB4_COMM_ICS

instance (t : Nat) : Decidable (legal_dst_ram t) := by
  unfold legal_dst_ram; infer_instance

/-- The opcodes accepted by `rcb4_command_set_dst_ics` and
`rcb4_command_set_dst_rom`. -/
def legal_dst (t : Nat) : Prop :=
  has_src t ∨ t = RCB4_COMM_NOT ∨ t = RCB4_COMM_SHIFT

instance (t : Nat) : Decidable (legal_dst t) := by
  unfold legal_dst; infer_instance

/-- The opcodes accepted by `rcb4_command_set_dst_com`. -/
def legal_dst_com (t : Nat) : Prop :=
  t = RCB4_COMM_MOV ∨ is_math t

instance (t : Nat) : Decidable (legal_dst_com t) := by
  unfold legal_dst_com; infer_instance

/-- The opcodes accepted by `rcb4_command_set_dst_do_not_save`. -/
def legal_do_not_save (t : Nat) : Prop :=
  is_logic t ∨ is_math t ∨ t = RCB4_COMM_NOT ∨ t = RCB4_COMM_SHIFT

instance (t : Nat) : Decidable (legal_do_not_save t) := by
  unfold legal_do_not_save; infer_instance

/-- The opcodes accepted by `rcb4_command_set_data_size`. -/
def legal_data_size (t : Nat) : Prop :=
  has_src t ∨ t = RCB4_COMM_NOT ∨ t = RCB4_COMM_SHIFT ∨ t = RCB4_COMM_ICS

instance (t : Nat) : Decidable (legal_data_size t) := by
  unfold legal_data_size; infer_instance

/-- The opcodes accepted by `rcb4_command_set_servo`. -/
def legal_servo (t : Nat) : Prop :=
  t = RCB4_COMM_SINGLE ∨ t = RCB4_COMM_CONST ∨ t = RCB4_COMM_SERIES

instance (t : Nat) : Decidable (legal_servo t) := by
  unfold legal_servo; infer_instance

/-! ### Sequences of `rcb4_command_set_servo` calls -/

/-- Bit `j` of the 5-byte presence bitset `ics_set` of a multi-servo message:
bit `j % 8` of byte `j / 8`.  Bit `j` stands for the servo id `j + 1`. -/
def servo_bit (mem : Payload) (j : Nat) : Bool :=
  (get8 mem (j / 8)).testBit (j % 8)

/-- The number of bits set below bit `j` of the presence bitset. -/
def slot_rank (mem : Payload) (j : Nat) : Nat :=
  (List.range j).countP (servo_bit mem)

/-- The calls `rcb4_command_set_servo(comm, ics, speed, position)` of a list,
one after the other on the same message; `none` as soon as one of them returns
an error. -/
def run_servo_calls (comm : rcb4_comm) : List (Nat × Nat × Nat) → Option rcb4_comm
  | [] => some comm
  | c :: rest =>
    if (rcb4_command_set_servo comm c.1 c.2.1 c.2.2).1 ≠ 0 then none
    else run_servo_calls (rcb4_command_set_servo comm c.1 c.2.1 c.2.2).2 rest

/-- The servo ids passed by a list of calls, each once, in ascending order. -/
def servo_ids (calls : List (Nat × Nat × Nat)) : List Nat :=
  (List.range' 1 36).filter (fun id => decide (id ∈ calls.map (fun c => c.1)))

/-- The most recent call of a list for the servo `id`. -/
def last_call (calls : List (Nat × Nat × Nat)) (id : Nat) : Option (Nat × Nat × Nat) :=
  calls.reverse.find? (fun c => decide (c.1 = id))

/-- The presence bitset and the element list of a multi-servo payload agree
with a list of calls: bit `j` is set exactly when the id `j + 1` was passed, and
the element at the rank of a passed id holds the bytes `data c` of the most
recent call `c` for that id.  The list starts at offset `base` and its
elements are `width` bytes long. -/
def servo_entries (base width : Nat) (data : Nat × Nat × Nat → Nat → Nat) (mem : Payload)
    (calls : List (Nat × Nat × Nat)) : Prop :=
  (∀ j, j < 40 → (servo_bit mem j = true ↔ ∃ c ∈ calls, c.1 = j + 1)) ∧
    (∀ j c, j < 36 → last_call calls (j + 1) = some c → ∀ b, b < width →
      get8 mem (base + width * slot_rank mem j + b) = data c b)

/-- The bytes of an element of `servo_const.pos` written by a call: the
position, low byte first. -/
def const_entry (c : Nat × Nat × Nat) (b : Nat) : Nat :=
  if b = 0 then c.2.2 % 256 else c.2.2 / 256 % 256

/-- The bytes of an element of `servo_series.speedpos` written by a call: the
byte `256 - speed`, then the position, low byte first. -/
def series_entry (c : Nat × Nat × Nat) (b : Nat) : Nat :=
  if b = 0 then (256 - c.2.1) % 256 else if b = 1 then c.2.2 % 256 else c.2.2 / 256 % 256

/-- The arguments of a call that `rcb4_command_set_servo` accepts on every
servo opcode: an id from 1 to 36, a speed from 1 to 255 and a 16-bit
position. -/
def servo_call_ok (c : Nat × Nat × Nat) : Prop :=
  1 ≤ c.1 ∧ c.1 ≤ 36 ∧ 1 ≤ c.2.1 ∧ c.2.1 ≤ 255 ∧ c.2.2 < 65536

instance (c : Nat × Nat × Nat) : Decidable (servo_call_ok c) := by
  unfold servo_call_ok; infer_instance

/-- The calls of the example: ids 10, 2 and 1 in that order, then id 2 again
with a new position. -/
def example_calls : List (Nat × Nat × Nat) :=
  [(10, 1, 0x1111), (2, 1, 0x2222), (1, 1, 0x3333), (2, 1, 0x4444)]

/-! ### The effect of the source and destination setters -/

/-- The effect of a source setter on the type byte and the destination
operand: the type byte is the old one masked with `0xB0`, or-ed with the new
source kind, so that the source kind is `kind` while the destination kind, the
do-not-save bit and the three bytes of the destination operand are as before. -/
def src_kind_replaced (old new : rcb4_comm) (kind : Nat) : Prop :=
  get8 new.command off_type = (get8 old.command off_type &&& 0xB0) ||| kind ∧
    get8 new.command off_type &&& COMM_SRC_MASK = kind ∧
    get8 new.command off_type &&& COMM_DST_MASK = get8 old.command off_type &&& COMM_DST_MASK ∧
    get8 new.command off_type &&& COMM_NUPDATE = get8 old.command off_type &&& COMM_NUPDATE ∧
    get8 new.command off_dst = get8 old.command off_dst ∧
    get8 new.command (off_dst + 1) = get8 old.command (off_dst + 1) ∧
    get8 new.command (off_dst + 2) = get8 old.command (off_dst + 2)

/-- The effect of a destination setter on the type byte and the source
operand: the destination kind is `kind`, while the source kind, every byte of
the source operand (offset `off_src` and above) and the size are as before. -/
def dst_kind_replaced (old new : rcb4_comm) (kind : Nat) : Prop :=
  get8 new.command off_type &&& COMM_DST_MASK = kind ∧
    get8 new.command off_type &&& COMM_SRC_MASK = get8 old.command off_type &&& COMM_SRC_MASK ∧
    (∀ o, off_src ≤ o → get8 new.command o = get8 old.command o) ∧
    new.size = old.size

/-- A MOV with the ROM destination `0x012345` and the two-byte literal source
`AA BB`. -/
def mov_to_rom_lit : rcb4_comm :=
  (rcb4_command_set_src_literal
    (rcb4_command_set_dst_rom (created RCB4_COMM_MOV) 0x012345).2 [0xAA, 0xBB] 2).2

/-! ### Operand bytes -/

/-- The first `n` bytes of the source operand of a `{type, dst, src}`
payload. -/
def src_bytes (comm : rcb4_comm) (n : Nat) : List Nat :=
  (List.range n).map (fun k => get8 comm.command (off_src + k))

/-- The first `n` bytes of the destination operand of a `{type, dst, ...}`
payload. -/
def dst_bytes (comm : rcb4_comm) (n : Nat) : List Nat :=
  (List.range n).map (fun k => get8 comm.command (off_dst + k))

/-- The number that a list of bytes spells, least significant byte first. -/
def le_value : List Nat → Nat
  | [] => 0
  | b :: rest => b + 256 * le_value rest

/-! ### Counting the servos of a message -/

/-- The number of distinct servo ids passed by a list of calls. -/
def distinct_ids (calls : List (Nat × Nat × Nat)) : Nat :=
  ((calls.map (fun c => c.1)).dedup).length

/-- The size that `rcb4_command_set_servo` computes for a message with `n`
servos set: `9 + 2 * n` on CONST, `8 + 3 * n` on SERIES. -/
def servo_size (type n : Nat) : Nat :=
  if type = RCB4_COMM_CONST then 9 + 2 * n else 8 + 3 * n

/-- The CONST message after all the calls of the example. -/
def const_example : rcb4_comm :=
  (run_servo_calls (created RCB4_COMM_CONST) example_calls).getD (created RCB4_COMM_CONST)

/-- What the serial port does during one exchange, as the library sees it
through its three system calls: `written` is the value `write` returns, `ready`
the value `select` returns (-1 for an error, 0 for a timeout), and `incoming`
the bytes waiting on the line when `read` is called, `none` when `read`
fails. -/
structure serial_port where
  written : Int
  ready : Int
  incoming : Option (List Nat)

/-- The call `read(fd, lbuf, count)`: the value returned, -1 for an error and
otherwise the number of bytes stored, at most `count`, and the bytes stored at
the start of `lbuf`. -/
def port_read (port : serial_port) (count : Nat) : Int × List Nat :=
  match port.incoming with
  | none => (-1, [])
  | some bytes => (((bytes.take count).length : Nat), bytes.take count)

/-- The function `rcb4_send_command`: the value returned and the bytes copied
to `reply` (when the caller passes a buffer).  The bytes handed to `write` are
`rcb4_send_command_frame comm`.  The bytes of `lbuf` are inspected only after
`err` has been found equal to the count asked for, so a byte that `read` did not
store is never looked at.  The result is `none` where the C code has no defined
behaviour: a size of 0 or above 128, or a read of more than the 256 bytes of
`lbuf`. -/
def rcb4_send_command (port : serial_port) (comm : rcb4_comm) : Option (Int × List Nat) :=
  if comm.size = 0 ∨ comm.size > 128 then none
  else if port.written ≠ (comm.size : Int) then some (-1, [])
  else if port.ready = -1 then some (-1, [])
  else if port.ready = 0 then some (-1, [])
  else
    let ret_size := rcb4_command_get_response_size comm % 256
    if ret_size = 0 then
      let r := port_read port 4
      if r.1 ≠ 4 ∨ r.2.getD 0 0 ≠ 0x04 ∨ r.2.getD 1 0 ≠ comm.type ∨ r.2.getD 2 0 ≠ RCB4_ACK ∨
          r.2.getD 3 0 ≠ (0x04 + comm.type + RCB4_ACK) % 256 then some (-1, [])
      else some (0, [])
    else if ret_size + 3 > 256 then none
    else
      let r := port_read port (ret_size + 3)
      if r.1 ≠ ((ret_size + 3 : Nat) : Int) ∨ r.2.getD 0 0 ≠ ret_size + 3 ∨
          r.2.getD 1 0 ≠ comm.type then some (-2, [])
      else some ((ret_size : Int), (r.2.drop 2).take ret_size)

/-- The private function `rcb4_send_command_private` of `rcb4_control.c`:
`command` is written with the length `length`, and only the four bytes of an
acknowledgement are expected back. -/
def rcb4_send_command_private (port : serial_port) (command : List Nat) (length : Nat) : Int :=
  if port.written ≠ (length : Int) then -1
  else if port.ready = -1 then -1
  else if port.ready = 0 then -1
  else
    let r := port_read port 4
    if r.1 ≠ 4 ∨ r.2.getD 0 0 ≠ 0x04 ∨ r.2.getD 1 0 ≠ command.getD 1 0 ∨
        r.2.getD 2 0 ≠ RCB4_ACK ∨
        r.2.getD 3 0 ≠ (0x04 + command.getD 1 0 + RCB4_ACK) % 256 then -1
    else 0

/-- The acknowledgement of a command: `04, opcode, ACK, checksum`. -/
def ack_reply (opcode : Nat) : List Nat :=
  [0x04, opcode, RCB4_ACK, (0x04 + opcode + RCB4_ACK) % 256]

/-- The refusal of a command: `04, opcode, NCK, checksum`. -/
def nack_reply (opcode : Nat) : List Nat :=
  [0x04, opcode, RCB4_NCK, (0x04 + opcode + RCB4_NCK) % 256]

/-- The message of `samples/hello_world.c`: a SINGLE message that moves the
servo 2 to the position `0x1900` with the speed `0xD0`. -/
def single_servo_message : rcb4_comm :=
  (rcb4_command_set_servo (created RCB4_COMM_SINGLE) 2 0xD0 0x1900).2

/-- An exchange in which the 7 bytes of a SINGLE message are written, the line
becomes ready and the board acknowledges the command. -/
def port_with_ack : serial_port :=
  { written := 7, ready := 1, incoming := some (ack_reply RCB4_COMM_SINGLE) }

/-- The same exchange with a refusal from the board. -/
def port_with_nack : serial_port :=
  { written := 7, ready := 1, incoming := some (nack_reply RCB4_COMM_SINGLE) }

/-! ### Bytes read as signed numbers -/

/-- A byte read as a signed 8-bit number in two's complement. -/
def signed8 (b : Nat) : Int :=
  if b < 128 then (b : Int) else (b : Int) - 256

/-- All of a message but the payload byte at offset `off` is as before: the
size, the opcode and every other byte of the payload. -/
def only_byte_changed (old new : rcb4_comm) (off : Nat) : Prop :=
  new.size = old.size ∧ new.type = old.type ∧
    ∀ o, o ≠ off → get8 new.command o = get8 old.command o

/-! ## `rcb4_connection.c`: the ping -/

/-- The function `rcb4_command_ping`: the three bytes of
`rcb4_command_ping_frame` are written, then four bytes are read.  A short
write, a failed `select`, a reply of the wrong length or with the wrong first
two bytes give -1; a silent line (`select` returns 0) gives -10; the
acknowledgement with its checksum gives 0, the refusal with its checksum gives
1, and anything else -1. -/
def rcb4_command_ping (port : serial_port) : Int :=
  if port.written ≠ 3 then -1
  else if port.ready = -1 then -1
  else if port.ready = 0 then -10
  else
    let r := port_read port 4
    if r.1 ≠ 4 ∨ r.2.getD 0 0 ≠ 0x04 ∨ r.2.getD 1 0 ≠ rcb4_command_ping_frame.getD 1 0 then -1
    else if r.2.getD 2 0 = RCB4_ACK ∧
        r.2.getD 3 0 = (0x04 + rcb4_command_ping_frame.getD 1 0 + RCB4_ACK) % 256 then 0
    else if r.2.getD 2 0 = RCB4_NCK ∧
        r.2.getD 3 0 = (0x04 + rcb4_command_ping_frame.getD 1 0 + RCB4_NCK) % 256 then 1
    else -1

/-! ## `rcb4_control.c`: jump and call -/

/-- The array `msg` of `rcb4_jmp` as `write` receives it, all `sizeof(msg)`
bytes of it.  The array is declared with six initialisers, so it has six
elements: the size byte 7, the opcode, the three address bytes and the
conditions.  The statement `msg[6] = ...` that follows stores the checksum one
byte past the end of the array, and that byte is not among the six written. -/
def rcb4_jmp_frame (addr conditions : Nat) : List Nat :=
  [0x07, 0x0B, 0xFF &&& addr, 0xFF &&& (addr >>> 8), 0xFF &&& (addr >>> 16),
    0x0F &&& conditions]

/-- The array `msg` of `rcb4_call` as `write` receives it, all `sizeof(msg)`
bytes of it: seven elements, the last one the checksum. -/
def rcb4_call_frame (addr conditions : Nat) : List Nat :=
  [0x07, 0x0C, 0xFF &&& addr, 0xFF &&& (addr >>> 8), 0xFF &&& (addr >>> 16),
    0x0F &&& conditions,
    0xFF &&& (0x07 + 0x0C + (0xFF &&& addr) + (0xFF &&& (addr >>> 8)) +
      (0xFF &&& (addr >>> 16)) + (0x0F &&& conditions))]

/-- The function `rcb4_jmp`. -/
def rcb4_jmp (port : serial_port) (addr conditions : Nat) : Int :=
  rcb4_send_command_private port (rcb4_jmp_frame addr conditions)
    (rcb4_jmp_frame addr conditions).length

/-- The function `rcb4_call`. -/
def rcb4_call (port : serial_port) (addr conditions : Nat) : Int :=
  rcb4_send_command_private port (rcb4_call_frame addr conditions)
    (rcb4_call_frame addr conditions).length

/-! ## Sequences of setter calls -/

/-- One call of a function of the library that changes a message, with its
arguments: `rcb4_command_recreate` and the sixteen setters. -/
inductive setter_call where
  | recreate (type : Nat)
  | set_src_ram (addr size : Nat)
  | set_src_ics (offset ics size : Nat)
  | set_src_literal (literal : List Nat) (length : Nat)
  | set_src_rom (addr size : Nat)
  | set_dst_ram (addr : Nat)
  | set_dst_ics (offset ics : Nat)
  | set_dst_com
  | set_dst_rom (addr : Nat)
  | set_dst_do_not_save
  | set_shift_left (shifts : Nat)
  | set_shift_right (shifts : Nat)
  | set_data_size (size : Nat)
  | set_ics (ics : Nat)
  | set_speed (speed : Nat)
  | set_servo (ics speed position : Nat)
  | set_stretch (stretch : Nat)
deriving DecidableEq

/-- The call `c` on the message `comm`: the value returned and the message
afterwards. -/
def do_call (comm : rcb4_comm) : setter_call → Int × rcb4_comm
  | setter_call.recreate type => rcb4_command_recreate comm type
  | setter_call.set_src_ram addr size => rcb4_command_set_src_ram comm addr size
  | setter_call.set_src_ics offset ics size => rcb4_command_set_src_ics comm offset ics size
  | setter_call.set_src_literal literal length =>
    rcb4_command_set_src_literal comm literal length
  | setter_call.set_src_rom addr size => rcb4_command_set_src_rom comm addr size
  | setter_call.set_dst_ram addr => rcb4_command_set_dst_ram comm addr
  | setter_call.set_dst_ics offset ics => rcb4_command_set_dst_ics comm offset ics
  | setter_call.set_dst_com => rcb4_command_set_dst_com comm
  | setter_call.set_dst_rom addr => rcb4_command_set_dst_rom comm addr
  | setter_call.set_dst_do_not_save => rcb4_command_set_dst_do_not_save comm
  | setter_call.set_shift_left shifts => rcb4_command_set_shift_left comm shifts
  | setter_call.set_shift_right shifts => rcb4_command_set_shift_right comm shifts
  | setter_call.set_data_size size => rcb4_command_set_data_size comm size
  | setter_call.set_ics ics => rcb4_command_set_ics comm ics
  | setter_call.set_speed speed => rcb4_command_set_speed comm speed
  | setter_call.set_servo ics speed position => rcb4_command_set_servo comm ics speed position
  | setter_call.set_stretch stretch => rcb4_command_set_stretch comm stretch

/-- The value that the call `c` returns on the message `comm`. -/
def call_code (comm : rcb4_comm) (c : setter_call) : Int :=
  (do_call comm c).1

/-- The message after the call `c`, whatever the call returned. -/
def apply_call (comm : rcb4_comm) (c : setter_call) : rcb4_comm :=
  (do_call comm c).2

/-- The message after the calls of a list, one after the other; the caller is
free to ignore a returned error and go on. -/
def run_calls (comm : rcb4_comm) : List setter_call → rcb4_comm
  | [] => comm
  | c :: rest => run_calls (apply_call comm c) rest

/-- The four source setters. -/
def is_src_call : setter_call → Prop
  | setter_call.set_src_ram _ _ => True
  | setter_call.set_src_ics _ _ _ => True
  | setter_call.set_src_literal _ _ => True
  | setter_call.set_src_rom _ _ => True
  | _ => False

/-- The four destination setters. -/
def is_dst_call : setter_call → Prop
  | setter_call.set_dst_ram _ => True
  | setter_call.set_dst_ics _ _ => True
  | setter_call.set_dst_com => True
  | setter_call.set_dst_rom _ => True
  | _ => False

/-- The do-not-save flag of a message: bit 7 (`COMM_NUPDATE`) of its type
byte. -/
def nupdate_flag (comm : rcb4_comm) : Bool :=
  (get8 comm.command off_type).testBit 7

/-- The stores of a source setter on a `{type, dst, src}` payload. -/
def src_write (mem : Payload) : setter_call → Payload
  | setter_call.set_src_ram addr size => write_src_ram mem off_type addr size
  | setter_call.set_src_ics offset ics size => write_src_ics mem off_type offset (ics - 1) size
  | setter_call.set_src_literal literal length => write_src_lit mem off_type literal length
  | setter_call.set_src_rom addr size => write_src_rom mem off_type addr size
  | _ => mem

/-- The total size that a source setter stores on a `{type, dst, src}`
message. -/
def src_total_size (size : Nat) : setter_call → Nat
  | setter_call.set_src_ram _ _ => 10
  | setter_call.set_src_ics _ _ _ => 10
  | setter_call.set_src_literal _ length => (length + 7) % 256
  | setter_call.set_src_rom _ _ => 11
  | _ => size

/-- The stores of a destination setter on a `{type, dst, ...}` payload. -/
def dst_write (mem : Payload) : setter_call → Payload
  | setter_call.set_dst_ram addr => write_dst_ram mem off_type addr
  | setter_call.set_dst_ics offset ics => write_dst_ics mem off_type offset (ics - 1)
  | setter_call.set_dst_com => write_dst_com mem off_type
  | setter_call.set_dst_rom addr => write_dst_rom mem off_type addr
  | _ => mem

/-- A MOV with the RAM source `0x0022` of size 4 and the COM destination: the
read of four bytes of RAM. -/
def mov_ram4_to_com : rcb4_comm :=
  (rcb4_command_set_dst_com (rcb4_command_set_src_ram (created RCB4_COMM_MOV) 0x0022 4).2).2

/-- A data reply with the payload `payload`: the size, the opcode, the payload
and the checksum. -/
def data_reply (opcode : Nat) (payload : List Nat) : List Nat :=
  (payload.length + 3) :: opcode :: payload ++
    [(payload.length + 3 + opcode + payload.sum) % 256]

/-- An exchange in which the 10 bytes of a MOV are written, the line becomes
ready and the board sends back the four bytes `11 22 33 44`. -/
def port_with_data : serial_port :=
  { written := 10, ready := 1, incoming := some (data_reply RCB4_COMM_MOV [0x11, 0x22, 0x33, 0x44]) }

/-- The same exchange, in which the last byte of the reply is `0x00` and not
the checksum `0xB1`. -/
def port_with_bad_sum : serial_port :=
  { written := 10, ready := 1, incoming := some [0x07, 0x00, 0x11, 0x22, 0x33, 0x44, 0x00] }

/-- An exchange in which the three bytes of the ping are written, the line
becomes ready and `bytes` are waiting. -/
def port_after_ping (bytes : List Nat) : serial_port :=
  { written := 3, ready := 1, incoming := some bytes }

/-- An exchange in which the three bytes of the ping are written and nothing
comes back before the timeout. -/
def port_silent : serial_port :=
  { written := 3, ready := 0, incoming := none }

/-- An exchange in which the 10 bytes of a MOV are written, the line becomes
ready and the board sends back 128 bytes `55`, in a frame of 131 bytes. -/
def port_with_long_reply : serial_port :=
  { written := 10, ready := 1,
    incoming := some (data_reply RCB4_COMM_MOV (List.replicate 128 0x55)) }

/-- A MOV that reads 128 bytes of the servo 1 to the COM port. -/
def mov_ics128_to_com : rcb4_comm :=
  run_calls (created RCB4_COMM_MOV)
    [setter_call.set_src_ics 0 1 128, setter_call.set_dst_com]

/-- An ADD whose RAM source is declared 4 bytes long. -/
def add_ram4 : rcb4_comm :=
  run_calls (created RCB4_COMM_ADD) [setter_call.set_src_ram 0x0000 4]

/-! # Theorems -/

set_option maxRecDepth 4096

/-! ## The byte memory -/

theorem get8_put8 (mem : Payload) (off v o : Nat) :
    get8 (put8 mem off v) o = if o = off ∧ off < 125 then v % 256 else get8 mem o := by
  obtain ⟨l, hl⟩ := mem
  simp only [get8, put8, List.getD_eq_getElem?_getD, List.getElem?_set]
  by_cases h : off = o
  · subst h
    by_cases h2 : off < 125
    · simp [h2, hl]
    · have : l.length ≤ off := by omega
      simp [h2, hl, List.getElem?_eq_none this]
  · have h' : ¬ o = off := fun e => h e.symm
    simp [h, h']

theorem get8_zero_payload (o : Nat) : get8 zero_payload o = 0 := by
  simp only [get8, zero_payload, List.getD_eq_getElem?_getD, List.getElem?_replicate]
  split <;> rfl

theorem get8_out_of_range (mem : Payload) (o : Nat) (h : 125 ≤ o) : get8 mem o = 0 := by
  obtain ⟨l, hl⟩ := mem
  have : l.length ≤ o := by omega
  simp [get8, List.getD_eq_getElem?_getD, List.getElem?_eq_none this]

theorem payload_ext (a b : Payload) (h : ∀ o, o < 125 → get8 a o = get8 b o) : a = b := by
  obtain ⟨la, hla⟩ := a
  obtain ⟨lb, hlb⟩ := b
  apply Subtype.ext
  apply List.ext_getElem (by simp [hla, hlb])
  intro n h1 h2
  have h1' : n < la.length := h1
  have := h n (by omega)
  simp only [get8, List.getD_eq_getElem?_getD] at this
  simpa [List.getElem?_eq_getElem h1, List.getElem?_eq_getElem h2] using this

/-! ## The checksum and the frames -/

theorem sum_range_getD (l : List Nat) (n : Nat) :
    ((List.range n).map (fun i => l.getD i 0)).sum = (l.take n).sum := by
  induction n with
  | zero => simp
  | succ n ih =>
    rw [List.range_succ, List.map_append, List.sum_append, ih, List.take_succ, List.sum_append]
    cases h : l[n]? <;> simp [List.getD_eq_getElem?_getD, h]

theorem checksum_loop_mod (comm : rcb4_comm) (n i s : Nat) :
    checksum_loop comm n i s % 256 =
      (s + ((List.range n).map (fun j => byte_at comm (i + j))).sum) % 256 := by
  induction n generalizing i s with
  | zero => simp [checksum_loop]
  | succ n ih =>
    rw [checksum_loop, ih, List.range_succ_eq_map]
    simp only [List.map_cons, List.map_map, List.sum_cons, Nat.add_zero]
    have : (fun j => byte_at comm (i + 1 + j)) = ((fun j => byte_at comm (i + j)) ∘ Nat.succ) := by
      funext j; simp [Nat.succ_eq_add_one]; congr 1; omega
    rw [this]
    omega

theorem checksum_loop_exact (comm : rcb4_comm) (hb : ∀ j, byte_at comm j ≤ 255) (n i s : Nat)
    (h : s + 255 * n < 65536) :
    checksum_loop comm n i s = s + ((List.range n).map (fun j => byte_at comm (i + j))).sum := by
  induction n generalizing i s with
  | zero => simp [checksum_loop]
  | succ n ih =>
    have hbi := hb i
    rw [checksum_loop, ih _ _ (by omega), List.range_succ_eq_map]
    simp only [List.map_cons, List.map_map, List.sum_cons, Nat.add_zero]
    have : (fun j => byte_at comm (i + 1 + j)) = ((fun j => byte_at comm (i + j)) ∘ Nat.succ) := by
      funext j; simp [Nat.succ_eq_add_one]; congr 1; omega
    rw [this]
    omega

theorem checksum_eq_sum_take (comm : rcb4_comm) :
    rcb4_command_calculate_checksum comm =
      ((object_bytes comm).take (comm.size - 1)).sum % 256 := by
  unfold rcb4_command_calculate_checksum
  rw [checksum_loop_mod]
  simp only [Nat.zero_add, byte_at]
  rw [sum_range_getD]

theorem byte_at_le (comm : rcb4_comm) (h : bytes_ok comm) (j : Nat) : byte_at comm j ≤ 255 := by
  obtain ⟨h1, h2, h3⟩ := h
  unfold byte_at object_bytes
  rw [List.getD_eq_getElem?_getD]
  cases hj : (comm.size :: comm.type :: comm.command.1)[j]? with
  | none => simp
  | some b =>
    have hm : b ∈ comm.size :: comm.type :: comm.command.1 := List.getElem?_mem hj
    simp only [List.mem_cons] at hm
    simp only [Option.getD_some]
    rcases hm with rfl | rfl | hm
    · omega
    · omega
    · have := h3 b hm; omega

theorem byte_sum_le (comm : rcb4_comm) (hb : ∀ j, byte_at comm j ≤ 255) (m : Nat) :
    ((List.range m).map (fun j => byte_at comm (0 + j))).sum ≤ 255 * m := by
  induction m with
  | zero => simp
  | succ m ih =>
    rw [List.range_succ, List.map_append, List.sum_append]
    have := hb (0 + m)
    simp only [List.map_cons, List.map_nil, List.sum_cons, List.sum_nil]
    omega

/-- C2: `rcb4_command_calculate_checksum` returns the sum modulo 256 of the first
`size - 1` bytes of the object; on an object of `uint8_t` bytes the 16-bit
accumulator holds the exact sum after every iteration, which stays below 65536;
and for `size` 0 or 1 the result is 0. -/
theorem calculate_checksum_is_byte_sum (comm : rcb4_comm) :
    rcb4_command_calculate_checksum comm =
        ((object_bytes comm).take (comm.size - 1)).sum % 256 ∧
      (bytes_ok comm → ∀ n, n ≤ comm.size - 1 →
        checksum_loop comm n 0 0 = ((object_bytes comm).take n).sum ∧
          ((object_bytes comm).take n).sum < 65536) ∧
      (comm.size ≤ 1 → rcb4_command_calculate_checksum comm = 0) := by
  refine ⟨checksum_eq_sum_take comm, ?_, ?_⟩
  · intro hok n hn
    have hs : comm.size < 256 := hok.1
    have hb := byte_at_le comm hok
    have hle := byte_sum_le comm hb n
    have hex := checksum_loop_exact comm hb n 0 0 (by omega)
    rw [Nat.zero_add] at hex
    rw [hex] 
    simp only [Nat.zero_add, byte_at] at hle ⊢
    rw [sum_range_getD] at hle ⊢
    exact ⟨rfl, by omega⟩
  · intro h1
    have : comm.size - 1 = 0 := by omega
    simp [rcb4_command_calculate_checksum, this, checksum_loop]

theorem calculate_checksum_is_byte_sum_witness :
    bytes_ok mov_ram_to_com ∧ (9 : Nat) ≤ mov_ram_to_com.size - 1 ∧
      checksum_loop mov_ram_to_com 9 0 0 = ((object_bytes mov_ram_to_com).take 9).sum ∧
      ((object_bytes mov_ram_to_com).take 9).sum < 65536 :=
  have hok : bytes_ok mov_ram_to_com := by decide
  have hn : (9 : Nat) ≤ mov_ram_to_com.size - 1 := by decide
  ⟨hok, hn, (calculate_checksum_is_byte_sum mov_ram_to_com).2.1 hok 9 hn⟩

theorem send_frame_eq (comm : rcb4_comm) (h3 : 3 ≤ comm.size) (h128 : comm.size ≤ 128) :
    rcb4_send_command_frame comm =
      some (comm.size :: comm.type :: comm.command.1.take (comm.size - 3) ++
        [(comm.size + comm.type + (comm.command.1.take (comm.size - 3)).sum) % 256]) := by
  have hne : ¬ (comm.size = 0 ∨ comm.size > 128) := by omega
  have hs : comm.size - 1 = (comm.size - 3) + 2 := by omega
  have htake : (object_bytes comm).take (comm.size - 1) =
      comm.size :: comm.type :: comm.command.1.take (comm.size - 3) := by
    rw [hs]; simp [object_bytes]
  simp only [rcb4_send_command_frame, hne, if_false, checksum_eq_sum_take, htake]
  simp [Nat.add_assoc]

/-- C3: the frame written by `rcb4_send_command` for a message of size `s`
between 3 and the 128 bytes of the send buffer, the ping frame and the RET
frame all have the wire format: `s` bytes, the size byte `s`, the opcode, the
`s - 3` payload bytes (the first bytes of the union) and the low byte of the
sum of all preceding bytes. -/
theorem written_frames_have_wire_format :
    (∀ comm : rcb4_comm, 3 ≤ comm.size → comm.size ≤ 128 →
      ∃ frame, rcb4_send_command_frame comm = some frame ∧
        wire_format frame comm.size comm.type (comm.command.1.take (comm.size - 3))) ∧
    wire_format rcb4_command_ping_frame 3 0xFE [] ∧
    wire_format rcb4_ret_frame 3 0x0D [] := by
  refine ⟨?_, ?_, ?_⟩
  · intro comm h3 h128
    refine ⟨_, send_frame_eq comm h3 h128, ?_, ?_, rfl⟩
    · have := comm.command.2
      simp only [List.length_cons, List.length_append, List.length_take, List.length_nil]
      omega
    · have := comm.command.2
      simp only [List.length_take]
      omega
  · exact ⟨rfl, rfl, rfl⟩
  · exact ⟨rfl, rfl, rfl⟩

theorem written_frames_have_wire_format_witness :
    3 ≤ mov_ram_to_com.size ∧ mov_ram_to_com.size ≤ 128 ∧
      ∃ frame, rcb4_send_command_frame mov_ram_to_com = some frame ∧
        wire_format frame mov_ram_to_com.size mov_ram_to_com.type
          (mov_ram_to_com.command.1.take (mov_ram_to_com.size - 3)) :=
  ⟨by decide, by decide, written_frames_have_wire_format.1 mov_ram_to_com (by decide) (by decide)⟩

/-- C4 fails on the code: the MOV RAM-to-COM message is sent as the frame
`0A 00 20 00 00 00 00 00 02 2C`, whose bytes add up to 88, not to 0 modulo 256. -/
theorem frame_sum_not_zero :
    rcb4_send_command_frame mov_ram_to_com = some [10, 0, 32, 0, 0, 0, 0, 0, 2, 44] ∧
      ([10, 0, 32, 0, 0, 0, 0, 0, 2, 44] : List Nat).sum % 256 ≠ 0 := by
  constructor
  · decide
  · decide

/-- C4 as amended: in every frame that `rcb4_send_command` writes the last
byte is the checksum, the low byte of the sum of the bytes before it, so the
sum of all the bytes of the frame is twice the checksum modulo 256. -/
theorem frame_sum_is_twice_checksum (comm : rcb4_comm) (frame : List Nat)
    (h : rcb4_send_command_frame comm = some frame) :
    frame = frame.take (comm.size - 1) ++ [rcb4_command_calculate_checksum comm] ∧
      rcb4_command_calculate_checksum comm = (frame.take (comm.size - 1)).sum % 256 ∧
      frame.sum % 256 = (2 * rcb4_command_calculate_checksum comm) % 256 := by
  unfold rcb4_send_command_frame at h
  split at h
  · exact absurd h (by simp)
  · rename_i hs
    have hlen : ((object_bytes comm).take (comm.size - 1)).length = comm.size - 1 := by
      have := comm.command.2
      simp only [List.length_take, object_bytes, List.length_cons]
      omega
    have hf : frame = (object_bytes comm).take (comm.size - 1) ++
        [rcb4_command_calculate_checksum comm] := by
      simpa using h.symm
    have ht : frame.take (comm.size - 1) = (object_bytes comm).take (comm.size - 1) := by
      rw [hf, List.take_append_of_le_length (by omega), List.take_take]
      simp
    refine ⟨by rw [ht]; exact hf, by rw [ht]; exact checksum_eq_sum_take comm, ?_⟩
    have hc := checksum_eq_sum_take comm
    rw [hf, List.sum_append]
    simp only [List.sum_cons, List.sum_nil, Nat.add_zero]
    omega

theorem frame_sum_is_twice_checksum_witness :
    rcb4_send_command_frame mov_ram_to_com = some [10, 0, 32, 0, 0, 0, 0, 0, 2, 44] ∧
      ([10, 0, 32, 0, 0, 0, 0, 0, 2, 44] : List Nat).sum % 256 =
        (2 * rcb4_command_calculate_checksum mov_ram_to_com) % 256 :=
  have h : rcb4_send_command_frame mov_ram_to_com = some [10, 0, 32, 0, 0, 0, 0, 0, 2, 44] := by
    decide
  ⟨h, (frame_sum_is_twice_checksum mov_ram_to_com _ h).2.2⟩

/-! ## The `case` labels -/

/-- The `case` label matched by a type byte, one disjunct per label. -/
theorem member_of_cases (t : Nat) :
    (t = RCB4_COMM_MOV ∧ member_of t = member.mov) ∨
    (is_logic t ∧ member_of t = member.logic) ∨
    (t = RCB4_COMM_NOT ∧ member_of t = member.logic_not) ∨
    (t = RCB4_COMM_SHIFT ∧ member_of t = member.shift) ∨
    (is_math t ∧ member_of t = member.math) ∨
    (t = RCB4_COMM_ICS ∧ member_of t = member.ics) ∨
    (t = RCB4_COMM_SINGLE ∧ member_of t = member.servo_single) ∨
    (t = RCB4_COMM_CONST ∧ member_of t = member.servo_const) ∨
    (t = RCB4_COMM_SERIES ∧ member_of t = member.servo_series) ∨
    (t = RCB4_COMM_SPEED ∧ member_of t = member.servo_speed) ∨
    (¬ is_command_type t ∧ member_of t = member.unknown) := by
  unfold member_of
  by_cases h1 : t = RCB4_COMM_MOV
  · rw [if_pos h1]; exact Or.inl ⟨h1, rfl⟩
  rw [if_neg h1]
  by_cases h2 : is_logic t
  · rw [if_pos h2]; exact Or.inr (Or.inl ⟨h2, rfl⟩)
  rw [if_neg h2]
  by_cases h3 : t = RCB4_COMM_NOT
  · rw [if_pos h3]; exact Or.inr (Or.inr (Or.inl ⟨h3, rfl⟩))
  rw [if_neg h3]
  by_cases h4 : t = RCB4_COMM_SHIFT
  · rw [if_pos h4]; exact Or.inr (Or.inr (Or.inr (Or.inl ⟨h4, rfl⟩)))
  rw [if_neg h4]
  by_cases h5 : is_math t
  · rw [if_pos h5]; exact Or.inr (Or.inr (Or.inr (Or.inr (Or.inl ⟨h5, rfl⟩))))
  rw [if_neg h5]
  by_cases h6 : t = RCB4_COMM_ICS
  · rw [if_pos h6]; exact Or.inr (Or.inr (Or.inr (Or.inr (Or.inr (Or.inl ⟨h6, rfl⟩)))))
  rw [if_neg h6]
  by_cases h7 : t = RCB4_COMM_SINGLE
  · rw [if_pos h7]
    exact Or.inr (Or.inr (Or.inr (Or.inr (Or.inr (Or.inr (Or.inl ⟨h7, rfl⟩))))))
  rw [if_neg h7]
  by_cases h8 : t = RCB4_COMM_CONST
  · rw [if_pos h8]
    exact Or.inr (Or.inr (Or.inr (Or.inr (Or.inr (Or.inr (Or.inr (Or.inl ⟨h8, rfl⟩)))))))
  rw [if_neg h8]
  by_cases h9 : t = RCB4_COMM_SERIES
  · rw [if_pos h9]
    exact Or.inr (Or.inr (Or.inr (Or.inr (Or.inr (Or.inr (Or.inr (Or.inr
      (Or.inl ⟨h9, rfl⟩))))))))
  rw [if_neg h9]
  by_cases h10 : t = RCB4_COMM_SPEED
  · rw [if_pos h10]
    exact Or.inr (Or.inr (Or.inr (Or.inr (Or.inr (Or.inr (Or.inr (Or.inr (Or.inr
      (Or.inl ⟨h10, rfl⟩)))))))))
  rw [if_neg h10]
  refine Or.inr (Or.inr (Or.inr (Or.inr (Or.inr (Or.inr (Or.inr (Or.inr (Or.inr
      (Or.inr ⟨?_, rfl⟩)))))))))
  rintro (h | h | h | h | h | h | h | h | h | h)
  · exact h1 h
  · exact h2 h
  · exact h3 h
  · exact h4 h
  · exact h5 h
  · exact h6 h
  · exact h7 h
  · exact h8 h
  · exact h9 h
  · exact h10 h

theorem member_of_logic (t : Nat) (h : is_logic t) : member_of t = member.logic := by
  rcases h with h | h | h <;> rw [h] <;> rfl

theorem member_of_math (t : Nat) (h : is_math t) : member_of t = member.math := by
  rcases h with h | h | h | h | h <;> rw [h] <;> rfl

theorem member_of_has_src (t : Nat) (h : has_src t) :
    member_of t = member.mov ∨ member_of t = member.logic ∨ member_of t = member.math := by
  rcases h with h | h | h
  · left; rw [h]; rfl
  · right; left; exact member_of_logic t h
  · right; right; exact member_of_math t h

theorem has_src_of_member (t : Nat)
    (h : member_of t = member.mov ∨ member_of t = member.logic ∨ member_of t = member.math) :
    has_src t := by
  rcases member_of_cases t with ⟨h1, _⟩ | ⟨h1, _⟩ | ⟨_, h2⟩ | ⟨_, h2⟩ | ⟨h1, _⟩ | ⟨_, h2⟩ |
    ⟨_, h2⟩ | ⟨_, h2⟩ | ⟨_, h2⟩ | ⟨_, h2⟩ | ⟨_, h2⟩
  · exact Or.inl h1
  · exact Or.inr (Or.inl h1)
  · rw [h2] at h; simp at h
  · rw [h2] at h; simp at h
  · exact Or.inr (Or.inr h1)
  · rw [h2] at h; simp at h
  · rw [h2] at h; simp at h
  · rw [h2] at h; simp at h
  · rw [h2] at h; simp at h
  · rw [h2] at h; simp at h
  · rw [h2] at h; simp at h

theorem int_neg_one_ne_zero : ¬ ((-1 : Int) = 0) := by decide

theorem int_neg_two_ne_zero : ¬ ((-2 : Int) = 0) := by decide


/-! ## The expected reply size -/

/-- C6 fails on the code: the MOV with RAM source `(0x0000, 2)` and ROM
destination has destination kind ROM, and its expected reply size is 2, not 0.
With the COM destination the same source gives size 10 and reply size 2. -/
theorem mov_to_rom_expects_reply :
    dst_kind mov_ram_to_rom = COMM_DST_ROM ∧
      rcb4_command_get_response_size mov_ram_to_rom = 2 ∧
      mov_ram_to_com.size = 10 ∧ rcb4_command_get_response_size mov_ram_to_com = 2 := by
  refine ⟨?_, ?_, ?_, ?_⟩ <;> decide

/-! ## Size and failure behaviour of the setters -/

theorem set_src_ram_size (comm : rcb4_comm) (hs : has_src comm.type) (addr size : Nat) :
    (rcb4_command_set_src_ram comm addr size).1 = 0 →
      (rcb4_command_set_src_ram comm addr size).2.size = 10 := by
  unfold rcb4_command_set_src_ram
  by_cases h1 : size = 0 ∨ size > RCB4_COMM_MESSAGE_SIZE_ALLOWED - 10
  · rw [if_pos h1]; intro h; exact absurd h int_neg_one_ne_zero
  rw [if_neg h1]
  by_cases h2 : addr > RCB4_MAX_RAM_ADDRESS
  · rw [if_pos h2]; intro h; exact absurd h int_neg_one_ne_zero
  rw [if_neg h2]
  rcases member_of_has_src _ hs with hm | hm | hm <;> rw [hm] <;> intro _ <;> rfl

theorem set_src_ram_size_ics (comm : rcb4_comm) (ht : comm.type = RCB4_COMM_ICS)
    (addr size : Nat) :
    (rcb4_command_set_src_ram comm addr size).1 = 0 →
      (rcb4_command_set_src_ram comm addr size).2.size = 9 := by
  have hm : member_of comm.type = member.ics := by rw [ht]; rfl
  unfold rcb4_command_set_src_ram
  by_cases h1 : size = 0 ∨ size > RCB4_COMM_MESSAGE_SIZE_ALLOWED - 10
  · rw [if_pos h1]; intro h; exact absurd h int_neg_one_ne_zero
  rw [if_neg h1]
  by_cases h2 : addr > RCB4_MAX_RAM_ADDRESS
  · rw [if_pos h2]; intro h; exact absurd h int_neg_one_ne_zero
  rw [if_neg h2, hm]
  dsimp only
  by_cases h3 : size > RCB4_MAX_ICS_SRC_SIZE
  · rw [if_pos h3]; intro h; exact absurd h int_neg_one_ne_zero
  · rw [if_neg h3]; intro _; rfl

theorem set_src_ics_size (comm : rcb4_comm) (hs : has_src comm.type) (offset ics size : Nat) :
    (rcb4_command_set_src_ics comm offset ics size).1 = 0 →
      (rcb4_command_set_src_ics comm offset ics size).2.size = 10 := by
  unfold rcb4_command_set_src_ics
  by_cases h1 : size = 0 ∨ size > RCB4_COMM_MESSAGE_SIZE_ALLOWED
  · rw [if_pos h1]; intro h; exact absurd h int_neg_one_ne_zero
  rw [if_neg h1]
  by_cases h2 : ics = 0 ∨ ics > RCB4_ICS_QTY
  · rw [if_pos h2]; intro h; exact absurd h int_neg_one_ne_zero
  rw [if_neg h2]
  dsimp only
  rcases member_of_has_src _ hs with hm | hm | hm <;> rw [hm] <;> intro _ <;> rfl

theorem set_src_rom_size (comm : rcb4_comm) (hs : has_src comm.type) (addr size : Nat) :
    (rcb4_command_set_src_rom comm addr size).1 = 0 →
      (rcb4_command_set_src_rom comm addr size).2.size = 11 := by
  unfold rcb4_command_set_src_rom
  by_cases h1 : size = 0 ∨ size > RCB4_COMM_MESSAGE_SIZE_ALLOWED
  · rw [if_pos h1]; intro h; exact absurd h int_neg_one_ne_zero
  rw [if_neg h1]
  by_cases h2 : addr > RCB4_MAX_ROM_ADDRESS
  · rw [if_pos h2]; intro h; exact absurd h int_neg_one_ne_zero
  rw [if_neg h2]
  rcases member_of_has_src _ hs with hm | hm | hm <;> rw [hm] <;> intro _ <;> rfl

theorem set_src_literal_size (comm : rcb4_comm) (hs : has_src comm.type) (literal : List Nat)
    (length : Nat) :
    (rcb4_command_set_src_literal comm literal length).1 = 0 →
      (rcb4_command_set_src_literal comm literal length).2.size = length + 7 := by
  unfold rcb4_command_set_src_literal
  by_cases h1 : length = 0 ∨ length ≥ COMM_LITERAL_MAX_LEN
  · rw [if_pos h1]; intro h; exact absurd h int_neg_one_ne_zero
  rw [if_neg h1]
  have hl : (length + 7) % 256 = length + 7 := by
    simp only [COMM_LITERAL_MAX_LEN, RCB4_COMM_MESSAGE_SIZE_ALLOWED] at h1
    omega
  rcases member_of_has_src _ hs with hm | hm | hm <;> rw [hm] <;> intro _ <;> exact hl

/-- C7: on MOV, the logic opcodes and the arithmetic opcodes, from any state, a
successful `set_src_ram` or `set_src_ics` leaves size 10, a successful
`set_src_rom` size 11 and a successful `set_src_literal` of length `L` size
`L + 7`; a successful `set_src_ram` on an ICS message leaves size 9. -/
theorem source_setters_total_size (comm : rcb4_comm) :
    (has_src comm.type →
      (∀ addr size, (rcb4_command_set_src_ram comm addr size).1 = 0 →
        (rcb4_command_set_src_ram comm addr size).2.size = 10) ∧
      (∀ offset ics size, (rcb4_command_set_src_ics comm offset ics size).1 = 0 →
        (rcb4_command_set_src_ics comm offset ics size).2.size = 10) ∧
      (∀ addr size, (rcb4_command_set_src_rom comm addr size).1 = 0 →
        (rcb4_command_set_src_rom comm addr size).2.size = 11) ∧
      (∀ literal length, (rcb4_command_set_src_literal comm literal length).1 = 0 →
        (rcb4_command_set_src_literal comm literal length).2.size = length + 7)) ∧
    (comm.type = RCB4_COMM_ICS →
      ∀ addr size, (rcb4_command_set_src_ram comm addr size).1 = 0 →
        (rcb4_command_set_src_ram comm addr size).2.size = 9) :=
  ⟨fun hs => ⟨set_src_ram_size comm hs, set_src_ics_size comm hs, set_src_rom_size comm hs,
      set_src_literal_size comm hs⟩,
    fun ht => set_src_ram_size_ics comm ht⟩

theorem source_setters_total_size_witness :
    has_src (created RCB4_COMM_MOV).type ∧
      (rcb4_command_set_src_ram (created RCB4_COMM_MOV) 0 2).1 = 0 ∧
      (rcb4_command_set_src_ram (created RCB4_COMM_MOV) 0 2).2.size = 10 ∧
      (created RCB4_COMM_ICS).type = RCB4_COMM_ICS ∧
      (rcb4_command_set_src_ram (created RCB4_COMM_ICS) 0 2).1 = 0 ∧
      (rcb4_command_set_src_ram (created RCB4_COMM_ICS) 0 2).2.size = 9 :=
  ⟨by decide, by decide,
    ((source_setters_total_size (created RCB4_COMM_MOV)).1 (by decide)).1 0 2 (by decide),
    by decide, by decide,
    (source_setters_total_size (created RCB4_COMM_ICS)).2 (by decide) 0 2 (by decide)⟩

/-! ## A failed setter leaves the message as it was -/

theorem set_src_ram_failure (comm : rcb4_comm) (addr size : Nat) :
    (rcb4_command_set_src_ram comm addr size).1 ≠ 0 → (rcb4_command_set_src_ram comm addr size).2 = comm := by
  unfold rcb4_command_set_src_ram
  by_cases h1 : size = 0 ∨ size > RCB4_COMM_MESSAGE_SIZE_ALLOWED - 10
  · rw [if_pos h1]; intro _; rfl
  rw [if_neg h1]
  by_cases h2 : addr > RCB4_MAX_RAM_ADDRESS
  · rw [if_pos h2]; intro _; rfl
  rw [if_neg h2]
  rcases member_of_cases comm.type with ⟨_, hm⟩ | ⟨_, hm⟩ | ⟨_, hm⟩ | ⟨_, hm⟩ | ⟨_, hm⟩ |
    ⟨_, hm⟩ | ⟨_, hm⟩ | ⟨_, hm⟩ | ⟨_, hm⟩ | ⟨_, hm⟩ | ⟨_, hm⟩ <;> rw [hm] <;> dsimp only <;>
    first
    | (intro h; exact absurd rfl h)
    | (intro _; rfl)
    | (split_ifs <;> first | (intro h; exact absurd rfl h) | (intro _; rfl))

theorem set_src_ics_failure (comm : rcb4_comm) (offset ics size : Nat) :
    (rcb4_command_set_src_ics comm offset ics size).1 ≠ 0 → (rcb4_command_set_src_ics comm offset ics size).2 = comm := by
  unfold rcb4_command_set_src_ics
  by_cases h1 : size = 0 ∨ size > RCB4_COMM_MESSAGE_SIZE_ALLOWED
  · rw [if_pos h1]; intro _; rfl
  rw [if_neg h1]
  by_cases h2 : ics = 0 ∨ ics > RCB4_ICS_QTY
  · rw [if_pos h2]; intro _; rfl
  rw [if_neg h2]
  dsimp only
  rcases member_of_cases comm.type with ⟨_, hm⟩ | ⟨_, hm⟩ | ⟨_, hm⟩ | ⟨_, hm⟩ | ⟨_, hm⟩ |
    ⟨_, hm⟩ | ⟨_, hm⟩ | ⟨_, hm⟩ | ⟨_, hm⟩ | ⟨_, hm⟩ | ⟨_, hm⟩ <;> rw [hm] <;> dsimp only <;>
    first
    | (intro h; exact absurd rfl h)
    | (intro _; rfl)

theorem set_src_literal_failure (comm : rcb4_comm) (literal : List Nat) (length : Nat) :
    (rcb4_command_set_src_literal comm literal length).1 ≠ 0 → (rcb4_command_set_src_literal comm literal length).2 = comm := by
  unfold rcb4_command_set_src_literal
  by_cases h1 : length = 0 ∨ length ≥ COMM_LITERAL_MAX_LEN
  · rw [if_pos h1]; intro _; rfl
  rw [if_neg h1]
  rcases member_of_cases comm.type with ⟨_, hm⟩ | ⟨_, hm⟩ | ⟨_, hm⟩ | ⟨_, hm⟩ | ⟨_, hm⟩ |
    ⟨_, hm⟩ | ⟨_, hm⟩ | ⟨_, hm⟩ | ⟨_, hm⟩ | ⟨_, hm⟩ | ⟨_, hm⟩ <;> rw [hm] <;> dsimp only <;>
    first
    | (intro h; exact absurd rfl h)
    | (intro _; rfl)

theorem set_src_rom_failure (comm : rcb4_comm) (addr size : Nat) :
    (rcb4_command_set_src_rom comm addr size).1 ≠ 0 → (rcb4_command_set_src_rom comm addr size).2 = comm := by
  unfold rcb4_command_set_src_rom
  by_cases h1 : size = 0 ∨ size > RCB4_COMM_MESSAGE_SIZE_ALLOWED
  · rw [if_pos h1]; intro _; rfl
  rw [if_neg h1]
  by_cases h2 : addr > RCB4_MAX_ROM_ADDRESS
  · rw [if_pos h2]; intro _; rfl
  rw [if_neg h2]
  rcases member_of_cases comm.type with ⟨_, hm⟩ | ⟨_, hm⟩ | ⟨_, hm⟩ | ⟨_, hm⟩ | ⟨_, hm⟩ |
    ⟨_, hm⟩ | ⟨_, hm⟩ | ⟨_, hm⟩ | ⟨_, hm⟩ | ⟨_, hm⟩ | ⟨_, hm⟩ <;> rw [hm] <;> dsimp only <;>
    first
    | (intro h; exact absurd rfl h)
    | (intro _; rfl)

theorem set_dst_ram_failure (comm : rcb4_comm) (addr : Nat) :
    (rcb4_command_set_dst_ram comm addr).1 ≠ 0 → (rcb4_command_set_dst_ram comm addr).2 = comm := by
  unfold rcb4_command_set_dst_ram
  by_cases h1 : addr > RCB4_MAX_RAM_ADDRESS
  · rw [if_pos h1]; intro _; rfl
  rw [if_neg h1]
  rcases member_of_cases comm.type with ⟨_, hm⟩ | ⟨_, hm⟩ | ⟨_, hm⟩ | ⟨_, hm⟩ | ⟨_, hm⟩ |
    ⟨_, hm⟩ | ⟨_, hm⟩ | ⟨_, hm⟩ | ⟨_, hm⟩ | ⟨_, hm⟩ | ⟨_, hm⟩ <;> rw [hm] <;> dsimp only <;>
    first
    | (intro h; exact absurd rfl h)
    | (intro _; rfl)

theorem set_dst_ics_failure (comm : rcb4_comm) (offset ics : Nat) :
    (rcb4_command_set_dst_ics comm offset ics).1 ≠ 0 → (rcb4_command_set_dst_ics comm offset ics).2 = comm := by
  unfold rcb4_command_set_dst_ics
  by_cases h1 : ics = 0 ∨ ics > RCB4_ICS_QTY
  · rw [if_pos h1]; intro _; rfl
  rw [if_neg h1]
  dsimp only
  rcases member_of_cases comm.type with ⟨_, hm⟩ | ⟨_, hm⟩ | ⟨_, hm⟩ | ⟨_, hm⟩ | ⟨_, hm⟩ |
    ⟨_, hm⟩ | ⟨_, hm⟩ | ⟨_, hm⟩ | ⟨_, hm⟩ | ⟨_, hm⟩ | ⟨_, hm⟩ <;> rw [hm] <;> dsimp only <;>
    first
    | (intro h; exact absurd rfl h)
    | (intro _; rfl)

theorem set_dst_com_failure (comm : rcb4_comm) :
    (rcb4_command_set_dst_com comm).1 ≠ 0 → (rcb4_command_set_dst_com comm).2 = comm := by
  unfold rcb4_command_set_dst_com
  rcases member_of_cases comm.type with ⟨_, hm⟩ | ⟨_, hm⟩ | ⟨_, hm⟩ | ⟨_, hm⟩ | ⟨_, hm⟩ |
    ⟨_, hm⟩ | ⟨_, hm⟩ | ⟨_, hm⟩ | ⟨_, hm⟩ | ⟨_, hm⟩ | ⟨_, hm⟩ <;> rw [hm] <;> dsimp only <;>
    first
    | (intro h; exact absurd rfl h)
    | (intro _; rfl)

theorem set_dst_rom_failure (comm : rcb4_comm) (addr : Nat) :
    (rcb4_command_set_dst_rom comm addr).1 ≠ 0 → (rcb4_command_set_dst_rom comm addr).2 = comm := by
  unfold rcb4_command_set_dst_rom
  by_cases h1 : addr > RCB4_MAX_ROM_ADDRESS
  · rw [if_pos h1]; intro _; rfl
  rw [if_neg h1]
  rcases member_of_cases comm.type with ⟨_, hm⟩ | ⟨_, hm⟩ | ⟨_, hm⟩ | ⟨_, hm⟩ | ⟨_, hm⟩ |
    ⟨_, hm⟩ | ⟨_, hm⟩ | ⟨_, hm⟩ | ⟨_, hm⟩ | ⟨_, hm⟩ | ⟨_, hm⟩ <;> rw [hm] <;> dsimp only <;>
    first
    | (intro h; exact absurd rfl h)
    | (intro _; rfl)

theorem set_dst_do_not_save_failure (comm : rcb4_comm) :
    (rcb4_command_set_dst_do_not_save comm).1 ≠ 0 → (rcb4_command_set_dst_do_not_save comm).2 = comm := by
  unfold rcb4_command_set_dst_do_not_save
  rcases member_of_cases comm.type with ⟨_, hm⟩ | ⟨_, hm⟩ | ⟨_, hm⟩ | ⟨_, hm⟩ | ⟨_, hm⟩ |
    ⟨_, hm⟩ | ⟨_, hm⟩ | ⟨_, hm⟩ | ⟨_, hm⟩ | ⟨_, hm⟩ | ⟨_, hm⟩ <;> rw [hm] <;> dsimp only <;>
    first
    | (intro h; exact absurd rfl h)
    | (intro _; rfl)

theorem set_data_size_failure (comm : rcb4_comm) (size : Nat) :
    (rcb4_command_set_data_size comm size).1 ≠ 0 → (rcb4_command_set_data_size comm size).2 = comm := by
  unfold rcb4_command_set_data_size
  by_cases h1 : size = 0 ∨ size > 128
  · rw [if_pos h1]; intro _; rfl
  rw [if_neg h1]
  rcases member_of_cases comm.type with ⟨_, hm⟩ | ⟨_, hm⟩ | ⟨_, hm⟩ | ⟨_, hm⟩ | ⟨_, hm⟩ |
    ⟨_, hm⟩ | ⟨_, hm⟩ | ⟨_, hm⟩ | ⟨_, hm⟩ | ⟨_, hm⟩ | ⟨_, hm⟩ <;> rw [hm] <;> dsimp only <;>
    first
    | (intro h; exact absurd rfl h)
    | (intro _; rfl)
    | (split_ifs <;> first | (intro h; exact absurd rfl h) | (intro _; rfl))

theorem set_shift_left_failure (comm : rcb4_comm) (shifts : Nat) :
    (rcb4_command_set_shift_left comm shifts).1 ≠ 0 →
      (rcb4_command_set_shift_left comm shifts).2 = comm := by
  unfold rcb4_command_set_shift_left rcb4_command_set_shifts
  split_ifs <;> first | (intro h; exact absurd rfl h) | (intro _; rfl)

theorem set_shift_right_failure (comm : rcb4_comm) (shifts : Nat) :
    (rcb4_command_set_shift_right comm shifts).1 ≠ 0 →
      (rcb4_command_set_shift_right comm shifts).2 = comm := by
  unfold rcb4_command_set_shift_right rcb4_command_set_shifts
  split_ifs <;> first | (intro h; exact absurd rfl h) | (intro _; rfl)

theorem set_ics_failure (comm : rcb4_comm) (ics : Nat) :
    (rcb4_command_set_ics comm ics).1 ≠ 0 → (rcb4_command_set_ics comm ics).2 = comm := by
  unfold rcb4_command_set_ics
  split_ifs <;> first | (intro h; exact absurd rfl h) | (intro _; rfl)

theorem set_speed_failure (comm : rcb4_comm) (speed : Nat) :
    (rcb4_command_set_speed comm speed).1 ≠ 0 →
      (rcb4_command_set_speed comm speed).2 = comm := by
  unfold rcb4_command_set_speed
  split_ifs <;> first | (intro h; exact absurd rfl h) | (intro _; rfl)

theorem set_servo_failure (comm : rcb4_comm) (ics speed position : Nat) :
    (rcb4_command_set_servo comm ics speed position).1 ≠ 0 →
      (rcb4_command_set_servo comm ics speed position).2 = comm := by
  unfold rcb4_command_set_servo
  split_ifs <;> first | (intro h; exact absurd rfl h) | (intro _; rfl)

theorem set_stretch_failure (comm : rcb4_comm) (stretch : Nat) :
    (rcb4_command_set_stretch comm stretch).1 ≠ 0 →
      (rcb4_command_set_stretch comm stretch).2 = comm := by
  intro _; rfl

/-- C8: whenever a setter returns an error (a non-zero code), the message it
leaves is the message it was given. -/
theorem failed_setter_leaves_message (comm : rcb4_comm) :
    (∀ addr size, (rcb4_command_set_src_ram comm addr size).1 ≠ 0 →
      (rcb4_command_set_src_ram comm addr size).2 = comm) ∧
    (∀ offset ics size, (rcb4_command_set_src_ics comm offset ics size).1 ≠ 0 →
      (rcb4_command_set_src_ics comm offset ics size).2 = comm) ∧
    (∀ literal length, (rcb4_command_set_src_literal comm literal length).1 ≠ 0 →
      (rcb4_command_set_src_literal comm literal length).2 = comm) ∧
    (∀ addr size, (rcb4_command_set_src_rom comm addr size).1 ≠ 0 →
      (rcb4_command_set_src_rom comm addr size).2 = comm) ∧
    (∀ addr, (rcb4_command_set_dst_ram comm addr).1 ≠ 0 →
      (rcb4_command_set_dst_ram comm addr).2 = comm) ∧
    (∀ offset ics, (rcb4_command_set_dst_ics comm offset ics).1 ≠ 0 →
      (rcb4_command_set_dst_ics comm offset ics).2 = comm) ∧
    ((rcb4_command_set_dst_com comm).1 ≠ 0 → (rcb4_command_set_dst_com comm).2 = comm) ∧
    (∀ addr, (rcb4_command_set_dst_rom comm addr).1 ≠ 0 →
      (rcb4_command_set_dst_rom comm addr).2 = comm) ∧
    ((rcb4_command_set_dst_do_not_save comm).1 ≠ 0 →
      (rcb4_command_set_dst_do_not_save comm).2 = comm) ∧
    (∀ size, (rcb4_command_set_data_size comm size).1 ≠ 0 →
      (rcb4_command_set_data_size comm size).2 = comm) ∧
    (∀ shifts, (rcb4_command_set_shift_left comm shifts).1 ≠ 0 →
      (rcb4_command_set_shift_left comm shifts).2 = comm) ∧
    (∀ shifts, (rcb4_command_set_shift_right comm shifts).1 ≠ 0 →
      (rcb4_command_set_shift_right comm shifts).2 = comm) ∧
    (∀ ics, (rcb4_command_set_ics comm ics).1 ≠ 0 →
      (rcb4_command_set_ics comm ics).2 = comm) ∧
    (∀ speed, (rcb4_command_set_speed comm speed).1 ≠ 0 →
      (rcb4_command_set_speed comm speed).2 = comm) ∧
    (∀ ics speed position, (rcb4_command_set_servo comm ics speed position).1 ≠ 0 →
      (rcb4_command_set_servo comm ics speed position).2 = comm) ∧
    (∀ stretch, (rcb4_command_set_stretch comm stretch).1 ≠ 0 →
      (rcb4_command_set_stretch comm stretch).2 = comm) :=
  ⟨set_src_ram_failure comm, set_src_ics_failure comm, set_src_literal_failure comm,
    set_src_rom_failure comm, set_dst_ram_failure comm, set_dst_ics_failure comm,
    set_dst_com_failure comm, set_dst_rom_failure comm, set_dst_do_not_save_failure comm,
    set_data_size_failure comm, set_shift_left_failure comm, set_shift_right_failure comm,
    set_ics_failure comm, set_speed_failure comm, set_servo_failure comm,
    set_stretch_failure comm⟩

theorem failed_setter_leaves_message_witness :
    (rcb4_command_set_src_ram mov_ram_to_com 0x0490 2).1 ≠ 0 ∧
      (rcb4_command_set_src_ram mov_ram_to_com 0x0490 2).2 = mov_ram_to_com ∧
      (rcb4_command_set_servo mov_ram_to_com 1 1 0).1 ≠ 0 ∧
      (rcb4_command_set_servo mov_ram_to_com 1 1 0).2 = mov_ram_to_com :=
  ⟨by decide, (failed_setter_leaves_message mov_ram_to_com).1 0x0490 2 (by decide),
    by decide,
    (failed_setter_leaves_message mov_ram_to_com).2.2.2.2.2.2.2.2.2.2.2.2.2.2.1 1 1 0
      (by decide)⟩


/-! ## The return code of the source and destination setters -/

theorem set_src_ics_code (comm : rcb4_comm) (offset ics size : Nat) (hs1 : 1 ≤ size) (hs2 : size ≤ 128) (hi1 : 1 ≤ ics) (hi2 : ics ≤ 36) :
    (has_src comm.type ∧ (rcb4_command_set_src_ics comm offset ics size).1 = 0) ∨
      (¬ has_src comm.type ∧ is_command_type comm.type ∧ (rcb4_command_set_src_ics comm offset ics size).1 = -2) ∨
      (¬ is_command_type comm.type ∧ (rcb4_command_set_src_ics comm offset ics size).1 = -1) := by
  unfold rcb4_command_set_src_ics
  have h1 : ¬ (size = 0 ∨ size > RCB4_COMM_MESSAGE_SIZE_ALLOWED) := by
    simp only [RCB4_COMM_MESSAGE_SIZE_ALLOWED, RCB4_ICS_QTY, COMM_LITERAL_MAX_LEN, RCB4_MAX_ROM_ADDRESS, RCB4_MAX_RAM_ADDRESS, RCB4_MAX_ICS_SRC_SIZE]; omega
  rw [if_neg h1]
  have h2 : ¬ (ics = 0 ∨ ics > RCB4_ICS_QTY) := by
    simp only [RCB4_COMM_MESSAGE_SIZE_ALLOWED, RCB4_ICS_QTY, COMM_LITERAL_MAX_LEN, RCB4_MAX_ROM_ADDRESS, RCB4_MAX_RAM_ADDRESS, RCB4_MAX_ICS_SRC_SIZE]; omega
  rw [if_neg h2]
  dsimp only
  rcases member_of_cases comm.type with ⟨ht, hm⟩ | ⟨ht, hm⟩ | ⟨ht, hm⟩ | ⟨ht, hm⟩ | ⟨ht, hm⟩ |
    ⟨ht, hm⟩ | ⟨ht, hm⟩ | ⟨ht, hm⟩ | ⟨ht, hm⟩ | ⟨ht, hm⟩ | ⟨ht, hm⟩ <;> rw [hm] <;> dsimp only <;>
    first
    | (refine Or.inl ⟨?_, rfl⟩;
        simp only [legal_src_ram, legal_dst_ram, legal_dst, legal_dst_com, legal_do_not_save,
          legal_data_size, has_src, is_logic, is_math, is_command_type, RCB4_COMM_MOV,
          RCB4_COMM_AND, RCB4_COMM_OR, RCB4_COMM_XOR, RCB4_COMM_NOT, RCB4_COMM_SHIFT,
          RCB4_COMM_ADD, RCB4_COMM_SUB, RCB4_COMM_MUL, RCB4_COMM_DIV, RCB4_COMM_MOD,
          RCB4_COMM_ICS, RCB4_COMM_SINGLE, RCB4_COMM_CONST, RCB4_COMM_SERIES,
          RCB4_COMM_SPEED] at *;
        omega)
    | (refine Or.inr (Or.inl ⟨?_, ?_, rfl⟩) <;>
        (simp only [legal_src_ram, legal_dst_ram, legal_dst, legal_dst_com, legal_do_not_save,
          legal_data_size, has_src, is_logic, is_math, is_command_type, RCB4_COMM_MOV,
          RCB4_COMM_AND, RCB4_COMM_OR, RCB4_COMM_XOR, RCB4_COMM_NOT, RCB4_COMM_SHIFT,
          RCB4_COMM_ADD, RCB4_COMM_SUB, RCB4_COMM_MUL, RCB4_COMM_DIV, RCB4_COMM_MOD,
          RCB4_COMM_ICS, RCB4_COMM_SINGLE, RCB4_COMM_CONST, RCB4_COMM_SERIES,
          RCB4_COMM_SPEED] at *;
         omega))
    | exact Or.inr (Or.inr ⟨ht, rfl⟩)

theorem set_src_literal_code (comm : rcb4_comm) (literal : List Nat) (length : Nat) (hl1 : 1 ≤ length) (hl2 : length ≤ 120) :
    (has_src comm.type ∧ (rcb4_command_set_src_literal comm literal length).1 = 0) ∨
      (¬ has_src comm.type ∧ is_command_type comm.type ∧ (rcb4_command_set_src_literal comm literal length).1 = -2) ∨
      (¬ is_command_type comm.type ∧ (rcb4_command_set_src_literal comm literal length).1 = -1) := by
  unfold rcb4_command_set_src_literal
  have h1 : ¬ (length = 0 ∨ length ≥ COMM_LITERAL_MAX_LEN) := by
    simp only [RCB4_COMM_MESSAGE_SIZE_ALLOWED, RCB4_ICS_QTY, COMM_LITERAL_MAX_LEN, RCB4_MAX_ROM_ADDRESS, RCB4_MAX_RAM_ADDRESS, RCB4_MAX_ICS_SRC_SIZE]; omega
  rw [if_neg h1]
  rcases member_of_cases comm.type with ⟨ht, hm⟩ | ⟨ht, hm⟩ | ⟨ht, hm⟩ | ⟨ht, hm⟩ | ⟨ht, hm⟩ |
    ⟨ht, hm⟩ | ⟨ht, hm⟩ | ⟨ht, hm⟩ | ⟨ht, hm⟩ | ⟨ht, hm⟩ | ⟨ht, hm⟩ <;> rw [hm] <;> dsimp only <;>
    first
    | (refine Or.inl ⟨?_, rfl⟩;
        simp only [legal_src_ram, legal_dst_ram, legal_dst, legal_dst_com, legal_do_not_save,
          legal_data_size, has_src, is_logic, is_math, is_command_type, RCB4_COMM_MOV,
          RCB4_COMM_AND, RCB4_COMM_OR, RCB4_COMM_XOR, RCB4_COMM_NOT, RCB4_COMM_SHIFT,
          RCB4_COMM_ADD, RCB4_COMM_SUB, RCB4_COMM_MUL, RCB4_COMM_DIV, RCB4_COMM_MOD,
          RCB4_COMM_ICS, RCB4_COMM_SINGLE, RCB4_COMM_CONST, RCB4_COMM_SERIES,
          RCB4_COMM_SPEED] at *;
        omega)
    | (refine Or.inr (Or.inl ⟨?_, ?_, rfl⟩) <;>
        (simp only [legal_src_ram, legal_dst_ram, legal_dst, legal_dst_com, legal_do_not_save,
          legal_data_size, has_src, is_logic, is_math, is_command_type, RCB4_COMM_MOV,
          RCB4_COMM_AND, RCB4_COMM_OR, RCB4_COMM_XOR, RCB4_COMM_NOT, RCB4_COMM_SHIFT,
          RCB4_COMM_ADD, RCB4_COMM_SUB, RCB4_COMM_MUL, RCB4_COMM_DIV, RCB4_COMM_MOD,
          RCB4_COMM_ICS, RCB4_COMM_SINGLE, RCB4_COMM_CONST, RCB4_COMM_SERIES,
          RCB4_COMM_SPEED] at *;
         omega))
    | exact Or.inr (Or.inr ⟨ht, rfl⟩)

theorem set_src_rom_code (comm : rcb4_comm) (addr size : Nat) (hs1 : 1 ≤ size) (hs2 : size ≤ 128) (ha : addr ≤ 0x03FFFF) :
    (has_src comm.type ∧ (rcb4_command_set_src_rom comm addr size).1 = 0) ∨
      (¬ has_src comm.type ∧ is_command_type comm.type ∧ (rcb4_command_set_src_rom comm addr size).1 = -2) ∨
      (¬ is_command_type comm.type ∧ (rcb4_command_set_src_rom comm addr size).1 = -1) := by
  unfold rcb4_command_set_src_rom
  have h1 : ¬ (size = 0 ∨ size > RCB4_COMM_MESSAGE_SIZE_ALLOWED) := by
    simp only [RCB4_COMM_MESSAGE_SIZE_ALLOWED, RCB4_ICS_QTY, COMM_LITERAL_MAX_LEN, RCB4_MAX_ROM_ADDRESS, RCB4_MAX_RAM_ADDRESS, RCB4_MAX_ICS_SRC_SIZE]; omega
  rw [if_neg h1]
  have h2 : ¬ (addr > RCB4_MAX_ROM_ADDRESS) := by
    simp only [RCB4_COMM_MESSAGE_SIZE_ALLOWED, RCB4_ICS_QTY, COMM_LITERAL_MAX_LEN, RCB4_MAX_ROM_ADDRESS, RCB4_MAX_RAM_ADDRESS, RCB4_MAX_ICS_SRC_SIZE]; omega
  rw [if_neg h2]
  rcases member_of_cases comm.type with ⟨ht, hm⟩ | ⟨ht, hm⟩ | ⟨ht, hm⟩ | ⟨ht, hm⟩ | ⟨ht, hm⟩ |
    ⟨ht, hm⟩ | ⟨ht, hm⟩ | ⟨ht, hm⟩ | ⟨ht, hm⟩ | ⟨ht, hm⟩ | ⟨ht, hm⟩ <;> rw [hm] <;> dsimp only <;>
    first
    | (refine Or.inl ⟨?_, rfl⟩;
        simp only [legal_src_ram, legal_dst_ram, legal_dst, legal_dst_com, legal_do_not_save,
          legal_data_size, has_src, is_logic, is_math, is_command_type, RCB4_COMM_MOV,
          RCB4_COMM_AND, RCB4_COMM_OR, RCB4_COMM_XOR, RCB4_COMM_NOT, RCB4_COMM_SHIFT,
          RCB4_COMM_ADD, RCB4_COMM_SUB, RCB4_COMM_MUL, RCB4_COMM_DIV, RCB4_COMM_MOD,
          RCB4_COMM_ICS, RCB4_COMM_SINGLE, RCB4_COMM_CONST, RCB4_COMM_SERIES,
          RCB4_COMM_SPEED] at *;
        omega)
    | (refine Or.inr (Or.inl ⟨?_, ?_, rfl⟩) <;>
        (simp only [legal_src_ram, legal_dst_ram, legal_dst, legal_dst_com, legal_do_not_save,
          legal_data_size, has_src, is_logic, is_math, is_command_type, RCB4_COMM_MOV,
          RCB4_COMM_AND, RCB4_COMM_OR, RCB4_COMM_XOR, RCB4_COMM_NOT, RCB4_COMM_SHIFT,
          RCB4_COMM_ADD, RCB4_COMM_SUB, RCB4_COMM_MUL, RCB4_COMM_DIV, RCB4_COMM_MOD,
          RCB4_COMM_ICS, RCB4_COMM_SINGLE, RCB4_COMM_CONST, RCB4_COMM_SERIES,
          RCB4_COMM_SPEED] at *;
         omega))
    | exact Or.inr (Or.inr ⟨ht, rfl⟩)

theorem set_dst_ram_code (comm : rcb4_comm) (addr : Nat) (ha : addr ≤ 0x048F) :
    (legal_dst_ram comm.type ∧ (rcb4_command_set_dst_ram comm addr).1 = 0) ∨
      (¬ legal_dst_ram comm.type ∧ is_command_type comm.type ∧ (rcb4_command_set_dst_ram comm addr).1 = -2) ∨
      (¬ is_command_type comm.type ∧ (rcb4_command_set_dst_ram comm addr).1 = -1) := by
  unfold rcb4_command_set_dst_ram
  have h1 : ¬ (addr > RCB4_MAX_RAM_ADDRESS) := by
    simp only [RCB4_COMM_MESSAGE_SIZE_ALLOWED, RCB4_ICS_QTY, COMM_LITERAL_MAX_LEN, RCB4_MAX_ROM_ADDRESS, RCB4_MAX_RAM_ADDRESS, RCB4_MAX_ICS_SRC_SIZE]; omega
  rw [if_neg h1]
  rcases member_of_cases comm.type with ⟨ht, hm⟩ | ⟨ht, hm⟩ | ⟨ht, hm⟩ | ⟨ht, hm⟩ | ⟨ht, hm⟩ |
    ⟨ht, hm⟩ | ⟨ht, hm⟩ | ⟨ht, hm⟩ | ⟨ht, hm⟩ | ⟨ht, hm⟩ | ⟨ht, hm⟩ <;> rw [hm] <;> dsimp only <;>
    first
    | (refine Or.inl ⟨?_, rfl⟩;
        simp only [legal_src_ram, legal_dst_ram, legal_dst, legal_dst_com, legal_do_not_save,
          legal_data_size, has_src, is_logic, is_math, is_command_type, RCB4_COMM_MOV,
          RCB4_COMM_AND, RCB4_COMM_OR, RCB4_COMM_XOR, RCB4_COMM_NOT, RCB4_COMM_SHIFT,
          RCB4_COMM_ADD, RCB4_COMM_SUB, RCB4_COMM_MUL, RCB4_COMM_DIV, RCB4_COMM_MOD,
          RCB4_COMM_ICS, RCB4_COMM_SINGLE, RCB4_COMM_CONST, RCB4_COMM_SERIES,
          RCB4_COMM_SPEED] at *;
        omega)
    | (refine Or.inr (Or.inl ⟨?_, ?_, rfl⟩) <;>
        (simp only [legal_src_ram, legal_dst_ram, legal_dst, legal_dst_com, legal_do_not_save,
          legal_data_size, has_src, is_logic, is_math, is_command_type, RCB4_COMM_MOV,
          RCB4_COMM_AND, RCB4_COMM_OR, RCB4_COMM_XOR, RCB4_COMM_NOT, RCB4_COMM_SHIFT,
          RCB4_COMM_ADD, RCB4_COMM_SUB, RCB4_COMM_MUL, RCB4_COMM_DIV, RCB4_COMM_MOD,
          RCB4_COMM_ICS, RCB4_COMM_SINGLE, RCB4_COMM_CONST, RCB4_COMM_SERIES,
          RCB4_COMM_SPEED] at *;
         omega))
    | exact Or.inr (Or.inr ⟨ht, rfl⟩)

theorem set_dst_ics_code (comm : rcb4_comm) (offset ics : Nat) (hi1 : 1 ≤ ics) (hi2 : ics ≤ 36) :
    (legal_dst comm.type ∧ (rcb4_command_set_dst_ics comm offset ics).1 = 0) ∨
      (¬ legal_dst comm.type ∧ is_command_type comm.type ∧ (rcb4_command_set_dst_ics comm offset ics).1 = -2) ∨
      (¬ is_command_type comm.type ∧ (rcb4_command_set_dst_ics comm offset ics).1 = -1) := by
  unfold rcb4_command_set_dst_ics
  have h1 : ¬ (ics = 0 ∨ ics > RCB4_ICS_QTY) := by
    simp only [RCB4_COMM_MESSAGE_SIZE_ALLOWED, RCB4_ICS_QTY, COMM_LITERAL_MAX_LEN, RCB4_MAX_ROM_ADDRESS, RCB4_MAX_RAM_ADDRESS, RCB4_MAX_ICS_SRC_SIZE]; omega
  rw [if_neg h1]
  dsimp only
  rcases member_of_cases comm.type with ⟨ht, hm⟩ | ⟨ht, hm⟩ | ⟨ht, hm⟩ | ⟨ht, hm⟩ | ⟨ht, hm⟩ |
    ⟨ht, hm⟩ | ⟨ht, hm⟩ | ⟨ht, hm⟩ | ⟨ht, hm⟩ | ⟨ht, hm⟩ | ⟨ht, hm⟩ <;> rw [hm] <;> dsimp only <;>
    first
    | (refine Or.inl ⟨?_, rfl⟩;
        simp only [legal_src_ram, legal_dst_ram, legal_dst, legal_dst_com, legal_do_not_save,
          legal_data_size, has_src, is_logic, is_math, is_command_type, RCB4_COMM_MOV,
          RCB4_COMM_AND, RCB4_COMM_OR, RCB4_COMM_XOR, RCB4_COMM_NOT, RCB4_COMM_SHIFT,
          RCB4_COMM_ADD, RCB4_COMM_SUB, RCB4_COMM_MUL, RCB4_COMM_DIV, RCB4_COMM_MOD,
          RCB4_COMM_ICS, RCB4_COMM_SINGLE, RCB4_COMM_CONST, RCB4_COMM_SERIES,
          RCB4_COMM_SPEED] at *;
        omega)
    | (refine Or.inr (Or.inl ⟨?_, ?_, rfl⟩) <;>
        (simp only [legal_src_ram, legal_dst_ram, legal_dst, legal_dst_com, legal_do_not_save,
          legal_data_size, has_src, is_logic, is_math, is_command_type, RCB4_COMM_MOV,
          RCB4_COMM_AND, RCB4_COMM_OR, RCB4_COMM_XOR, RCB4_COMM_NOT, RCB4_COMM_SHIFT,
          RCB4_COMM_ADD, RCB4_COMM_SUB, RCB4_COMM_MUL, RCB4_COMM_DIV, RCB4_COMM_MOD,
          RCB4_COMM_ICS, RCB4_COMM_SINGLE, RCB4_COMM_CONST, RCB4_COMM_SERIES,
          RCB4_COMM_SPEED] at *;
         omega))
    | exact Or.inr (Or.inr ⟨ht, rfl⟩)

theorem set_dst_com_code (comm : rcb4_comm)  :
    (legal_dst_com comm.type ∧ (rcb4_command_set_dst_com comm).1 = 0) ∨
      (¬ legal_dst_com comm.type ∧ is_command_type comm.type ∧ (rcb4_command_set_dst_com comm).1 = -2) ∨
      (¬ is_command_type comm.type ∧ (rcb4_command_set_dst_com comm).1 = -1) := by
  unfold rcb4_command_set_dst_com
  rcases member_of_cases comm.type with ⟨ht, hm⟩ | ⟨ht, hm⟩ | ⟨ht, hm⟩ | ⟨ht, hm⟩ | ⟨ht, hm⟩ |
    ⟨ht, hm⟩ | ⟨ht, hm⟩ | ⟨ht, hm⟩ | ⟨ht, hm⟩ | ⟨ht, hm⟩ | ⟨ht, hm⟩ <;> rw [hm] <;> dsimp only <;>
    first
    | (refine Or.inl ⟨?_, rfl⟩;
        simp only [legal_src_ram, legal_dst_ram, legal_dst, legal_dst_com, legal_do_not_save,
          legal_data_size, has_src, is_logic, is_math, is_command_type, RCB4_COMM_MOV,
          RCB4_COMM_AND, RCB4_COMM_OR, RCB4_COMM_XOR, RCB4_COMM_NOT, RCB4_COMM_SHIFT,
          RCB4_COMM_ADD, RCB4_COMM_SUB, RCB4_COMM_MUL, RCB4_COMM_DIV, RCB4_COMM_MOD,
          RCB4_COMM_ICS, RCB4_COMM_SINGLE, RCB4_COMM_CONST, RCB4_COMM_SERIES,
          RCB4_COMM_SPEED] at *;
        omega)
    | (refine Or.inr (Or.inl ⟨?_, ?_, rfl⟩) <;>
        (simp only [legal_src_ram, legal_dst_ram, legal_dst, legal_dst_com, legal_do_not_save,
          legal_data_size, has_src, is_logic, is_math, is_command_type, RCB4_COMM_MOV,
          RCB4_COMM_AND, RCB4_COMM_OR, RCB4_COMM_XOR, RCB4_COMM_NOT, RCB4_COMM_SHIFT,
          RCB4_COMM_ADD, RCB4_COMM_SUB, RCB4_COMM_MUL, RCB4_COMM_DIV, RCB4_COMM_MOD,
          RCB4_COMM_ICS, RCB4_COMM_SINGLE, RCB4_COMM_CONST, RCB4_COMM_SERIES,
          RCB4_COMM_SPEED] at *;
         omega))
    | exact Or.inr (Or.inr ⟨ht, rfl⟩)

theorem set_dst_rom_code (comm : rcb4_comm) (addr : Nat) (ha : addr ≤ 0x03FFFF) :
    (legal_dst comm.type ∧ (rcb4_command_set_dst_rom comm addr).1 = 0) ∨
      (¬ legal_dst comm.type ∧ is_command_type comm.type ∧ (rcb4_command_set_dst_rom comm addr).1 = -2) ∨
      (¬ is_command_type comm.type ∧ (rcb4_command_set_dst_rom comm addr).1 = -1) := by
  unfold rcb4_command_set_dst_rom
  have h1 : ¬ (addr > RCB4_MAX_ROM_ADDRESS) := by
    simp only [RCB4_COMM_MESSAGE_SIZE_ALLOWED, RCB4_ICS_QTY, COMM_LITERAL_MAX_LEN, RCB4_MAX_ROM_ADDRESS, RCB4_MAX_RAM_ADDRESS, RCB4_MAX_ICS_SRC_SIZE]; omega
  rw [if_neg h1]
  rcases member_of_cases comm.type with ⟨ht, hm⟩ | ⟨ht, hm⟩ | ⟨ht, hm⟩ | ⟨ht, hm⟩ | ⟨ht, hm⟩ |
    ⟨ht, hm⟩ | ⟨ht, hm⟩ | ⟨ht, hm⟩ | ⟨ht, hm⟩ | ⟨ht, hm⟩ | ⟨ht, hm⟩ <;> rw [hm] <;> dsimp only <;>
    first
    | (refine Or.inl ⟨?_, rfl⟩;
        simp only [legal_src_ram, legal_dst_ram, legal_dst, legal_dst_com, legal_do_not_save,
          legal_data_size, has_src, is_logic, is_math, is_command_type, RCB4_COMM_MOV,
          RCB4_COMM_AND, RCB4_COMM_OR, RCB4_COMM_XOR, RCB4_COMM_NOT, RCB4_COMM_SHIFT,
          RCB4_COMM_ADD, RCB4_COMM_SUB, RCB4_COMM_MUL, RCB4_COMM_DIV, RCB4_COMM_MOD,
          RCB4_COMM_ICS, RCB4_COMM_SINGLE, RCB4_COMM_CONST, RCB4_COMM_SERIES,
          RCB4_COMM_SPEED] at *;
        omega)
    | (refine Or.inr (Or.inl ⟨?_, ?_, rfl⟩) <;>
        (simp only [legal_src_ram, legal_dst_ram, legal_dst, legal_dst_com, legal_do_not_save,
          legal_data_size, has_src, is_logic, is_math, is_command_type, RCB4_COMM_MOV,
          RCB4_COMM_AND, RCB4_COMM_OR, RCB4_COMM_XOR, RCB4_COMM_NOT, RCB4_COMM_SHIFT,
          RCB4_COMM_ADD, RCB4_COMM_SUB, RCB4_COMM_MUL, RCB4_COMM_DIV, RCB4_COMM_MOD,
          RCB4_COMM_ICS, RCB4_COMM_SINGLE, RCB4_COMM_CONST, RCB4_COMM_SERIES,
          RCB4_COMM_SPEED] at *;
         omega))
    | exact Or.inr (Or.inr ⟨ht, rfl⟩)

theorem set_dst_do_not_save_code (comm : rcb4_comm)  :
    (legal_do_not_save comm.type ∧ (rcb4_command_set_dst_do_not_save comm).1 = 0) ∨
      (¬ legal_do_not_save comm.type ∧ is_command_type comm.type ∧ (rcb4_command_set_dst_do_not_save comm).1 = -2) ∨
      (¬ is_command_type comm.type ∧ (rcb4_command_set_dst_do_not_save comm).1 = -1) := by
  unfold rcb4_command_set_dst_do_not_save
  rcases member_of_cases comm.type with ⟨ht, hm⟩ | ⟨ht, hm⟩ | ⟨ht, hm⟩ | ⟨ht, hm⟩ | ⟨ht, hm⟩ |
    ⟨ht, hm⟩ | ⟨ht, hm⟩ | ⟨ht, hm⟩ | ⟨ht, hm⟩ | ⟨ht, hm⟩ | ⟨ht, hm⟩ <;> rw [hm] <;> dsimp only <;>
    first
    | (refine Or.inl ⟨?_, rfl⟩;
        simp only [legal_src_ram, legal_dst_ram, legal_dst, legal_dst_com, legal_do_not_save,
          legal_data_size, has_src, is_logic, is_math, is_command_type, RCB4_COMM_MOV,
          RCB4_COMM_AND, RCB4_COMM_OR, RCB4_COMM_XOR, RCB4_COMM_NOT, RCB4_COMM_SHIFT,
          RCB4_COMM_ADD, RCB4_COMM_SUB, RCB4_COMM_MUL, RCB4_COMM_DIV, RCB4_COMM_MOD,
          RCB4_COMM_ICS, RCB4_COMM_SINGLE, RCB4_COMM_CONST, RCB4_COMM_SERIES,
          RCB4_COMM_SPEED] at *;
        omega)
    | (refine Or.inr (Or.inl ⟨?_, ?_, rfl⟩) <;>
        (simp only [legal_src_ram, legal_dst_ram, legal_dst, legal_dst_com, legal_do_not_save,
          legal_data_size, has_src, is_logic, is_math, is_command_type, RCB4_COMM_MOV,
          RCB4_COMM_AND, RCB4_COMM_OR, RCB4_COMM_XOR, RCB4_COMM_NOT, RCB4_COMM_SHIFT,
          RCB4_COMM_ADD, RCB4_COMM_SUB, RCB4_COMM_MUL, RCB4_COMM_DIV, RCB4_COMM_MOD,
          RCB4_COMM_ICS, RCB4_COMM_SINGLE, RCB4_COMM_CONST, RCB4_COMM_SERIES,
          RCB4_COMM_SPEED] at *;
         omega))
    | exact Or.inr (Or.inr ⟨ht, rfl⟩)

theorem set_src_ram_code (comm : rcb4_comm) (addr size : Nat) (hs1 : 1 ≤ size)
    (hs2 : size ≤ 118) (ha : addr ≤ 0x048F) :
    (has_src comm.type ∧ (rcb4_command_set_src_ram comm addr size).1 = 0) ∨
      (comm.type = RCB4_COMM_ICS ∧ size ≤ 64 ∧
        (rcb4_command_set_src_ram comm addr size).1 = 0) ∨
      (comm.type = RCB4_COMM_ICS ∧ 64 < size ∧
        (rcb4_command_set_src_ram comm addr size).1 = -1) ∨
      (¬ legal_src_ram comm.type ∧ is_command_type comm.type ∧
        (rcb4_command_set_src_ram comm addr size).1 = -2) ∨
      (¬ is_command_type comm.type ∧ (rcb4_command_set_src_ram comm addr size).1 = -1) := by
  unfold rcb4_command_set_src_ram
  have h1 : ¬ (size = 0 ∨ size > RCB4_COMM_MESSAGE_SIZE_ALLOWED - 10) := by
    simp only [RCB4_COMM_MESSAGE_SIZE_ALLOWED]; omega
  have h2 : ¬ (addr > RCB4_MAX_RAM_ADDRESS) := by
    simp only [RCB4_MAX_RAM_ADDRESS]; omega
  rw [if_neg h1, if_neg h2]
  rcases member_of_cases comm.type with ⟨ht, hm⟩ | ⟨ht, hm⟩ | ⟨ht, hm⟩ | ⟨ht, hm⟩ | ⟨ht, hm⟩ |
    ⟨ht, hm⟩ | ⟨ht, hm⟩ | ⟨ht, hm⟩ | ⟨ht, hm⟩ | ⟨ht, hm⟩ | ⟨ht, hm⟩ <;> rw [hm] <;> dsimp only
  · exact Or.inl ⟨Or.inl ht, rfl⟩
  · exact Or.inl ⟨Or.inr (Or.inl ht), rfl⟩
  · refine Or.inr (Or.inr (Or.inr (Or.inl ⟨?_, ?_, rfl⟩))) <;>
    · simp only [legal_src_ram, legal_dst_ram, legal_dst, legal_dst_com, legal_do_not_save,
          legal_data_size, has_src, is_logic, is_math, is_command_type, RCB4_COMM_MOV,
          RCB4_COMM_AND, RCB4_COMM_OR, RCB4_COMM_XOR, RCB4_COMM_NOT, RCB4_COMM_SHIFT,
          RCB4_COMM_ADD, RCB4_COMM_SUB, RCB4_COMM_MUL, RCB4_COMM_DIV, RCB4_COMM_MOD,
          RCB4_COMM_ICS, RCB4_COMM_SINGLE, RCB4_COMM_CONST, RCB4_COMM_SERIES,
          RCB4_COMM_SPEED] at *
      omega
  · refine Or.inr (Or.inr (Or.inr (Or.inl ⟨?_, ?_, rfl⟩))) <;>
    · simp only [legal_src_ram, legal_dst_ram, legal_dst, legal_dst_com, legal_do_not_save,
          legal_data_size, has_src, is_logic, is_math, is_command_type, RCB4_COMM_MOV,
          RCB4_COMM_AND, RCB4_COMM_OR, RCB4_COMM_XOR, RCB4_COMM_NOT, RCB4_COMM_SHIFT,
          RCB4_COMM_ADD, RCB4_COMM_SUB, RCB4_COMM_MUL, RCB4_COMM_DIV, RCB4_COMM_MOD,
          RCB4_COMM_ICS, RCB4_COMM_SINGLE, RCB4_COMM_CONST, RCB4_COMM_SERIES,
          RCB4_COMM_SPEED] at *
      omega
  · exact Or.inl ⟨Or.inr (Or.inr ht), rfl⟩
  · by_cases h3 : size > RCB4_MAX_ICS_SRC_SIZE
    · rw [if_pos h3]
      exact Or.inr (Or.inr (Or.inl ⟨ht, h3, rfl⟩))
    · rw [if_neg h3]
      exact Or.inr (Or.inl ⟨ht, Nat.le_of_not_lt h3, rfl⟩)
  · refine Or.inr (Or.inr (Or.inr (Or.inl ⟨?_, ?_, rfl⟩))) <;>
    · simp only [legal_src_ram, legal_dst_ram, legal_dst, legal_dst_com, legal_do_not_save,
          legal_data_size, has_src, is_logic, is_math, is_command_type, RCB4_COMM_MOV,
          RCB4_COMM_AND, RCB4_COMM_OR, RCB4_COMM_XOR, RCB4_COMM_NOT, RCB4_COMM_SHIFT,
          RCB4_COMM_ADD, RCB4_COMM_SUB, RCB4_COMM_MUL, RCB4_COMM_DIV, RCB4_COMM_MOD,
          RCB4_COMM_ICS, RCB4_COMM_SINGLE, RCB4_COMM_CONST, RCB4_COMM_SERIES,
          RCB4_COMM_SPEED] at *
      omega
  · refine Or.inr (Or.inr (Or.inr (Or.inl ⟨?_, ?_, rfl⟩))) <;>
    · simp only [legal_src_ram, legal_dst_ram, legal_dst, legal_dst_com, legal_do_not_save,
          legal_data_size, has_src, is_logic, is_math, is_command_type, RCB4_COMM_MOV,
          RCB4_COMM_AND, RCB4_COMM_OR, RCB4_COMM_XOR, RCB4_COMM_NOT, RCB4_COMM_SHIFT,
          RCB4_COMM_ADD, RCB4_COMM_SUB, RCB4_COMM_MUL, RCB4_COMM_DIV, RCB4_COMM_MOD,
          RCB4_COMM_ICS, RCB4_COMM_SINGLE, RCB4_COMM_CONST, RCB4_COMM_SERIES,
          RCB4_COMM_SPEED] at *
      omega
  · refine Or.inr (Or.inr (Or.inr (Or.inl ⟨?_, ?_, rfl⟩))) <;>
    · simp only [legal_src_ram, legal_dst_ram, legal_dst, legal_dst_com, legal_do_not_save,
          legal_data_size, has_src, is_logic, is_math, is_command_type, RCB4_COMM_MOV,
          RCB4_COMM_AND, RCB4_COMM_OR, RCB4_COMM_XOR, RCB4_COMM_NOT, RCB4_COMM_SHIFT,
          RCB4_COMM_ADD, RCB4_COMM_SUB, RCB4_COMM_MUL, RCB4_COMM_DIV, RCB4_COMM_MOD,
          RCB4_COMM_ICS, RCB4_COMM_SINGLE, RCB4_COMM_CONST, RCB4_COMM_SERIES,
          RCB4_COMM_SPEED] at *
      omega
  · refine Or.inr (Or.inr (Or.inr (Or.inl ⟨?_, ?_, rfl⟩))) <;>
    · simp only [legal_src_ram, legal_dst_ram, legal_dst, legal_dst_com, legal_do_not_save,
          legal_data_size, has_src, is_logic, is_math, is_command_type, RCB4_COMM_MOV,
          RCB4_COMM_AND, RCB4_COMM_OR, RCB4_COMM_XOR, RCB4_COMM_NOT, RCB4_COMM_SHIFT,
          RCB4_COMM_ADD, RCB4_COMM_SUB, RCB4_COMM_MUL, RCB4_COMM_DIV, RCB4_COMM_MOD,
          RCB4_COMM_ICS, RCB4_COMM_SINGLE, RCB4_COMM_CONST, RCB4_COMM_SERIES,
          RCB4_COMM_SPEED] at *
      omega
  · exact Or.inr (Or.inr (Or.inr (Or.inr ⟨ht, rfl⟩)))


theorem set_src_ics_success (comm : rcb4_comm) (offset ics size : Nat) (h : (rcb4_command_set_src_ics comm offset ics size).1 = 0) :
    has_src comm.type ∧ 1 ≤ size ∧ size ≤ 128 ∧ 1 ≤ ics ∧ ics ≤ 36 := by
  by_cases hp : 1 ≤ size ∧ size ≤ 128 ∧ 1 ≤ ics ∧ ics ≤ 36
  · rcases set_src_ics_code comm offset ics size hp.1 hp.2.1 hp.2.2.1 hp.2.2.2 with ⟨hl, _⟩ | ⟨_, _, hc⟩ | ⟨_, hc⟩
    · exact ⟨hl, hp⟩
    · rw [hc] at h; exact absurd h int_neg_two_ne_zero
    · rw [hc] at h; exact absurd h int_neg_one_ne_zero
  · exfalso
    unfold rcb4_command_set_src_ics at h
    by_cases c1 : size = 0 ∨ size > RCB4_COMM_MESSAGE_SIZE_ALLOWED
    · rw [if_pos c1] at h; exact int_neg_one_ne_zero h
    rw [if_neg c1] at h
    have c2 : ics = 0 ∨ ics > RCB4_ICS_QTY := by
      simp only [RCB4_COMM_MESSAGE_SIZE_ALLOWED, RCB4_ICS_QTY, COMM_LITERAL_MAX_LEN, RCB4_MAX_ROM_ADDRESS, RCB4_MAX_RAM_ADDRESS, RCB4_MAX_ICS_SRC_SIZE] at *; omega
    rw [if_pos c2] at h; exact int_neg_one_ne_zero h

theorem set_src_literal_success (comm : rcb4_comm) (literal : List Nat) (length : Nat) (h : (rcb4_command_set_src_literal comm literal length).1 = 0) :
    has_src comm.type ∧ 1 ≤ length ∧ length ≤ 120 := by
  by_cases hp : 1 ≤ length ∧ length ≤ 120
  · rcases set_src_literal_code comm literal length hp.1 hp.2 with ⟨hl, _⟩ | ⟨_, _, hc⟩ | ⟨_, hc⟩
    · exact ⟨hl, hp⟩
    · rw [hc] at h; exact absurd h int_neg_two_ne_zero
    · rw [hc] at h; exact absurd h int_neg_one_ne_zero
  · exfalso
    unfold rcb4_command_set_src_literal at h
    have c1 : length = 0 ∨ length ≥ COMM_LITERAL_MAX_LEN := by
      simp only [RCB4_COMM_MESSAGE_SIZE_ALLOWED, RCB4_ICS_QTY, COMM_LITERAL_MAX_LEN, RCB4_MAX_ROM_ADDRESS, RCB4_MAX_RAM_ADDRESS, RCB4_MAX_ICS_SRC_SIZE] at *; omega
    rw [if_pos c1] at h; exact int_neg_one_ne_zero h

theorem set_src_rom_success (comm : rcb4_comm) (addr size : Nat) (h : (rcb4_command_set_src_rom comm addr size).1 = 0) :
    has_src comm.type ∧ 1 ≤ size ∧ size ≤ 128 ∧ addr ≤ 0x03FFFF := by
  by_cases hp : 1 ≤ size ∧ size ≤ 128 ∧ addr ≤ 0x03FFFF
  · rcases set_src_rom_code comm addr size hp.1 hp.2.1 hp.2.2 with ⟨hl, _⟩ | ⟨_, _, hc⟩ | ⟨_, hc⟩
    · exact ⟨hl, hp⟩
    · rw [hc] at h; exact absurd h int_neg_two_ne_zero
    · rw [hc] at h; exact absurd h int_neg_one_ne_zero
  · exfalso
    unfold rcb4_command_set_src_rom at h
    by_cases c1 : size = 0 ∨ size > RCB4_COMM_MESSAGE_SIZE_ALLOWED
    · rw [if_pos c1] at h; exact int_neg_one_ne_zero h
    rw [if_neg c1] at h
    have c2 : addr > RCB4_MAX_ROM_ADDRESS := by
      simp only [RCB4_COMM_MESSAGE_SIZE_ALLOWED, RCB4_ICS_QTY, COMM_LITERAL_MAX_LEN, RCB4_MAX_ROM_ADDRESS, RCB4_MAX_RAM_ADDRESS, RCB4_MAX_ICS_SRC_SIZE] at *; omega
    rw [if_pos c2] at h; exact int_neg_one_ne_zero h

theorem set_dst_ram_success (comm : rcb4_comm) (addr : Nat) (h : (rcb4_command_set_dst_ram comm addr).1 = 0) :
    legal_dst_ram comm.type ∧ addr ≤ 0x048F := by
  by_cases hp : addr ≤ 0x048F
  · rcases set_dst_ram_code comm addr hp with ⟨hl, _⟩ | ⟨_, _, hc⟩ | ⟨_, hc⟩
    · exact ⟨hl, hp⟩
    · rw [hc] at h; exact absurd h int_neg_two_ne_zero
    · rw [hc] at h; exact absurd h int_neg_one_ne_zero
  · exfalso
    unfold rcb4_command_set_dst_ram at h
    have c1 : addr > RCB4_MAX_RAM_ADDRESS := by
      simp only [RCB4_COMM_MESSAGE_SIZE_ALLOWED, RCB4_ICS_QTY, COMM_LITERAL_MAX_LEN, RCB4_MAX_ROM_ADDRESS, RCB4_MAX_RAM_ADDRESS, RCB4_MAX_ICS_SRC_SIZE] at *; omega
    rw [if_pos c1] at h; exact int_neg_one_ne_zero h

theorem set_dst_ics_success (comm : rcb4_comm) (offset ics : Nat) (h : (rcb4_command_set_dst_ics comm offset ics).1 = 0) :
    legal_dst comm.type ∧ 1 ≤ ics ∧ ics ≤ 36 := by
  by_cases hp : 1 ≤ ics ∧ ics ≤ 36
  · rcases set_dst_ics_code comm offset ics hp.1 hp.2 with ⟨hl, _⟩ | ⟨_, _, hc⟩ | ⟨_, hc⟩
    · exact ⟨hl, hp⟩
    · rw [hc] at h; exact absurd h int_neg_two_ne_zero
    · rw [hc] at h; exact absurd h int_neg_one_ne_zero
  · exfalso
    unfold rcb4_command_set_dst_ics at h
    have c1 : ics = 0 ∨ ics > RCB4_ICS_QTY := by
      simp only [RCB4_COMM_MESSAGE_SIZE_ALLOWED, RCB4_ICS_QTY, COMM_LITERAL_MAX_LEN, RCB4_MAX_ROM_ADDRESS, RCB4_MAX_RAM_ADDRESS, RCB4_MAX_ICS_SRC_SIZE] at *; omega
    rw [if_pos c1] at h; exact int_neg_one_ne_zero h

theorem set_dst_com_success (comm : rcb4_comm) (h : (rcb4_command_set_dst_com comm).1 = 0) :
    legal_dst_com comm.type := by
  rcases set_dst_com_code comm with ⟨hl, _⟩ | ⟨_, _, hc⟩ | ⟨_, hc⟩
  · exact hl
  · rw [hc] at h; exact absurd h int_neg_two_ne_zero
  · rw [hc] at h; exact absurd h int_neg_one_ne_zero

theorem set_dst_rom_success (comm : rcb4_comm) (addr : Nat) (h : (rcb4_command_set_dst_rom comm addr).1 = 0) :
    legal_dst comm.type ∧ addr ≤ 0x03FFFF := by
  by_cases hp : addr ≤ 0x03FFFF
  · rcases set_dst_rom_code comm addr hp with ⟨hl, _⟩ | ⟨_, _, hc⟩ | ⟨_, hc⟩
    · exact ⟨hl, hp⟩
    · rw [hc] at h; exact absurd h int_neg_two_ne_zero
    · rw [hc] at h; exact absurd h int_neg_one_ne_zero
  · exfalso
    unfold rcb4_command_set_dst_rom at h
    have c1 : addr > RCB4_MAX_ROM_ADDRESS := by
      simp only [RCB4_COMM_MESSAGE_SIZE_ALLOWED, RCB4_ICS_QTY, COMM_LITERAL_MAX_LEN, RCB4_MAX_ROM_ADDRESS, RCB4_MAX_RAM_ADDRESS, RCB4_MAX_ICS_SRC_SIZE] at *; omega
    rw [if_pos c1] at h; exact int_neg_one_ne_zero h

theorem set_dst_do_not_save_success (comm : rcb4_comm) (h : (rcb4_command_set_dst_do_not_save comm).1 = 0) :
    legal_do_not_save comm.type := by
  rcases set_dst_do_not_save_code comm with ⟨hl, _⟩ | ⟨_, _, hc⟩ | ⟨_, hc⟩
  · exact hl
  · rw [hc] at h; exact absurd h int_neg_two_ne_zero
  · rw [hc] at h; exact absurd h int_neg_one_ne_zero

theorem set_src_ram_success (comm : rcb4_comm) (addr size : Nat)
    (h : (rcb4_command_set_src_ram comm addr size).1 = 0) :
    (has_src comm.type ∨ (comm.type = RCB4_COMM_ICS ∧ size ≤ 64)) ∧
      1 ≤ size ∧ size ≤ 118 ∧ addr ≤ 0x048F := by
  by_cases hp : 1 ≤ size ∧ size ≤ 118 ∧ addr ≤ 0x048F
  · rcases set_src_ram_code comm addr size hp.1 hp.2.1 hp.2.2 with
      ⟨hl, _⟩ | ⟨ht, hs, _⟩ | ⟨_, _, hc⟩ | ⟨_, _, hc⟩ | ⟨_, hc⟩
    · exact ⟨Or.inl hl, hp⟩
    · exact ⟨Or.inr ⟨ht, hs⟩, hp⟩
    · rw [hc] at h; exact absurd h int_neg_one_ne_zero
    · rw [hc] at h; exact absurd h int_neg_two_ne_zero
    · rw [hc] at h; exact absurd h int_neg_one_ne_zero
  · exfalso
    unfold rcb4_command_set_src_ram at h
    by_cases c1 : size = 0 ∨ size > RCB4_COMM_MESSAGE_SIZE_ALLOWED - 10
    · rw [if_pos c1] at h; exact int_neg_one_ne_zero h
    rw [if_neg c1] at h
    have c2 : addr > RCB4_MAX_RAM_ADDRESS := by
      simp only [RCB4_COMM_MESSAGE_SIZE_ALLOWED, RCB4_MAX_RAM_ADDRESS] at *; omega
    rw [if_pos c2] at h; exact int_neg_one_ne_zero h


/-! ## Setters called on an opcode they are not legal for -/

theorem set_shift_left_illegal (comm : rcb4_comm) (h : comm.type ≠ RCB4_COMM_SHIFT)
    (shifts : Nat) : (rcb4_command_set_shift_left comm shifts).1 = -1 := by
  unfold rcb4_command_set_shift_left
  rw [if_pos h]

theorem set_shift_right_illegal (comm : rcb4_comm) (h : comm.type ≠ RCB4_COMM_SHIFT)
    (shifts : Nat) : (rcb4_command_set_shift_right comm shifts).1 = -1 := by
  unfold rcb4_command_set_shift_right
  rw [if_pos h]

theorem set_ics_illegal (comm : rcb4_comm) (h : comm.type ≠ RCB4_COMM_ICS) (ics : Nat) :
    (rcb4_command_set_ics comm ics).1 = -1 := by
  unfold rcb4_command_set_ics
  rw [if_neg h]

theorem set_speed_illegal (comm : rcb4_comm) (h : comm.type ≠ RCB4_COMM_CONST) (speed : Nat) :
    (rcb4_command_set_speed comm speed).1 = -1 := by
  unfold rcb4_command_set_speed
  by_cases h0 : speed = 0
  · rw [if_pos h0]
  · rw [if_neg h0]; dsimp only; rw [if_neg h]

theorem set_servo_illegal (comm : rcb4_comm) (h : ¬ legal_servo comm.type)
    (ics speed position : Nat) : (rcb4_command_set_servo comm ics speed position).1 = -1 := by
  have h1 : ¬ comm.type = RCB4_COMM_SINGLE := fun e => h (Or.inl e)
  have h2 : ¬ comm.type = RCB4_COMM_CONST := fun e => h (Or.inr (Or.inl e))
  have h3 : ¬ comm.type = RCB4_COMM_SERIES := fun e => h (Or.inr (Or.inr e))
  unfold rcb4_command_set_servo
  by_cases c1 : speed = 0 ∧ comm.type ≠ RCB4_COMM_CONST
  · rw [if_pos c1]
  rw [if_neg c1]
  by_cases c2 : ics = 0 ∨ ics > RCB4_ICS_QTY
  · rw [if_pos c2]
  rw [if_neg c2]
  dsimp only
  rw [if_neg h1, if_neg h2, if_neg h3]

theorem set_data_size_illegal (comm : rcb4_comm) (h : ¬ legal_data_size comm.type)
    (size : Nat) : (rcb4_command_set_data_size comm size).1 = -1 := by
  unfold rcb4_command_set_data_size
  by_cases c1 : size = 0 ∨ size > 128
  · rw [if_pos c1]
  rw [if_neg c1]
  rcases member_of_cases comm.type with ⟨ht, hm⟩ | ⟨ht, hm⟩ | ⟨ht, hm⟩ | ⟨ht, hm⟩ | ⟨ht, hm⟩ |
    ⟨ht, hm⟩ | ⟨ht, hm⟩ | ⟨ht, hm⟩ | ⟨ht, hm⟩ | ⟨ht, hm⟩ | ⟨ht, hm⟩ <;> rw [hm] <;> dsimp only <;>
    first
    | rfl
    | (exfalso; apply h;
        simp only [legal_data_size, has_src, is_logic, is_math, is_command_type, RCB4_COMM_MOV,
          RCB4_COMM_AND, RCB4_COMM_OR, RCB4_COMM_XOR, RCB4_COMM_NOT, RCB4_COMM_SHIFT,
          RCB4_COMM_ADD, RCB4_COMM_SUB, RCB4_COMM_MUL, RCB4_COMM_DIV, RCB4_COMM_MOD,
          RCB4_COMM_ICS, RCB4_COMM_SINGLE, RCB4_COMM_CONST, RCB4_COMM_SERIES,
          RCB4_COMM_SPEED] at *;
        omega)

/-! ### Arguments out of range

The parameter checks come before the `switch` on the opcode, so an argument
out of range gives -1 on every opcode. -/

theorem set_src_ram_out_of_range (comm : rcb4_comm) (addr size : Nat)
    (h : size = 0 ∨ 118 < size ∨ 0x048F < addr) :
    (rcb4_command_set_src_ram comm addr size).1 = -1 := by
  unfold rcb4_command_set_src_ram
  by_cases c1 : size = 0 ∨ size > RCB4_COMM_MESSAGE_SIZE_ALLOWED - 10
  · rw [if_pos c1]
  · have c2 : addr > RCB4_MAX_RAM_ADDRESS := by
      simp only [RCB4_COMM_MESSAGE_SIZE_ALLOWED, RCB4_MAX_RAM_ADDRESS] at *; omega
    rw [if_neg c1, if_pos c2]

theorem set_src_ics_out_of_range (comm : rcb4_comm) (offset ics size : Nat)
    (h : size = 0 ∨ 128 < size ∨ ics = 0 ∨ 36 < ics) :
    (rcb4_command_set_src_ics comm offset ics size).1 = -1 := by
  unfold rcb4_command_set_src_ics
  by_cases c1 : size = 0 ∨ size > RCB4_COMM_MESSAGE_SIZE_ALLOWED
  · rw [if_pos c1]
  · have c2 : ics = 0 ∨ ics > RCB4_ICS_QTY := by
      simp only [RCB4_COMM_MESSAGE_SIZE_ALLOWED, RCB4_ICS_QTY] at *; omega
    rw [if_neg c1, if_pos c2]

theorem set_src_literal_out_of_range (comm : rcb4_comm) (literal : List Nat) (length : Nat)
    (h : length = 0 ∨ 120 < length) :
    (rcb4_command_set_src_literal comm literal length).1 = -1 := by
  unfold rcb4_command_set_src_literal
  have c1 : length = 0 ∨ length ≥ COMM_LITERAL_MAX_LEN := by
    simp only [COMM_LITERAL_MAX_LEN, RCB4_COMM_MESSAGE_SIZE_ALLOWED]; omega
  rw [if_pos c1]

theorem set_src_rom_out_of_range (comm : rcb4_comm) (addr size : Nat)
    (h : size = 0 ∨ 128 < size ∨ 0x03FFFF < addr) :
    (rcb4_command_set_src_rom comm addr size).1 = -1 := by
  unfold rcb4_command_set_src_rom
  by_cases c1 : size = 0 ∨ size > RCB4_COMM_MESSAGE_SIZE_ALLOWED
  · rw [if_pos c1]
  · have c2 : addr > RCB4_MAX_ROM_ADDRESS := by
      simp only [RCB4_COMM_MESSAGE_SIZE_ALLOWED, RCB4_MAX_ROM_ADDRESS] at *; omega
    rw [if_neg c1, if_pos c2]

theorem set_dst_ram_out_of_range (comm : rcb4_comm) (addr : Nat) (h : 0x048F < addr) :
    (rcb4_command_set_dst_ram comm addr).1 = -1 := by
  unfold rcb4_command_set_dst_ram
  have c1 : addr > RCB4_MAX_RAM_ADDRESS := h
  rw [if_pos c1]

theorem set_dst_ics_out_of_range (comm : rcb4_comm) (offset ics : Nat)
    (h : ics = 0 ∨ 36 < ics) : (rcb4_command_set_dst_ics comm offset ics).1 = -1 := by
  unfold rcb4_command_set_dst_ics
  have c1 : ics = 0 ∨ ics > RCB4_ICS_QTY := h
  rw [if_pos c1]

theorem set_dst_rom_out_of_range (comm : rcb4_comm) (addr : Nat) (h : 0x03FFFF < addr) :
    (rcb4_command_set_dst_rom comm addr).1 = -1 := by
  unfold rcb4_command_set_dst_rom
  have c1 : addr > RCB4_MAX_ROM_ADDRESS := h
  rw [if_pos c1]

/-- C9 fails on the code: `set_shift_left` on a MOV message returns -1, the
code it also returns for the out-of-range count 200 on a SHIFT message; and
`set_src_ram` on a NOT message returns -1 for the size 0 and -2 for the size 2. -/
theorem illegal_setter_code_not_distinct :
    (rcb4_command_set_shift_left (created RCB4_COMM_MOV) 5).1 = -1 ∧
      (rcb4_command_set_shift_left (created RCB4_COMM_SHIFT) 200).1 = -1 ∧
      (rcb4_command_set_src_ram (created RCB4_COMM_NOT) 0 0).1 = -1 ∧
      (rcb4_command_set_src_ram (created RCB4_COMM_NOT) 0 2).1 = -2 := by
  refine ⟨?_, ?_, ?_, ?_⟩ <;> decide

/-- C9 as amended: a setter called on an opcode it is not legal for always
fails, whatever its other arguments.  The source and destination setters
return -2 for it when the opcode is one of the sixteen and the other arguments
are in range, and -1 as soon as one argument is out of range (a size of 0 or
above the limit, an address above the last one, a servo id of 0 or above 36):
the arguments are checked first.  The setters of `rcb4_command.c` (shift, data
size, ICS id, speed, servo, stretch) return -1, the code of an invalid
parameter. -/
theorem illegal_setter_fails (comm : rcb4_comm) :
    (¬ legal_src_ram comm.type → ∀ addr size,
      (rcb4_command_set_src_ram comm addr size).1 ≠ 0 ∧
      (1 ≤ size → size ≤ 118 → addr ≤ 0x048F → is_command_type comm.type →
        (rcb4_command_set_src_ram comm addr size).1 = -2) ∧
      ((size = 0 ∨ 118 < size ∨ 0x048F < addr) →
        (rcb4_command_set_src_ram comm addr size).1 = -1)) ∧
    (¬ has_src comm.type → ∀ offset ics size,
      (rcb4_command_set_src_ics comm offset ics size).1 ≠ 0 ∧
      (1 ≤ size → size ≤ 128 → 1 ≤ ics → ics ≤ 36 → is_command_type comm.type →
        (rcb4_command_set_src_ics comm offset ics size).1 = -2) ∧
      ((size = 0 ∨ 128 < size ∨ ics = 0 ∨ 36 < ics) →
        (rcb4_command_set_src_ics comm offset ics size).1 = -1)) ∧
    (¬ has_src comm.type → ∀ literal length,
      (rcb4_command_set_src_literal comm literal length).1 ≠ 0 ∧
      (1 ≤ length → length ≤ 120 → is_command_type comm.type →
        (rcb4_command_set_src_literal comm literal length).1 = -2) ∧
      ((length = 0 ∨ 120 < length) →
        (rcb4_command_set_src_literal comm literal length).1 = -1)) ∧
    (¬ has_src comm.type → ∀ addr size,
      (rcb4_command_set_src_rom comm addr size).1 ≠ 0 ∧
      (1 ≤ size → size ≤ 128 → addr ≤ 0x03FFFF → is_command_type comm.type →
        (rcb4_command_set_src_rom comm addr size).1 = -2) ∧
      ((size = 0 ∨ 128 < size ∨ 0x03FFFF < addr) →
        (rcb4_command_set_src_rom comm addr size).1 = -1)) ∧
    (¬ legal_dst_ram comm.type → ∀ addr,
      (rcb4_command_set_dst_ram comm addr).1 ≠ 0 ∧
      (addr ≤ 0x048F → is_command_type comm.type →
        (rcb4_command_set_dst_ram comm addr).1 = -2) ∧
      (0x048F < addr → (rcb4_command_set_dst_ram comm addr).1 = -1)) ∧
    (¬ legal_dst comm.type → ∀ offset ics,
      (rcb4_command_set_dst_ics comm offset ics).1 ≠ 0 ∧
      (1 ≤ ics → ics ≤ 36 → is_command_type comm.type →
        (rcb4_command_set_dst_ics comm offset ics).1 = -2) ∧
      ((ics = 0 ∨ 36 < ics) → (rcb4_command_set_dst_ics comm offset ics).1 = -1)) ∧
    (¬ legal_dst_com comm.type →
      (rcb4_command_set_dst_com comm).1 ≠ 0 ∧
      (is_command_type comm.type → (rcb4_command_set_dst_com comm).1 = -2)) ∧
    (¬ legal_dst comm.type → ∀ addr,
      (rcb4_command_set_dst_rom comm addr).1 ≠ 0 ∧
      (addr ≤ 0x03FFFF → is_command_type comm.type →
        (rcb4_command_set_dst_rom comm addr).1 = -2) ∧
      (0x03FFFF < addr → (rcb4_command_set_dst_rom comm addr).1 = -1)) ∧
    (¬ legal_do_not_save comm.type →
      (rcb4_command_set_dst_do_not_save comm).1 ≠ 0 ∧
      (is_command_type comm.type → (rcb4_command_set_dst_do_not_save comm).1 = -2)) ∧
    (comm.type ≠ RCB4_COMM_SHIFT → ∀ shifts,
      (rcb4_command_set_shift_left comm shifts).1 = -1 ∧
      (rcb4_command_set_shift_right comm shifts).1 = -1) ∧
    (¬ legal_data_size comm.type → ∀ size, (rcb4_command_set_data_size comm size).1 = -1) ∧
    (comm.type ≠ RCB4_COMM_ICS → ∀ ics, (rcb4_command_set_ics comm ics).1 = -1) ∧
    (comm.type ≠ RCB4_COMM_CONST → ∀ speed, (rcb4_command_set_speed comm speed).1 = -1) ∧
    (¬ legal_servo comm.type → ∀ ics speed position,
      (rcb4_command_set_servo comm ics speed position).1 = -1) ∧
    (∀ stretch, (rcb4_command_set_stretch comm stretch).1 = -1) := by
  refine ⟨?_, ?_, ?_, ?_, ?_, ?_, ?_, ?_, ?_, ?_, ?_, ?_, ?_, ?_, ?_⟩
  · intro hl addr size
    refine ⟨fun h => hl ?_, fun h1 h2 h3 hk => ?_, set_src_ram_out_of_range comm addr size⟩
    · rcases (set_src_ram_success comm addr size h).1 with hh | ⟨hh, _⟩
      · exact Or.inl hh
      · exact Or.inr hh
    · rcases set_src_ram_code comm addr size h1 h2 h3 with
        ⟨hh, _⟩ | ⟨hh, _, _⟩ | ⟨hh, _, _⟩ | ⟨_, _, hc⟩ | ⟨hh, _⟩
      · exact absurd (Or.inl hh) hl
      · exact absurd (Or.inr hh) hl
      · exact absurd (Or.inr hh) hl
      · exact hc
      · exact absurd hk hh
  · intro hl offset ics size
    refine ⟨fun h => hl (set_src_ics_success comm offset ics size h).1,
      fun h1 h2 h3 h4 hk => ?_, set_src_ics_out_of_range comm offset ics size⟩
    rcases set_src_ics_code comm offset ics size h1 h2 h3 h4 with ⟨hh, _⟩ | ⟨_, _, hc⟩ | ⟨hh, _⟩
    · exact absurd hh hl
    · exact hc
    · exact absurd hk hh
  · intro hl literal length
    refine ⟨fun h => hl (set_src_literal_success comm literal length h).1,
      fun h1 h2 hk => ?_, set_src_literal_out_of_range comm literal length⟩
    rcases set_src_literal_code comm literal length h1 h2 with ⟨hh, _⟩ | ⟨_, _, hc⟩ | ⟨hh, _⟩
    · exact absurd hh hl
    · exact hc
    · exact absurd hk hh
  · intro hl addr size
    refine ⟨fun h => hl (set_src_rom_success comm addr size h).1, fun h1 h2 h3 hk => ?_,
      set_src_rom_out_of_range comm addr size⟩
    rcases set_src_rom_code comm addr size h1 h2 h3 with ⟨hh, _⟩ | ⟨_, _, hc⟩ | ⟨hh, _⟩
    · exact absurd hh hl
    · exact hc
    · exact absurd hk hh
  · intro hl addr
    refine ⟨fun h => hl (set_dst_ram_success comm addr h).1, fun h1 hk => ?_,
      set_dst_ram_out_of_range comm addr⟩
    rcases set_dst_ram_code comm addr h1 with ⟨hh, _⟩ | ⟨_, _, hc⟩ | ⟨hh, _⟩
    · exact absurd hh hl
    · exact hc
    · exact absurd hk hh
  · intro hl offset ics
    refine ⟨fun h => hl (set_dst_ics_success comm offset ics h).1, fun h1 h2 hk => ?_,
      set_dst_ics_out_of_range comm offset ics⟩
    rcases set_dst_ics_code comm offset ics h1 h2 with ⟨hh, _⟩ | ⟨_, _, hc⟩ | ⟨hh, _⟩
    · exact absurd hh hl
    · exact hc
    · exact absurd hk hh
  · intro hl
    refine ⟨fun h => hl (set_dst_com_success comm h), fun hk => ?_⟩
    rcases set_dst_com_code comm with ⟨hh, _⟩ | ⟨_, _, hc⟩ | ⟨hh, _⟩
    · exact absurd hh hl
    · exact hc
    · exact absurd hk hh
  · intro hl addr
    refine ⟨fun h => hl (set_dst_rom_success comm addr h).1, fun h1 hk => ?_,
      set_dst_rom_out_of_range comm addr⟩
    rcases set_dst_rom_code comm addr h1 with ⟨hh, _⟩ | ⟨_, _, hc⟩ | ⟨hh, _⟩
    · exact absurd hh hl
    · exact hc
    · exact absurd hk hh
  · intro hl
    refine ⟨fun h => hl (set_dst_do_not_save_success comm h), fun hk => ?_⟩
    rcases set_dst_do_not_save_code comm with ⟨hh, _⟩ | ⟨_, _, hc⟩ | ⟨hh, _⟩
    · exact absurd hh hl
    · exact hc
    · exact absurd hk hh
  · intro h shifts
    exact ⟨set_shift_left_illegal comm h shifts, set_shift_right_illegal comm h shifts⟩
  · exact set_data_size_illegal comm
  · exact set_ics_illegal comm
  · exact set_speed_illegal comm
  · exact set_servo_illegal comm
  · intro _; rfl

theorem illegal_setter_fails_witness :
    ¬ legal_src_ram (created RCB4_COMM_NOT).type ∧
      (rcb4_command_set_src_ram (created RCB4_COMM_NOT) 0x0490 0).1 ≠ 0 ∧
      (rcb4_command_set_src_ram (created RCB4_COMM_NOT) 0 2).1 = -2 ∧
      (rcb4_command_set_src_ram (created RCB4_COMM_NOT) 0x0490 2).1 = -1 ∧
      (rcb4_command_set_speed (created RCB4_COMM_NOT) 0).1 = -1 :=
  ⟨by decide,
    ((illegal_setter_fails (created RCB4_COMM_NOT)).1 (by decide) 0x0490 0).1,
    ((illegal_setter_fails (created RCB4_COMM_NOT)).1 (by decide) 0 2).2.1
      (by decide) (by decide) (by decide) (by decide),
    ((illegal_setter_fails (created RCB4_COMM_NOT)).1 (by decide) 0x0490 2).2.2
      (Or.inr (Or.inr (by decide))),
    (illegal_setter_fails (created RCB4_COMM_NOT)).2.2.2.2.2.2.2.2.2.2.2.2.1 (by decide) 0⟩

/-! ## Where the source setters succeed -/

theorem has_src_is_command_type (t : Nat) (h : has_src t) : is_command_type t := by
  simp only [has_src, is_logic, is_math, is_command_type, RCB4_COMM_MOV,
    RCB4_COMM_AND, RCB4_COMM_OR, RCB4_COMM_XOR, RCB4_COMM_NOT, RCB4_COMM_SHIFT,
    RCB4_COMM_ADD, RCB4_COMM_SUB, RCB4_COMM_MUL, RCB4_COMM_DIV, RCB4_COMM_MOD,
    RCB4_COMM_ICS, RCB4_COMM_SINGLE, RCB4_COMM_CONST, RCB4_COMM_SERIES,
    RCB4_COMM_SPEED] at *
  omega

theorem not_legal_src_ram_of_rest (t : Nat)
    (h : t = RCB4_COMM_NOT ∨ t = RCB4_COMM_SHIFT ∨ t = RCB4_COMM_SINGLE ∨
      t = RCB4_COMM_CONST ∨ t = RCB4_COMM_SERIES ∨ t = RCB4_COMM_SPEED) :
    ¬ legal_src_ram t := by
  simp only [legal_src_ram, has_src, is_logic, is_math, RCB4_COMM_MOV,
    RCB4_COMM_AND, RCB4_COMM_OR, RCB4_COMM_XOR, RCB4_COMM_NOT, RCB4_COMM_SHIFT,
    RCB4_COMM_ADD, RCB4_COMM_SUB, RCB4_COMM_MUL, RCB4_COMM_DIV, RCB4_COMM_MOD,
    RCB4_COMM_ICS, RCB4_COMM_SINGLE, RCB4_COMM_CONST, RCB4_COMM_SERIES,
    RCB4_COMM_SPEED] at *
  omega

/-- C10: with arguments in the accepted ranges, `set_src_ics`,
`set_src_literal` and `set_src_rom` succeed exactly on MOV, the logic opcodes
and the arithmetic opcodes, and `set_src_ram` succeeds exactly on those and on
ICS (there for a size up to 64); on NOT, SHIFT, SINGLE, CONST, SERIES and
SPEED all four fail, whatever the arguments. -/
theorem source_setters_succeed_iff (comm : rcb4_comm) :
    (∀ offset ics size, 1 ≤ size → size ≤ 128 → 1 ≤ ics → ics ≤ 36 →
      ((rcb4_command_set_src_ics comm offset ics size).1 = 0 ↔ has_src comm.type)) ∧
    (∀ literal length, 1 ≤ length → length ≤ 120 →
      ((rcb4_command_set_src_literal comm literal length).1 = 0 ↔ has_src comm.type)) ∧
    (∀ addr size, 1 ≤ size → size ≤ 128 → addr ≤ 0x03FFFF →
      ((rcb4_command_set_src_rom comm addr size).1 = 0 ↔ has_src comm.type)) ∧
    (∀ addr size, 1 ≤ size → size ≤ 118 → addr ≤ 0x048F →
      ((rcb4_command_set_src_ram comm addr size).1 = 0 ↔
        (has_src comm.type ∨ (comm.type = RCB4_COMM_ICS ∧ size ≤ 64)))) ∧
    ((comm.type = RCB4_COMM_NOT ∨ comm.type = RCB4_COMM_SHIFT ∨
        comm.type = RCB4_COMM_SINGLE ∨ comm.type = RCB4_COMM_CONST ∨
        comm.type = RCB4_COMM_SERIES ∨ comm.type = RCB4_COMM_SPEED) →
      (∀ addr size, (rcb4_command_set_src_ram comm addr size).1 ≠ 0) ∧
      (∀ offset ics size, (rcb4_command_set_src_ics comm offset ics size).1 ≠ 0) ∧
      (∀ literal length, (rcb4_command_set_src_literal comm literal length).1 ≠ 0) ∧
      (∀ addr size, (rcb4_command_set_src_rom comm addr size).1 ≠ 0)) := by
  refine ⟨?_, ?_, ?_, ?_, ?_⟩
  · intro offset ics size h1 h2 h3 h4
    refine ⟨fun h => (set_src_ics_success comm offset ics size h).1, fun hs => ?_⟩
    rcases set_src_ics_code comm offset ics size h1 h2 h3 h4 with ⟨_, hc⟩ | ⟨hh, _, _⟩ | ⟨hh, _⟩
    · exact hc
    · exact absurd hs hh
    · exact absurd (has_src_is_command_type _ hs) hh
  · intro literal length h1 h2
    refine ⟨fun h => (set_src_literal_success comm literal length h).1, fun hs => ?_⟩
    rcases set_src_literal_code comm literal length h1 h2 with ⟨_, hc⟩ | ⟨hh, _, _⟩ | ⟨hh, _⟩
    · exact hc
    · exact absurd hs hh
    · exact absurd (has_src_is_command_type _ hs) hh
  · intro addr size h1 h2 h3
    refine ⟨fun h => (set_src_rom_success comm addr size h).1, fun hs => ?_⟩
    rcases set_src_rom_code comm addr size h1 h2 h3 with ⟨_, hc⟩ | ⟨hh, _, _⟩ | ⟨hh, _⟩
    · exact hc
    · exact absurd hs hh
    · exact absurd (has_src_is_command_type _ hs) hh
  · intro addr size h1 h2 h3
    refine ⟨fun h => (set_src_ram_success comm addr size h).1, fun hs => ?_⟩
    rcases set_src_ram_code comm addr size h1 h2 h3 with
      ⟨_, hc⟩ | ⟨_, _, hc⟩ | ⟨ht, h64, _⟩ | ⟨hh, _, _⟩ | ⟨hh, _⟩
    · exact hc
    · exact hc
    · rcases hs with hs | ⟨_, hs⟩
      · exfalso
        simp only [has_src, is_logic, is_math, RCB4_COMM_MOV,
          RCB4_COMM_AND, RCB4_COMM_OR, RCB4_COMM_XOR, RCB4_COMM_ADD, RCB4_COMM_SUB,
          RCB4_COMM_MUL, RCB4_COMM_DIV, RCB4_COMM_MOD, RCB4_COMM_ICS] at *
        omega
      · omega
    · rcases hs with hs | ⟨hs, _⟩
      · exact absurd (Or.inl hs) hh
      · exact absurd (Or.inr hs) hh
    · rcases hs with hs | ⟨hs, _⟩
      · exact absurd (has_src_is_command_type _ hs) hh
      · exfalso; apply hh
        simp only [is_command_type, is_logic, is_math]
        rw [hs]; decide
  · intro ht
    have hl := not_legal_src_ram_of_rest _ ht
    have hn : ¬ has_src comm.type := fun e => hl (Or.inl e)
    refine ⟨fun addr size h => hl ?_, fun offset ics size h => ?_, fun literal length h => ?_,
      fun addr size h => ?_⟩
    · rcases (set_src_ram_success comm addr size h).1 with hh | ⟨hh, _⟩
      · exact Or.inl hh
      · exact Or.inr hh
    · exact hn (set_src_ics_success comm offset ics size h).1
    · exact hn (set_src_literal_success comm literal length h).1
    · exact hn (set_src_rom_success comm addr size h).1

theorem source_setters_succeed_iff_witness :
    ((rcb4_command_set_src_ics (created RCB4_COMM_MOV) 0 1 2).1 = 0 ↔
        has_src (created RCB4_COMM_MOV).type) ∧
      (rcb4_command_set_src_ram (created RCB4_COMM_SHIFT) 0 2).1 ≠ 0 :=
  ⟨(source_setters_succeed_iff (created RCB4_COMM_MOV)).1 0 1 2 (by decide) (by decide)
      (by decide) (by decide),
    ((source_setters_succeed_iff (created RCB4_COMM_SHIFT)).2.2.2.2
      (Or.inr (Or.inl (by decide)))).1 0 2⟩

/-! ## The index scan of `rcb4_command_set_servo` -/

theorem shift_and_one (x i : Nat) : ((x >>> i) &&& 1 ≠ 0) ↔ x.testBit i = true := by
  rw [Nat.testBit, Nat.and_comm]
  simp

theorem servo_bit_block (mem : Payload) (block bit : Nat) (h : bit < 8) :
    servo_bit mem (block * 8 + bit) = (get8 mem block).testBit bit := by
  unfold servo_bit
  have h1 : (block * 8 + bit) / 8 = block := by omega
  have h2 : (block * 8 + bit) % 8 = bit := by omega
  rw [h1, h2]

/-- The inner loop from bit `s` on, `n` bits: it counts the set bits whose
servo number is below `ics` and notes whether the bit of `ics` is set. -/
theorem servo_scan_bits_spec (mem : Payload) (block ics : Nat) (n s : Nat) (hs : s + n ≤ 8)
    (st : Nat × Nat) :
    servo_scan_bits (get8 mem block) block ics (List.range' s n) st =
      (st.1 + (List.range' (block * 8 + s) n).countP
          (fun j => decide (j + 1 < ics) && servo_bit mem j),
        if (List.range' (block * 8 + s) n).any
            (fun j => decide (j + 1 = ics) && servo_bit mem j) = true then 1
        else st.2) := by
  induction n generalizing s st with
  | zero => simp [servo_scan_bits]
  | succ n ih =>
    have hbit : servo_bit mem (block * 8 + s) = (get8 mem block).testBit s :=
      servo_bit_block mem block s (by omega)
    rw [List.range'_succ, servo_scan_bits]
    have hr : List.range' (block * 8 + s) (n + 1) =
        (block * 8 + s) :: List.range' (block * 8 + (s + 1)) n := by
      rw [List.range'_succ]; rfl
    rw [hr, List.countP_cons, List.any_cons]
    by_cases h1 : block * 8 + s + 1 ≤ ics
    · rw [if_pos h1]
      by_cases h2 : (get8 mem block >>> s) &&& 1 ≠ 0
      · have hb : servo_bit mem (block * 8 + s) = true := by
          rw [hbit]; exact (shift_and_one _ _).1 h2
        rw [if_pos h2]
        by_cases h3 : block * 8 + s + 1 = ics
        · rw [if_pos h3, ih (s + 1) (by omega)]
          have hlt : ¬ (block * 8 + s + 1 < ics) := by omega
          simp [hlt, h3, hb]
        · rw [if_neg h3, ih (s + 1) (by omega)]
          have hlt : block * 8 + s + 1 < ics := by omega
          simp only [hlt, hb, h3, decide_True, decide_False, Bool.and_self, if_true,
            Bool.false_and, Bool.false_or]
          congr 1
          omega
      · have hb : servo_bit mem (block * 8 + s) = false := by
          rw [hbit]
          cases hc : (get8 mem block).testBit s with
          | false => rfl
          | true => exact absurd ((shift_and_one _ _).2 hc) h2
        rw [if_neg h2, ih (s + 1) (by omega), hb]
        simp only [Bool.and_false, Bool.false_or, Bool.false_eq_true, if_false, Nat.add_zero]
    · rw [if_neg h1]
      have hz : (List.range' (block * 8 + (s + 1)) n).countP
          (fun j => decide (j + 1 < ics) && servo_bit mem j) = 0 := by
        rw [List.countP_eq_zero]
        intro j hj
        rw [List.mem_range'_1] at hj
        have : ¬ (j + 1 < ics) := by omega
        simp [this]
      have ha : (List.range' (block * 8 + (s + 1)) n).any
          (fun j => decide (j + 1 = ics) && servo_bit mem j) = false := by
        rw [List.any_eq_false]
        intro j hj
        rw [List.mem_range'_1] at hj
        have : ¬ (j + 1 = ics) := by omega
        simp [this]
      have hlt : ¬ (block * 8 + s + 1 < ics) := by omega
      have hne : ¬ (block * 8 + s + 1 = ics) := by omega
      rw [hz, ha]
      simp [hlt, hne]


theorem servo_scan_flat (mem : Payload) (ics : Nat) :
    servo_scan mem ics =
      ((List.range' 0 40).countP (fun j => decide (j + 1 < ics) && servo_bit mem j),
        if (List.range' 0 40).any (fun j => decide (j + 1 = ics) && servo_bit mem j) = true
        then 1 else 0) := by
  have e5 : List.range 5 = [0, 1, 2, 3, 4] := by decide
  have e8 : List.range 8 = List.range' 0 8 := by decide
  have e40 : List.range' 0 40 = List.range' (0 * 8 + 0) 8 ++ (List.range' (1 * 8 + 0) 8 ++
      (List.range' (2 * 8 + 0) 8 ++ (List.range' (3 * 8 + 0) 8 ++
        List.range' (4 * 8 + 0) 8))) := by decide
  unfold servo_scan
  rw [e5]
  simp only [servo_scan_blocks, e8]
  rw [servo_scan_bits_spec mem 0 ics 8 0 (by omega), servo_scan_bits_spec mem 1 ics 8 0 (by omega),
    servo_scan_bits_spec mem 2 ics 8 0 (by omega), servo_scan_bits_spec mem 3 ics 8 0 (by omega),
    servo_scan_bits_spec mem 4 ics 8 0 (by omega), e40]
  simp only [List.countP_append, List.any_append]
  refine Prod.ext ?_ ?_
  · simp only []
    omega
  · simp only []
    cases (List.range' (0 * 8 + 0) 8).any (fun j => decide (j + 1 = ics) && servo_bit mem j) <;>
    cases (List.range' (1 * 8 + 0) 8).any (fun j => decide (j + 1 = ics) && servo_bit mem j) <;>
    cases (List.range' (2 * 8 + 0) 8).any (fun j => decide (j + 1 = ics) && servo_bit mem j) <;>
    cases (List.range' (3 * 8 + 0) 8).any (fun j => decide (j + 1 = ics) && servo_bit mem j) <;>
    cases (List.range' (4 * 8 + 0) 8).any (fun j => decide (j + 1 = ics) && servo_bit mem j) <;>
    rfl

theorem countP_below (p : Nat → Bool) (a n : Nat) (h : a ≤ n) :
    (List.range' 0 n).countP (fun j => decide (j < a) && p j) = (List.range a).countP p := by
  have e : List.range' 0 n = List.range' 0 a ++ List.range' a (n - a) := by
    have := List.range'_append_1 0 a (n - a)
    rw [Nat.zero_add] at this
    rw [this]
    congr 1; omega
  rw [e, List.countP_append, List.range_eq_range']
  have h1 : (List.range' 0 a).countP (fun j => decide (j < a) && p j) =
      (List.range' 0 a).countP p := by
    apply List.countP_congr
    intro j hj
    rw [List.mem_range'_1] at hj
    have : j < a := by omega
    simp [this]
  have h2 : (List.range' a (n - a)).countP (fun j => decide (j < a) && p j) = 0 := by
    rw [List.countP_eq_zero]
    intro j hj
    rw [List.mem_range'_1] at hj
    have : ¬ j < a := by omega
    simp [this]
  rw [h1, h2, Nat.add_zero]

theorem any_at (p : Nat → Bool) (a n : Nat) (h : a < n) :
    (List.range' 0 n).any (fun j => decide (j = a) && p j) = p a := by
  cases hp : p a with
  | true =>
    rw [List.any_eq_true]
    exact ⟨a, by rw [List.mem_range'_1]; omega, by simp [hp]⟩
  | false =>
    rw [List.any_eq_false]
    intro j _
    by_cases hj : j = a
    · subst hj; simp [hp]
    · simp [hj]

/-- The index scan: for a servo id `ics` between 1 and 40, `i` is the number of
bits set below the bit of `ics`, and `overwrite` tells whether that bit is set. -/
theorem servo_scan_spec (mem : Payload) (ics : Nat) (h1 : 1 ≤ ics) (h40 : ics ≤ 40) :
    servo_scan mem ics =
      (slot_rank mem (ics - 1), if servo_bit mem (ics - 1) = true then 1 else 0) := by
  rw [servo_scan_flat]
  have hc : (List.range' 0 40).countP (fun j => decide (j + 1 < ics) && servo_bit mem j) =
      (List.range' 0 40).countP (fun j => decide (j < ics - 1) && servo_bit mem j) := by
    apply List.countP_congr
    intro j _
    have : (j + 1 < ics) ↔ (j < ics - 1) := by omega
    simp [this]
  have ha : (List.range' 0 40).any (fun j => decide (j + 1 = ics) && servo_bit mem j) =
      (List.range' 0 40).any (fun j => decide (j = ics - 1) && servo_bit mem j) := by
    congr 1
    funext j
    have : (j + 1 = ics) ↔ (j = ics - 1) := by omega
    simp [this]
  rw [hc, ha, countP_below _ _ _ (by omega), any_at _ _ _ (by omega)]
  rfl


/-! ## The stores of `rcb4_command_set_servo` -/

theorem get8_copy_bytes (mem : Payload) (dst src n o : Nat) :
    get8 (copy_bytes mem dst src n) o =
      if dst ≤ o ∧ o < dst + n ∧ o < 125 then get8 mem (src + (o - dst)) % 256
      else get8 mem o := by
  induction n with
  | zero =>
    have : ¬ (dst ≤ o ∧ o < dst + 0 ∧ o < 125) := by omega
    rw [copy_bytes, if_neg this]
  | succ n ih =>
    rw [copy_bytes, get8_put8, ih]
    by_cases h1 : o = dst + n ∧ dst + n < 125
    · have h2 : dst ≤ o ∧ o < dst + (n + 1) ∧ o < 125 := by omega
      have h3 : src + (o - dst) = src + n := by omega
      rw [if_pos h1, if_pos h2, h3]
    · rw [if_neg h1]
      by_cases h2 : dst ≤ o ∧ o < dst + n ∧ o < 125
      · have h3 : dst ≤ o ∧ o < dst + (n + 1) ∧ o < 125 := by omega
        rw [if_pos h2, if_pos h3]
      · have h3 : ¬ (dst ≤ o ∧ o < dst + (n + 1) ∧ o < 125) := by omega
        rw [if_neg h2, if_neg h3]

/-- The shift loop from `block = n` down to `i + 1`: every byte of the elements
`i + 1` to `n` is the byte `width` places before it, all else is untouched. -/
theorem get8_shift_elements (base width i : Nat) (hw : width = 2 ∨ width = 3) (n : Nat)
    (hn : base + width * (n + 1) ≤ 125) (mem : Payload) (o : Nat) :
    get8 (shift_elements base width i n mem) o =
      if base + width * (i + 1) ≤ o ∧ o < base + width * (n + 1) then
        get8 mem (o - width) % 256
      else get8 mem o := by
  induction n generalizing mem with
  | zero =>
    have : ¬ (base + width * (i + 1) ≤ o ∧ o < base + width * (0 + 1)) := by
      rcases hw with rfl | rfl <;> omega
    rw [shift_elements, if_neg this]
  | succ n ih =>
    rw [shift_elements]
    by_cases hi : n + 1 > i
    · rw [if_pos hi, ih (by rcases hw with rfl | rfl <;> omega), get8_copy_bytes,
        get8_copy_bytes]
      rcases hw with rfl | rfl
      · by_cases c1 : base + 2 * (i + 1) ≤ o ∧ o < base + 2 * (n + 1)
        · have c2 : ¬ (base + 2 * (n + 1) ≤ o - 2 ∧ o - 2 < base + 2 * (n + 1) + 2 ∧
              o - 2 < 125) := by omega
          have c3 : base + 2 * (i + 1) ≤ o ∧ o < base + 2 * (n + 1 + 1) := by omega
          rw [if_pos c1, if_neg c2, if_pos c3]
        · rw [if_neg c1]
          by_cases c2 : base + 2 * (n + 1) ≤ o ∧ o < base + 2 * (n + 1) + 2 ∧ o < 125
          · have c3 : base + 2 * (i + 1) ≤ o ∧ o < base + 2 * (n + 1 + 1) := by omega
            have c4 : base + 2 * n + (o - (base + 2 * (n + 1))) = o - 2 := by omega
            rw [if_pos c2, if_pos c3, c4]
          · have c3 : ¬ (base + 2 * (i + 1) ≤ o ∧ o < base + 2 * (n + 1 + 1)) := by omega
            rw [if_neg c2, if_neg c3]
      · by_cases c1 : base + 3 * (i + 1) ≤ o ∧ o < base + 3 * (n + 1)
        · have c2 : ¬ (base + 3 * (n + 1) ≤ o - 3 ∧ o - 3 < base + 3 * (n + 1) + 3 ∧
              o - 3 < 125) := by omega
          have c3 : base + 3 * (i + 1) ≤ o ∧ o < base + 3 * (n + 1 + 1) := by omega
          rw [if_pos c1, if_neg c2, if_pos c3]
        · rw [if_neg c1]
          by_cases c2 : base + 3 * (n + 1) ≤ o ∧ o < base + 3 * (n + 1) + 3 ∧ o < 125
          · have c3 : base + 3 * (i + 1) ≤ o ∧ o < base + 3 * (n + 1 + 1) := by omega
            have c4 : base + 3 * n + (o - (base + 3 * (n + 1))) = o - 3 := by omega
            rw [if_pos c2, if_pos c3, c4]
          · have c3 : ¬ (base + 3 * (i + 1) ≤ o ∧ o < base + 3 * (n + 1 + 1)) := by omega
            rw [if_neg c2, if_neg c3]
    · have c3 : ¬ (base + width * (i + 1) ≤ o ∧ o < base + width * (n + 1 + 1)) := by
        rcases hw with rfl | rfl <;> omega
      rw [if_neg hi, if_neg c3]

theorem get8_set_ics_bit (mem : Payload) (ics o : Nat) (h : 5 ≤ o) (h40 : ics ≤ 40) :
    get8 (set_ics_bit mem ics) o = get8 mem o := by
  unfold set_ics_bit
  rw [get8_put8]
  have : ¬ (o = (ics - 1) / 8 ∧ (ics - 1) / 8 < 125) := by omega
  rw [if_neg this]

theorem servo_bit_set_ics_bit (mem : Payload) (ics j : Nat) (hj : j < 40) :
    servo_bit (set_ics_bit mem ics) j = (servo_bit mem j || decide (j = ics - 1)) := by
  unfold servo_bit set_ics_bit
  rw [get8_put8]
  by_cases hb : j / 8 = (ics - 1) / 8
  · have c : j / 8 = (ics - 1) / 8 ∧ (ics - 1) / 8 < 125 := ⟨hb, by omega⟩
    have e256 : (256 : Nat) = 2 ^ 8 := by decide
    rw [if_pos c, e256, Nat.testBit_mod_two_pow, Nat.testBit_or, Nat.one_shiftLeft,
      Nat.testBit_two_pow, hb]
    have h8 : j % 8 < 8 := Nat.mod_lt _ (by decide)
    have hd : ((ics - 1) % 8 = j % 8) ↔ (j = ics - 1) := by omega
    simp only [h8, decide_True, Bool.true_and, hd]
  · have c : ¬ (j / 8 = (ics - 1) / 8 ∧ (ics - 1) / 8 < 125) := fun e => hb e.1
    have hd : ¬ (j = ics - 1) := fun e => hb (by rw [e])
    rw [if_neg c]
    simp only [hd, decide_False, Bool.or_false]


/-! ## Ranks in the presence bitset -/

theorem slot_rank_succ (mem : Payload) (j : Nat) :
    slot_rank mem (j + 1) = slot_rank mem j + (if servo_bit mem j = true then 1 else 0) := by
  unfold slot_rank
  rw [List.range_succ, List.countP_append, List.countP_cons, List.countP_nil, Nat.zero_add]

theorem slot_rank_le (mem : Payload) (j : Nat) : slot_rank mem j ≤ j := by
  induction j with
  | zero => simp [slot_rank]
  | succ j ih =>
    rw [slot_rank_succ]
    split <;> omega

theorem slot_rank_mono (mem : Payload) (a b : Nat) (h : a ≤ b) :
    slot_rank mem a ≤ slot_rank mem b := by
  induction b with
  | zero =>
    have : a = 0 := by omega
    rw [this]
  | succ b ih =>
    by_cases hab : a = b + 1
    · rw [hab]
    · have := ih (by omega)
      rw [slot_rank_succ]
      omega

theorem slot_rank_lt (mem : Payload) (a b : Nat) (h : a < b) (ha : servo_bit mem a = true) :
    slot_rank mem a < slot_rank mem b := by
  have h1 := slot_rank_mono mem (a + 1) b (by omega)
  rw [slot_rank_succ, if_pos ha] at h1
  omega

theorem slot_rank_le_pred (mem : Payload) (a b : Nat) (h : a < b)
    (ha : servo_bit mem a = false) : slot_rank mem b + 1 ≤ b := by
  induction b with
  | zero => omega
  | succ b ih =>
    rw [slot_rank_succ]
    by_cases hab : a = b
    · subst hab
      have := slot_rank_le mem a
      simp only [ha, Bool.false_eq_true, if_false]
      omega
    · have := ih (by omega)
      split <;> omega

/-- The ranks after the bit `a` has been set. -/
theorem slot_rank_set (mem mem' : Payload) (a : Nat)
    (hbits : ∀ j, j < 40 → servo_bit mem' j = (servo_bit mem j || decide (j = a)))
    (n : Nat) (hn : n ≤ 40) :
    slot_rank mem' n =
      slot_rank mem n + (if a < n ∧ servo_bit mem a = false then 1 else 0) := by
  induction n with
  | zero =>
    have : ¬ (a < 0 ∧ servo_bit mem a = false) := by omega
    rw [if_neg this]; rfl
  | succ n ih =>
    rw [slot_rank_succ, slot_rank_succ, ih (by omega), hbits n (by omega)]
    by_cases han : n = a
    · subst han
      cases hb : servo_bit mem n <;> simp
    · have hd : decide (n = a) = false := by simp [han]
      rw [hd, Bool.or_false]
      by_cases c : a < n ∧ servo_bit mem a = false
      · have c' : a < n + 1 ∧ servo_bit mem a = false := ⟨by omega, c.2⟩
        rw [if_pos c, if_pos c']
        omega
      · have c' : ¬ (a < n + 1 ∧ servo_bit mem a = false) := by
          intro e; apply c; exact ⟨by omega, e.2⟩
        rw [if_neg c, if_neg c']
        omega

/-! ## The most recent call for an id -/

theorem last_call_append (calls : List (Nat × Nat × Nat)) (c : Nat × Nat × Nat) (id : Nat) :
    last_call (calls ++ [c]) id = if c.1 = id then some c else last_call calls id := by
  unfold last_call
  rw [List.reverse_append, List.reverse_singleton, List.singleton_append, List.find?_cons]
  by_cases h : c.1 = id
  · simp [h]
  · simp [h]

theorem last_call_mem (calls : List (Nat × Nat × Nat)) (id : Nat) (c : Nat × Nat × Nat)
    (h : last_call calls id = some c) : c ∈ calls ∧ c.1 = id := by
  unfold last_call at h
  have h1 := List.mem_of_find?_eq_some h
  have h2 := List.find?_some h
  exact ⟨List.mem_reverse.1 h1, by simpa using h2⟩

theorem last_call_exists (calls : List (Nat × Nat × Nat)) (id : Nat)
    (h : ∃ c ∈ calls, c.1 = id) : ∃ c, last_call calls id = some c := by
  obtain ⟨c, hc, hid⟩ := h
  unfold last_call
  cases hf : calls.reverse.find? (fun c => decide (c.1 = id)) with
  | some d => exact ⟨d, rfl⟩
  | none =>
    rw [List.find?_eq_none] at hf
    have := hf c (List.mem_reverse.2 hc)
    simp [hid] at this

/-! ## One call keeps the list sorted by id -/

/-- A call whose stores set the bit of its id, write its element at the rank
of the id and, when the id was not set before, move every later element one
place up, keeps the bitset and the list in agreement with the calls. -/
theorem servo_entries_step (base width : Nat) (hw : width = 2 ∨ width = 3) (hb5 : 5 ≤ base)
    (data : Nat × Nat × Nat → Nat → Nat) (hd : ∀ c b, data c b < 256)
    (mem mem' : Payload) (calls : List (Nat × Nat × Nat)) (c : Nat × Nat × Nat)
    (h1 : 1 ≤ c.1) (h36 : c.1 ≤ 36)
    (hinv : servo_entries base width data mem calls)
    (hbits : ∀ j, j < 40 → servo_bit mem' j = (servo_bit mem j || decide (j = c.1 - 1)))
    (hbytes : ∀ o, 5 ≤ o → get8 mem' o =
      if base + width * slot_rank mem (c.1 - 1) ≤ o ∧
          o < base + width * (slot_rank mem (c.1 - 1) + 1) then
        data c (o - (base + width * slot_rank mem (c.1 - 1)))
      else if servo_bit mem (c.1 - 1) = false ∧
          base + width * (slot_rank mem (c.1 - 1) + 1) ≤ o ∧ o < base + width * 36 then
        get8 mem (o - width) % 256
      else get8 mem o) :
    servo_entries base width data mem' (calls ++ [c]) := by
  obtain ⟨hi1, hi2⟩ := hinv
  refine ⟨?_, ?_⟩
  · intro j hj
    rw [hbits j hj, Bool.or_eq_true, hi1 j hj]
    constructor
    · rintro (⟨d, hd1, hd2⟩ | he)
      · exact ⟨d, List.mem_append_left _ hd1, hd2⟩
      · refine ⟨c, List.mem_append_right _ (List.mem_singleton_self c), ?_⟩
        have : j = c.1 - 1 := by simpa using he
        omega
    · rintro ⟨d, hd1, hd2⟩
      rcases List.mem_append.1 hd1 with hm | hm
      · exact Or.inl ⟨d, hm, hd2⟩
      · right
        rw [List.mem_singleton] at hm
        subst hm
        have : j = d.1 - 1 := by omega
        simpa using this
  · intro j c' hj hlast b hb
    rw [last_call_append] at hlast
    have hr := slot_rank_set mem mem' (c.1 - 1) hbits j (by omega)
    rw [hr, hbytes _ (by omega)]
    by_cases hja : j = c.1 - 1
    · -- the element of the call itself
      have hc1 : c.1 = j + 1 := by omega
      rw [if_pos hc1] at hlast
      have hcc : c' = c := (Option.some.inj hlast).symm
      subst hja
      have hlt : ¬ (c.1 - 1 < c.1 - 1 ∧ servo_bit mem (c.1 - 1) = false) := by omega
      rw [if_neg hlt, Nat.add_zero, hcc]
      have hin : base + width * slot_rank mem (c.1 - 1) ≤
            base + width * slot_rank mem (c.1 - 1) + b ∧
          base + width * slot_rank mem (c.1 - 1) + b <
            base + width * (slot_rank mem (c.1 - 1) + 1) := by
        rcases hw with rfl | rfl <;> omega
      rw [if_pos hin]
      congr 1
      omega
    · -- the element of another id
      have hc1 : ¬ c.1 = j + 1 := by omega
      rw [if_neg hc1] at hlast
      have hold := hi2 j c' hj hlast b hb
      obtain ⟨hmem, hid⟩ := last_call_mem calls (j + 1) c' hlast
      have hbit : servo_bit mem j = true := (hi1 j (by omega)).2 ⟨c', hmem, hid⟩
      have hrj := slot_rank_le mem j
      rcases Nat.lt_or_gt_of_ne hja with hlt | hgt
      · -- below the id of the call: neither moved nor written
        have hq := slot_rank_lt mem j (c.1 - 1) hlt hbit
        have hn : ¬ (c.1 - 1 < j ∧ servo_bit mem (c.1 - 1) = false) := by omega
        rw [if_neg hn, Nat.add_zero]
        have c1 : ¬ (base + width * slot_rank mem (c.1 - 1) ≤
              base + width * slot_rank mem j + b ∧
            base + width * slot_rank mem j + b <
              base + width * (slot_rank mem (c.1 - 1) + 1)) := by
          rcases hw with rfl | rfl <;> omega
        have c2 : ¬ (servo_bit mem (c.1 - 1) = false ∧
            base + width * (slot_rank mem (c.1 - 1) + 1) ≤
              base + width * slot_rank mem j + b ∧
            base + width * slot_rank mem j + b < base + width * 36) := by
          rcases hw with rfl | rfl <;> omega
        rw [if_neg c1, if_neg c2, hold]
      · -- above the id of the call
        have hq := slot_rank_mono mem (c.1 - 1 + 1) j (by omega)
        rw [slot_rank_succ] at hq
        cases hba : servo_bit mem (c.1 - 1) with
        | true =>
          rw [hba, if_pos rfl] at hq
          have hn : ¬ (c.1 - 1 < j ∧ true = false) := by simp
          rw [if_neg hn, Nat.add_zero]
          have c1 : ¬ (base + width * slot_rank mem (c.1 - 1) ≤
                base + width * slot_rank mem j + b ∧
              base + width * slot_rank mem j + b <
                base + width * (slot_rank mem (c.1 - 1) + 1)) := by
            rcases hw with rfl | rfl <;> omega
          have c2 : ¬ (true = false ∧
              base + width * (slot_rank mem (c.1 - 1) + 1) ≤
                base + width * slot_rank mem j + b ∧
              base + width * slot_rank mem j + b < base + width * 36) := by simp
          rw [if_neg c1, if_neg c2, hold]
        | false =>
          have hp := slot_rank_le_pred mem (c.1 - 1) j hgt hba
          have hy : c.1 - 1 < j ∧ false = false := ⟨hgt, rfl⟩
          rw [if_pos hy]
          have c1 : ¬ (base + width * slot_rank mem (c.1 - 1) ≤
                base + width * (slot_rank mem j + 1) + b ∧
              base + width * (slot_rank mem j + 1) + b <
                base + width * (slot_rank mem (c.1 - 1) + 1)) := by
            rcases hw with rfl | rfl <;> omega
          have c2 : false = false ∧
              base + width * (slot_rank mem (c.1 - 1) + 1) ≤
                base + width * (slot_rank mem j + 1) + b ∧
              base + width * (slot_rank mem j + 1) + b < base + width * 36 := by
            rcases hw with rfl | rfl <;> exact ⟨rfl, by omega, by omega⟩
          have e : base + width * (slot_rank mem j + 1) + b - width =
              base + width * slot_rank mem j + b := by
            rcases hw with rfl | rfl <;> omega
          rw [if_neg c1, if_pos c2, e, hold]
          exact Nat.mod_eq_of_lt (hd c' b)

/-! ## The two multi-servo branches of `rcb4_command_set_servo` -/

theorem get8_put16 (mem : Payload) (off v o : Nat) :
    get8 (put16 mem off v) o =
      if o = off + 1 ∧ off + 1 < 125 then v / 256 % 256
      else if o = off ∧ off < 125 then v % 256
      else get8 mem o := by
  unfold put16
  rw [get8_put8, get8_put8]

theorem servo_bit_congr (m1 m2 : Payload) (h : ∀ o, o < 5 → get8 m1 o = get8 m2 o) (j : Nat)
    (hj : j < 40) : servo_bit m1 j = servo_bit m2 j := by
  unfold servo_bit
  rw [h (j / 8) (by omega)]

/-- The memory before the bit is set: shifted when the scan found the bit
unset. -/
theorem get8_maybe_shift (base width : Nat) (hw : width = 2 ∨ width = 3)
    (hcap : base + width * 36 ≤ 125) (mem : Payload) (ics : Nat) (h1 : 1 ≤ ics)
    (h40 : ics ≤ 40) (o : Nat) :
    get8 (if (servo_scan mem ics).2 = 0 then
        shift_elements base width (servo_scan mem ics).1 (RCB4_ICS_QTY - 1) mem else mem) o =
      if servo_bit mem (ics - 1) = false ∧
          base + width * (slot_rank mem (ics - 1) + 1) ≤ o ∧ o < base + width * 36 then
        get8 mem (o - width) % 256
      else get8 mem o := by
  rw [servo_scan_spec mem ics h1 h40]
  dsimp only
  have hq : RCB4_ICS_QTY - 1 = 35 := rfl
  by_cases hb : servo_bit mem (ics - 1) = true
  · have c : ¬ (servo_bit mem (ics - 1) = false ∧
        base + width * (slot_rank mem (ics - 1) + 1) ≤ o ∧ o < base + width * 36) := by
      rw [hb]; simp
    have c0 : ¬ ((1 : Nat) = 0) := by decide
    rw [if_pos hb, if_neg c0, if_neg c]
  · have hf : servo_bit mem (ics - 1) = false := by
      cases h : servo_bit mem (ics - 1) with
      | false => rfl
      | true => exact absurd h hb
    have c0 : (0 : Nat) = 0 := rfl
    rw [if_neg hb, if_pos c0, hq,
      get8_shift_elements base width _ hw 35 (by rcases hw with rfl | rfl <;> omega)]
    by_cases c : base + width * (slot_rank mem (ics - 1) + 1) ≤ o ∧ o < base + width * 36
    · have c' : servo_bit mem (ics - 1) = false ∧
          base + width * (slot_rank mem (ics - 1) + 1) ≤ o ∧ o < base + width * 36 := ⟨hf, c⟩
      have c1 : base + width * (slot_rank mem (ics - 1) + 1) ≤ o ∧
          o < base + width * (35 + 1) := c
      rw [if_pos c', if_pos c1]
    · have c' : ¬ (servo_bit mem (ics - 1) = false ∧
          base + width * (slot_rank mem (ics - 1) + 1) ≤ o ∧ o < base + width * 36) :=
        fun e => c e.2
      have c1 : ¬ (base + width * (slot_rank mem (ics - 1) + 1) ≤ o ∧
          o < base + width * (35 + 1)) := c
      rw [if_neg c', if_neg c1]

theorem set_servo_const_bits (comm : rcb4_comm) (ics position : Nat) (h1 : 1 ≤ ics)
    (h36 : ics ≤ 36) (j : Nat) (hj : j < 40) :
    servo_bit (set_servo_const comm ics position).command j =
      (servo_bit comm.command j || decide (j = ics - 1)) := by
  have hr := slot_rank_le comm.command (ics - 1)
  unfold set_servo_const
  dsimp only
  rw [servo_bit_congr _ (set_ics_bit (if (servo_scan comm.command ics).2 = 0 then
      shift_elements (off_const_pos 0) 2 (servo_scan comm.command ics).1 (RCB4_ICS_QTY - 1)
        comm.command else comm.command) ics) _ j hj,
    servo_bit_set_ics_bit _ _ _ hj,
    servo_bit_congr _ comm.command _ j hj]
  · intro o ho
    rw [get8_maybe_shift (off_const_pos 0) 2 (Or.inl rfl) (by unfold off_const_pos; omega)
      _ _ h1 (by omega)]
    have c : ¬ (servo_bit comm.command (ics - 1) = false ∧
        off_const_pos 0 + 2 * (slot_rank comm.command (ics - 1) + 1) ≤ o ∧
        o < off_const_pos 0 + 2 * 36) := by
      unfold off_const_pos; omega
    rw [if_neg c]
  · intro o ho
    rw [servo_scan_spec _ _ h1 (by omega), get8_put16]
    have c1 : ¬ (o = off_const_pos (slot_rank comm.command (ics - 1)) + 1 ∧
        off_const_pos (slot_rank comm.command (ics - 1)) + 1 < 125) := by
      unfold off_const_pos; omega
    have c2 : ¬ (o = off_const_pos (slot_rank comm.command (ics - 1)) ∧
        off_const_pos (slot_rank comm.command (ics - 1)) < 125) := by
      unfold off_const_pos; omega
    rw [if_neg c1, if_neg c2]

theorem set_servo_const_bytes (comm : rcb4_comm) (ics speed position : Nat) (h1 : 1 ≤ ics)
    (h36 : ics ≤ 36) (o : Nat) (ho : 5 ≤ o) :
    get8 (set_servo_const comm ics position).command o =
      if 6 + 2 * slot_rank comm.command (ics - 1) ≤ o ∧
          o < 6 + 2 * (slot_rank comm.command (ics - 1) + 1) then
        const_entry (ics, speed, position) (o - (6 + 2 * slot_rank comm.command (ics - 1)))
      else if servo_bit comm.command (ics - 1) = false ∧
          6 + 2 * (slot_rank comm.command (ics - 1) + 1) ≤ o ∧ o < 6 + 2 * 36 then
        get8 comm.command (o - 2) % 256
      else get8 comm.command o := by
  have hr := slot_rank_le comm.command (ics - 1)
  unfold set_servo_const
  dsimp only
  rw [get8_put16, get8_set_ics_bit _ _ _ ho (by omega),
    get8_maybe_shift (off_const_pos 0) 2 (Or.inl rfl) (by unfold off_const_pos; omega) _ _ h1
      (by omega),
    servo_scan_spec _ _ h1 (by omega)]
  dsimp only
  unfold off_const_pos const_entry
  simp only [Nat.mul_zero, Nat.add_zero]
  by_cases c1 : o = 6 + 2 * slot_rank comm.command (ics - 1) + 1
  · have c1' : o = 6 + 2 * slot_rank comm.command (ics - 1) + 1 ∧
        6 + 2 * slot_rank comm.command (ics - 1) + 1 < 125 := ⟨c1, by omega⟩
    have c2 : 6 + 2 * slot_rank comm.command (ics - 1) ≤ o ∧
        o < 6 + 2 * (slot_rank comm.command (ics - 1) + 1) := by omega
    have c3 : ¬ (o - (6 + 2 * slot_rank comm.command (ics - 1)) = 0) := by omega
    rw [if_pos c1', if_pos c2, if_neg c3]
  · have c1' : ¬ (o = 6 + 2 * slot_rank comm.command (ics - 1) + 1 ∧
        6 + 2 * slot_rank comm.command (ics - 1) + 1 < 125) := fun e => c1 e.1
    rw [if_neg c1']
    by_cases c2 : o = 6 + 2 * slot_rank comm.command (ics - 1)
    · have c2' : o = 6 + 2 * slot_rank comm.command (ics - 1) ∧
          6 + 2 * slot_rank comm.command (ics - 1) < 125 := ⟨c2, by omega⟩
      have c3 : 6 + 2 * slot_rank comm.command (ics - 1) ≤ o ∧
          o < 6 + 2 * (slot_rank comm.command (ics - 1) + 1) := by omega
      have c4 : o - (6 + 2 * slot_rank comm.command (ics - 1)) = 0 := by omega
      rw [if_pos c2', if_pos c3, if_pos c4]
    · have c2' : ¬ (o = 6 + 2 * slot_rank comm.command (ics - 1) ∧
          6 + 2 * slot_rank comm.command (ics - 1) < 125) := fun e => c2 e.1
      have c3 : ¬ (6 + 2 * slot_rank comm.command (ics - 1) ≤ o ∧
          o < 6 + 2 * (slot_rank comm.command (ics - 1) + 1)) := by omega
      rw [if_neg c2', if_neg c3]

theorem set_servo_series_bits (comm : rcb4_comm) (ics speed position : Nat) (h1 : 1 ≤ ics)
    (h36 : ics ≤ 36) (j : Nat) (hj : j < 40) :
    servo_bit (set_servo_series comm ics speed position).command j =
      (servo_bit comm.command j || decide (j = ics - 1)) := by
  have hr := slot_rank_le comm.command (ics - 1)
  unfold set_servo_series
  dsimp only
  rw [servo_bit_congr _ (set_ics_bit (if (servo_scan comm.command ics).2 = 0 then
      shift_elements (off_series_speed 0) 3 (servo_scan comm.command ics).1 (RCB4_ICS_QTY - 1)
        comm.command else comm.command) ics) _ j hj,
    servo_bit_set_ics_bit _ _ _ hj,
    servo_bit_congr _ comm.command _ j hj]
  · intro o ho
    rw [get8_maybe_shift (off_series_speed 0) 3 (Or.inr rfl) (by unfold off_series_speed; omega)
      _ _ h1 (by omega)]
    have c : ¬ (servo_bit comm.command (ics - 1) = false ∧
        off_series_speed 0 + 3 * (slot_rank comm.command (ics - 1) + 1) ≤ o ∧
        o < off_series_speed 0 + 3 * 36) := by
      unfold off_series_speed; omega
    rw [if_neg c]
  · intro o ho
    rw [servo_scan_spec _ _ h1 (by omega), get8_put16, get8_put8]
    have c1 : ¬ (o = off_series_pos (slot_rank comm.command (ics - 1)) + 1 ∧
        off_series_pos (slot_rank comm.command (ics - 1)) + 1 < 125) := by
      unfold off_series_pos; omega
    have c2 : ¬ (o = off_series_pos (slot_rank comm.command (ics - 1)) ∧
        off_series_pos (slot_rank comm.command (ics - 1)) < 125) := by
      unfold off_series_pos; omega
    have c3 : ¬ (o = off_series_speed (slot_rank comm.command (ics - 1)) ∧
        off_series_speed (slot_rank comm.command (ics - 1)) < 125) := by
      unfold off_series_speed; omega
    rw [if_neg c1, if_neg c2, if_neg c3]

theorem set_servo_series_bytes (comm : rcb4_comm) (ics speed position : Nat) (h1 : 1 ≤ ics)
    (h36 : ics ≤ 36) (o : Nat) (ho : 5 ≤ o) :
    get8 (set_servo_series comm ics ((256 - speed) % 256) position).command o =
      if 5 + 3 * slot_rank comm.command (ics - 1) ≤ o ∧
          o < 5 + 3 * (slot_rank comm.command (ics - 1) + 1) then
        series_entry (ics, speed, position) (o - (5 + 3 * slot_rank comm.command (ics - 1)))
      else if servo_bit comm.command (ics - 1) = false ∧
          5 + 3 * (slot_rank comm.command (ics - 1) + 1) ≤ o ∧ o < 5 + 3 * 36 then
        get8 comm.command (o - 3) % 256
      else get8 comm.command o := by
  have hr := slot_rank_le comm.command (ics - 1)
  unfold set_servo_series
  dsimp only
  rw [get8_put16, get8_put8, get8_set_ics_bit _ _ _ ho (by omega),
    get8_maybe_shift (off_series_speed 0) 3 (Or.inr rfl) (by unfold off_series_speed; omega)
      _ _ h1 (by omega),
    servo_scan_spec _ _ h1 (by omega)]
  dsimp only
  unfold off_series_speed off_series_pos series_entry
  simp only [Nat.mul_zero, Nat.add_zero, Nat.mod_mod]
  by_cases c1 : o = 6 + 3 * slot_rank comm.command (ics - 1) + 1
  · have c1' : o = 6 + 3 * slot_rank comm.command (ics - 1) + 1 ∧
        6 + 3 * slot_rank comm.command (ics - 1) + 1 < 125 := ⟨c1, by omega⟩
    have c2 : 5 + 3 * slot_rank comm.command (ics - 1) ≤ o ∧
        o < 5 + 3 * (slot_rank comm.command (ics - 1) + 1) := by omega
    have c3 : ¬ (o - (5 + 3 * slot_rank comm.command (ics - 1)) = 0) := by omega
    have c4 : ¬ (o - (5 + 3 * slot_rank comm.command (ics - 1)) = 1) := by omega
    rw [if_pos c1', if_pos c2, if_neg c3, if_neg c4]
  · have c1' : ¬ (o = 6 + 3 * slot_rank comm.command (ics - 1) + 1 ∧
        6 + 3 * slot_rank comm.command (ics - 1) + 1 < 125) := fun e => c1 e.1
    rw [if_neg c1']
    by_cases c2 : o = 6 + 3 * slot_rank comm.command (ics - 1)
    · have c2' : o = 6 + 3 * slot_rank comm.command (ics - 1) ∧
          6 + 3 * slot_rank comm.command (ics - 1) < 125 := ⟨c2, by omega⟩
      have c3 : 5 + 3 * slot_rank comm.command (ics - 1) ≤ o ∧
          o < 5 + 3 * (slot_rank comm.command (ics - 1) + 1) := by omega
      have c4 : ¬ (o - (5 + 3 * slot_rank comm.command (ics - 1)) = 0) := by omega
      have c5 : o - (5 + 3 * slot_rank comm.command (ics - 1)) = 1 := by omega
      rw [if_pos c2', if_pos c3, if_neg c4, if_pos c5]
    · have c2' : ¬ (o = 6 + 3 * slot_rank comm.command (ics - 1) ∧
          6 + 3 * slot_rank comm.command (ics - 1) < 125) := fun e => c2 e.1
      rw [if_neg c2']
      by_cases c3 : o = 5 + 3 * slot_rank comm.command (ics - 1)
      · have c3' : o = 5 + 3 * slot_rank comm.command (ics - 1) ∧
            5 + 3 * slot_rank comm.command (ics - 1) < 125 := ⟨c3, by omega⟩
        have c4 : 5 + 3 * slot_rank comm.command (ics - 1) ≤ o ∧
            o < 5 + 3 * (slot_rank comm.command (ics - 1) + 1) := by omega
        have c5 : o - (5 + 3 * slot_rank comm.command (ics - 1)) = 0 := by omega
        rw [if_pos c3', if_pos c4, if_pos c5]
      · have c3' : ¬ (o = 5 + 3 * slot_rank comm.command (ics - 1) ∧
            5 + 3 * slot_rank comm.command (ics - 1) < 125) := fun e => c3 e.1
        have c4 : ¬ (5 + 3 * slot_rank comm.command (ics - 1) ≤ o ∧
            o < 5 + 3 * (slot_rank comm.command (ics - 1) + 1)) := by omega
        rw [if_neg c3', if_neg c4]

theorem set_servo_on_const (comm : rcb4_comm) (ht : comm.type = RCB4_COMM_CONST)
    (ics speed position : Nat) (h1 : 1 ≤ ics) (h36 : ics ≤ 36) :
    rcb4_command_set_servo comm ics speed position = (0, set_servo_const comm ics position) := by
  unfold rcb4_command_set_servo
  have c1 : ¬ (speed = 0 ∧ comm.type ≠ RCB4_COMM_CONST) := fun e => e.2 ht
  have c2 : ¬ (ics = 0 ∨ ics > RCB4_ICS_QTY) := by
    simp only [RCB4_ICS_QTY]; omega
  have c3 : ¬ (comm.type = RCB4_COMM_SINGLE) := by rw [ht]; decide
  rw [if_neg c1, if_neg c2]
  dsimp only
  rw [if_neg c3, if_pos ht]

theorem set_servo_on_series (comm : rcb4_comm) (ht : comm.type = RCB4_COMM_SERIES)
    (ics speed position : Nat) (h1 : 1 ≤ ics) (h36 : ics ≤ 36) (hs : 1 ≤ speed) :
    rcb4_command_set_servo comm ics speed position =
      (0, set_servo_series comm ics ((256 - speed) % 256) position) := by
  unfold rcb4_command_set_servo
  have c1 : ¬ (speed = 0 ∧ comm.type ≠ RCB4_COMM_CONST) := fun e => by omega
  have c2 : ¬ (ics = 0 ∨ ics > RCB4_ICS_QTY) := by
    simp only [RCB4_ICS_QTY]; omega
  have c3 : ¬ (comm.type = RCB4_COMM_SINGLE) := by rw [ht]; decide
  have c4 : ¬ (comm.type = RCB4_COMM_CONST) := by rw [ht]; decide
  rw [if_neg c1, if_neg c2]
  dsimp only
  rw [if_neg c3, if_neg c4, if_pos ht]

theorem const_entry_lt (c : Nat × Nat × Nat) (b : Nat) : const_entry c b < 256 := by
  unfold const_entry
  split <;> omega

theorem series_entry_lt (c : Nat × Nat × Nat) (b : Nat) : series_entry c b < 256 := by
  unfold series_entry
  split
  · omega
  · split <;> omega

theorem servo_entries_created (base width : Nat) (data : Nat × Nat × Nat → Nat → Nat) :
    servo_entries base width data zero_payload [] := by
  refine ⟨?_, ?_⟩
  · intro j _
    have : servo_bit zero_payload j = false := by
      unfold servo_bit
      rw [get8_zero_payload]
      exact Nat.zero_testBit _
    rw [this]
    simp
  · intro j c _ h
    simp [last_call] at h

/-- A list of accepted calls on a CONST message: every call succeeds and the
bitset and the list follow the calls. -/
theorem run_servo_calls_const (rest : List (Nat × Nat × Nat)) :
    ∀ (comm : rcb4_comm) (pre : List (Nat × Nat × Nat)),
      comm.type = RCB4_COMM_CONST →
      servo_entries 6 2 const_entry comm.command pre →
      (∀ c ∈ rest, servo_call_ok c) →
      ∃ m, run_servo_calls comm rest = some m ∧
        servo_entries 6 2 const_entry m.command (pre ++ rest) := by
  induction rest with
  | nil =>
    intro comm pre _ hinv _
    exact ⟨comm, rfl, by rw [List.append_nil]; exact hinv⟩
  | cons c rest ih =>
    intro comm pre ht hinv hv
    obtain ⟨h1, h36, _, _, _⟩ := hv c (List.mem_cons_self _ _)
    have hcall := set_servo_on_const comm ht c.1 c.2.1 c.2.2 h1 h36
    have hstep : servo_entries 6 2 const_entry (set_servo_const comm c.1 c.2.2).command
        (pre ++ [c]) :=
      servo_entries_step 6 2 (Or.inl rfl) (by omega) const_entry const_entry_lt comm.command
        _ pre c h1 h36 hinv
        (fun j hj => set_servo_const_bits comm c.1 c.2.2 h1 h36 j hj)
        (fun o ho => set_servo_const_bytes comm c.1 c.2.1 c.2.2 h1 h36 o ho)
    obtain ⟨m, hm, hfin⟩ := ih (set_servo_const comm c.1 c.2.2) (pre ++ [c]) ht hstep
      (fun d hd => hv d (List.mem_cons_of_mem _ hd))
    refine ⟨m, ?_, ?_⟩
    · rw [run_servo_calls, hcall]
      have : ¬ ((0 : Int) ≠ 0) := by decide
      rw [if_neg this]
      exact hm
    · rw [List.append_assoc] at hfin
      exact hfin

/-- A list of accepted calls on a SERIES message: every call succeeds and the
bitset and the list follow the calls. -/
theorem run_servo_calls_series (rest : List (Nat × Nat × Nat)) :
    ∀ (comm : rcb4_comm) (pre : List (Nat × Nat × Nat)),
      comm.type = RCB4_COMM_SERIES →
      servo_entries 5 3 series_entry comm.command pre →
      (∀ c ∈ rest, servo_call_ok c) →
      ∃ m, run_servo_calls comm rest = some m ∧
        servo_entries 5 3 series_entry m.command (pre ++ rest) := by
  induction rest with
  | nil =>
    intro comm pre _ hinv _
    exact ⟨comm, rfl, by rw [List.append_nil]; exact hinv⟩
  | cons c rest ih =>
    intro comm pre ht hinv hv
    obtain ⟨h1, h36, hs1, _, _⟩ := hv c (List.mem_cons_self _ _)
    have hcall := set_servo_on_series comm ht c.1 c.2.1 c.2.2 h1 h36 hs1
    have hstep : servo_entries 5 3 series_entry
        (set_servo_series comm c.1 ((256 - c.2.1) % 256) c.2.2).command (pre ++ [c]) :=
      servo_entries_step 5 3 (Or.inr rfl) (by omega) series_entry series_entry_lt comm.command
        _ pre c h1 h36 hinv
        (fun j hj => set_servo_series_bits comm c.1 _ c.2.2 h1 h36 j hj)
        (fun o ho => set_servo_series_bytes comm c.1 c.2.1 c.2.2 h1 h36 o ho)
    obtain ⟨m, hm, hfin⟩ := ih (set_servo_series comm c.1 ((256 - c.2.1) % 256) c.2.2)
      (pre ++ [c]) ht hstep (fun d hd => hv d (List.mem_cons_of_mem _ hd))
    refine ⟨m, ?_, ?_⟩
    · rw [run_servo_calls, hcall]
      have : ¬ ((0 : Int) ≠ 0) := by decide
      rw [if_neg this]
      exact hm
    · rw [List.append_assoc] at hfin
      exact hfin

/-! ## The k-th smallest id and its rank -/

theorem filter_range_index (p : Nat → Bool) (n k id : Nat)
    (h : ((List.range' 1 n).filter p)[k]? = some id) :
    1 ≤ id ∧ id ≤ n ∧ p id = true ∧
      (List.range (id - 1)).countP (fun j => p (j + 1)) = k := by
  induction n with
  | zero => simp at h
  | succ n ih =>
    rw [List.range'_1_concat, List.filter_append] at h
    by_cases hk : k < ((List.range' 1 n).filter p).length
    · rw [List.getElem?_append_left hk] at h
      obtain ⟨a, b, c, d⟩ := ih h
      exact ⟨a, by omega, c, d⟩
    · rw [List.getElem?_append_right (by omega)] at h
      cases hp : p (1 + n) with
      | false =>
        simp [List.filter, hp] at h
      | true =>
        have hf : List.filter p [1 + n] = [1 + n] := by simp [List.filter, hp]
        rw [hf] at h
        have hk0 : k - ((List.range' 1 n).filter p).length = 0 := by
          cases hz : k - ((List.range' 1 n).filter p).length with
          | zero => rfl
          | succ z => rw [hz] at h; simp at h
        rw [hk0] at h
        have hid : id = 1 + n := by simpa using h.symm
        subst hid
        refine ⟨by omega, by omega, hp, ?_⟩
        have e1 : 1 + n - 1 = n := by omega
        have e2 : (List.range n).countP (fun j => p (j + 1)) =
            ((List.range' 1 n).filter p).length := by
          rw [← List.countP_eq_length_filter, List.range'_eq_map_range, List.countP_map]
          apply List.countP_congr
          intro j _
          simp [Nat.add_comm]
        rw [e1, e2]
        omega

theorem servo_ids_rank (base width : Nat) (data : Nat × Nat × Nat → Nat → Nat) (mem : Payload)
    (calls : List (Nat × Nat × Nat)) (hinv : servo_entries base width data mem calls)
    (k id : Nat) (h : (servo_ids calls)[k]? = some id) :
    1 ≤ id ∧ id ≤ 36 ∧ slot_rank mem (id - 1) = k ∧
      ∃ c, last_call calls id = some c ∧ c ∈ calls ∧ c.1 = id := by
  unfold servo_ids at h
  obtain ⟨h1, h36, hp, hc⟩ := filter_range_index _ 36 k id h
  have hmem : ∃ c ∈ calls, c.1 = id := by
    simpa using hp
  obtain ⟨c, hl⟩ := last_call_exists calls id hmem
  obtain ⟨hm1, hm2⟩ := last_call_mem calls id c hl
  refine ⟨h1, h36, ?_, c, hl, hm1, hm2⟩
  rw [← hc]
  unfold slot_rank
  apply List.countP_congr
  intro j hj
  rw [List.mem_range] at hj
  rw [hinv.1 j (by omega)]
  simp

theorem created_const : (created RCB4_COMM_CONST).type = RCB4_COMM_CONST ∧
    (created RCB4_COMM_CONST).command = zero_payload := by
  constructor <;> rfl

theorem created_series : (created RCB4_COMM_SERIES).type = RCB4_COMM_SERIES ∧
    (created RCB4_COMM_SERIES).command = zero_payload := by
  constructor <;> rfl

/-- C1: every list of accepted `rcb4_command_set_servo` calls (ids 1 to 36,
speeds 1 to 255, 16-bit positions) on a freshly created CONST or SERIES message
succeeds; afterwards bit `id - 1` of the presence bitset is set exactly for the
ids passed, and the `k`-th element of the list holds the data of the most
recent call for the `k`-th smallest of those ids: the position for CONST, the
byte `256 - speed` followed by the position for SERIES. -/
theorem servo_list_follows_calls (calls : List (Nat × Nat × Nat))
    (hv : ∀ c ∈ calls, servo_call_ok c) :
    (∃ m, run_servo_calls (created RCB4_COMM_CONST) calls = some m ∧
      (∀ j, j < 40 → (servo_bit m.command j = true ↔ ∃ c ∈ calls, c.1 = j + 1)) ∧
      (∀ k id, (servo_ids calls)[k]? = some id →
        ∃ c, last_call calls id = some c ∧
          get16 m.command (off_const_pos k) = c.2.2)) ∧
    (∃ m, run_servo_calls (created RCB4_COMM_SERIES) calls = some m ∧
      (∀ j, j < 40 → (servo_bit m.command j = true ↔ ∃ c ∈ calls, c.1 = j + 1)) ∧
      (∀ k id, (servo_ids calls)[k]? = some id →
        ∃ c, last_call calls id = some c ∧
          get8 m.command (off_series_speed k) = 256 - c.2.1 ∧
          get16 m.command (off_series_pos k) = c.2.2)) := by
  constructor
  · have h0 : servo_entries 6 2 const_entry (created RCB4_COMM_CONST).command [] := by
      rw [created_const.2]; exact servo_entries_created 6 2 const_entry
    obtain ⟨m, hm, hinv⟩ := run_servo_calls_const calls (created RCB4_COMM_CONST) []
      created_const.1 h0 hv
    rw [List.nil_append] at hinv
    refine ⟨m, hm, hinv.1, ?_⟩
    intro k id hk
    obtain ⟨h1, h36, hr, c, hl, hc, hid⟩ := servo_ids_rank 6 2 const_entry m.command calls hinv
      k id hk
    refine ⟨c, hl, ?_⟩
    have hl' : last_call calls (id - 1 + 1) = some c := by
      have : id - 1 + 1 = id := by omega
      rw [this]; exact hl
    have b0 := hinv.2 (id - 1) c (by omega) hl' 0 (by omega)
    have b1 := hinv.2 (id - 1) c (by omega) hl' 1 (by omega)
    rw [hr] at b0 b1
    obtain ⟨_, _, _, _, hp⟩ := hv c hc
    unfold get16 off_const_pos
    rw [Nat.add_zero] at b0
    rw [b0, b1]
    unfold const_entry
    simp only [if_true, Nat.one_ne_zero, if_false]
    omega
  · have h0 : servo_entries 5 3 series_entry (created RCB4_COMM_SERIES).command [] := by
      rw [created_series.2]; exact servo_entries_created 5 3 series_entry
    obtain ⟨m, hm, hinv⟩ := run_servo_calls_series calls (created RCB4_COMM_SERIES) []
      created_series.1 h0 hv
    rw [List.nil_append] at hinv
    refine ⟨m, hm, hinv.1, ?_⟩
    intro k id hk
    obtain ⟨h1, h36, hr, c, hl, hc, hid⟩ := servo_ids_rank 5 3 series_entry m.command calls
      hinv k id hk
    refine ⟨c, hl, ?_⟩
    have hl' : last_call calls (id - 1 + 1) = some c := by
      have : id - 1 + 1 = id := by omega
      rw [this]; exact hl
    have b0 := hinv.2 (id - 1) c (by omega) hl' 0 (by omega)
    have b1 := hinv.2 (id - 1) c (by omega) hl' 1 (by omega)
    have b2 := hinv.2 (id - 1) c (by omega) hl' 2 (by omega)
    rw [hr] at b0 b1 b2
    obtain ⟨_, _, hs1, hs2, hp⟩ := hv c hc
    rw [Nat.add_zero] at b0
    have e1 : 6 + 3 * k = 5 + 3 * k + 1 := by omega
    have e2 : 6 + 3 * k + 1 = 5 + 3 * k + 2 := by omega
    unfold get16 off_series_pos off_series_speed
    rw [e2, e1, b0, b1, b2]
    unfold series_entry
    simp only [if_true, Nat.one_ne_zero, if_false]
    constructor
    · omega
    · have : ¬ ((2 : Nat) = 0) := by decide
      have : ¬ ((2 : Nat) = 1) := by decide
      simp only [*, if_false]
      omega

theorem servo_list_follows_calls_witness :
    (∀ c ∈ example_calls, servo_call_ok c) ∧ servo_ids example_calls = [1, 2, 10] ∧
      (∃ m, run_servo_calls (created RCB4_COMM_CONST) example_calls = some m ∧
        (∀ j, j < 40 → (servo_bit m.command j = true ↔ ∃ c ∈ example_calls, c.1 = j + 1)) ∧
        (∀ k id, (servo_ids example_calls)[k]? = some id →
          ∃ c, last_call example_calls id = some c ∧
            get16 m.command (off_const_pos k) = c.2.2)) :=
  have hv : ∀ c ∈ example_calls, servo_call_ok c := by decide
  ⟨hv, by decide, (servo_list_follows_calls example_calls hv).1⟩

/-- The example evaluated: size 15, bits 0, 1 and 9 set, and the positions of
the ids 1, 2 and 10 in that order, id 2 with its second position. -/
theorem example_calls_bytes :
    (run_servo_calls (created RCB4_COMM_CONST) example_calls).map
        (fun m => (object_bytes m).take 14) =
      some [15, 0x10, 0x03, 0x02, 0, 0, 0, 0, 0x33, 0x33, 0x44, 0x44, 0x11, 0x11] := by
  decide

/-! ## Bits of the type byte -/

theorem dst_type_byte_bits (t kind : Nat)
    (hk : kind = COMM_DST_RAM ∨ kind = COMM_DST_ICS ∨ kind = COMM_DST_COM ∨ kind = COMM_DST_ROM) :
    dst_type_byte t kind % 256 = dst_type_byte t kind ∧
      dst_type_byte t kind &&& COMM_DST_MASK = kind ∧
      dst_type_byte t kind &&& COMM_SRC_MASK = t &&& COMM_SRC_MASK := by
  unfold dst_type_byte
  have h3 : t &&& COMM_SRC_MASK ≤ 3 := Nat.and_le_right
  generalize t &&& COMM_SRC_MASK = x at h3
  rcases hk with rfl | rfl | rfl | rfl <;> interval_cases x <;> decide

theorem src_bits_small : ∀ x, x < 177 → x &&& 0xB0 = x → ∀ k, k < 4 →
    ((x ||| k) % 256 = (x ||| k) ∧ (x ||| k) &&& 3 = k ∧ (x ||| k) &&& 0x30 = x &&& 0x30 ∧
      (x ||| k) &&& 0x80 = x &&& 0x80) := by
  decide

theorem src_type_byte_bits (t kind : Nat) (hk : kind < 4) :
    src_type_byte t kind % 256 = src_type_byte t kind ∧
      src_type_byte t kind = (t &&& 0xB0) ||| kind ∧
      src_type_byte t kind &&& COMM_SRC_MASK = kind ∧
      src_type_byte t kind &&& COMM_DST_MASK = t &&& COMM_DST_MASK ∧
      src_type_byte t kind &&& COMM_NUPDATE = t &&& COMM_NUPDATE := by
  have hB : src_type_byte t kind = (t &&& 0xB0) ||| kind := rfl
  have e1 : t &&& COMM_DST_MASK = (t &&& 0xB0) &&& 0x30 := by
    rw [Nat.and_assoc]; rfl
  have e2 : t &&& COMM_NUPDATE = (t &&& 0xB0) &&& 0x80 := by
    rw [Nat.and_assoc]; rfl
  have e0 : (t &&& 0xB0) &&& 0xB0 = t &&& 0xB0 := by
    rw [Nat.and_assoc]; rfl
  have hx : t &&& 0xB0 ≤ 0xB0 := Nat.and_le_right
  obtain ⟨a, b, c, d⟩ := src_bits_small (t &&& 0xB0) (by omega) e0 kind hk
  rw [hB, e1, e2]
  exact ⟨a, rfl, b, c, d⟩

/-! ## The stores of the destination setters -/

theorem get8_write_dst_com (mem : Payload) (o : Nat) :
    get8 (write_dst_com mem 0) o =
      if o = 0 then dst_type_byte (get8 mem 0) COMM_DST_COM else get8 mem o := by
  unfold write_dst_com
  rw [get8_put8, (dst_type_byte_bits (get8 mem 0) COMM_DST_COM (by simp)).1]
  by_cases h : o = 0
  · rw [if_pos h, if_pos ⟨h, by decide⟩]
  · rw [if_neg h, if_neg (fun e => h e.1)]

theorem get8_write_dst_ram (mem : Payload) (addr o : Nat) :
    get8 (write_dst_ram mem 0 addr) o =
      if o = 2 then addr / 256 % 256 else if o = 1 then addr % 256
      else if o = 0 then dst_type_byte (get8 mem 0) COMM_DST_RAM else get8 mem o := by
  unfold write_dst_ram
  dsimp only
  rw [get8_put8, get8_put8, get8_put8,
    (dst_type_byte_bits (get8 mem 0) COMM_DST_RAM (by simp)).1]
  simp [off_dst]

theorem get8_write_dst_ics (mem : Payload) (offset ics o : Nat) :
    get8 (write_dst_ics mem 0 offset ics) o =
      if o = 2 then ics % 256 else if o = 1 then offset % 256
      else if o = 0 then dst_type_byte (get8 mem 0) COMM_DST_ICS else get8 mem o := by
  unfold write_dst_ics
  dsimp only
  rw [get8_put8, get8_put8, get8_put8,
    (dst_type_byte_bits (get8 mem 0) COMM_DST_ICS (by simp)).1]
  simp [off_dst]

theorem get8_write_dst_rom (mem : Payload) (addr o : Nat) :
    get8 (write_dst_rom mem 0 addr) o =
      if o = 3 then addr / 65536 % 256 else if o = 2 then addr / 256 % 256
      else if o = 1 then addr % 256
      else if o = 0 then dst_type_byte (get8 mem 0) COMM_DST_ROM else get8 mem o := by
  unfold write_dst_rom
  dsimp only
  rw [get8_put8, get8_put8, get8_put8, get8_put8,
    (dst_type_byte_bits (get8 mem 0) COMM_DST_ROM (by simp)).1]
  simp [off_dst]


/-! ## The stores of the source setters -/

theorem get8_write_src_ram (mem : Payload) (addr size o : Nat) :
    get8 (write_src_ram mem 0 addr size) o =
      if o = 6 then size % 256 else if o = 5 then addr / 256 % 256
      else if o = 4 then addr % 256
      else if o = 0 then src_type_byte (get8 mem 0) COMM_SRC_RAM else get8 mem o := by
  unfold write_src_ram
  dsimp only
  rw [get8_put8, get8_put8, get8_put8, get8_put8,
    (src_type_byte_bits (get8 mem 0) COMM_SRC_RAM (by decide)).1]
  simp [off_src, off_src_ram_size]

theorem get8_write_src_ics (mem : Payload) (offset ics size o : Nat) :
    get8 (write_src_ics mem 0 offset ics size) o =
      if o = 6 then size % 256 else if o = 5 then ics % 256
      else if o = 4 then offset % 256
      else if o = 0 then src_type_byte (get8 mem 0) COMM_SRC_ICS else get8 mem o := by
  unfold write_src_ics
  dsimp only
  rw [get8_put8, get8_put8, get8_put8, get8_put8,
    (src_type_byte_bits (get8 mem 0) COMM_SRC_ICS (by decide)).1]
  simp [off_src, off_src_ics_size]

theorem get8_write_src_rom (mem : Payload) (addr size o : Nat) :
    get8 (write_src_rom mem 0 addr size) o =
      if o = 7 then size % 256 else if o = 6 then addr / 65536 % 256
      else if o = 5 then addr / 256 % 256 else if o = 4 then addr % 256
      else if o = 0 then src_type_byte (get8 mem 0) COMM_SRC_ROM else get8 mem o := by
  unfold write_src_rom
  dsimp only
  rw [get8_put8, get8_put8, get8_put8, get8_put8, get8_put8,
    (src_type_byte_bits (get8 mem 0) COMM_SRC_ROM (by decide)).1]
  simp [off_src, off_src_rom_size]

theorem get8_copy_literal (mem : Payload) (off : Nat) (literal : List Nat) (n o : Nat) :
    get8 (copy_literal mem off literal n) o =
      if off ≤ o ∧ o < off + n ∧ o < 125 then literal.getD (o - off) 0 % 256
      else get8 mem o := by
  induction n with
  | zero =>
    have : ¬ (off ≤ o ∧ o < off + 0 ∧ o < 125) := by omega
    rw [copy_literal, if_neg this]
  | succ n ih =>
    rw [copy_literal, get8_put8, ih]
    by_cases h1 : o = off + n ∧ off + n < 125
    · have h2 : off ≤ o ∧ o < off + (n + 1) ∧ o < 125 := by omega
      have h3 : o - off = n := by omega
      rw [if_pos h1, if_pos h2, h3]
    · rw [if_neg h1]
      by_cases h2 : off ≤ o ∧ o < off + n ∧ o < 125
      · have h3 : off ≤ o ∧ o < off + (n + 1) ∧ o < 125 := by omega
        rw [if_pos h2, if_pos h3]
      · have h3 : ¬ (off ≤ o ∧ o < off + (n + 1) ∧ o < 125) := by omega
        rw [if_neg h2, if_neg h3]

theorem get8_write_src_lit (mem : Payload) (literal : List Nat) (length o : Nat) :
    get8 (write_src_lit mem 0 literal length) o =
      if 4 ≤ o ∧ o < 4 + length ∧ o < 125 then literal.getD (o - 4) 0 % 256
      else if o = 0 then src_type_byte (get8 mem 0) COMM_SRC_LIT else get8 mem o := by
  unfold write_src_lit
  dsimp only
  rw [get8_copy_literal, get8_put8,
    (src_type_byte_bits (get8 mem 0) COMM_SRC_LIT (by decide)).1]
  simp [off_src]


/-! ## What a successful source or destination setter stores -/

theorem member_of_legal_dst (t : Nat) (h : legal_dst t) :
    member_of t = member.mov ∨ member_of t = member.logic ∨ member_of t = member.math ∨
      member_of t = member.logic_not ∨ member_of t = member.shift := by
  rcases h with h | h | h
  · rcases member_of_has_src t h with c | c | c
    · exact Or.inl c
    · exact Or.inr (Or.inl c)
    · exact Or.inr (Or.inr (Or.inl c))
  · right; right; right; left; rw [h]; rfl
  · right; right; right; right; rw [h]; rfl

theorem set_src_ram_stores (comm : rcb4_comm) (hs : has_src comm.type) (addr size : Nat) :
    (rcb4_command_set_src_ram comm addr size).1 = 0 →
      (rcb4_command_set_src_ram comm addr size).2 =
        { comm with command := write_src_ram comm.command 0 addr size, size := 10 } := by
  unfold rcb4_command_set_src_ram
  by_cases h1 : size = 0 ∨ size > RCB4_COMM_MESSAGE_SIZE_ALLOWED - 10
  · rw [if_pos h1]; intro h; exact absurd h int_neg_one_ne_zero
  rw [if_neg h1]
  by_cases h2 : addr > RCB4_MAX_RAM_ADDRESS
  · rw [if_pos h2]; intro h; exact absurd h int_neg_one_ne_zero
  rw [if_neg h2]
  rcases member_of_has_src _ hs with hm | hm | hm <;> rw [hm] <;> intro _ <;> rfl

theorem set_src_ics_stores (comm : rcb4_comm) (hs : has_src comm.type) (offset ics size : Nat) :
    (rcb4_command_set_src_ics comm offset ics size).1 = 0 →
      (rcb4_command_set_src_ics comm offset ics size).2 =
        { comm with command := write_src_ics comm.command 0 offset (ics - 1) size, size := 10 } := by
  unfold rcb4_command_set_src_ics
  by_cases h1 : size = 0 ∨ size > RCB4_COMM_MESSAGE_SIZE_ALLOWED
  · rw [if_pos h1]; intro h; exact absurd h int_neg_one_ne_zero
  rw [if_neg h1]
  by_cases h2 : ics = 0 ∨ ics > RCB4_ICS_QTY
  · rw [if_pos h2]; intro h; exact absurd h int_neg_one_ne_zero
  rw [if_neg h2]
  dsimp only
  rcases member_of_has_src _ hs with hm | hm | hm <;> rw [hm] <;> intro _ <;> rfl

theorem set_src_literal_stores (comm : rcb4_comm) (hs : has_src comm.type) (literal : List Nat)
    (length : Nat) :
    (rcb4_command_set_src_literal comm literal length).1 = 0 →
      (rcb4_command_set_src_literal comm literal length).2 =
        { comm with command := write_src_lit comm.command 0 literal length,
                    size := (length + 7) % 256 } := by
  unfold rcb4_command_set_src_literal
  by_cases h1 : length = 0 ∨ length ≥ COMM_LITERAL_MAX_LEN
  · rw [if_pos h1]; intro h; exact absurd h int_neg_one_ne_zero
  rw [if_neg h1]
  rcases member_of_has_src _ hs with hm | hm | hm <;> rw [hm] <;> intro _ <;> rfl

theorem set_src_rom_stores (comm : rcb4_comm) (hs : has_src comm.type) (addr size : Nat) :
    (rcb4_command_set_src_rom comm addr size).1 = 0 →
      (rcb4_command_set_src_rom comm addr size).2 =
        { comm with command := write_src_rom comm.command 0 addr size, size := 11 } := by
  unfold rcb4_command_set_src_rom
  by_cases h1 : size = 0 ∨ size > RCB4_COMM_MESSAGE_SIZE_ALLOWED
  · rw [if_pos h1]; intro h; exact absurd h int_neg_one_ne_zero
  rw [if_neg h1]
  by_cases h2 : addr > RCB4_MAX_ROM_ADDRESS
  · rw [if_pos h2]; intro h; exact absurd h int_neg_one_ne_zero
  rw [if_neg h2]
  rcases member_of_has_src _ hs with hm | hm | hm <;> rw [hm] <;> intro _ <;> rfl

theorem set_dst_ram_stores (comm : rcb4_comm) (hs : legal_dst comm.type) (addr : Nat) :
    (rcb4_command_set_dst_ram comm addr).1 = 0 →
      (rcb4_command_set_dst_ram comm addr).2 =
        { comm with command := write_dst_ram comm.command 0 addr } := by
  unfold rcb4_command_set_dst_ram
  by_cases h2 : addr > RCB4_MAX_RAM_ADDRESS
  · rw [if_pos h2]; intro h; exact absurd h int_neg_one_ne_zero
  rw [if_neg h2]
  rcases member_of_legal_dst _ hs with hm | hm | hm | hm | hm <;> rw [hm] <;> intro _ <;> rfl

theorem set_dst_ics_stores (comm : rcb4_comm) (hs : legal_dst comm.type) (offset ics : Nat) :
    (rcb4_command_set_dst_ics comm offset ics).1 = 0 →
      (rcb4_command_set_dst_ics comm offset ics).2 =
        { comm with command := write_dst_ics comm.command 0 offset (ics - 1) } := by
  unfold rcb4_command_set_dst_ics
  by_cases h2 : ics = 0 ∨ ics > RCB4_ICS_QTY
  · rw [if_pos h2]; intro h; exact absurd h int_neg_one_ne_zero
  rw [if_neg h2]
  dsimp only
  rcases member_of_legal_dst _ hs with hm | hm | hm | hm | hm <;> rw [hm] <;> intro _ <;> rfl

theorem set_dst_rom_stores (comm : rcb4_comm) (hs : legal_dst comm.type) (addr : Nat) :
    (rcb4_command_set_dst_rom comm addr).1 = 0 →
      (rcb4_command_set_dst_rom comm addr).2 =
        { comm with command := write_dst_rom comm.command 0 addr } := by
  unfold rcb4_command_set_dst_rom
  by_cases h2 : addr > RCB4_MAX_ROM_ADDRESS
  · rw [if_pos h2]; intro h; exact absurd h int_neg_one_ne_zero
  rw [if_neg h2]
  rcases member_of_legal_dst _ hs with hm | hm | hm | hm | hm <;> rw [hm] <;> intro _ <;> rfl

theorem set_dst_com_stores (comm : rcb4_comm) (hs : legal_dst_com comm.type) :
    rcb4_command_set_dst_com comm =
      (0, { comm with command := write_dst_com comm.command 0 }) := by
  unfold rcb4_command_set_dst_com
  rcases hs with h | h
  · have hm : member_of comm.type = member.mov := by rw [h]; rfl
    rw [hm]
  · rw [member_of_math _ h]

theorem set_dst_do_not_save_stores (comm : rcb4_comm) (hs : legal_do_not_save comm.type) :
    rcb4_command_set_dst_do_not_save comm =
      (0, { comm with command := write_do_not_save comm.command 0 }) := by
  unfold rcb4_command_set_dst_do_not_save
  rcases hs with h | h | h | h
  · rw [member_of_logic _ h]
  · rw [member_of_math _ h]
  · have hm : member_of comm.type = member.logic_not := by rw [h]; rfl
    rw [hm]
  · have hm : member_of comm.type = member.shift := by rw [h]; rfl
    rw [hm]

/-! ## The destination setters on the type byte -/

theorem dst_replaced_of_write (old : rcb4_comm) (mem : Payload) (kind : Nat)
    (hk : kind = COMM_DST_RAM ∨ kind = COMM_DST_ICS ∨ kind = COMM_DST_COM ∨ kind = COMM_DST_ROM)
    (h0 : get8 mem 0 = dst_type_byte (get8 old.command 0) kind)
    (hrest : ∀ o, 4 ≤ o → get8 mem o = get8 old.command o) :
    dst_kind_replaced old { old with command := mem } kind := by
  obtain ⟨_, b, c⟩ := dst_type_byte_bits (get8 old.command 0) kind hk
  unfold dst_kind_replaced
  refine ⟨?_, ?_, hrest, rfl⟩
  · show get8 mem 0 &&& COMM_DST_MASK = kind
    rw [h0]; exact b
  · show get8 mem 0 &&& COMM_SRC_MASK = get8 old.command 0 &&& COMM_SRC_MASK
    rw [h0]; exact c

theorem set_dst_com_replaced (comm : rcb4_comm) (h : (rcb4_command_set_dst_com comm).1 = 0) :
    dst_kind_replaced comm (rcb4_command_set_dst_com comm).2 COMM_DST_COM := by
  rw [set_dst_com_stores comm (set_dst_com_success comm h)]
  apply dst_replaced_of_write _ _ _ (by simp)
  · rw [get8_write_dst_com, if_pos rfl]
  · intro o ho
    rw [get8_write_dst_com, if_neg (by omega)]

/-- C11: `rcb4_command_set_dst_com` returns 0 exactly when the opcode is MOV,
ADD, SUB, MUL, DIV or MOD; it then sets bits 4-5 of the type byte to COM and
keeps the source kind bits (and the source operand and the size); on AND, OR,
XOR, NOT, SHIFT, ICS and every servo opcode it returns an error. -/
theorem set_dst_com_legal_opcodes (comm : rcb4_comm) :
    ((rcb4_command_set_dst_com comm).1 = 0 ↔
        (comm.type = RCB4_COMM_MOV ∨ comm.type = RCB4_COMM_ADD ∨ comm.type = RCB4_COMM_SUB ∨
          comm.type = RCB4_COMM_MUL ∨ comm.type = RCB4_COMM_DIV ∨
          comm.type = RCB4_COMM_MOD)) ∧
      ((rcb4_command_set_dst_com comm).1 = 0 →
        dst_kind (rcb4_command_set_dst_com comm).2 = COMM_DST_COM ∧
        dst_kind_replaced comm (rcb4_command_set_dst_com comm).2 COMM_DST_COM) ∧
      ((comm.type = RCB4_COMM_AND ∨ comm.type = RCB4_COMM_OR ∨ comm.type = RCB4_COMM_XOR ∨
          comm.type = RCB4_COMM_NOT ∨ comm.type = RCB4_COMM_SHIFT ∨
          comm.type = RCB4_COMM_ICS ∨ comm.type = RCB4_COMM_SINGLE ∨
          comm.type = RCB4_COMM_CONST ∨ comm.type = RCB4_COMM_SERIES ∨
          comm.type = RCB4_COMM_SPEED) →
        (rcb4_command_set_dst_com comm).1 ≠ 0) := by
  have hiff : (rcb4_command_set_dst_com comm).1 = 0 ↔ legal_dst_com comm.type := by
    constructor
    · exact set_dst_com_success comm
    · intro hl
      rw [set_dst_com_stores comm hl]
  refine ⟨hiff, ?_, ?_⟩
  · intro h
    exact ⟨(set_dst_com_replaced comm h).1, set_dst_com_replaced comm h⟩
  · intro ht hrc
    have hl := hiff.1 hrc
    simp only [legal_dst_com, is_math, RCB4_COMM_MOV, RCB4_COMM_AND, RCB4_COMM_OR,
      RCB4_COMM_XOR, RCB4_COMM_NOT, RCB4_COMM_SHIFT, RCB4_COMM_ADD, RCB4_COMM_SUB,
      RCB4_COMM_MUL, RCB4_COMM_DIV, RCB4_COMM_MOD, RCB4_COMM_ICS, RCB4_COMM_SINGLE,
      RCB4_COMM_CONST, RCB4_COMM_SERIES, RCB4_COMM_SPEED] at ht hl
    omega

theorem set_dst_com_legal_opcodes_witness :
    (rcb4_command_set_dst_com (rcb4_command_set_src_ram (created RCB4_COMM_MOV) 0x0000 2).2).1
        = 0 ∧
      dst_kind mov_ram_to_com = COMM_DST_COM ∧
      (rcb4_command_set_dst_com (created RCB4_COMM_AND)).1 ≠ 0 :=
  ⟨by decide,
    ((set_dst_com_legal_opcodes
      (rcb4_command_set_src_ram (created RCB4_COMM_MOV) 0x0000 2).2).2.1 (by decide)).1,
    (set_dst_com_legal_opcodes (created RCB4_COMM_AND)).2.2 (Or.inl (by decide))⟩

/-! ## The do-not-save bit -/

theorem get8_write_do_not_save (mem : Payload) (o : Nat) :
    get8 (write_do_not_save mem 0) o =
      if o = 0 then (get8 mem 0 ||| COMM_NUPDATE) % 256 else get8 mem o := by
  unfold write_do_not_save
  rw [get8_put8]
  by_cases h : o = 0
  · rw [if_pos h, if_pos ⟨h, by decide⟩]
  · rw [if_neg h, if_neg (fun e => h e.1)]

theorem or_nupdate_bits (t i : Nat) (hi : i < 8) :
    ((t ||| COMM_NUPDATE) % 256).testBit i = (t.testBit i || decide (i = 7)) := by
  have e256 : (256 : Nat) = 2 ^ 8 := by decide
  have e128 : COMM_NUPDATE = 2 ^ 7 := by decide
  rw [e256, Nat.testBit_mod_two_pow, Nat.testBit_or, e128, Nat.testBit_two_pow]
  have : (7 = i) ↔ (i = 7) := by omega
  simp [hi, this]

/-- C12: `rcb4_command_set_dst_do_not_save` returns 0 exactly when the opcode
is AND, OR, XOR, NOT, SHIFT, ADD, SUB, MUL, DIV or MOD; it then sets bit 7 of
the type byte and leaves the seven other bits of that byte, every other byte of
the payload, the opcode and the size as they were; on MOV, ICS and every
servo opcode it returns an error. -/
theorem set_dst_do_not_save_sets_bit7 (comm : rcb4_comm) :
    ((rcb4_command_set_dst_do_not_save comm).1 = 0 ↔
        (comm.type = RCB4_COMM_AND ∨ comm.type = RCB4_COMM_OR ∨ comm.type = RCB4_COMM_XOR ∨
          comm.type = RCB4_COMM_NOT ∨ comm.type = RCB4_COMM_SHIFT ∨
          comm.type = RCB4_COMM_ADD ∨ comm.type = RCB4_COMM_SUB ∨
          comm.type = RCB4_COMM_MUL ∨ comm.type = RCB4_COMM_DIV ∨
          comm.type = RCB4_COMM_MOD)) ∧
      ((rcb4_command_set_dst_do_not_save comm).1 = 0 →
        get8 (rcb4_command_set_dst_do_not_save comm).2.command off_type =
            (get8 comm.command off_type ||| COMM_NUPDATE) % 256 ∧
          (get8 (rcb4_command_set_dst_do_not_save comm).2.command off_type).testBit 7 = true ∧
          (∀ i, i < 8 → i ≠ 7 →
            (get8 (rcb4_command_set_dst_do_not_save comm).2.command off_type).testBit i =
              (get8 comm.command off_type).testBit i) ∧
          (∀ o, o ≠ off_type →
            get8 (rcb4_command_set_dst_do_not_save comm).2.command o = get8 comm.command o) ∧
          (rcb4_command_set_dst_do_not_save comm).2.size = comm.size ∧
          (rcb4_command_set_dst_do_not_save comm).2.type = comm.type) ∧
      ((comm.type = RCB4_COMM_MOV ∨ comm.type = RCB4_COMM_ICS ∨
          comm.type = RCB4_COMM_SINGLE ∨ comm.type = RCB4_COMM_CONST ∨
          comm.type = RCB4_COMM_SERIES ∨ comm.type = RCB4_COMM_SPEED) →
        (rcb4_command_set_dst_do_not_save comm).1 ≠ 0) := by
  have hiff : (rcb4_command_set_dst_do_not_save comm).1 = 0 ↔
      legal_do_not_save comm.type := by
    constructor
    · exact set_dst_do_not_save_success comm
    · intro hl
      rw [set_dst_do_not_save_stores comm hl]
  refine ⟨?_, ?_, ?_⟩
  · rw [hiff]
    simp only [legal_do_not_save, is_logic, is_math]
    constructor
    · rintro ((h | h | h) | (h | h | h | h | h) | h | h) <;> simp [h]
    · rintro (h | h | h | h | h | h | h | h | h | h) <;> simp [h]
  · intro h
    rw [set_dst_do_not_save_stores comm (hiff.1 h)]
    refine ⟨?_, ?_, ?_, ?_, rfl, rfl⟩
    · show get8 (write_do_not_save comm.command 0) 0 = _
      rw [get8_write_do_not_save, if_pos rfl]
    · show (get8 (write_do_not_save comm.command 0) 0).testBit 7 = true
      rw [get8_write_do_not_save, if_pos rfl, or_nupdate_bits _ 7 (by decide)]
      simp
    · intro i hi h7
      show (get8 (write_do_not_save comm.command 0) 0).testBit i = _
      rw [get8_write_do_not_save, if_pos rfl, or_nupdate_bits _ i hi]
      simp [h7]
    · intro o ho
      show get8 (write_do_not_save comm.command 0) o = _
      rw [get8_write_do_not_save, if_neg ho]
  · intro ht hrc
    have hl := hiff.1 hrc
    simp only [legal_do_not_save, is_logic, is_math, RCB4_COMM_MOV, RCB4_COMM_AND, RCB4_COMM_OR,
      RCB4_COMM_XOR, RCB4_COMM_NOT, RCB4_COMM_SHIFT, RCB4_COMM_ADD, RCB4_COMM_SUB,
      RCB4_COMM_MUL, RCB4_COMM_DIV, RCB4_COMM_MOD, RCB4_COMM_ICS, RCB4_COMM_SINGLE,
      RCB4_COMM_CONST, RCB4_COMM_SERIES, RCB4_COMM_SPEED] at ht hl
    omega

theorem set_dst_do_not_save_sets_bit7_witness :
    (rcb4_command_set_dst_do_not_save and_ram_to_ram).1 = 0 ∧
      get8 (rcb4_command_set_dst_do_not_save and_ram_to_ram).2.command off_type =
        (get8 and_ram_to_ram.command off_type ||| COMM_NUPDATE) % 256 ∧
      (rcb4_command_set_dst_do_not_save (created RCB4_COMM_MOV)).1 ≠ 0 :=
  ⟨by decide, ((set_dst_do_not_save_sets_bit7 and_ram_to_ram).2.1 (by decide)).1,
    (set_dst_do_not_save_sets_bit7 (created RCB4_COMM_MOV)).2.2 (Or.inl (by decide))⟩

/-! ## The source setters on the type byte -/

theorem src_replaced_of_write (old : rcb4_comm) (mem : Payload) (size kind : Nat) (hk : kind < 4)
    (h0 : get8 mem 0 = src_type_byte (get8 old.command 0) kind)
    (hdst : ∀ o, 1 ≤ o → o ≤ 3 → get8 mem o = get8 old.command o) :
    src_kind_replaced old { old with command := mem, size := size } kind := by
  obtain ⟨_, a, b, c, d⟩ := src_type_byte_bits (get8 old.command 0) kind hk
  unfold src_kind_replaced
  refine ⟨?_, ?_, ?_, ?_, hdst 1 (by omega) (by omega), hdst 2 (by omega) (by omega),
    hdst 3 (by omega) (by omega)⟩
  · show get8 mem 0 = _
    rw [h0]; exact a
  · show get8 mem 0 &&& COMM_SRC_MASK = kind
    rw [h0]; exact b
  · show get8 mem 0 &&& COMM_DST_MASK = get8 old.command 0 &&& COMM_DST_MASK
    rw [h0]; exact c
  · show get8 mem 0 &&& COMM_NUPDATE = get8 old.command 0 &&& COMM_NUPDATE
    rw [h0]; exact d

/-- C13: on a MOV, logic or arithmetic message with type byte `t`, every
successful source setter (RAM, ICS, literal, ROM) leaves the type byte
`(t AND 0xB0) OR kind`: bits 0-1 are the new source kind (RAM 0, ICS 1, literal
2, ROM 3), while bits 4-5 (the destination kind), bit 7 (do not save) and the
three bytes of the destination operand are as before the call. -/
theorem source_setter_keeps_destination (comm : rcb4_comm) (hs : has_src comm.type) :
    (∀ addr size, (rcb4_command_set_src_ram comm addr size).1 = 0 →
        src_kind_replaced comm (rcb4_command_set_src_ram comm addr size).2 COMM_SRC_RAM) ∧
      (∀ offset ics size, (rcb4_command_set_src_ics comm offset ics size).1 = 0 →
        src_kind_replaced comm (rcb4_command_set_src_ics comm offset ics size).2
          COMM_SRC_ICS) ∧
      (∀ literal length, (rcb4_command_set_src_literal comm literal length).1 = 0 →
        src_kind_replaced comm (rcb4_command_set_src_literal comm literal length).2
          COMM_SRC_LIT) ∧
      (∀ addr size, (rcb4_command_set_src_rom comm addr size).1 = 0 →
        src_kind_replaced comm (rcb4_command_set_src_rom comm addr size).2 COMM_SRC_ROM) := by
  refine ⟨?_, ?_, ?_, ?_⟩
  · intro addr size h
    rw [set_src_ram_stores comm hs addr size h]
    apply src_replaced_of_write _ _ _ _ (by decide)
    · rw [get8_write_src_ram]
      simp
    · intro o h1 h3
      rw [get8_write_src_ram, if_neg (by omega), if_neg (by omega), if_neg (by omega),
        if_neg (by omega)]
  · intro offset ics size h
    rw [set_src_ics_stores comm hs offset ics size h]
    apply src_replaced_of_write _ _ _ _ (by decide)
    · rw [get8_write_src_ics]
      simp
    · intro o h1 h3
      rw [get8_write_src_ics, if_neg (by omega), if_neg (by omega), if_neg (by omega),
        if_neg (by omega)]
  · intro literal length h
    rw [set_src_literal_stores comm hs literal length h]
    apply src_replaced_of_write _ _ _ _ (by decide)
    · rw [get8_write_src_lit]
      simp
    · intro o h1 h3
      rw [get8_write_src_lit, if_neg (by omega), if_neg (by omega)]
  · intro addr size h
    rw [set_src_rom_stores comm hs addr size h]
    apply src_replaced_of_write _ _ _ _ (by decide)
    · rw [get8_write_src_rom]
      simp
    · intro o h1 h3
      rw [get8_write_src_rom, if_neg (by omega), if_neg (by omega), if_neg (by omega),
        if_neg (by omega), if_neg (by omega)]

theorem source_setter_keeps_destination_witness :
    has_src mov_to_rom_lit.type ∧
      get8 mov_to_rom_lit.command off_type = 0x32 ∧
      (rcb4_command_set_src_ram mov_to_rom_lit 0x0123 2).1 = 0 ∧
      src_kind_replaced mov_to_rom_lit (rcb4_command_set_src_ram mov_to_rom_lit 0x0123 2).2
        COMM_SRC_RAM :=
  ⟨by decide, by decide, by decide,
    (source_setter_keeps_destination mov_to_rom_lit (by decide)).1 0x0123 2 (by decide)⟩

/-- C14: on a MOV, logic or arithmetic message, every successful destination
setter (RAM, ICS, COM, ROM) leaves bits 4-5 of the type byte equal to the new
destination kind (RAM `0x00`, ICS `0x10`, COM `0x20`, ROM `0x30`), while bits
0-1 (the source kind), every byte of the source operand and the size are as
before the call. -/
theorem destination_setter_keeps_source (comm : rcb4_comm) (hs : has_src comm.type) :
    (∀ addr, (rcb4_command_set_dst_ram comm addr).1 = 0 →
        dst_kind_replaced comm (rcb4_command_set_dst_ram comm addr).2 COMM_DST_RAM) ∧
      (∀ offset ics, (rcb4_command_set_dst_ics comm offset ics).1 = 0 →
        dst_kind_replaced comm (rcb4_command_set_dst_ics comm offset ics).2 COMM_DST_ICS) ∧
      ((rcb4_command_set_dst_com comm).1 = 0 →
        dst_kind_replaced comm (rcb4_command_set_dst_com comm).2 COMM_DST_COM) ∧
      (∀ addr, (rcb4_command_set_dst_rom comm addr).1 = 0 →
        dst_kind_replaced comm (rcb4_command_set_dst_rom comm addr).2 COMM_DST_ROM) := by
  have hl : legal_dst comm.type := Or.inl hs
  refine ⟨?_, ?_, ?_, ?_⟩
  · intro addr h
    rw [set_dst_ram_stores comm hl addr h]
    apply dst_replaced_of_write _ _ _ (by simp)
    · rw [get8_write_dst_ram]
      simp
    · intro o ho
      rw [get8_write_dst_ram, if_neg (by omega), if_neg (by omega), if_neg (by omega)]
  · intro offset ics h
    rw [set_dst_ics_stores comm hl offset ics h]
    apply dst_replaced_of_write _ _ _ (by simp)
    · rw [get8_write_dst_ics]
      simp
    · intro o ho
      rw [get8_write_dst_ics, if_neg (by omega), if_neg (by omega), if_neg (by omega)]
  · exact set_dst_com_replaced comm
  · intro addr h
    rw [set_dst_rom_stores comm hl addr h]
    apply dst_replaced_of_write _ _ _ (by simp)
    · rw [get8_write_dst_rom]
      simp
    · intro o ho
      rw [get8_write_dst_rom, if_neg (by omega), if_neg (by omega), if_neg (by omega),
        if_neg (by omega)]

theorem destination_setter_keeps_source_witness :
    has_src mov_to_rom_lit.type ∧
      (rcb4_command_set_dst_ics mov_to_rom_lit 7 36).1 = 0 ∧
      dst_kind_replaced mov_to_rom_lit (rcb4_command_set_dst_ics mov_to_rom_lit 7 36).2
        COMM_DST_ICS :=
  ⟨by decide, by decide,
    (destination_setter_keeps_source mov_to_rom_lit (by decide)).2.1 7 36 (by decide)⟩

/-! ## The range checks of the source and destination setters -/

theorem member_of_legal_dst_ram (t : Nat) (h : legal_dst_ram t) :
    member_of t = member.mov ∨ member_of t = member.logic ∨ member_of t = member.math ∨
      member_of t = member.logic_not ∨ member_of t = member.shift ∨
      member_of t = member.ics := by
  rcases h with h | h | h | h
  · rcases member_of_legal_dst t (Or.inl h) with c | c | c | c | c
    · exact Or.inl c
    · exact Or.inr (Or.inl c)
    · exact Or.inr (Or.inr (Or.inl c))
    · exact Or.inr (Or.inr (Or.inr (Or.inl c)))
    · exact Or.inr (Or.inr (Or.inr (Or.inr (Or.inl c))))
  · right; right; right; left; rw [h]; rfl
  · right; right; right; right; left; rw [h]; rfl
  · right; right; right; right; right; rw [h]; rfl

theorem set_src_ram_accepts (comm : rcb4_comm) (hs : has_src comm.type) (addr size : Nat)
    (h1 : 1 ≤ size) (h2 : size ≤ 118) (ha : addr ≤ 0x048F) :
    (rcb4_command_set_src_ram comm addr size).1 = 0 := by
  unfold rcb4_command_set_src_ram
  have c1 : ¬ (size = 0 ∨ size > RCB4_COMM_MESSAGE_SIZE_ALLOWED - 10) := by
    simp only [RCB4_COMM_MESSAGE_SIZE_ALLOWED]; omega
  have c2 : ¬ (addr > RCB4_MAX_RAM_ADDRESS) := by
    simp only [RCB4_MAX_RAM_ADDRESS]; omega
  rw [if_neg c1, if_neg c2]
  rcases member_of_has_src _ hs with hm | hm | hm <;> rw [hm]

theorem set_src_ram_ics_code (comm : rcb4_comm) (ht : comm.type = RCB4_COMM_ICS)
    (addr size : Nat) (h1 : 1 ≤ size) (h2 : size ≤ 118) (ha : addr ≤ 0x048F) :
    (rcb4_command_set_src_ram comm addr size).1 = if size > 64 then -1 else 0 := by
  unfold rcb4_command_set_src_ram
  have c1 : ¬ (size = 0 ∨ size > RCB4_COMM_MESSAGE_SIZE_ALLOWED - 10) := by
    simp only [RCB4_COMM_MESSAGE_SIZE_ALLOWED]; omega
  have c2 : ¬ (addr > RCB4_MAX_RAM_ADDRESS) := by
    simp only [RCB4_MAX_RAM_ADDRESS]; omega
  have hm : member_of comm.type = member.ics := by rw [ht]; rfl
  rw [if_neg c1, if_neg c2, hm]
  dsimp only
  by_cases c3 : size > RCB4_MAX_ICS_SRC_SIZE
  · rw [if_pos c3, if_pos c3]
  · rw [if_neg c3, if_neg c3]

theorem set_src_ics_accepts (comm : rcb4_comm) (hs : has_src comm.type) (offset ics size : Nat)
    (h1 : 1 ≤ size) (h2 : size ≤ 128) (hi1 : 1 ≤ ics) (hi2 : ics ≤ 36) :
    (rcb4_command_set_src_ics comm offset ics size).1 = 0 := by
  unfold rcb4_command_set_src_ics
  have c1 : ¬ (size = 0 ∨ size > RCB4_COMM_MESSAGE_SIZE_ALLOWED) := by
    simp only [RCB4_COMM_MESSAGE_SIZE_ALLOWED]; omega
  have c2 : ¬ (ics = 0 ∨ ics > RCB4_ICS_QTY) := by
    simp only [RCB4_ICS_QTY]; omega
  rw [if_neg c1, if_neg c2]
  dsimp only
  rcases member_of_has_src _ hs with hm | hm | hm <;> rw [hm]

theorem set_src_literal_accepts (comm : rcb4_comm) (hs : has_src comm.type)
    (literal : List Nat) (length : Nat) (h1 : 1 ≤ length) (h2 : length ≤ 120) :
    (rcb4_command_set_src_literal comm literal length).1 = 0 := by
  unfold rcb4_command_set_src_literal
  have c1 : ¬ (length = 0 ∨ length ≥ COMM_LITERAL_MAX_LEN) := by
    simp only [COMM_LITERAL_MAX_LEN, RCB4_COMM_MESSAGE_SIZE_ALLOWED]; omega
  rw [if_neg c1]
  rcases member_of_has_src _ hs with hm | hm | hm <;> rw [hm]

theorem set_src_rom_accepts (comm : rcb4_comm) (hs : has_src comm.type) (addr size : Nat)
    (h1 : 1 ≤ size) (h2 : size ≤ 128) (ha : addr ≤ 0x03FFFF) :
    (rcb4_command_set_src_rom comm addr size).1 = 0 := by
  unfold rcb4_command_set_src_rom
  have c1 : ¬ (size = 0 ∨ size > RCB4_COMM_MESSAGE_SIZE_ALLOWED) := by
    simp only [RCB4_COMM_MESSAGE_SIZE_ALLOWED]; omega
  have c2 : ¬ (addr > RCB4_MAX_ROM_ADDRESS) := by
    simp only [RCB4_MAX_ROM_ADDRESS]; omega
  rw [if_neg c1, if_neg c2]
  rcases member_of_has_src _ hs with hm | hm | hm <;> rw [hm]

theorem set_dst_ram_accepts (comm : rcb4_comm) (hs : legal_dst_ram comm.type) (addr : Nat)
    (ha : addr ≤ 0x048F) : (rcb4_command_set_dst_ram comm addr).1 = 0 := by
  unfold rcb4_command_set_dst_ram
  have c2 : ¬ (addr > RCB4_MAX_RAM_ADDRESS) := by
    simp only [RCB4_MAX_RAM_ADDRESS]; omega
  rw [if_neg c2]
  rcases member_of_legal_dst_ram _ hs with hm | hm | hm | hm | hm | hm <;> rw [hm]

theorem set_dst_ics_accepts (comm : rcb4_comm) (hs : legal_dst comm.type) (offset ics : Nat)
    (hi1 : 1 ≤ ics) (hi2 : ics ≤ 36) : (rcb4_command_set_dst_ics comm offset ics).1 = 0 := by
  unfold rcb4_command_set_dst_ics
  have c2 : ¬ (ics = 0 ∨ ics > RCB4_ICS_QTY) := by
    simp only [RCB4_ICS_QTY]; omega
  rw [if_neg c2]
  dsimp only
  rcases member_of_legal_dst _ hs with hm | hm | hm | hm | hm <;> rw [hm]

theorem set_dst_rom_accepts (comm : rcb4_comm) (hs : legal_dst comm.type) (addr : Nat)
    (ha : addr ≤ 0x03FFFF) : (rcb4_command_set_dst_rom comm addr).1 = 0 := by
  unfold rcb4_command_set_dst_rom
  have c2 : ¬ (addr > RCB4_MAX_ROM_ADDRESS) := by
    simp only [RCB4_MAX_ROM_ADDRESS]; omega
  rw [if_neg c2]
  rcases member_of_legal_dst _ hs with hm | hm | hm | hm | hm <;> rw [hm]

/-- C15: on an opcode the setter accepts and with a size the setter accepts
(1 to 118 for `set_src_ram`, 1 to 128 for `set_src_ics` and `set_src_rom`),
`set_src_ram` and `set_dst_ram` fail exactly when `addr > 0x048F`,
`set_src_rom` and `set_dst_rom` exactly when `addr > 0x03FFFF`, `set_src_ics`
and `set_dst_ics` exactly when the id is 0 or above 36, and these two store
`id - 1`; on ICS, `set_src_ram` fails exactly when `addr > 0x048F` or
`size > 64`. -/
theorem setters_check_ranges (comm : rcb4_comm) :
    (has_src comm.type → ∀ addr size, 1 ≤ size → size ≤ 118 →
        ((rcb4_command_set_src_ram comm addr size).1 ≠ 0 ↔ addr > 0x048F)) ∧
      (comm.type = RCB4_COMM_ICS → ∀ addr size, 1 ≤ size → size ≤ 118 →
        ((rcb4_command_set_src_ram comm addr size).1 ≠ 0 ↔ (addr > 0x048F ∨ size > 64))) ∧
      (legal_dst_ram comm.type → ∀ addr,
        ((rcb4_command_set_dst_ram comm addr).1 ≠ 0 ↔ addr > 0x048F)) ∧
      (has_src comm.type → ∀ addr size, 1 ≤ size → size ≤ 128 →
        ((rcb4_command_set_src_rom comm addr size).1 ≠ 0 ↔ addr > 0x03FFFF)) ∧
      (legal_dst comm.type → ∀ addr,
        ((rcb4_command_set_dst_rom comm addr).1 ≠ 0 ↔ addr > 0x03FFFF)) ∧
      (has_src comm.type → ∀ offset ics size, 1 ≤ size → size ≤ 128 →
        ((rcb4_command_set_src_ics comm offset ics size).1 ≠ 0 ↔ (ics = 0 ∨ ics > 36)) ∧
        ((rcb4_command_set_src_ics comm offset ics size).1 = 0 →
          get8 (rcb4_command_set_src_ics comm offset ics size).2.command (off_src + 1) =
            ics - 1)) ∧
      (legal_dst comm.type → ∀ offset ics,
        ((rcb4_command_set_dst_ics comm offset ics).1 ≠ 0 ↔ (ics = 0 ∨ ics > 36)) ∧
        ((rcb4_command_set_dst_ics comm offset ics).1 = 0 →
          get8 (rcb4_command_set_dst_ics comm offset ics).2.command (off_dst + 1) =
            ics - 1)) := by
  refine ⟨?_, ?_, ?_, ?_, ?_, ?_, ?_⟩
  · intro hs addr size h1 h2
    constructor
    · intro hf
      by_cases ha : addr ≤ 0x048F
      · exact absurd (set_src_ram_accepts comm hs addr size h1 h2 ha) hf
      · omega
    · intro ha hz
      have := (set_src_ram_success comm addr size hz).2.2.2
      omega
  · intro ht addr size h1 h2
    constructor
    · intro hf
      by_cases ha : addr ≤ 0x048F
      · rw [set_src_ram_ics_code comm ht addr size h1 h2 ha] at hf
        by_cases hz : size > 64
        · exact Or.inr hz
        · rw [if_neg hz] at hf; exact absurd rfl hf
      · left; omega
    · intro ha hz
      have hh := set_src_ram_success comm addr size hz
      rcases hh.1 with hs | ⟨_, h64⟩
      · have : comm.type ≠ RCB4_COMM_ICS := by
          simp only [has_src, is_logic, is_math, RCB4_COMM_MOV, RCB4_COMM_AND, RCB4_COMM_OR,
            RCB4_COMM_XOR, RCB4_COMM_ADD, RCB4_COMM_SUB, RCB4_COMM_MUL, RCB4_COMM_DIV,
            RCB4_COMM_MOD, RCB4_COMM_ICS] at hs ⊢
          omega
        exact this ht
      · have := hh.2.2.2
        omega
  · intro hs addr
    constructor
    · intro hf
      by_cases ha : addr ≤ 0x048F
      · exact absurd (set_dst_ram_accepts comm hs addr ha) hf
      · omega
    · intro ha hz
      have := (set_dst_ram_success comm addr hz).2
      omega
  · intro hs addr size h1 h2
    constructor
    · intro hf
      by_cases ha : addr ≤ 0x03FFFF
      · exact absurd (set_src_rom_accepts comm hs addr size h1 h2 ha) hf
      · omega
    · intro ha hz
      have := (set_src_rom_success comm addr size hz).2.2.2
      omega
  · intro hs addr
    constructor
    · intro hf
      by_cases ha : addr ≤ 0x03FFFF
      · exact absurd (set_dst_rom_accepts comm hs addr ha) hf
      · omega
    · intro ha hz
      have := (set_dst_rom_success comm addr hz).2
      omega
  · intro hs offset ics size h1 h2
    constructor
    · constructor
      · intro hf
        by_cases hi : 1 ≤ ics ∧ ics ≤ 36
        · exact absurd (set_src_ics_accepts comm hs offset ics size h1 h2 hi.1 hi.2) hf
        · omega
      · intro hi hz
        have := (set_src_ics_success comm offset ics size hz).2.2.2
        omega
    · intro hz
      have hi := (set_src_ics_success comm offset ics size hz).2.2.2
      rw [set_src_ics_stores comm hs offset ics size hz]
      show get8 (write_src_ics comm.command 0 offset (ics - 1) size) 5 = ics - 1
      rw [get8_write_src_ics, if_neg (by decide), if_pos rfl]
      omega
  · intro hs offset ics
    constructor
    · constructor
      · intro hf
        by_cases hi : 1 ≤ ics ∧ ics ≤ 36
        · exact absurd (set_dst_ics_accepts comm hs offset ics hi.1 hi.2) hf
        · omega
      · intro hi hz
        have := (set_dst_ics_success comm offset ics hz).2
        omega
    · intro hz
      have hi := (set_dst_ics_success comm offset ics hz).2
      rw [set_dst_ics_stores comm hs offset ics hz]
      show get8 (write_dst_ics comm.command 0 offset (ics - 1)) 2 = ics - 1
      rw [get8_write_dst_ics, if_pos rfl]
      omega

theorem setters_check_ranges_witness :
    has_src (created RCB4_COMM_MOV).type ∧
      ((rcb4_command_set_src_ram (created RCB4_COMM_MOV) 0x0490 2).1 ≠ 0 ↔
        0x0490 > 0x048F) ∧
      (created RCB4_COMM_ICS).type = RCB4_COMM_ICS ∧
      ((rcb4_command_set_src_ram (created RCB4_COMM_ICS) 0 65).1 ≠ 0 ↔
        (0 > 0x048F ∨ 65 > 64)) ∧
      (rcb4_command_set_src_ics (created RCB4_COMM_MOV) 3 36 2).1 = 0 ∧
      get8 (rcb4_command_set_src_ics (created RCB4_COMM_MOV) 3 36 2).2.command (off_src + 1) =
        36 - 1 :=
  ⟨by decide,
    (setters_check_ranges (created RCB4_COMM_MOV)).1 (by decide) 0x0490 2 (by decide)
      (by decide),
    by decide,
    (setters_check_ranges (created RCB4_COMM_ICS)).2.1 (by decide) 0 65 (by decide) (by decide),
    by decide,
    ((setters_check_ranges (created RCB4_COMM_MOV)).2.2.2.2.2.1 (by decide) 3 36 2 (by decide)
      (by decide)).2 (by decide)⟩

/-! ## The length of a literal source -/

/-- C16 fails on the code: on a MOV message a literal of 121 bytes is
rejected. -/
theorem literal_of_121_bytes_rejected :
    (created RCB4_COMM_MOV).type = RCB4_COMM_MOV ∧
      (rcb4_command_set_src_literal (created RCB4_COMM_MOV) (List.replicate 121 0xAA) 121).1
        = -1 := by
  constructor <;> decide

/-- C16 as amended: on MOV, AND, OR, XOR, ADD, SUB, MUL, DIV and MOD,
`rcb4_command_set_src_literal` succeeds exactly for the lengths 1 to 120: it
fails for length 0 and for every length above 120. -/
theorem literal_length_1_to_120 (comm : rcb4_comm) (hs : has_src comm.type)
    (literal : List Nat) (length : Nat) :
    (rcb4_command_set_src_literal comm literal length).1 = 0 ↔ (1 ≤ length ∧ length ≤ 120) := by
  constructor
  · intro h
    exact (set_src_literal_success comm literal length h).2
  · intro h
    exact set_src_literal_accepts comm hs literal length h.1 h.2

theorem literal_length_1_to_120_witness :
    has_src (created RCB4_COMM_XOR).type ∧
      ((rcb4_command_set_src_literal (created RCB4_COMM_XOR) (List.replicate 120 0xAA) 120).1 = 0
        ↔ (1 ≤ 120 ∧ 120 ≤ 120)) :=
  ⟨by decide, literal_length_1_to_120 (created RCB4_COMM_XOR) (by decide) _ 120⟩

/-! ## The bytes of the operands -/

theorem src_bytes_eq (comm : rcb4_comm) (n : Nat) (l : List Nat) (hl : l.length = n)
    (h : ∀ k, k < n → get8 comm.command (4 + k) = l.getD k 0) : src_bytes comm n = l := by
  unfold src_bytes
  apply List.ext_getElem
  · rw [List.length_map, List.length_range, hl]
  · intro k h1 h2
    rw [List.length_map, List.length_range] at h1
    rw [List.getElem_map, List.getElem_range, h k h1, List.getD_eq_getElem _ _ h2]

theorem dst_bytes_eq (comm : rcb4_comm) (n : Nat) (l : List Nat) (hl : l.length = n)
    (h : ∀ k, k < n → get8 comm.command (1 + k) = l.getD k 0) : dst_bytes comm n = l := by
  unfold dst_bytes
  apply List.ext_getElem
  · rw [List.length_map, List.length_range, hl]
  · intro k h1 h2
    rw [List.length_map, List.length_range] at h1
    rw [List.getElem_map, List.getElem_range, h k h1, List.getD_eq_getElem _ _ h2]


/-- C17: the operand bytes a successful setter leaves.  A RAM source is
`[addr mod 256, addr div 256, size]`, an ICS source `[offset, id - 1, size]`, a
ROM source the three address bytes, least significant first, then the size, a
literal source the bytes given, in order; a RAM destination starts with
`[addr mod 256, addr div 256]` and a ROM destination is the three address
bytes, least significant first.  The address bytes, read least significant
first, give back the address. -/
theorem operand_bytes_layout (comm : rcb4_comm) :
    (has_src comm.type → ∀ addr size, (rcb4_command_set_src_ram comm addr size).1 = 0 →
        src_bytes (rcb4_command_set_src_ram comm addr size).2 3 =
            [addr % 256, addr / 256, size] ∧
          le_value (src_bytes (rcb4_command_set_src_ram comm addr size).2 2) = addr) ∧
      (has_src comm.type → ∀ offset ics size, offset < 256 →
        (rcb4_command_set_src_ics comm offset ics size).1 = 0 →
        src_bytes (rcb4_command_set_src_ics comm offset ics size).2 3 =
          [offset, ics - 1, size]) ∧
      (has_src comm.type → ∀ addr size, (rcb4_command_set_src_rom comm addr size).1 = 0 →
        src_bytes (rcb4_command_set_src_rom comm addr size).2 4 =
            [addr % 256, addr / 256 % 256, addr / 65536, size] ∧
          le_value (src_bytes (rcb4_command_set_src_rom comm addr size).2 3) = addr) ∧
      (has_src comm.type → ∀ literal length, (∀ b ∈ literal, b < 256) →
        length ≤ literal.length →
        (rcb4_command_set_src_literal comm literal length).1 = 0 →
        src_bytes (rcb4_command_set_src_literal comm literal length).2 length =
          literal.take length) ∧
      (legal_dst comm.type → ∀ addr, (rcb4_command_set_dst_ram comm addr).1 = 0 →
        dst_bytes (rcb4_command_set_dst_ram comm addr).2 2 = [addr % 256, addr / 256] ∧
          le_value (dst_bytes (rcb4_command_set_dst_ram comm addr).2 2) = addr) ∧
      (legal_dst comm.type → ∀ addr, (rcb4_command_set_dst_rom comm addr).1 = 0 →
        dst_bytes (rcb4_command_set_dst_rom comm addr).2 3 =
            [addr % 256, addr / 256 % 256, addr / 65536] ∧
          le_value (dst_bytes (rcb4_command_set_dst_rom comm addr).2 3) = addr) := by
  refine ⟨?_, ?_, ?_, ?_, ?_, ?_⟩
  · intro hs addr size hz
    obtain ⟨_, h1, h2, ha⟩ := set_src_ram_success comm addr size hz
    have hc : (rcb4_command_set_src_ram comm addr size).2.command =
        write_src_ram comm.command 0 addr size := by
      rw [set_src_ram_stores comm hs addr size hz]
    have e3 : src_bytes (rcb4_command_set_src_ram comm addr size).2 3 =
        [addr % 256, addr / 256, size] := by
      apply src_bytes_eq _ 3 _ (by rfl)
      intro k hk
      rw [hc, get8_write_src_ram]
      interval_cases k <;> simp
      all_goals omega
    have e2 : src_bytes (rcb4_command_set_src_ram comm addr size).2 2 =
        [addr % 256, addr / 256] := by
      apply src_bytes_eq _ 2 _ (by rfl)
      intro k hk
      rw [hc, get8_write_src_ram]
      interval_cases k <;> simp
      all_goals omega
    refine ⟨e3, ?_⟩
    rw [e2]
    simp only [le_value]
    omega
  · intro hs offset ics size ho hz
    obtain ⟨_, h1, h2, hi1, hi2⟩ := set_src_ics_success comm offset ics size hz
    have hc : (rcb4_command_set_src_ics comm offset ics size).2.command =
        write_src_ics comm.command 0 offset (ics - 1) size := by
      rw [set_src_ics_stores comm hs offset ics size hz]
    apply src_bytes_eq _ 3 _ (by rfl)
    intro k hk
    rw [hc, get8_write_src_ics]
    interval_cases k <;> simp
    all_goals omega
  · intro hs addr size hz
    obtain ⟨_, h1, h2, ha⟩ := set_src_rom_success comm addr size hz
    have hc : (rcb4_command_set_src_rom comm addr size).2.command =
        write_src_rom comm.command 0 addr size := by
      rw [set_src_rom_stores comm hs addr size hz]
    have e4 : src_bytes (rcb4_command_set_src_rom comm addr size).2 4 =
        [addr % 256, addr / 256 % 256, addr / 65536, size] := by
      apply src_bytes_eq _ 4 _ (by rfl)
      intro k hk
      rw [hc, get8_write_src_rom]
      interval_cases k <;> simp
      all_goals omega
    have e3 : src_bytes (rcb4_command_set_src_rom comm addr size).2 3 =
        [addr % 256, addr / 256 % 256, addr / 65536] := by
      apply src_bytes_eq _ 3 _ (by rfl)
      intro k hk
      rw [hc, get8_write_src_rom]
      interval_cases k <;> simp
      all_goals omega
    refine ⟨e4, ?_⟩
    rw [e3]
    simp only [le_value]
    omega
  · intro hs literal length hb hlen hz
    obtain ⟨_, h1, h2⟩ := set_src_literal_success comm literal length hz
    have hc : (rcb4_command_set_src_literal comm literal length).2.command =
        write_src_lit comm.command 0 literal length := by
      rw [set_src_literal_stores comm hs literal length hz]
    apply src_bytes_eq _ length _ (by rw [List.length_take]; omega)
    intro k hk
    have c : 4 ≤ 4 + k ∧ 4 + k < 4 + length ∧ 4 + k < 125 := by omega
    have e : 4 + k - 4 = k := by omega
    have hk2 : k < literal.length := by omega
    have hk3 : k < (literal.take length).length := by rw [List.length_take]; omega
    rw [hc, get8_write_src_lit, if_pos c, e, List.getD_eq_getElem _ _ hk2,
      List.getD_eq_getElem _ _ hk3, List.getElem_take]
    exact Nat.mod_eq_of_lt (hb _ (List.getElem_mem _))
  · intro hs addr hz
    obtain ⟨_, ha⟩ := set_dst_ram_success comm addr hz
    have hc : (rcb4_command_set_dst_ram comm addr).2.command =
        write_dst_ram comm.command 0 addr := by
      rw [set_dst_ram_stores comm hs addr hz]
    have e2 : dst_bytes (rcb4_command_set_dst_ram comm addr).2 2 =
        [addr % 256, addr / 256] := by
      apply dst_bytes_eq _ 2 _ (by rfl)
      intro k hk
      rw [hc, get8_write_dst_ram]
      interval_cases k <;> simp
      all_goals omega
    refine ⟨e2, ?_⟩
    rw [e2]
    simp only [le_value]
    omega
  · intro hs addr hz
    obtain ⟨_, ha⟩ := set_dst_rom_success comm addr hz
    have hc : (rcb4_command_set_dst_rom comm addr).2.command =
        write_dst_rom comm.command 0 addr := by
      rw [set_dst_rom_stores comm hs addr hz]
    have e3 : dst_bytes (rcb4_command_set_dst_rom comm addr).2 3 =
        [addr % 256, addr / 256 % 256, addr / 65536] := by
      apply dst_bytes_eq _ 3 _ (by rfl)
      intro k hk
      rw [hc, get8_write_dst_rom]
      interval_cases k <;> simp
      all_goals omega
    refine ⟨e3, ?_⟩
    rw [e3]
    simp only [le_value]
    omega

theorem operand_bytes_layout_witness :
    has_src (created RCB4_COMM_MOV).type ∧
      (rcb4_command_set_src_rom (created RCB4_COMM_MOV) 0x012345 2).1 = 0 ∧
      src_bytes (rcb4_command_set_src_rom (created RCB4_COMM_MOV) 0x012345 2).2 4 =
        [0x012345 % 256, 0x012345 / 256 % 256, 0x012345 / 65536, 2] ∧
      le_value (src_bytes (rcb4_command_set_src_rom (created RCB4_COMM_MOV) 0x012345 2).2 3) =
        0x012345 :=
  ⟨by decide, by decide,
    (operand_bytes_layout (created RCB4_COMM_MOV)).2.2.1 (by decide) 0x012345 2 (by decide)⟩

/-! ## Where `rcb4_command_set_servo` fails -/

theorem set_servo_code (comm : rcb4_comm) (ics speed position : Nat) :
    (rcb4_command_set_servo comm ics speed position).1 ≠ 0 ↔
      ((ics = 0 ∨ ics > 36) ∨ (speed = 0 ∧ comm.type ≠ RCB4_COMM_CONST) ∨
        ¬ (comm.type = RCB4_COMM_SINGLE ∨ comm.type = RCB4_COMM_CONST ∨
          comm.type = RCB4_COMM_SERIES)) := by
  unfold rcb4_command_set_servo
  by_cases c1 : speed = 0 ∧ comm.type ≠ RCB4_COMM_CONST
  · rw [if_pos c1]
    exact ⟨fun _ => Or.inr (Or.inl c1), fun _ => int_neg_one_ne_zero⟩
  rw [if_neg c1]
  by_cases c2 : ics = 0 ∨ ics > RCB4_ICS_QTY
  · rw [if_pos c2]
    exact ⟨fun _ => Or.inl c2, fun _ => int_neg_one_ne_zero⟩
  rw [if_neg c2]
  dsimp only
  by_cases t1 : comm.type = RCB4_COMM_SINGLE
  · rw [if_pos t1]
    constructor
    · intro h; exact absurd rfl h
    · rintro (h | h | h)
      · exact absurd h c2
      · exact absurd h c1
      · exact absurd (Or.inl t1) h
  rw [if_neg t1]
  by_cases t2 : comm.type = RCB4_COMM_CONST
  · rw [if_pos t2]
    constructor
    · intro h; exact absurd rfl h
    · rintro (h | h | h)
      · exact absurd h c2
      · exact absurd h c1
      · exact absurd (Or.inr (Or.inl t2)) h
  rw [if_neg t2]
  by_cases t3 : comm.type = RCB4_COMM_SERIES
  · rw [if_pos t3]
    constructor
    · intro h; exact absurd rfl h
    · rintro (h | h | h)
      · exact absurd h c2
      · exact absurd h c1
      · exact absurd (Or.inr (Or.inr t3)) h
  rw [if_neg t3]
  refine ⟨fun _ => Or.inr (Or.inr ?_), fun _ => int_neg_one_ne_zero⟩
  rintro (h | h | h)
  · exact t1 h
  · exact t2 h
  · exact t3 h

theorem set_servo_success (comm : rcb4_comm) (ics speed position : Nat)
    (h : (rcb4_command_set_servo comm ics speed position).1 = 0) :
    1 ≤ ics ∧ ics ≤ 36 ∧ (comm.type ≠ RCB4_COMM_CONST → 1 ≤ speed) ∧ legal_servo comm.type := by
  have hc := set_servo_code comm ics speed position
  by_cases c : (ics = 0 ∨ ics > 36) ∨ (speed = 0 ∧ comm.type ≠ RCB4_COMM_CONST) ∨
      ¬ (comm.type = RCB4_COMM_SINGLE ∨ comm.type = RCB4_COMM_CONST ∨
        comm.type = RCB4_COMM_SERIES)
  · exact absurd h (hc.2 c)
  · refine ⟨by omega, by omega, ?_, ?_⟩
    · intro ht
      by_contra hs
      exact c (Or.inr (Or.inl ⟨by omega, ht⟩))
    · by_contra hl
      exact c (Or.inr (Or.inr hl))

/-- C20: `rcb4_command_set_servo` returns an error exactly when the id is 0 or
above 36, or the speed is 0 on an opcode other than CONST, or the opcode is
none of SINGLE, CONST and SERIES; the position plays no part, so every
position is accepted. -/
theorem set_servo_fails_iff (comm : rcb4_comm) (ics speed position : Nat) :
    ((rcb4_command_set_servo comm ics speed position).1 ≠ 0 ↔
        ((ics = 0 ∨ ics > 36) ∨ (speed = 0 ∧ comm.type ≠ RCB4_COMM_CONST) ∨
          ¬ (comm.type = RCB4_COMM_SINGLE ∨ comm.type = RCB4_COMM_CONST ∨
            comm.type = RCB4_COMM_SERIES))) ∧
      ((rcb4_command_set_servo comm ics speed position).1 = 0 →
        ∀ p, (rcb4_command_set_servo comm ics speed p).1 = 0) := by
  refine ⟨set_servo_code comm ics speed position, ?_⟩
  intro h p
  by_contra hp
  exact ((set_servo_code comm ics speed position).2
    ((set_servo_code comm ics speed p).1 hp)) h

theorem set_servo_fails_iff_witness :
    (rcb4_command_set_servo (created RCB4_COMM_SERIES) 36 1 0xFFFF).1 = 0 ∧
      (∀ p, (rcb4_command_set_servo (created RCB4_COMM_SERIES) 36 1 p).1 = 0) ∧
      (rcb4_command_set_servo (created RCB4_COMM_SERIES) 37 1 0).1 ≠ 0 ∧
      (rcb4_command_set_servo (created RCB4_COMM_SERIES) 1 0 0).1 ≠ 0 ∧
      (rcb4_command_set_servo (created RCB4_COMM_CONST) 1 0 0).1 = 0 ∧
      (rcb4_command_set_servo (created RCB4_COMM_SPEED) 1 1 0).1 ≠ 0 :=
  ⟨by decide,
    (set_servo_fails_iff (created RCB4_COMM_SERIES) 36 1 0xFFFF).2 (by decide),
    by decide, by decide, by decide, by decide⟩

/-! ## Counting the servos of the presence bitset -/

theorem popcount_byte (x : Nat) (hx : x < 256) :
    popcount x = (List.range 8).countP (fun b => x.testBit b) := by
  unfold popcount
  have e : List.range 32 = List.range 8 ++ (List.range 24).map (fun b => 8 + b) := by decide
  rw [e, List.filter_append, List.length_append, List.countP_eq_length_filter]
  have h0 : ((List.range 24).map (fun b => 8 + b)).filter (fun b => x.testBit b) = [] := by
    rw [List.filter_eq_nil_iff]
    intro b hb
    rw [List.mem_map] at hb
    obtain ⟨a, _, rfl⟩ := hb
    have : x < 2 ^ (8 + a) := by
      have h1 : 2 ^ 8 ≤ 2 ^ (8 + a) := Nat.pow_le_pow_right (by decide) (by omega)
      have h2 : (2 : Nat) ^ 8 = 256 := by decide
      omega
    rw [Nat.testBit_lt_two_pow this]
    simp
  rw [h0, List.length_nil, Nat.add_zero]

theorem popcount_byte_le (x : Nat) (hx : x < 256) : popcount x ≤ 8 := by
  rw [popcount_byte x hx]
  have := List.countP_le_length (fun b => x.testBit b) (l := List.range 8)
  rw [List.length_range] at this
  exact this

theorem slot_rank_block (mem : Payload) (b : Nat) :
    slot_rank mem (b * 8 + 8) =
      slot_rank mem (b * 8) + (List.range 8).countP (fun i => (get8 mem b).testBit i) := by
  unfold slot_rank
  rw [List.range_add, List.countP_append, List.countP_map]
  congr 1
  apply List.countP_congr
  intro i hi
  rw [List.mem_range] at hi
  simp only [Function.comp]
  rw [servo_bit_block mem b i hi]

theorem servos_set_eq_rank (mem : Payload) (hb : ∀ o, o < 5 → get8 mem o < 256) :
    servos_set mem = slot_rank mem 40 := by
  have r1 := slot_rank_block mem 0
  have r2 := slot_rank_block mem 1
  have r3 := slot_rank_block mem 2
  have r4 := slot_rank_block mem 3
  have r5 := slot_rank_block mem 4
  have z : slot_rank mem 0 = 0 := rfl
  simp only [Nat.zero_mul, Nat.zero_add, Nat.one_mul, Nat.reduceMul, Nat.reduceAdd] at r1 r2 r3 r4 r5
  unfold servos_set
  have p0 := popcount_byte (get8 mem 0) (hb 0 (by decide))
  have p1 := popcount_byte (get8 mem 1) (hb 1 (by decide))
  have p2 := popcount_byte (get8 mem 2) (hb 2 (by decide))
  have p3 := popcount_byte (get8 mem 3) (hb 3 (by decide))
  have p4 := popcount_byte (get8 mem 4) (hb 4 (by decide))
  have q0 := popcount_byte_le (get8 mem 0) (hb 0 (by decide))
  have q1 := popcount_byte_le (get8 mem 1) (hb 1 (by decide))
  have q2 := popcount_byte_le (get8 mem 2) (hb 2 (by decide))
  have q3 := popcount_byte_le (get8 mem 3) (hb 3 (by decide))
  have q4 := popcount_byte_le (get8 mem 4) (hb 4 (by decide))
  omega

theorem countP_ids (l : List Nat) (n : Nat) (hl : ∀ x ∈ l, 1 ≤ x ∧ x ≤ n) :
    (List.range n).countP (fun j => decide (j + 1 ∈ l)) = l.dedup.length := by
  rw [List.countP_eq_length_filter]
  have hlen : ((List.range n).filter (fun j => decide (j + 1 ∈ l))).length =
      (((List.range n).filter (fun j => decide (j + 1 ∈ l))).map (fun j => j + 1)).length := by
    rw [List.length_map]
  rw [hlen]
  apply List.Perm.length_eq
  rw [List.perm_ext_iff_of_nodup]
  · intro x
    rw [List.mem_map, List.mem_dedup]
    constructor
    · rintro ⟨j, hj, rfl⟩
      rw [List.mem_filter] at hj
      simpa using hj.2
    · intro hx
      obtain ⟨h1, hn⟩ := hl x hx
      refine ⟨x - 1, ?_, by omega⟩
      rw [List.mem_filter, List.mem_range]
      have e : x - 1 + 1 = x := by omega
      refine ⟨by omega, ?_⟩
      rw [e]
      simpa using hx
  · apply List.Nodup.map
    · intro a b h
      simpa using h
    · exact (List.nodup_range n).filter _
  · exact List.nodup_dedup l

/-! ## The presence bitset after one call -/

theorem get8_set_ics_bit_low (mem : Payload) (ics o : Nat) :
    get8 (set_ics_bit mem ics) o =
      if o = (ics - 1) / 8 ∧ (ics - 1) / 8 < 125 then
        (get8 mem ((ics - 1) / 8) ||| (1 <<< ((ics - 1) % 8))) % 256
      else get8 mem o := by
  unfold set_ics_bit
  rw [get8_put8]

theorem set_ics_bit_congr_low (m1 m2 : Payload) (ics : Nat) (h40 : ics ≤ 40)
    (h : ∀ o, o < 5 → get8 m1 o = get8 m2 o) (o : Nat) (ho : o < 5) :
    get8 (set_ics_bit m1 ics) o = get8 (set_ics_bit m2 ics) o := by
  rw [get8_set_ics_bit_low, get8_set_ics_bit_low, h o ho, h ((ics - 1) / 8) (by omega)]

theorem set_ics_bit_lt (mem : Payload) (ics o : Nat) (h : get8 mem o < 256) :
    get8 (set_ics_bit mem ics) o < 256 := by
  rw [get8_set_ics_bit_low]
  split
  · exact Nat.mod_lt _ (by decide)
  · exact h

theorem set_servo_const_low (comm : rcb4_comm) (ics position : Nat) (h1 : 1 ≤ ics)
    (h36 : ics ≤ 36) (o : Nat) (ho : o < 5) :
    get8 (set_servo_const comm ics position).command o =
      get8 (set_ics_bit comm.command ics) o := by
  have hr := slot_rank_le comm.command (ics - 1)
  unfold set_servo_const
  dsimp only
  rw [servo_scan_spec _ _ h1 (by omega), get8_put16]
  have c1 : ¬ (o = off_const_pos (slot_rank comm.command (ics - 1)) + 1 ∧
      off_const_pos (slot_rank comm.command (ics - 1)) + 1 < 125) := by
    unfold off_const_pos; omega
  have c2 : ¬ (o = off_const_pos (slot_rank comm.command (ics - 1)) ∧
      off_const_pos (slot_rank comm.command (ics - 1)) < 125) := by
    unfold off_const_pos; omega
  rw [if_neg c1, if_neg c2]
  apply set_ics_bit_congr_low _ _ _ (by omega) _ o ho
  intro p hp
  have hs := get8_maybe_shift (off_const_pos 0) 2 (Or.inl rfl)
    (by unfold off_const_pos; omega) comm.command ics h1 (by omega) p
  rw [servo_scan_spec _ _ h1 (by omega)] at hs
  rw [hs]
  have c : ¬ (servo_bit comm.command (ics - 1) = false ∧
      off_const_pos 0 + 2 * (slot_rank comm.command (ics - 1) + 1) ≤ p ∧
      p < off_const_pos 0 + 2 * 36) := by
    unfold off_const_pos; omega
  rw [if_neg c]

theorem set_servo_series_low (comm : rcb4_comm) (ics speed position : Nat) (h1 : 1 ≤ ics)
    (h36 : ics ≤ 36) (o : Nat) (ho : o < 5) :
    get8 (set_servo_series comm ics speed position).command o =
      get8 (set_ics_bit comm.command ics) o := by
  have hr := slot_rank_le comm.command (ics - 1)
  unfold set_servo_series
  dsimp only
  rw [servo_scan_spec _ _ h1 (by omega), get8_put16, get8_put8]
  have c1 : ¬ (o = off_series_pos (slot_rank comm.command (ics - 1)) + 1 ∧
      off_series_pos (slot_rank comm.command (ics - 1)) + 1 < 125) := by
    unfold off_series_pos; omega
  have c2 : ¬ (o = off_series_pos (slot_rank comm.command (ics - 1)) ∧
      off_series_pos (slot_rank comm.command (ics - 1)) < 125) := by
    unfold off_series_pos; omega
  have c3 : ¬ (o = off_series_speed (slot_rank comm.command (ics - 1)) ∧
      off_series_speed (slot_rank comm.command (ics - 1)) < 125) := by
    unfold off_series_speed; omega
  rw [if_neg c1, if_neg c2, if_neg c3]
  apply set_ics_bit_congr_low _ _ _ (by omega) _ o ho
  intro p hp
  have hs := get8_maybe_shift (off_series_speed 0) 3 (Or.inr rfl)
    (by unfold off_series_speed; omega) comm.command ics h1 (by omega) p
  rw [servo_scan_spec _ _ h1 (by omega)] at hs
  rw [hs]
  have c : ¬ (servo_bit comm.command (ics - 1) = false ∧
      off_series_speed 0 + 3 * (slot_rank comm.command (ics - 1) + 1) ≤ p ∧
      p < off_series_speed 0 + 3 * 36) := by
    unfold off_series_speed; omega
  rw [if_neg c]

theorem set_servo_multi_step (comm : rcb4_comm)
    (ht : comm.type = RCB4_COMM_CONST ∨ comm.type = RCB4_COMM_SERIES)
    (ics speed position : Nat)
    (hz : (rcb4_command_set_servo comm ics speed position).1 = 0) :
    1 ≤ ics ∧ ics ≤ 36 ∧
      (rcb4_command_set_servo comm ics speed position).2.type = comm.type ∧
      (∀ j, j < 40 → servo_bit (rcb4_command_set_servo comm ics speed position).2.command j =
        (servo_bit comm.command j || decide (j = ics - 1))) ∧
      (∀ o, o < 5 → get8 (rcb4_command_set_servo comm ics speed position).2.command o =
        get8 (set_ics_bit comm.command ics) o) ∧
      (rcb4_command_set_servo comm ics speed position).2.size =
        servo_size comm.type
          (servos_set (rcb4_command_set_servo comm ics speed position).2.command) % 256 := by
  obtain ⟨h1, h36, hsp, _⟩ := set_servo_success comm ics speed position hz
  rcases ht with ht | ht
  · rw [set_servo_on_const comm ht ics speed position h1 h36]
    refine ⟨h1, h36, rfl, ?_, ?_, ?_⟩
    · intro j hj
      exact set_servo_const_bits comm ics position h1 h36 j hj
    · intro o ho
      exact set_servo_const_low comm ics position h1 h36 o ho
    · unfold servo_size
      rw [if_pos ht]
      rfl
  · have hne : comm.type ≠ RCB4_COMM_CONST := by rw [ht]; decide
    rw [set_servo_on_series comm ht ics speed position h1 h36 (hsp hne)]
    refine ⟨h1, h36, rfl, ?_, ?_, ?_⟩
    · intro j hj
      exact set_servo_series_bits comm ics _ position h1 h36 j hj
    · intro o ho
      exact set_servo_series_low comm ics _ position h1 h36 o ho
    · unfold servo_size
      rw [if_neg hne]
      rfl

theorem run_servo_calls_counts (rest : List (Nat × Nat × Nat)) :
    ∀ (comm : rcb4_comm) (pre : List (Nat × Nat × Nat)),
      (comm.type = RCB4_COMM_CONST ∨ comm.type = RCB4_COMM_SERIES) →
      (∀ j, j < 40 → (servo_bit comm.command j = true ↔ ∃ c ∈ pre, c.1 = j + 1)) →
      (∀ o, o < 5 → get8 comm.command o < 256) →
      ∀ m, run_servo_calls comm rest = some m →
        m.type = comm.type ∧
        (∀ j, j < 40 → (servo_bit m.command j = true ↔ ∃ c ∈ pre ++ rest, c.1 = j + 1)) ∧
        (∀ o, o < 5 → get8 m.command o < 256) ∧
        (∀ c ∈ rest, 1 ≤ c.1 ∧ c.1 ≤ 36) ∧
        (rest ≠ [] → m.size = servo_size m.type (servos_set m.command) % 256) := by
  induction rest with
  | nil =>
    intro comm pre _ hbits hlow m hm
    rw [run_servo_calls] at hm
    have e : comm = m := Option.some.inj hm
    subst e
    refine ⟨rfl, ?_, hlow, ?_, ?_⟩
    · rw [List.append_nil]; exact hbits
    · intro c hc; simp at hc
    · intro h; exact absurd rfl h
  | cons c rest ih =>
    intro comm pre ht hbits hlow m hm
    rw [run_servo_calls] at hm
    by_cases hz : (rcb4_command_set_servo comm c.1 c.2.1 c.2.2).1 = 0
    · have hnz : ¬ ((rcb4_command_set_servo comm c.1 c.2.1 c.2.2).1 ≠ 0) := fun e => e hz
      rw [if_neg hnz] at hm
      obtain ⟨h1, h36, hty, hb, hl, hsz⟩ := set_servo_multi_step comm ht c.1 c.2.1 c.2.2 hz
      have ht' : (rcb4_command_set_servo comm c.1 c.2.1 c.2.2).2.type = RCB4_COMM_CONST ∨
          (rcb4_command_set_servo comm c.1 c.2.1 c.2.2).2.type = RCB4_COMM_SERIES := by
        rw [hty]; exact ht
      have hbits' : ∀ j, j < 40 →
          (servo_bit (rcb4_command_set_servo comm c.1 c.2.1 c.2.2).2.command j = true ↔
            ∃ d ∈ pre ++ [c], d.1 = j + 1) := by
        intro j hj
        rw [hb j hj, Bool.or_eq_true, hbits j hj]
        simp only [decide_eq_true_eq, List.mem_append, List.mem_singleton]
        constructor
        · rintro (⟨d, hd, e⟩ | e)
          · exact ⟨d, Or.inl hd, e⟩
          · exact ⟨c, Or.inr rfl, by omega⟩
        · rintro ⟨d, hd | hd, e⟩
          · exact Or.inl ⟨d, hd, e⟩
          · right; rw [hd] at e; omega
      have hlow' : ∀ o, o < 5 →
          get8 (rcb4_command_set_servo comm c.1 c.2.1 c.2.2).2.command o < 256 := by
        intro o ho
        rw [hl o ho]
        exact set_ics_bit_lt _ _ _ (hlow o ho)
      obtain ⟨a1, a2, a3, a4, a5⟩ := ih _ (pre ++ [c]) ht' hbits' hlow' m hm
      refine ⟨by rw [a1, hty], ?_, a3, ?_, ?_⟩
      · rw [List.append_assoc] at a2
        exact a2
      · intro d hd
        rcases List.mem_cons.1 hd with e | e
        · rw [e]; exact ⟨h1, h36⟩
        · exact a4 d e
      · intro _
        by_cases hr : rest = []
        · subst hr
          rw [run_servo_calls] at hm
          have e := Option.some.inj hm
          rw [← e, hsz, hty]
        · exact a5 hr
    · rw [if_pos hz] at hm
      exact absurd hm (by simp)

theorem servos_set_distinct (m : rcb4_comm) (calls : List (Nat × Nat × Nat))
    (hbits : ∀ j, j < 40 → (servo_bit m.command j = true ↔ ∃ c ∈ calls, c.1 = j + 1))
    (hlow : ∀ o, o < 5 → get8 m.command o < 256)
    (hids : ∀ c ∈ calls, 1 ≤ c.1 ∧ c.1 ≤ 36) :
    servos_set m.command = distinct_ids calls ∧ servos_set m.command ≤ 40 := by
  have hr := servos_set_eq_rank m.command hlow
  refine ⟨?_, by rw [hr]; exact slot_rank_le _ _⟩
  rw [hr]
  unfold distinct_ids slot_rank
  rw [← countP_ids (calls.map (fun c => c.1)) 40]
  · apply List.countP_congr
    intro j hj
    rw [List.mem_range] at hj
    rw [hbits j hj]
    simp
  · intro x hx
    rw [List.mem_map] at hx
    obtain ⟨c, hc, rfl⟩ := hx
    have := hids c hc
    omega

theorem created_bits (j : Nat) :
    servo_bit zero_payload j = true ↔ ∃ c ∈ ([] : List (Nat × Nat × Nat)), c.1 = j + 1 := by
  have : servo_bit zero_payload j = false := by
    unfold servo_bit
    rw [get8_zero_payload]
    exact Nat.zero_testBit _
  rw [this]
  simp

/-- C19: after a non-empty sequence of successful `rcb4_command_set_servo`
calls on a freshly created CONST (resp. SERIES) message the size is `9 + 2 * n`
(resp. `8 + 3 * n`), where `n` is the sum of the popcounts of the five bytes of
the presence bitset, and `n` is the number of distinct servo ids passed. -/
theorem servo_size_counts_distinct_ids (calls : List (Nat × Nat × Nat)) (hne : calls ≠ []) :
    (∀ m, run_servo_calls (created RCB4_COMM_CONST) calls = some m →
        m.size = 9 + 2 * servos_set m.command ∧
          servos_set m.command = distinct_ids calls) ∧
      (∀ m, run_servo_calls (created RCB4_COMM_SERIES) calls = some m →
        m.size = 8 + 3 * servos_set m.command ∧
          servos_set m.command = distinct_ids calls) := by
  constructor
  · intro m hm
    obtain ⟨a1, a2, a3, a4, a5⟩ := run_servo_calls_counts calls (created RCB4_COMM_CONST) []
      (Or.inl created_const.1)
      (by intro j _; rw [created_const.2]; exact created_bits j)
      (by intro o _; rw [created_const.2, get8_zero_payload]; decide) m hm
    rw [List.nil_append] at a2
    obtain ⟨b1, b2⟩ := servos_set_distinct m calls a2 a3 a4
    refine ⟨?_, b1⟩
    rw [a5 hne, a1, created_const.1]
    unfold servo_size
    rw [if_pos rfl]
    omega
  · intro m hm
    obtain ⟨a1, a2, a3, a4, a5⟩ := run_servo_calls_counts calls (created RCB4_COMM_SERIES) []
      (Or.inr created_series.1)
      (by intro j _; rw [created_series.2]; exact created_bits j)
      (by intro o _; rw [created_series.2, get8_zero_payload]; decide) m hm
    rw [List.nil_append] at a2
    obtain ⟨b1, b2⟩ := servos_set_distinct m calls a2 a3 a4
    refine ⟨?_, b1⟩
    rw [a5 hne, a1, created_series.1]
    unfold servo_size
    have hne2 : ¬ (RCB4_COMM_SERIES = RCB4_COMM_CONST) := by decide
    rw [if_neg hne2]
    omega

theorem servo_size_counts_distinct_ids_witness :
    example_calls ≠ [] ∧
      run_servo_calls (created RCB4_COMM_CONST) example_calls = some const_example ∧
      const_example.size = 9 + 2 * servos_set const_example.command ∧
      servos_set const_example.command = distinct_ids example_calls ∧
      distinct_ids example_calls = 3 ∧ const_example.size = 15 :=
  have hr : run_servo_calls (created RCB4_COMM_CONST) example_calls = some const_example := by
    decide
  ⟨by decide, hr,
    ((servo_size_counts_distinct_ids example_calls (by decide)).1 const_example hr).1,
    ((servo_size_counts_distinct_ids example_calls (by decide)).1 const_example hr).2,
    by decide, by decide⟩

/-! ## A call for a servo that is already set -/

theorem set_servo_const_any_speed (comm : rcb4_comm) (ht : comm.type = RCB4_COMM_CONST)
    (ics speed position : Nat) :
    rcb4_command_set_servo comm ics speed position =
      if ics = 0 ∨ ics > RCB4_ICS_QTY then (-1, comm)
      else (0, set_servo_const comm ics position) := by
  unfold rcb4_command_set_servo
  have c1 : ¬ (speed = 0 ∧ comm.type ≠ RCB4_COMM_CONST) := fun e => e.2 ht
  have c3 : ¬ (comm.type = RCB4_COMM_SINGLE) := by rw [ht]; decide
  rw [if_neg c1]
  by_cases c2 : ics = 0 ∨ ics > RCB4_ICS_QTY
  · rw [if_pos c2, if_pos c2]
  · rw [if_neg c2, if_neg c2]
    dsimp only
    rw [if_neg c3, if_pos ht]

/-- C21: on a CONST message `rcb4_command_set_servo` ignores its speed
argument: for every id, every position and every two speeds (0 included) the
two calls on the same message give the same return code and the same message;
for an id from 1 to 36 both succeed, and the shared speed byte, the one
`rcb4_command_set_speed` writes, is as before the call. -/
theorem const_ignores_servo_speed (comm : rcb4_comm) (ht : comm.type = RCB4_COMM_CONST)
    (ics position s1 s2 : Nat) :
    rcb4_command_set_servo comm ics s1 position = rcb4_command_set_servo comm ics s2 position ∧
      (1 ≤ ics → ics ≤ 36 →
        (rcb4_command_set_servo comm ics s1 position).1 = 0 ∧
        (rcb4_command_set_servo comm ics s2 position).1 = 0 ∧
        get8 (rcb4_command_set_servo comm ics s1 position).2.command off_const_speed =
          get8 comm.command off_const_speed) := by
  refine ⟨by rw [set_servo_const_any_speed comm ht ics s1 position,
    set_servo_const_any_speed comm ht ics s2 position], ?_⟩
  intro h1 h36
  have e1 := set_servo_on_const comm ht ics s1 position h1 h36
  have e2 := set_servo_on_const comm ht ics s2 position h1 h36
  have hr := slot_rank_le comm.command (ics - 1)
  refine ⟨by rw [e1], by rw [e2], ?_⟩
  rw [e1]
  show get8 (set_servo_const comm ics position).command 5 = get8 comm.command 5
  rw [set_servo_const_bytes comm ics s1 position h1 h36 5 (by decide), if_neg (by omega),
    if_neg (by omega)]

theorem const_ignores_servo_speed_witness :
    (rcb4_command_set_speed (created RCB4_COMM_CONST) 7).2.type = RCB4_COMM_CONST ∧
      rcb4_command_set_servo (rcb4_command_set_speed (created RCB4_COMM_CONST) 7).2 3 0 0x1234 =
        rcb4_command_set_servo (rcb4_command_set_speed (created RCB4_COMM_CONST) 7).2 3 255
          0x1234 ∧
      get8 (rcb4_command_set_servo (rcb4_command_set_speed (created RCB4_COMM_CONST) 7).2 3 0
          0x1234).2.command off_const_speed = 249 :=
  have h := const_ignores_servo_speed (rcb4_command_set_speed (created RCB4_COMM_CONST) 7).2
    (by decide) 3 0x1234 0 255
  ⟨by decide, h.1, by rw [(h.2 (by decide) (by decide)).2.2]; decide⟩

/-! ## The single-servo message -/

theorem set_servo_on_single (comm : rcb4_comm) (ht : comm.type = RCB4_COMM_SINGLE)
    (ics speed position : Nat) (hz : (rcb4_command_set_servo comm ics speed position).1 = 0) :
    (rcb4_command_set_servo comm ics speed position).2.command =
        put16 (put8 (put8 comm.command off_single_ics_id (ics - 1)) off_single_speed
          ((256 - speed) % 256)) off_single_pos position ∧
      (rcb4_command_set_servo comm ics speed position).2.size = comm.size ∧
      (rcb4_command_set_servo comm ics speed position).2.type = comm.type := by
  obtain ⟨h1, h36, hs, _⟩ := set_servo_success comm ics speed position hz
  have hne : comm.type ≠ RCB4_COMM_CONST := by rw [ht]; decide
  have c1 : ¬ (speed = 0 ∧ comm.type ≠ RCB4_COMM_CONST) := fun e => by
    have := hs hne; omega
  have c2 : ¬ (ics = 0 ∨ ics > RCB4_ICS_QTY) := by
    simp only [RCB4_ICS_QTY]; omega
  unfold rcb4_command_set_servo
  rw [if_neg c1, if_neg c2]
  dsimp only
  rw [if_pos ht]
  exact ⟨rfl, rfl, rfl⟩

theorem run_servo_calls_single (calls : List (Nat × Nat × Nat)) :
    ∀ (comm m : rcb4_comm), comm.type = RCB4_COMM_SINGLE →
      run_servo_calls comm calls = some m → m.size = comm.size ∧ m.type = RCB4_COMM_SINGLE := by
  induction calls with
  | nil =>
    intro comm m ht hm
    rw [run_servo_calls] at hm
    have e : comm = m := Option.some.inj hm
    subst e
    exact ⟨rfl, ht⟩
  | cons c rest ih =>
    intro comm m ht hm
    rw [run_servo_calls] at hm
    by_cases hz : (rcb4_command_set_servo comm c.1 c.2.1 c.2.2).1 = 0
    · have hnz : ¬ ((rcb4_command_set_servo comm c.1 c.2.1 c.2.2).1 ≠ 0) := fun e => e hz
      rw [if_neg hnz] at hm
      obtain ⟨_, hsz, hty⟩ := set_servo_on_single comm ht c.1 c.2.1 c.2.2 hz
      obtain ⟨a, b⟩ := ih _ m (by rw [hty]; exact ht) hm
      exact ⟨by rw [a, hsz], b⟩
    · rw [if_pos hz] at hm
      exact absurd hm (by simp)

/-- C22: on a SINGLE message a successful `rcb4_command_set_servo(id, speed,
position)` stores `id - 1` in `ics_id`, `256 - speed` in the speed byte and the
position in `pos`, whatever these four bytes held before, and leaves the size,
the opcode and the rest of the payload as they were; after any sequence of
successful calls on a freshly created SINGLE message the size is 7. -/
theorem single_servo_overwrites (comm : rcb4_comm) (ics speed position : Nat) :
    (comm.type = RCB4_COMM_SINGLE → speed ≤ 255 → position < 65536 →
        (rcb4_command_set_servo comm ics speed position).1 = 0 →
        get8 (rcb4_command_set_servo comm ics speed position).2.command off_single_ics_id =
            ics - 1 ∧
          get8 (rcb4_command_set_servo comm ics speed position).2.command off_single_speed =
            256 - speed ∧
          get16 (rcb4_command_set_servo comm ics speed position).2.command off_single_pos =
            position ∧
          (∀ o, 4 ≤ o → get8 (rcb4_command_set_servo comm ics speed position).2.command o =
            get8 comm.command o) ∧
          (rcb4_command_set_servo comm ics speed position).2.size = comm.size ∧
          (rcb4_command_set_servo comm ics speed position).2.type = comm.type) ∧
      (∀ calls m, run_servo_calls (created RCB4_COMM_SINGLE) calls = some m → m.size = 7) := by
  constructor
  · intro ht hs hp hz
    obtain ⟨h1, h36, hs1, _⟩ := set_servo_success comm ics speed position hz
    have hne : comm.type ≠ RCB4_COMM_CONST := by rw [ht]; decide
    have hs1 := hs1 hne
    obtain ⟨hc, hsz, hty⟩ := set_servo_on_single comm ht ics speed position hz
    rw [hc]
    refine ⟨?_, ?_, ?_, ?_, hsz, hty⟩
    · rw [get8_put16, get8_put8, get8_put8]
      simp [off_single_ics_id, off_single_speed, off_single_pos]
      omega
    · rw [get8_put16, get8_put8]
      simp [off_single_speed, off_single_pos]
      omega
    · unfold get16
      rw [get8_put16, get8_put16]
      simp [off_single_pos]
      omega
    · intro o ho
      rw [get8_put16, get8_put8, get8_put8]
      simp only [off_single_ics_id, off_single_speed, off_single_pos]
      rw [if_neg (by omega), if_neg (by omega), if_neg (by omega), if_neg (by omega)]
  · intro calls m hm
    have h := run_servo_calls_single calls (created RCB4_COMM_SINGLE) m (by decide) hm
    rw [h.1]
    decide

theorem single_servo_overwrites_witness :
    (rcb4_command_set_servo (created RCB4_COMM_SINGLE) 36 255 0xFFFF).2.type = RCB4_COMM_SINGLE ∧
      (rcb4_command_set_servo (rcb4_command_set_servo (created RCB4_COMM_SINGLE) 36 255
        0xFFFF).2 1 1 0x1D4C).1 = 0 ∧
      get8 (rcb4_command_set_servo (rcb4_command_set_servo (created RCB4_COMM_SINGLE) 36 255
        0xFFFF).2 1 1 0x1D4C).2.command off_single_ics_id = 1 - 1 ∧
      get8 (rcb4_command_set_servo (rcb4_command_set_servo (created RCB4_COMM_SINGLE) 36 255
        0xFFFF).2 1 1 0x1D4C).2.command off_single_speed = 256 - 1 ∧
      get16 (rcb4_command_set_servo (rcb4_command_set_servo (created RCB4_COMM_SINGLE) 36 255
        0xFFFF).2 1 1 0x1D4C).2.command off_single_pos = 0x1D4C :=
  have h := (single_servo_overwrites
    (rcb4_command_set_servo (created RCB4_COMM_SINGLE) 36 255 0xFFFF).2 1 1 0x1D4C).1
    (by decide) (by decide) (by decide) (by decide)
  ⟨by decide, by decide, h.1, h.2.1, h.2.2.1⟩

/-! ## The shift count -/

theorem only_byte_changed_put8 (comm : rcb4_comm) (off v : Nat) :
    only_byte_changed comm { comm with command := put8 comm.command off v } off := by
  refine ⟨rfl, rfl, ?_⟩
  intro o ho
  show get8 (put8 comm.command off v) o = get8 comm.command o
  rw [get8_put8, if_neg (fun e => ho e.1)]

theorem set_shift_left_stores (comm : rcb4_comm) (ht : comm.type = RCB4_COMM_SHIFT) (n : Nat)
    (hn : n ≤ 127) :
    rcb4_command_set_shift_left comm n =
      (0, { comm with command := put8 comm.command off_shift_shifts n }) := by
  unfold rcb4_command_set_shift_left rcb4_command_set_shifts
  have c1 : ¬ (comm.type ≠ RCB4_COMM_SHIFT) := fun e => e ht
  have c2 : ¬ (n > 127) := by omega
  rw [if_neg c1, if_neg c2, if_neg c1]

theorem set_shift_right_stores (comm : rcb4_comm) (ht : comm.type = RCB4_COMM_SHIFT) (n : Nat)
    (hn : n ≤ 127) :
    rcb4_command_set_shift_right comm n =
      (0, { comm with command := put8 comm.command off_shift_shifts ((256 - n) % 256) }) := by
  unfold rcb4_command_set_shift_right rcb4_command_set_shifts
  have c1 : ¬ (comm.type ≠ RCB4_COMM_SHIFT) := fun e => e ht
  have c2 : ¬ (n > 127) := by omega
  rw [if_neg c1, if_neg c2]
  by_cases c3 : n = 0
  · rw [if_pos c3, if_neg c1, c3]
  · rw [if_neg c3, if_neg c1]
    have e : (256 - n) % 256 = 256 - n := by omega
    rw [e]

/-- C23: on a SHIFT message and for every `n` from 0 to 127,
`rcb4_command_set_shift_left(n)` stores `n` and
`rcb4_command_set_shift_right(n)` stores `(256 - n) mod 256` in the shift-count
byte and change nothing else; read as a signed byte the count is `n` for a left
shift and `-n` for a right shift.  Both return an error for `n > 127` and on
every opcode other than SHIFT. -/
theorem shift_count_is_signed (comm : rcb4_comm) (n : Nat) :
    (comm.type = RCB4_COMM_SHIFT → n ≤ 127 →
        (rcb4_command_set_shift_left comm n).1 = 0 ∧
          get8 (rcb4_command_set_shift_left comm n).2.command off_shift_shifts = n ∧
          only_byte_changed comm (rcb4_command_set_shift_left comm n).2 off_shift_shifts ∧
          signed8 (get8 (rcb4_command_set_shift_left comm n).2.command off_shift_shifts) = n ∧
          (rcb4_command_set_shift_right comm n).1 = 0 ∧
          get8 (rcb4_command_set_shift_right comm n).2.command off_shift_shifts =
            (256 - n) % 256 ∧
          only_byte_changed comm (rcb4_command_set_shift_right comm n).2 off_shift_shifts ∧
          signed8 (get8 (rcb4_command_set_shift_right comm n).2.command off_shift_shifts) =
            -(n : Int)) ∧
      (n > 127 → (rcb4_command_set_shift_left comm n).1 ≠ 0 ∧
        (rcb4_command_set_shift_right comm n).1 ≠ 0) ∧
      (comm.type ≠ RCB4_COMM_SHIFT → (rcb4_command_set_shift_left comm n).1 ≠ 0 ∧
        (rcb4_command_set_shift_right comm n).1 ≠ 0) := by
  refine ⟨?_, ?_, ?_⟩
  · intro ht hn
    rw [set_shift_left_stores comm ht n hn, set_shift_right_stores comm ht n hn]
    have gl : get8 (put8 comm.command off_shift_shifts n) off_shift_shifts = n := by
      rw [get8_put8, if_pos ⟨rfl, by decide⟩]
      omega
    have gr : get8 (put8 comm.command off_shift_shifts ((256 - n) % 256)) off_shift_shifts =
        (256 - n) % 256 := by
      rw [get8_put8, if_pos ⟨rfl, by decide⟩, Nat.mod_mod]
    refine ⟨rfl, gl, only_byte_changed_put8 comm _ _, ?_, rfl, gr,
      only_byte_changed_put8 comm _ _, ?_⟩
    · show signed8 (get8 (put8 comm.command off_shift_shifts n) off_shift_shifts) = n
      rw [gl]
      unfold signed8
      rw [if_pos (by omega)]
    · show signed8 (get8 (put8 comm.command off_shift_shifts ((256 - n) % 256))
        off_shift_shifts) = -(n : Int)
      rw [gr]
      unfold signed8
      by_cases c : n = 0
      · subst c
        rfl
      · have e : (256 - n) % 256 = 256 - n := by omega
        rw [e, if_neg (by omega)]
        omega
  · intro hn
    unfold rcb4_command_set_shift_left rcb4_command_set_shift_right
    by_cases c1 : comm.type ≠ RCB4_COMM_SHIFT
    · rw [if_pos c1, if_pos c1]
      exact ⟨int_neg_one_ne_zero, int_neg_one_ne_zero⟩
    · rw [if_neg c1, if_neg c1, if_pos hn, if_pos hn]
      exact ⟨int_neg_one_ne_zero, int_neg_one_ne_zero⟩
  · intro ht
    rw [set_shift_left_illegal comm ht n, set_shift_right_illegal comm ht n]
    exact ⟨int_neg_one_ne_zero, int_neg_one_ne_zero⟩

theorem shift_count_is_signed_witness :
    get8 (rcb4_command_set_shift_right (created RCB4_COMM_SHIFT) 1).2.command off_shift_shifts =
        (256 - 1) % 256 ∧
      signed8 (get8 (rcb4_command_set_shift_right (created RCB4_COMM_SHIFT) 1).2.command
        off_shift_shifts) = -((1 : Nat) : Int) ∧
      get8 (rcb4_command_set_shift_right (created RCB4_COMM_SHIFT) 0).2.command off_shift_shifts
        = 0 ∧
      get8 (rcb4_command_set_shift_left (created RCB4_COMM_SHIFT) 5).2.command off_shift_shifts
        = 5 ∧
      (rcb4_command_set_shift_left (created RCB4_COMM_SHIFT) 128).1 ≠ 0 :=
  have h1 := (shift_count_is_signed (created RCB4_COMM_SHIFT) 1).1 (by decide) (by decide)
  ⟨h1.2.2.2.2.2.1, h1.2.2.2.2.2.2.2,
    ((shift_count_is_signed (created RCB4_COMM_SHIFT) 0).1 (by decide)
      (by decide)).2.2.2.2.2.1,
    ((shift_count_is_signed (created RCB4_COMM_SHIFT) 5).1 (by decide) (by decide)).2.1,
    ((shift_count_is_signed (created RCB4_COMM_SHIFT) 128).2.1 (by decide)).1⟩

/-! ## The shared speed of a CONST message -/

theorem set_speed_stores (comm : rcb4_comm) (ht : comm.type = RCB4_COMM_CONST) (s : Nat)
    (h1 : 1 ≤ s) :
    rcb4_command_set_speed comm s =
      (0, { comm with command := put8 comm.command off_const_speed ((256 - s) % 256) }) := by
  unfold rcb4_command_set_speed
  have c1 : ¬ (s = 0) := by omega
  rw [if_neg c1]
  dsimp only
  rw [if_pos ht]

/-- C24: on a CONST message `rcb4_command_set_speed(s)` stores `256 - s` in
the shared speed byte for every `s` from 1 to 255 and changes nothing else;
`rcb4_command_set_speed(0)` returns -1, the code of an invalid parameter, on
every opcode, and the function returns an error on every opcode other than
CONST. -/
theorem set_speed_inverts (comm : rcb4_comm) (s : Nat) :
    (comm.type = RCB4_COMM_CONST → 1 ≤ s → s ≤ 255 →
        (rcb4_command_set_speed comm s).1 = 0 ∧
          get8 (rcb4_command_set_speed comm s).2.command off_const_speed = 256 - s ∧
          only_byte_changed comm (rcb4_command_set_speed comm s).2 off_const_speed) ∧
      (rcb4_command_set_speed comm 0).1 = -1 ∧
      (comm.type ≠ RCB4_COMM_CONST → (rcb4_command_set_speed comm s).1 ≠ 0) := by
  refine ⟨?_, ?_, ?_⟩
  · intro ht h1 h255
    rw [set_speed_stores comm ht s h1]
    refine ⟨rfl, ?_, only_byte_changed_put8 comm _ _⟩
    show get8 (put8 comm.command off_const_speed ((256 - s) % 256)) off_const_speed = 256 - s
    rw [get8_put8, if_pos ⟨rfl, by decide⟩]
    omega
  · unfold rcb4_command_set_speed
    rw [if_pos rfl]
  · intro ht
    rw [set_speed_illegal comm ht s]
    exact int_neg_one_ne_zero

theorem set_speed_inverts_witness :
    get8 (rcb4_command_set_speed (created RCB4_COMM_CONST) 1).2.command off_const_speed =
        256 - 1 ∧
      get8 (rcb4_command_set_speed (created RCB4_COMM_CONST) 255).2.command off_const_speed =
        256 - 255 ∧
      (rcb4_command_set_speed (created RCB4_COMM_SERIES) 1).1 ≠ 0 :=
  ⟨((set_speed_inverts (created RCB4_COMM_CONST) 1).1 (by decide) (by decide)
      (by decide)).2.1,
    ((set_speed_inverts (created RCB4_COMM_CONST) 255).1 (by decide) (by decide)
      (by decide)).2.1,
    (set_speed_inverts (created RCB4_COMM_SERIES) 1).2.2 (by decide)⟩

/-! ## `rcb4_command_set_data_size` -/

theorem set_data_size_mov (comm : rcb4_comm) (ht : comm.type = RCB4_COMM_MOV ∨ is_logic comm.type)
    (size : Nat) (h1 : 1 ≤ size) (h128 : size ≤ 128) :
    rcb4_command_set_data_size comm size =
      (0, store_src_size comm (get8 comm.command off_type) size) := by
  unfold rcb4_command_set_data_size
  have c1 : ¬ (size = 0 ∨ size > 128) := by omega
  rw [if_neg c1]
  rcases ht with h | h
  · have hm : member_of comm.type = member.mov := by rw [h]; rfl
    rw [hm]
  · rw [member_of_logic _ h]

theorem set_data_size_math (comm : rcb4_comm) (ht : is_math comm.type) (size : Nat) :
    rcb4_command_set_data_size comm size =
      if size = 1 ∨ size = 2 then (0, store_src_size comm (get8 comm.command off_type) size)
      else (-1, comm) := by
  unfold rcb4_command_set_data_size
  by_cases c1 : size = 0 ∨ size > 128
  · have c2 : ¬ (size = 1 ∨ size = 2) := by omega
    rw [if_pos c1, if_neg c2]
  · rw [if_neg c1, member_of_math _ ht]
    dsimp only
    by_cases c2 : size = 1 ∨ size = 2
    · have c3 : ¬ (size ≠ 1 ∧ size ≠ 2) := by omega
      rw [if_neg c3, if_pos c2]
    · have c3 : size ≠ 1 ∧ size ≠ 2 := by omega
      rw [if_pos c3, if_neg c2]

theorem set_data_size_not (comm : rcb4_comm) (ht : comm.type = RCB4_COMM_NOT) (size : Nat)
    (h1 : 1 ≤ size) (h128 : size ≤ 128) :
    rcb4_command_set_data_size comm size =
      (0, { comm with command := put8 comm.command off_not_size size }) := by
  unfold rcb4_command_set_data_size
  have c1 : ¬ (size = 0 ∨ size > 128) := by omega
  have hm : member_of comm.type = member.logic_not := by rw [ht]; rfl
  rw [if_neg c1, hm]

theorem set_data_size_shift (comm : rcb4_comm) (ht : comm.type = RCB4_COMM_SHIFT) (size : Nat)
    (h1 : 1 ≤ size) (h128 : size ≤ 128) :
    rcb4_command_set_data_size comm size =
      (0, { comm with command := put8 comm.command off_shift_size size }) := by
  unfold rcb4_command_set_data_size
  have c1 : ¬ (size = 0 ∨ size > 128) := by omega
  have hm : member_of comm.type = member.shift := by rw [ht]; rfl
  rw [if_neg c1, hm]

theorem set_data_size_ics (comm : rcb4_comm) (ht : comm.type = RCB4_COMM_ICS) (size : Nat) :
    rcb4_command_set_data_size comm size =
      if 1 ≤ size ∧ size ≤ 64 then
        (0, { comm with command := put8 comm.command off_ics_data_size size })
      else (-1, comm) := by
  unfold rcb4_command_set_data_size
  by_cases c1 : size = 0 ∨ size > 128
  · have c2 : ¬ (1 ≤ size ∧ size ≤ 64) := by omega
    rw [if_pos c1, if_neg c2]
  · have hm : member_of comm.type = member.ics := by rw [ht]; rfl
    rw [if_neg c1, hm]
    dsimp only
    by_cases c2 : size > 64
    · have c3 : ¬ (1 ≤ size ∧ size ≤ 64) := by omega
      rw [if_pos c2, if_neg c3]
    · have c3 : 1 ≤ size ∧ size ≤ 64 := by omega
      rw [if_neg c2, if_pos c3]

theorem set_data_size_range (comm : rcb4_comm) (size : Nat)
    (hz : (rcb4_command_set_data_size comm size).1 = 0) :
    1 ≤ size ∧ size ≤ 128 ∧ legal_data_size comm.type := by
  refine ⟨?_, ?_, ?_⟩
  · by_contra h
    unfold rcb4_command_set_data_size at hz
    rw [if_pos (Or.inl (by omega))] at hz
    exact int_neg_one_ne_zero hz
  · by_contra h
    unfold rcb4_command_set_data_size at hz
    rw [if_pos (Or.inr (by omega))] at hz
    exact int_neg_one_ne_zero hz
  · by_contra h
    rw [set_data_size_illegal comm h size] at hz
    exact int_neg_one_ne_zero hz

/-- C25 fails on the code: on an ADD message the size 3 is rejected. -/
theorem data_size_3_rejected_on_add :
    (created RCB4_COMM_ADD).type = RCB4_COMM_ADD ∧
      (rcb4_command_set_data_size (created RCB4_COMM_ADD) 3).1 = -1 := by
  constructor <;> decide

/-- C25 as amended: `rcb4_command_set_data_size(size)` succeeds exactly for a
size from 1 to 128 on MOV, AND, OR, XOR, NOT and SHIFT, for the sizes 1 and 2
on ADD, SUB, MUL, DIV and MOD, and for a size from 1 to 64 on ICS; so it fails
for the size 0 and every size above 128 on every opcode, and for every size on
SINGLE, CONST, SERIES and SPEED. -/
theorem set_data_size_succeeds_iff (comm : rcb4_comm) (size : Nat) :
    (rcb4_command_set_data_size comm size).1 = 0 ↔
      ((1 ≤ size ∧ size ≤ 128 ∧
          (comm.type = RCB4_COMM_MOV ∨ is_logic comm.type ∨ comm.type = RCB4_COMM_NOT ∨
            comm.type = RCB4_COMM_SHIFT)) ∨
        ((size = 1 ∨ size = 2) ∧ is_math comm.type) ∨
        (1 ≤ size ∧ size ≤ 64 ∧ comm.type = RCB4_COMM_ICS)) := by
  constructor
  · intro hz
    obtain ⟨h1, h128, hl⟩ := set_data_size_range comm size hz
    rcases hl with (hl | hl | hl) | hl | hl | hl
    · exact Or.inl ⟨h1, h128, Or.inl hl⟩
    · exact Or.inl ⟨h1, h128, Or.inr (Or.inl hl)⟩
    · right; left
      refine ⟨?_, hl⟩
      by_contra c
      rw [set_data_size_math comm hl size, if_neg c] at hz
      exact int_neg_one_ne_zero hz
    · exact Or.inl ⟨h1, h128, Or.inr (Or.inr (Or.inl hl))⟩
    · exact Or.inl ⟨h1, h128, Or.inr (Or.inr (Or.inr hl))⟩
    · right; right
      refine ⟨h1, ?_, hl⟩
      by_contra c
      rw [set_data_size_ics comm hl size, if_neg (by omega)] at hz
      exact int_neg_one_ne_zero hz
  · rintro (⟨h1, h128, ht | ht | ht | ht⟩ | ⟨hs, ht⟩ | ⟨h1, h64, ht⟩)
    · rw [set_data_size_mov comm (Or.inl ht) size h1 h128]
    · rw [set_data_size_mov comm (Or.inr ht) size h1 h128]
    · rw [set_data_size_not comm ht size h1 h128]
    · rw [set_data_size_shift comm ht size h1 h128]
    · rw [set_data_size_math comm ht size, if_pos hs]
    · rw [set_data_size_ics comm ht size, if_pos ⟨h1, h64⟩]

theorem set_data_size_succeeds_iff_witness :
    ((rcb4_command_set_data_size (created RCB4_COMM_ADD) 2).1 = 0 ↔
        ((1 ≤ 2 ∧ 2 ≤ 128 ∧
            ((created RCB4_COMM_ADD).type = RCB4_COMM_MOV ∨
              is_logic (created RCB4_COMM_ADD).type ∨
              (created RCB4_COMM_ADD).type = RCB4_COMM_NOT ∨
              (created RCB4_COMM_ADD).type = RCB4_COMM_SHIFT)) ∨
          ((2 = 1 ∨ 2 = 2) ∧ is_math (created RCB4_COMM_ADD).type) ∨
          (1 ≤ 2 ∧ 2 ≤ 64 ∧ (created RCB4_COMM_ADD).type = RCB4_COMM_ICS))) ∧
      (rcb4_command_set_data_size (created RCB4_COMM_ADD) 2).1 = 0 ∧
      (rcb4_command_set_data_size (created RCB4_COMM_NOT) 128).1 = 0 ∧
      (rcb4_command_set_data_size (created RCB4_COMM_ICS) 65).1 ≠ 0 :=
  ⟨set_data_size_succeeds_iff (created RCB4_COMM_ADD) 2, by decide, by decide, by decide⟩

/-! ## What `rcb4_command_set_data_size` writes -/

theorem store_src_size_cases (comm : rcb4_comm) (t size : Nat) :
    (t &&& COMM_SRC_MASK = COMM_SRC_RAM ∧
        store_src_size comm t size =
          { comm with command := put8 comm.command off_src_ram_size size }) ∨
      (t &&& COMM_SRC_MASK = COMM_SRC_ICS ∧
        store_src_size comm t size =
          { comm with command := put8 comm.command off_src_ics_size size }) ∨
      (t &&& COMM_SRC_MASK = COMM_SRC_ROM ∧
        store_src_size comm t size =
          { comm with command := put8 comm.command off_src_rom_size size }) ∨
      (t &&& COMM_SRC_MASK = COMM_SRC_LIT ∧ store_src_size comm t size = comm) := by
  unfold store_src_size
  dsimp only
  have h3 : t &&& COMM_SRC_MASK ≤ 3 := Nat.and_le_right
  generalize t &&& COMM_SRC_MASK = x at h3
  interval_cases x
  · exact Or.inl ⟨rfl, rfl⟩
  · exact Or.inr (Or.inl ⟨rfl, rfl⟩)
  · exact Or.inr (Or.inr (Or.inr ⟨rfl, rfl⟩))
  · exact Or.inr (Or.inr (Or.inl ⟨rfl, rfl⟩))

theorem store_src_size_one_byte (comm : rcb4_comm) (t size : Nat) :
    ∃ off, 4 ≤ off ∧ only_byte_changed comm (store_src_size comm t size) off := by
  rcases store_src_size_cases comm t size with ⟨_, h⟩ | ⟨_, h⟩ | ⟨_, h⟩ | ⟨_, h⟩
  · exact ⟨off_src_ram_size, by decide, by rw [h]; exact only_byte_changed_put8 comm _ _⟩
  · exact ⟨off_src_ics_size, by decide, by rw [h]; exact only_byte_changed_put8 comm _ _⟩
  · exact ⟨off_src_rom_size, by decide, by rw [h]; exact only_byte_changed_put8 comm _ _⟩
  · exact ⟨4, by decide, by rw [h]; exact ⟨rfl, rfl, fun _ _ => rfl⟩⟩

theorem set_data_size_one_byte (comm : rcb4_comm) (size : Nat)
    (hz : (rcb4_command_set_data_size comm size).1 = 0) :
    ∃ off, 1 ≤ off ∧ only_byte_changed comm (rcb4_command_set_data_size comm size).2 off := by
  obtain ⟨h1, h128, hl⟩ := set_data_size_range comm size hz
  rcases hl with (hl | hl | hl) | hl | hl | hl
  · rw [set_data_size_mov comm (Or.inl hl) size h1 h128]
    obtain ⟨off, ho, h⟩ := store_src_size_one_byte comm (get8 comm.command off_type) size
    exact ⟨off, by omega, h⟩
  · rw [set_data_size_mov comm (Or.inr hl) size h1 h128]
    obtain ⟨off, ho, h⟩ := store_src_size_one_byte comm (get8 comm.command off_type) size
    exact ⟨off, by omega, h⟩
  · rw [set_data_size_math comm hl size] at hz ⊢
    by_cases c : size = 1 ∨ size = 2
    · rw [if_pos c]
      obtain ⟨off, ho, h⟩ := store_src_size_one_byte comm (get8 comm.command off_type) size
      exact ⟨off, by omega, h⟩
    · rw [if_neg c] at hz
      exact absurd hz int_neg_one_ne_zero
  · rw [set_data_size_not comm hl size h1 h128]
    exact ⟨off_not_size, by decide, only_byte_changed_put8 comm _ _⟩
  · rw [set_data_size_shift comm hl size h1 h128]
    exact ⟨off_shift_size, by decide, only_byte_changed_put8 comm _ _⟩
  · rw [set_data_size_ics comm hl size] at hz ⊢
    by_cases c : 1 ≤ size ∧ size ≤ 64
    · rw [if_pos c]
      exact ⟨off_ics_data_size, by decide, only_byte_changed_put8 comm _ _⟩
    · rw [if_neg c] at hz
      exact absurd hz int_neg_one_ne_zero

/-- C26 fails on the code: on a freshly created MOV message
`rcb4_command_set_data_size(5)` succeeds and is not a no-op: it stores 5 in the
size field of the RAM source. -/
theorem data_size_on_fresh_mov_writes :
    (rcb4_command_set_data_size (created RCB4_COMM_MOV) 5).1 = 0 ∧
      (rcb4_command_set_data_size (created RCB4_COMM_MOV) 5).2 ≠ created RCB4_COMM_MOV ∧
      get8 (created RCB4_COMM_MOV).command off_src_ram_size = 0 ∧
      get8 (rcb4_command_set_data_size (created RCB4_COMM_MOV) 5).2.command off_src_ram_size =
        5 := by
  refine ⟨?_, ?_, ?_, ?_⟩ <;> decide

/-- C26 as amended: a successful `rcb4_command_set_data_size(size)` leaves the
size of the message, the opcode and the type byte as they were and changes at
most one byte of the payload.  On MOV, AND, OR and XOR it stores `size` in the
size field of the source kind that bits 0-1 of the type byte select (RAM, ICS or
ROM) and stores nothing for the literal kind; on NOT, SHIFT and ICS it stores
`size` in their own size field.  A freshly created MOV, AND, OR or XOR message
has the source kind bits 00, the RAM kind, so there the call stores `size` in
the size field of the RAM source. -/
theorem set_data_size_writes_size_field (comm : rcb4_comm) (size : Nat) :
    ((rcb4_command_set_data_size comm size).1 = 0 →
        (rcb4_command_set_data_size comm size).2.size = comm.size ∧
        (rcb4_command_set_data_size comm size).2.type = comm.type ∧
        get8 (rcb4_command_set_data_size comm size).2.command off_type =
          get8 comm.command off_type ∧
        (∃ off, only_byte_changed comm (rcb4_command_set_data_size comm size).2 off) ∧
        ((comm.type = RCB4_COMM_MOV ∨ is_logic comm.type) →
          (get8 comm.command off_type &&& COMM_SRC_MASK = COMM_SRC_RAM →
            (rcb4_command_set_data_size comm size).2.command =
              put8 comm.command off_src_ram_size size) ∧
          (get8 comm.command off_type &&& COMM_SRC_MASK = COMM_SRC_ICS →
            (rcb4_command_set_data_size comm size).2.command =
              put8 comm.command off_src_ics_size size) ∧
          (get8 comm.command off_type &&& COMM_SRC_MASK = COMM_SRC_ROM →
            (rcb4_command_set_data_size comm size).2.command =
              put8 comm.command off_src_rom_size size) ∧
          (get8 comm.command off_type &&& COMM_SRC_MASK = COMM_SRC_LIT →
            (rcb4_command_set_data_size comm size).2.command = comm.command)) ∧
        (comm.type = RCB4_COMM_NOT →
          (rcb4_command_set_data_size comm size).2.command =
            put8 comm.command off_not_size size) ∧
        (comm.type = RCB4_COMM_SHIFT →
          (rcb4_command_set_data_size comm size).2.command =
            put8 comm.command off_shift_size size) ∧
        (comm.type = RCB4_COMM_ICS →
          (rcb4_command_set_data_size comm size).2.command =
            put8 comm.command off_ics_data_size size)) ∧
      (∀ t, (t = RCB4_COMM_MOV ∨ is_logic t) → 1 ≤ size → size ≤ 128 →
        (rcb4_command_set_data_size (created t) size).1 = 0 ∧
        (rcb4_command_set_data_size (created t) size).2.command =
          put8 zero_payload off_src_ram_size size ∧
        get8 (rcb4_command_set_data_size (created t) size).2.command off_src_ram_size =
          size) := by
  constructor
  · intro hz
    obtain ⟨h1, h128, _⟩ := set_data_size_range comm size hz
    obtain ⟨off, ho, hb⟩ := set_data_size_one_byte comm size hz
    refine ⟨hb.1, hb.2.1, hb.2.2 _ (by simp only [off_type]; omega), ⟨off, hb⟩, ?_, ?_, ?_, ?_⟩
    · intro ht
      rw [set_data_size_mov comm ht size h1 h128]
      rcases store_src_size_cases comm (get8 comm.command off_type) size with
        ⟨hk, h⟩ | ⟨hk, h⟩ | ⟨hk, h⟩ | ⟨hk, h⟩ <;>
      · rw [h, hk]
        refine ⟨?_, ?_, ?_, ?_⟩ <;> intro e <;> first | rfl | exact absurd e (by decide)
    · intro ht
      rw [set_data_size_not comm ht size h1 h128]
    · intro ht
      rw [set_data_size_shift comm ht size h1 h128]
    · intro ht
      have h64 : 1 ≤ size ∧ size ≤ 64 := by
        by_contra c
        rw [set_data_size_ics comm ht size, if_neg c] at hz
        exact int_neg_one_ne_zero hz
      rw [set_data_size_ics comm ht size, if_pos h64]
  · intro t ht h1 h128
    have hty : (created t).type = t ∧ (created t).command = zero_payload := by
      rcases ht with h | h | h | h <;> rw [h] <;> exact ⟨rfl, rfl⟩
    have ht' : (created t).type = RCB4_COMM_MOV ∨ is_logic (created t).type := by
      rw [hty.1]; exact ht
    rw [set_data_size_mov _ ht' size h1 h128]
    rcases store_src_size_cases (created t) (get8 (created t).command off_type) size with
      ⟨hk, h⟩ | ⟨hk, h⟩ | ⟨hk, h⟩ | ⟨hk, h⟩
    · rw [h]
      refine ⟨rfl, by rw [← hty.2], ?_⟩
      show get8 (put8 (created t).command off_src_ram_size size) off_src_ram_size = size
      rw [get8_put8, if_pos ⟨rfl, by decide⟩]
      omega
    · rw [hty.2, get8_zero_payload] at hk
      exact absurd hk (by decide)
    · rw [hty.2, get8_zero_payload] at hk
      exact absurd hk (by decide)
    · rw [hty.2, get8_zero_payload] at hk
      exact absurd hk (by decide)

theorem set_data_size_writes_size_field_witness :
    (rcb4_command_set_data_size mov_to_rom_lit 4).1 = 0 ∧
      (rcb4_command_set_data_size mov_to_rom_lit 4).2.size = mov_to_rom_lit.size ∧
      (rcb4_command_set_data_size (created RCB4_COMM_XOR) 2).2.command =
        put8 zero_payload off_src_ram_size 2 :=
  ⟨by decide,
    ((set_data_size_writes_size_field mov_to_rom_lit 4).1 (by decide)).1,
    ((set_data_size_writes_size_field (created RCB4_COMM_MOV) 2).2 RCB4_COMM_XOR
      (Or.inr (by decide)) (by decide) (by decide)).2.1⟩

/-! ## Creation -/

theorem is_command_type_lt (t : Nat) (h : is_command_type t) : t < 256 := by
  simp only [is_command_type, is_logic, is_math, RCB4_COMM_MOV,
    RCB4_COMM_AND, RCB4_COMM_OR, RCB4_COMM_XOR, RCB4_COMM_NOT, RCB4_COMM_SHIFT,
    RCB4_COMM_ADD, RCB4_COMM_SUB, RCB4_COMM_MUL, RCB4_COMM_DIV, RCB4_COMM_MOD,
    RCB4_COMM_ICS, RCB4_COMM_SINGLE, RCB4_COMM_CONST, RCB4_COMM_SERIES,
    RCB4_COMM_SPEED] at h
  omega

theorem recreate_known (comm : rcb4_comm) (t : Nat) (h : is_command_type t) :
    (rcb4_command_recreate comm t).1 = 0 ∧ (rcb4_command_recreate comm t).2.type = t ∧
      (rcb4_command_recreate comm t).2.command = zero_payload := by
  rcases h with h | (h | h | h) | h | h | (h | h | h | h | h) | h | h | h | h | h <;>
    rw [h] <;> exact ⟨rfl, rfl, rfl⟩

theorem recreate_unknown (comm : rcb4_comm) (t : Nat) (h256 : t < 256)
    (h : ¬ is_command_type t) : (rcb4_command_recreate comm t).1 = -1 := by
  unfold rcb4_command_recreate
  dsimp only
  rw [Nat.mod_eq_of_lt h256]
  rcases member_of_cases t with ⟨h1, _⟩ | ⟨h1, _⟩ | ⟨h1, _⟩ | ⟨h1, _⟩ | ⟨h1, _⟩ | ⟨h1, _⟩ |
    ⟨h1, _⟩ | ⟨h1, _⟩ | ⟨h1, _⟩ | ⟨h1, _⟩ | ⟨_, hm⟩
  · exact absurd (Or.inl h1) h
  · exact absurd (Or.inr (Or.inl h1)) h
  · exact absurd (Or.inr (Or.inr (Or.inl h1))) h
  · exact absurd (Or.inr (Or.inr (Or.inr (Or.inl h1)))) h
  · exact absurd (Or.inr (Or.inr (Or.inr (Or.inr (Or.inl h1))))) h
  · exact absurd (Or.inr (Or.inr (Or.inr (Or.inr (Or.inr (Or.inl h1)))))) h
  · exact absurd (Or.inr (Or.inr (Or.inr (Or.inr (Or.inr (Or.inr (Or.inl h1))))))) h
  · exact absurd (Or.inr (Or.inr (Or.inr (Or.inr (Or.inr (Or.inr (Or.inr (Or.inl h1)))))))) h
  · exact absurd
      (Or.inr (Or.inr (Or.inr (Or.inr (Or.inr (Or.inr (Or.inr (Or.inr (Or.inl h1))))))))) h
  · exact absurd
      (Or.inr (Or.inr (Or.inr (Or.inr (Or.inr (Or.inr (Or.inr (Or.inr (Or.inr h1))))))))) h
  · rw [hm]

/-- C27: for each of the sixteen opcodes `rcb4_command_recreate` succeeds and
the message it leaves depends on the opcode alone, not on what the object held:
the opcode byte is the opcode, every byte of the payload is zero, and the size
is 10 for NOT and SHIFT, 9 for ICS, 7 for SINGLE and 0 for MOV, AND, OR, XOR,
ADD, SUB, MUL, DIV, MOD, CONST, SERIES and SPEED.  For every other byte value
it returns an error. -/
theorem recreate_depends_on_opcode (comm : rcb4_comm) (t : Nat) :
    (is_command_type t →
        (rcb4_command_recreate comm t).1 = 0 ∧
          (rcb4_command_recreate comm t).2.type = t ∧
          (rcb4_command_recreate comm t).2.command = zero_payload ∧
          (∀ other, rcb4_command_recreate other t = rcb4_command_recreate comm t)) ∧
      ((t = RCB4_COMM_NOT ∨ t = RCB4_COMM_SHIFT) → (rcb4_command_recreate comm t).2.size = 10) ∧
      (t = RCB4_COMM_ICS → (rcb4_command_recreate comm t).2.size = 9) ∧
      (t = RCB4_COMM_SINGLE → (rcb4_command_recreate comm t).2.size = 7) ∧
      ((t = RCB4_COMM_MOV ∨ is_logic t ∨ is_math t ∨ t = RCB4_COMM_CONST ∨
          t = RCB4_COMM_SERIES ∨ t = RCB4_COMM_SPEED) →
        (rcb4_command_recreate comm t).2.size = 0) ∧
      (t < 256 → ¬ is_command_type t → (rcb4_command_recreate comm t).1 ≠ 0) := by
  refine ⟨?_, ?_, ?_, ?_, ?_, ?_⟩
  · intro h
    obtain ⟨a, b, c⟩ := recreate_known comm t h
    exact ⟨a, b, c, fun _ => rfl⟩
  · rintro (h | h) <;> rw [h] <;> rfl
  · intro h; rw [h]; rfl
  · intro h; rw [h]; rfl
  · rintro (h | (h | h | h) | (h | h | h | h | h) | h | h | h) <;> rw [h] <;> rfl
  · intro h256 h
    rw [recreate_unknown comm t h256 h]
    exact int_neg_one_ne_zero

theorem recreate_depends_on_opcode_witness :
    is_command_type RCB4_COMM_SHIFT ∧
      (rcb4_command_recreate mov_to_rom_lit RCB4_COMM_SHIFT).1 = 0 ∧
      (rcb4_command_recreate mov_to_rom_lit RCB4_COMM_SHIFT).2.command = zero_payload ∧
      (rcb4_command_recreate mov_to_rom_lit RCB4_COMM_SHIFT).2.size = 10 ∧
      (rcb4_command_recreate mov_to_rom_lit 0x0B).1 ≠ 0 :=
  have h := (recreate_depends_on_opcode mov_to_rom_lit RCB4_COMM_SHIFT).1 (by decide)
  ⟨by decide, h.1, h.2.2.1,
    (recreate_depends_on_opcode mov_to_rom_lit RCB4_COMM_SHIFT).2.1 (Or.inr rfl),
    (recreate_depends_on_opcode mov_to_rom_lit 0x0B).2.2.2.2.2 (by decide) (by decide)⟩

/-! ## The frame of a message without operands -/

/-- C28 fails on the code: a freshly created MOV message has the size 0, and
`rcb4_send_command` has no frame to write for it. -/
theorem created_mov_has_no_frame :
    (created RCB4_COMM_MOV).size = 0 ∧
      rcb4_send_command_frame (created RCB4_COMM_MOV) = none := by
  constructor <;> decide

/-- C28 as amended: a freshly created message of a fixed-size opcode (NOT,
SHIFT, ICS, SINGLE) has a frame: its length is the size of the message (10, 10,
9, 7), at least 3, it starts with the size and the opcode, all its payload
bytes are zero and it ends with the checksum.  A freshly created message of a
variable-size opcode (MOV, AND, OR, XOR, ADD, SUB, MUL, DIV, MOD, CONST, SERIES,
SPEED) has the size 0 and no frame. -/
theorem created_frame_of_fixed_size (t : Nat) :
    ((t = RCB4_COMM_NOT ∨ t = RCB4_COMM_SHIFT ∨ t = RCB4_COMM_ICS ∨ t = RCB4_COMM_SINGLE) →
        3 ≤ (created t).size ∧
          ∃ frame, rcb4_send_command_frame (created t) = some frame ∧
            wire_format frame (created t).size t
              (List.replicate ((created t).size - 3) 0)) ∧
      ((t = RCB4_COMM_MOV ∨ is_logic t ∨ is_math t ∨ t = RCB4_COMM_CONST ∨
          t = RCB4_COMM_SERIES ∨ t = RCB4_COMM_SPEED) →
        (created t).size = 0 ∧ rcb4_send_command_frame (created t) = none) := by
  constructor
  · rintro (h | h | h | h) <;> rw [h] <;>
      exact ⟨by decide, _, rfl, by unfold wire_format; decide⟩
  · rintro (h | (h | h | h) | (h | h | h | h | h) | h | h | h) <;> rw [h] <;>
      exact ⟨by decide, by decide⟩

theorem created_frame_of_fixed_size_witness :
    3 ≤ (created RCB4_COMM_SINGLE).size ∧
      ∃ frame, rcb4_send_command_frame (created RCB4_COMM_SINGLE) = some frame ∧
        wire_format frame (created RCB4_COMM_SINGLE).size RCB4_COMM_SINGLE
          (List.replicate ((created RCB4_COMM_SINGLE).size - 3) 0) :=
  (created_frame_of_fixed_size RCB4_COMM_SINGLE).1 (Or.inr (Or.inr (Or.inr rfl)))

/-! ## The ICS id of an ICS message -/

/-- C29 fails on the code: `rcb4_command_set_ics` stores its argument as it
is, without a range check and without the shift to a 0-based id, so an ICS
message can hold the id 200, or the id 36 for the last servo; the sibling
setters reject the id 200 and store 35 for the id 36. -/
theorem set_ics_stores_unchecked_id :
    (rcb4_command_set_ics (created RCB4_COMM_ICS) 200).1 = 0 ∧
      get8 (rcb4_command_set_ics (created RCB4_COMM_ICS) 200).2.command off_ics_id = 200 ∧
      get8 (rcb4_command_set_ics (created RCB4_COMM_ICS) 36).2.command off_ics_id = 36 ∧
      (rcb4_command_set_servo (created RCB4_COMM_SINGLE) 200 1 0).1 = -1 ∧
      (rcb4_command_set_src_ics (created RCB4_COMM_MOV) 0 200 1).1 = -1 ∧
      (rcb4_command_set_dst_ics (created RCB4_COMM_MOV) 0 200).1 = -1 ∧
      get8 (rcb4_command_set_servo (created RCB4_COMM_SINGLE) 36 1 0).2.command
        off_single_ics_id = 35 := by
  refine ⟨?_, ?_, ?_, ?_, ?_, ?_, ?_⟩ <;> decide

/-! ## The acknowledgement of a command -/

theorem list_eq_four (l : List Nat) (a b c d : Nat) :
    l = [a, b, c, d] ↔
      (l.length = 4 ∧ l.getD 0 0 = a ∧ l.getD 1 0 = b ∧ l.getD 2 0 = c ∧ l.getD 3 0 = d) := by
  constructor
  · rintro rfl
    exact ⟨rfl, rfl, rfl, rfl, rfl⟩
  · rintro ⟨hl, h0, h1, h2, h3⟩
    rcases l with _ | ⟨x, _ | ⟨y, _ | ⟨z, _ | ⟨w, _ | ⟨v, l⟩⟩⟩⟩⟩
    · simp at hl
    · simp at hl
    · simp at hl
    · simp at hl
    · simp only [List.getD_cons_zero, List.getD_cons_succ] at h0 h1 h2 h3
      rw [h0, h1, h2, h3]
    · simp at hl

/-- The test on the four bytes read: it passes exactly when `read` delivers
the acknowledgement of the opcode. -/
theorem ack_test (port : serial_port) (opcode : Nat) :
    ¬ ((port_read port 4).1 ≠ 4 ∨ (port_read port 4).2.getD 0 0 ≠ 0x04 ∨
        (port_read port 4).2.getD 1 0 ≠ opcode ∨ (port_read port 4).2.getD 2 0 ≠ RCB4_ACK ∨
        (port_read port 4).2.getD 3 0 ≠ (0x04 + opcode + RCB4_ACK) % 256) ↔
      ∃ bytes, port.incoming = some bytes ∧ bytes.take 4 = ack_reply opcode := by
  unfold port_read ack_reply
  cases hi : port.incoming with
  | none =>
    simp
  | some bytes =>
    dsimp only
    constructor
    · intro h
      refine ⟨bytes, rfl, (list_eq_four _ _ _ _ _).2 ⟨?_, ?_, ?_, ?_, ?_⟩⟩
      · by_contra c
        apply h
        left
        intro e
        apply c
        exact_mod_cast e
      · by_contra c; exact h (Or.inr (Or.inl c))
      · by_contra c; exact h (Or.inr (Or.inr (Or.inl c)))
      · by_contra c; exact h (Or.inr (Or.inr (Or.inr (Or.inl c))))
      · by_contra c; exact h (Or.inr (Or.inr (Or.inr (Or.inr c))))
    · rintro ⟨b, hb, he⟩
      have e : bytes = b := Option.some.inj hb
      subst e
      obtain ⟨hl, h0, h1, h2, h3⟩ := (list_eq_four _ _ _ _ _).1 he
      rintro (c | c | c | c | c)
      · apply c; rw [hl]; rfl
      · exact c h0
      · exact c h1
      · exact c h2
      · exact c h3

theorem send_command_ack (port : serial_port) (comm : rcb4_comm)
    (hs1 : 1 ≤ comm.size) (hs2 : comm.size ≤ 128) (hw : port.written = (comm.size : Int))
    (hr1 : port.ready ≠ -1) (hr2 : port.ready ≠ 0)
    (h0 : rcb4_command_get_response_size comm = 0) :
    rcb4_send_command port comm =
      if (∃ bytes, port.incoming = some bytes ∧ bytes.take 4 = ack_reply comm.type) then
        some (0, [])
      else some (-1, []) := by
  unfold rcb4_send_command
  have c1 : ¬ (comm.size = 0 ∨ comm.size > 128) := by omega
  have c2 : ¬ (port.written ≠ (comm.size : Int)) := fun e => e hw
  have c3 : (rcb4_command_get_response_size comm % 256 = 0) := by rw [h0]
  rw [if_neg c1, if_neg c2, if_neg hr1, if_neg hr2]
  dsimp only
  rw [if_pos c3]
  by_cases h : ∃ bytes, port.incoming = some bytes ∧ bytes.take 4 = ack_reply comm.type
  · rw [if_pos h, if_neg ((ack_test port comm.type).2 h)]
  · rw [if_neg h, if_pos (by
      by_contra c
      exact h ((ack_test port comm.type).1 c))]

theorem send_command_private_ack (port : serial_port) (command : List Nat) (length : Nat)
    (hw : port.written = (length : Int)) (hr1 : port.ready ≠ -1) (hr2 : port.ready ≠ 0) :
    rcb4_send_command_private port command length =
      if (∃ bytes, port.incoming = some bytes ∧
          bytes.take 4 = ack_reply (command.getD 1 0)) then 0
      else -1 := by
  unfold rcb4_send_command_private
  have c2 : ¬ (port.written ≠ (length : Int)) := fun e => e hw
  rw [if_neg c2, if_neg hr1, if_neg hr2]
  dsimp only
  by_cases h : ∃ bytes, port.incoming = some bytes ∧
      bytes.take 4 = ack_reply (command.getD 1 0)
  · rw [if_pos h, if_neg ((ack_test port (command.getD 1 0)).2 h)]
  · rw [if_neg h, if_pos (by
      by_contra c
      exact h ((ack_test port (command.getD 1 0)).1 c))]

theorem nack_is_not_ack (opcode : Nat) (bytes : List Nat)
    (h : bytes.take 4 = nack_reply opcode) : ¬ (bytes.take 4 = ack_reply opcode) := by
  rw [h]
  unfold nack_reply ack_reply
  intro e
  have := congrArg (fun l => l.getD 2 0) e
  simp at this

/-- C30: when the expected reply size of the message is 0, the write has
succeeded and the line is ready, `rcb4_send_command` returns 0 exactly when
`read` delivers the four bytes `04, opcode, 06, (04 + opcode + 06) mod 256`, and
-1 in every other case: a read error, fewer than four bytes, any other four
bytes, among them the refusal `04, opcode, 15, checksum`.  The private
`rcb4_send_command_private` of `rcb4_control.c` tests the reply the same way,
with the opcode taken from the second byte of the frame. -/
theorem ack_accepted_nack_rejected (port : serial_port) (comm : rcb4_comm)
    (hs1 : 1 ≤ comm.size) (hs2 : comm.size ≤ 128) (hw : port.written = (comm.size : Int))
    (hr1 : port.ready ≠ -1) (hr2 : port.ready ≠ 0)
    (h0 : rcb4_command_get_response_size comm = 0) :
    (rcb4_send_command port comm = some (0, []) ↔
        ∃ bytes, port.incoming = some bytes ∧ bytes.take 4 = ack_reply comm.type) ∧
      (rcb4_send_command port comm ≠ some (0, []) →
        rcb4_send_command port comm = some (-1, [])) ∧
      (∀ bytes, port.incoming = some bytes → bytes.take 4 = nack_reply comm.type →
        rcb4_send_command port comm = some (-1, [])) ∧
      (∀ command, port.written = (command.length : Int) →
        ((rcb4_send_command_private port command command.length = 0 ↔
            ∃ bytes, port.incoming = some bytes ∧
              bytes.take 4 = ack_reply (command.getD 1 0)) ∧
          (rcb4_send_command_private port command command.length ≠ 0 →
            rcb4_send_command_private port command command.length = -1))) := by
  have hc := send_command_ack port comm hs1 hs2 hw hr1 hr2 h0
  refine ⟨?_, ?_, ?_, ?_⟩
  · rw [hc]
    constructor
    · intro h
      by_contra c
      rw [if_neg c] at h
      have := congrArg (fun o => o.map (fun p => p.1)) h
      simp at this
    · intro h
      rw [if_pos h]
  · intro h
    rw [hc] at h ⊢
    by_cases c : ∃ bytes, port.incoming = some bytes ∧ bytes.take 4 = ack_reply comm.type
    · rw [if_pos c] at h
      exact absurd rfl h
    · rw [if_neg c]
  · intro bytes hi hn
    rw [hc, if_neg]
    rintro ⟨b, hb, he⟩
    rw [hi] at hb
    have e : bytes = b := Option.some.inj hb
    subst e
    exact nack_is_not_ack comm.type bytes hn he
  · intro command hwp
    have hp := send_command_private_ack port command command.length hwp hr1 hr2
    constructor
    · rw [hp]
      constructor
      · intro h
        by_contra c
        rw [if_neg c] at h
        exact int_neg_one_ne_zero h
      · intro h
        rw [if_pos h]
    · intro h
      rw [hp] at h ⊢
      by_cases c : ∃ bytes, port.incoming = some bytes ∧
          bytes.take 4 = ack_reply (command.getD 1 0)
      · rw [if_pos c] at h
        exact absurd rfl h
      · rw [if_neg c]

theorem ack_accepted_nack_rejected_witness :
    rcb4_command_get_response_size single_servo_message = 0 ∧
      rcb4_send_command_frame single_servo_message =
        some [0x07, 0x0F, 0x01, 0x30, 0x00, 0x19, 0x60] ∧
      rcb4_send_command port_with_ack single_servo_message = some (0, []) ∧
      rcb4_send_command port_with_nack single_servo_message = some (-1, []) :=
  ⟨by decide, by decide,
    (ack_accepted_nack_rejected port_with_ack single_servo_message (by decide) (by decide)
      (by decide) (by decide) (by decide) (by decide)).1.2 ⟨_, rfl, by decide⟩,
    (ack_accepted_nack_rejected port_with_nack single_servo_message (by decide) (by decide)
      (by decide) (by decide) (by decide) (by decide)).2.2.1 _ rfl (by decide)⟩

/-! ## The data reply of `rcb4_send_command` -/

/-- The reply path of `rcb4_send_command`: when `read` delivers the size byte,
the opcode, `r` payload bytes and one more byte, the payload is handed back,
whatever the last byte is. -/
theorem send_command_reply_any_sum (port : serial_port) (comm : rcb4_comm) (payload : List Nat)
    (last : Nat) (bytes : List Nat)
    (hs1 : 1 ≤ comm.size) (hs2 : comm.size ≤ 128) (hw : port.written = (comm.size : Int))
    (hr1 : port.ready ≠ -1) (hr2 : port.ready ≠ 0)
    (hr : 0 < rcb4_command_get_response_size comm)
    (h256 : rcb4_command_get_response_size comm + 3 ≤ 256)
    (hp : payload.length = rcb4_command_get_response_size comm)
    (hin : port.incoming = some bytes)
    (hb : bytes.take (rcb4_command_get_response_size comm + 3) =
      (rcb4_command_get_response_size comm + 3) :: comm.type :: payload ++ [last]) :
    rcb4_send_command port comm =
      some (((rcb4_command_get_response_size comm : Nat) : Int), payload) := by
  unfold rcb4_send_command
  have c1 : ¬ (comm.size = 0 ∨ comm.size > 128) := by omega
  have c2 : ¬ (port.written ≠ (comm.size : Int)) := fun e => e hw
  have e : rcb4_command_get_response_size comm % 256 = rcb4_command_get_response_size comm :=
    Nat.mod_eq_of_lt (by omega)
  rw [if_neg c1, if_neg c2, if_neg hr1, if_neg hr2]
  dsimp only
  rw [e]
  have c3 : ¬ (rcb4_command_get_response_size comm = 0) := by omega
  have c4 : ¬ (rcb4_command_get_response_size comm + 3 > 256) := by omega
  rw [if_neg c3, if_neg c4]
  have hread : port_read port (rcb4_command_get_response_size comm + 3) =
      (((rcb4_command_get_response_size comm + 3 : Nat) : Int),
        (rcb4_command_get_response_size comm + 3) :: comm.type :: payload ++ [last]) := by
    unfold port_read
    rw [hin]
    dsimp only
    rw [hb]
    have hl : ((rcb4_command_get_response_size comm + 3) :: comm.type :: payload ++
        [last]).length = rcb4_command_get_response_size comm + 3 := by
      simp only [List.length_cons, List.length_append, List.length_nil, hp]
    rw [hl]
  rw [hread]
  dsimp only
  have c5 : ¬ ((((rcb4_command_get_response_size comm + 3 : Nat) : Int) ≠
      ((rcb4_command_get_response_size comm + 3 : Nat) : Int)) ∨
      ((rcb4_command_get_response_size comm + 3) :: comm.type :: payload ++ [last]).getD 0 0 ≠
        rcb4_command_get_response_size comm + 3 ∨
      ((rcb4_command_get_response_size comm + 3) :: comm.type :: payload ++ [last]).getD 1 0 ≠
        comm.type) := by
    simp
  rw [if_neg c5]
  have hd : (((rcb4_command_get_response_size comm + 3) :: comm.type :: payload ++ [last]).drop
      2).take (rcb4_command_get_response_size comm) = payload := by
    simp [← hp]
  rw [hd]

/-- C31 fails on the code: on a message that expects `r > 0` bytes,
`rcb4_send_command` hands back the payload of a reply whose first byte is
`r + 3` and whose second byte is the opcode whatever its last byte is: the
checksum of a data reply is never compared with the sum of the bytes before
it. -/
theorem reply_checksum_not_checked (port : serial_port) (comm : rcb4_comm) (payload : List Nat)
    (last : Nat) (bytes : List Nat)
    (hs1 : 1 ≤ comm.size) (hs2 : comm.size ≤ 128) (hw : port.written = (comm.size : Int))
    (hr1 : port.ready ≠ -1) (hr2 : port.ready ≠ 0)
    (hr : 0 < rcb4_command_get_response_size comm)
    (h256 : rcb4_command_get_response_size comm + 3 ≤ 256)
    (hp : payload.length = rcb4_command_get_response_size comm)
    (hin : port.incoming = some bytes)
    (hb : bytes.take (rcb4_command_get_response_size comm + 3) =
      (rcb4_command_get_response_size comm + 3) :: comm.type :: payload ++ [last]) :
    rcb4_send_command port comm =
      some (((rcb4_command_get_response_size comm : Nat) : Int), payload) :=
  send_command_reply_any_sum port comm payload last bytes hs1 hs2 hw hr1 hr2 hr h256 hp hin hb

theorem reply_checksum_not_checked_witness :
    (0x07 + 0x00 + 0x11 + 0x22 + 0x33 + 0x44) % 256 ≠ 0x00 ∧
      rcb4_send_command port_with_bad_sum mov_ram4_to_com =
        some (4, [0x11, 0x22, 0x33, 0x44]) :=
  ⟨by decide,
    reply_checksum_not_checked port_with_bad_sum mov_ram4_to_com [0x11, 0x22, 0x33, 0x44] 0x00
      [0x07, 0x00, 0x11, 0x22, 0x33, 0x44, 0x00] (by decide) (by decide) (by rfl) (by decide)
      (by decide) (by decide) (by decide) (by rfl) (by rfl) (by rfl)⟩

/-- C32: on a message that expects `r > 0` bytes, when the write is complete,
the line becomes ready and `read` delivers the correctly framed reply
`[r + 3, opcode, p_1 .. p_r, checksum]`, `rcb4_send_command` returns `r` and the
reply buffer receives exactly `p_1 .. p_r`: the size, the opcode and the
checksum are left out. -/
theorem send_command_returns_payload (port : serial_port) (comm : rcb4_comm)
    (payload : List Nat) (bytes : List Nat)
    (hs1 : 1 ≤ comm.size) (hs2 : comm.size ≤ 128) (hw : port.written = (comm.size : Int))
    (hr1 : port.ready ≠ -1) (hr2 : port.ready ≠ 0)
    (hr : 0 < rcb4_command_get_response_size comm)
    (h256 : rcb4_command_get_response_size comm + 3 ≤ 256)
    (hp : payload.length = rcb4_command_get_response_size comm)
    (hin : port.incoming = some bytes)
    (hb : bytes.take (rcb4_command_get_response_size comm + 3) =
      data_reply comm.type payload) :
    rcb4_send_command port comm =
      some (((rcb4_command_get_response_size comm : Nat) : Int), payload) := by
  apply send_command_reply_any_sum port comm payload
    ((payload.length + 3 + comm.type + payload.sum) % 256) bytes hs1 hs2 hw hr1 hr2 hr h256 hp hin
  rw [hb]
  unfold data_reply
  rw [hp]

theorem send_command_returns_payload_witness :
    rcb4_command_get_response_size mov_ram4_to_com = 4 ∧
      data_reply RCB4_COMM_MOV [0x11, 0x22, 0x33, 0x44] =
        [0x07, 0x00, 0x11, 0x22, 0x33, 0x44, 0xB1] ∧
      rcb4_send_command port_with_data mov_ram4_to_com = some (4, [0x11, 0x22, 0x33, 0x44]) :=
  ⟨by decide, by decide,
    send_command_returns_payload port_with_data mov_ram4_to_com [0x11, 0x22, 0x33, 0x44]
      (data_reply RCB4_COMM_MOV [0x11, 0x22, 0x33, 0x44]) (by decide) (by decide) (by rfl)
      (by decide) (by decide) (by decide) (by decide) (by rfl) (by rfl) (by rfl)⟩

/-! ## The ping -/

/-- C33 fails on the code: after the ping is written and the line becomes
ready, the four bytes `04 FE 15 1B` make `rcb4_command_ping` return -1, not 1:
the last byte is not the checksum of a refusal, which is `0x17`. -/
theorem ping_claimed_refusal_is_error :
    rcb4_command_ping (port_after_ping [0x04, 0xFE, 0x15, 0x1B]) = -1 ∧
      (0x04 + 0xFE + 0x15) % 256 = 0x17 := by
  constructor
  · rfl
  · rfl

/-- The ping on a line that becomes ready with at least four bytes waiting. -/
theorem ping_on_four_bytes (port : serial_port) (hw : port.written = 3)
    (hr1 : port.ready ≠ -1) (hr2 : port.ready ≠ 0) (bytes : List Nat)
    (hin : port.incoming = some bytes) (b0 b1 b2 b3 : Nat)
    (hb : bytes.take 4 = [b0, b1, b2, b3]) :
    rcb4_command_ping port =
      if b0 ≠ 0x04 ∨ b1 ≠ 0xFE then -1
      else if b2 = RCB4_ACK ∧ b3 = 0x08 then 0
      else if b2 = RCB4_NCK ∧ b3 = 0x17 then 1
      else -1 := by
  unfold rcb4_command_ping
  have c1 : ¬ (port.written ≠ 3) := fun e => e hw
  rw [if_neg c1, if_neg hr1, if_neg hr2]
  have hread : port_read port 4 = (4, [b0, b1, b2, b3]) := by
    unfold port_read
    rw [hin]
    dsimp only
    rw [hb]
    rfl
  rw [hread]
  simp [rcb4_command_ping_frame, RCB4_ACK, RCB4_NCK]

/-- C33 as amended: after a successful write of the ping frame,
`rcb4_command_ping` returns 0 when the line becomes ready and the four bytes
`04 FE 06 08` are read, 1 when the four bytes `04 FE 15 17` are read (`0x17` is
the low byte of `0x04 + 0xFE + 0x15`), -1 when the four bytes `04 FE 15 1B` are
read, and -10 when `select` reports that nothing became readable before the
timeout. -/
theorem ping_result (port : serial_port) (hw : port.written = 3) :
    (port.ready = 0 → rcb4_command_ping port = -10) ∧
      (port.ready ≠ -1 → port.ready ≠ 0 → ∀ bytes, port.incoming = some bytes →
        (bytes.take 4 = [0x04, 0xFE, 0x06, 0x08] → rcb4_command_ping port = 0) ∧
        (bytes.take 4 = [0x04, 0xFE, 0x15, 0x17] → rcb4_command_ping port = 1) ∧
        (bytes.take 4 = [0x04, 0xFE, 0x15, 0x1B] → rcb4_command_ping port = -1)) := by
  constructor
  · intro h0
    unfold rcb4_command_ping
    have c1 : ¬ (port.written ≠ 3) := fun e => e hw
    have c2 : ¬ (port.ready = -1) := by rw [h0]; decide
    rw [if_neg c1, if_neg c2, if_pos h0]
  · intro hr1 hr2 bytes hin
    refine ⟨?_, ?_, ?_⟩
    · intro hb
      rw [ping_on_four_bytes port hw hr1 hr2 bytes hin _ _ _ _ hb]
      rfl
    · intro hb
      rw [ping_on_four_bytes port hw hr1 hr2 bytes hin _ _ _ _ hb]
      rfl
    · intro hb
      rw [ping_on_four_bytes port hw hr1 hr2 bytes hin _ _ _ _ hb]
      rfl

theorem ping_result_witness :
    rcb4_command_ping port_silent = -10 ∧
      rcb4_command_ping (port_after_ping [0x04, 0xFE, 0x06, 0x08]) = 0 ∧
      rcb4_command_ping (port_after_ping [0x04, 0xFE, 0x15, 0x17]) = 1 :=
  ⟨(ping_result port_silent (by rfl)).1 (by rfl),
    ((ping_result (port_after_ping [0x04, 0xFE, 0x06, 0x08]) (by rfl)).2 (by decide) (by decide)
      _ (by rfl)).1 (by rfl),
    ((ping_result (port_after_ping [0x04, 0xFE, 0x15, 0x17]) (by rfl)).2 (by decide) (by decide)
      _ (by rfl)).2.1 (by rfl)⟩

/-! ## Jump and call -/

theorem and_ff (x : Nat) : 0xFF &&& x = x % 256 := by
  rw [Nat.and_comm]
  exact Nat.and_pow_two_sub_one_eq_mod x 8

theorem and_0f (x : Nat) : 0x0F &&& x = x % 16 := by
  rw [Nat.and_comm]
  exact Nat.and_pow_two_sub_one_eq_mod x 4

/-- C34 fails on the code: for every address and every conditions byte
`rcb4_call` writes the 7-byte frame `07 0C lo mid hi (conditions mod 16)
checksum`, which has the wire format, while `rcb4_jmp` writes the six bytes
`07 0B lo mid hi (conditions mod 16)` only: its array has six elements, the
size byte announces seven and the checksum is not sent. -/
theorem jmp_frame_lacks_checksum (addr conditions : Nat) :
    rcb4_jmp_frame addr conditions =
        [0x07, 0x0B, addr % 256, addr / 256 % 256, addr / 65536 % 256, conditions % 16] ∧
      (rcb4_jmp_frame addr conditions).length = 6 ∧
      rcb4_call_frame addr conditions =
        [0x07, 0x0C, addr % 256, addr / 256 % 256, addr / 65536 % 256, conditions % 16,
          (0x07 + 0x0C + addr % 256 + addr / 256 % 256 + addr / 65536 % 256 +
            conditions % 16) % 256] ∧
      wire_format (rcb4_call_frame addr conditions) 7 0x0C
        [addr % 256, addr / 256 % 256, addr / 65536 % 256, conditions % 16] := by
  have h8 : addr >>> 8 = addr / 256 := Nat.shiftRight_eq_div_pow addr 8
  have h16 : addr >>> 16 = addr / 65536 := Nat.shiftRight_eq_div_pow addr 16
  have ej : rcb4_jmp_frame addr conditions =
      [0x07, 0x0B, addr % 256, addr / 256 % 256, addr / 65536 % 256, conditions % 16] := by
    unfold rcb4_jmp_frame
    rw [and_ff, and_ff, and_ff, and_0f, h8, h16]
  have ec : rcb4_call_frame addr conditions =
      [0x07, 0x0C, addr % 256, addr / 256 % 256, addr / 65536 % 256, conditions % 16,
        (0x07 + 0x0C + addr % 256 + addr / 256 % 256 + addr / 65536 % 256 +
          conditions % 16) % 256] := by
    unfold rcb4_call_frame
    simp only [and_ff, and_0f, h8, h16]
  refine ⟨ej, by rw [ej]; rfl, ec, ?_⟩
  rw [ec]
  unfold wire_format
  refine ⟨rfl, rfl, ?_⟩
  simp only [List.sum_cons, List.sum_nil, List.cons_append, List.nil_append, Nat.add_zero]
  have : 7 + 12 + (addr % 256 + (addr / 256 % 256 + (addr / 65536 % 256 + conditions % 16))) =
      0x07 + 0x0C + addr % 256 + addr / 256 % 256 + addr / 65536 % 256 + conditions % 16 := by
    omega
  rw [this]

/-! ## Source and destination setters as calls -/

theorem has_src_legal_dst (t : Nat) (h : has_src t) : legal_dst t := Or.inl h

/-- A successful source setter is on a `{type, dst, src}` message, or it is
`rcb4_command_set_src_ram` on an ICS message. -/
theorem src_call_success (m : rcb4_comm) (s : setter_call) (hs : is_src_call s)
    (h : call_code m s = 0) : has_src m.type ∨ m.type = RCB4_COMM_ICS := by
  cases s with
  | set_src_ram addr size =>
    rcases (set_src_ram_success m addr size h).1 with a | a
    · exact Or.inl a
    · exact Or.inr a.1
  | set_src_ics offset ics size => exact Or.inl (set_src_ics_success m offset ics size h).1
  | set_src_literal literal length =>
    exact Or.inl (set_src_literal_success m literal length h).1
  | set_src_rom addr size => exact Or.inl (set_src_rom_success m addr size h).1
  | _ => exact absurd hs (by simp [is_src_call])

/-- The message after a successful source setter on a `{type, dst, src}`
message. -/
theorem src_call_stores (m : rcb4_comm) (hm : has_src m.type) (s : setter_call)
    (hs : is_src_call s) (h : call_code m s = 0) :
    apply_call m s = { m with command := src_write m.command s, size := src_total_size m.size s } := by
  cases s with
  | set_src_ram addr size => exact set_src_ram_stores m hm addr size h
  | set_src_ics offset ics size => exact set_src_ics_stores m hm offset ics size h
  | set_src_literal literal length => exact set_src_literal_stores m hm literal length h
  | set_src_rom addr size => exact set_src_rom_stores m hm addr size h
  | _ => exact absurd hs (by simp [is_src_call])

/-- A successful destination setter is on a message with a destination. -/
theorem dst_call_success (m : rcb4_comm) (d : setter_call) (hd : is_dst_call d)
    (h : call_code m d = 0) : legal_dst m.type ∨ m.type = RCB4_COMM_ICS := by
  cases d with
  | set_dst_ram addr =>
    have a := (set_dst_ram_success m addr h).1
    unfold legal_dst_ram at a
    unfold legal_dst
    tauto
  | set_dst_ics offset ics => exact Or.inl (set_dst_ics_success m offset ics h).1
  | set_dst_com =>
    have a := set_dst_com_success m h
    unfold legal_dst_com at a
    unfold legal_dst has_src
    tauto
  | set_dst_rom addr => exact Or.inl (set_dst_rom_success m addr h).1
  | _ => exact absurd hd (by simp [is_dst_call])

/-- The message after a successful destination setter on a message with a
`{type, dst, ...}` payload. -/
theorem dst_call_stores (m : rcb4_comm) (hm : legal_dst m.type) (d : setter_call)
    (hd : is_dst_call d) (h : call_code m d = 0) :
    apply_call m d = { m with command := dst_write m.command d } := by
  cases d with
  | set_dst_ram addr => exact set_dst_ram_stores m hm addr h
  | set_dst_ics offset ics => exact set_dst_ics_stores m hm offset ics h
  | set_dst_com =>
    have a := set_dst_com_stores m (set_dst_com_success m h)
    show (rcb4_command_set_dst_com m).2 = _
    rw [a]
    rfl
  | set_dst_rom addr => exact set_dst_rom_stores m hm addr h
  | _ => exact absurd hd (by simp [is_dst_call])

/-- The value returned by a source or destination setter depends on the opcode
and on the arguments only. -/
theorem call_code_congr (m n : rcb4_comm) (h : m.type = n.type) (c : setter_call)
    (hc : is_src_call c ∨ is_dst_call c) : call_code m c = call_code n c := by
  unfold call_code do_call
  cases c with
  | set_src_ram addr size =>
    dsimp only
    unfold rcb4_command_set_src_ram
    rw [h]
    generalize member_of n.type = k
    split_ifs <;> cases k <;> rfl
  | set_src_ics offset ics size =>
    dsimp only
    unfold rcb4_command_set_src_ics
    rw [h]
    generalize member_of n.type = k
    split_ifs <;> cases k <;> rfl
  | set_src_literal literal length =>
    dsimp only
    unfold rcb4_command_set_src_literal
    rw [h]
    generalize member_of n.type = k
    split_ifs <;> cases k <;> rfl
  | set_src_rom addr size =>
    dsimp only
    unfold rcb4_command_set_src_rom
    rw [h]
    generalize member_of n.type = k
    split_ifs <;> cases k <;> rfl
  | set_dst_ram addr =>
    dsimp only
    unfold rcb4_command_set_dst_ram
    rw [h]
    generalize member_of n.type = k
    split_ifs <;> cases k <;> rfl
  | set_dst_ics offset ics =>
    dsimp only
    unfold rcb4_command_set_dst_ics
    rw [h]
    generalize member_of n.type = k
    split_ifs <;> cases k <;> rfl
  | set_dst_com =>
    dsimp only
    unfold rcb4_command_set_dst_com
    rw [h]
    generalize member_of n.type = k
    cases k <;> rfl
  | set_dst_rom addr =>
    dsimp only
    unfold rcb4_command_set_dst_rom
    rw [h]
    generalize member_of n.type = k
    split_ifs <;> cases k <;> rfl
  | _ => exact absurd hc (by simp [is_src_call, is_dst_call])

/-! ### The bytes written by a source and by a destination setter -/

/-- The source kind of a source setter. -/
theorem src_write_type (s : setter_call) (hs : is_src_call s) :
    ∃ ks, ks < 4 ∧ ∀ mem, get8 (src_write mem s) 0 = src_type_byte (get8 mem 0) ks := by
  cases s with
  | set_src_ram addr size =>
    exact ⟨COMM_SRC_RAM, by decide, fun mem => by
      show get8 (write_src_ram mem 0 addr size) 0 = _
      rw [get8_write_src_ram]; rfl⟩
  | set_src_ics offset ics size =>
    exact ⟨COMM_SRC_ICS, by decide, fun mem => by
      show get8 (write_src_ics mem 0 offset (ics - 1) size) 0 = _
      rw [get8_write_src_ics]; rfl⟩
  | set_src_literal literal length =>
    exact ⟨COMM_SRC_LIT, by decide, fun mem => by
      show get8 (write_src_lit mem 0 literal length) 0 = _
      rw [get8_write_src_lit]
      have c : ¬ (4 ≤ 0 ∧ 0 < 4 + length ∧ 0 < 125) := by omega
      rw [if_neg c]; rfl⟩
  | set_src_rom addr size =>
    exact ⟨COMM_SRC_ROM, by decide, fun mem => by
      show get8 (write_src_rom mem 0 addr size) 0 = _
      rw [get8_write_src_rom]; rfl⟩
  | _ => exact absurd hs (by simp [is_src_call])

/-- A source setter leaves the three bytes of the destination operand, and
what it leaves at an offset of the source operand depends on the byte that was
there only. -/
theorem src_write_bytes (s : setter_call) (hs : is_src_call s) :
    (∀ mem o, 1 ≤ o → o ≤ 3 → get8 (src_write mem s) o = get8 mem o) ∧
      (∀ mem mem2 o, 4 ≤ o → get8 mem o = get8 mem2 o →
        get8 (src_write mem s) o = get8 (src_write mem2 s) o) := by
  cases s with
  | set_src_ram addr size =>
    constructor
    · intro mem o h1 h3
      show get8 (write_src_ram mem 0 addr size) o = _
      rw [get8_write_src_ram]
      split_ifs <;> first | rfl | omega
    · intro mem mem2 o h4 he
      show get8 (write_src_ram mem 0 addr size) o = get8 (write_src_ram mem2 0 addr size) o
      rw [get8_write_src_ram, get8_write_src_ram]
      split_ifs <;> first | rfl | omega
  | set_src_ics offset ics size =>
    constructor
    · intro mem o h1 h3
      show get8 (write_src_ics mem 0 offset (ics - 1) size) o = _
      rw [get8_write_src_ics]
      split_ifs <;> first | rfl | omega
    · intro mem mem2 o h4 he
      show get8 (write_src_ics mem 0 offset (ics - 1) size) o =
        get8 (write_src_ics mem2 0 offset (ics - 1) size) o
      rw [get8_write_src_ics, get8_write_src_ics]
      split_ifs <;> first | rfl | omega
  | set_src_literal literal length =>
    constructor
    · intro mem o h1 h3
      show get8 (write_src_lit mem 0 literal length) o = _
      rw [get8_write_src_lit]
      split_ifs <;> first | rfl | omega
    · intro mem mem2 o h4 he
      show get8 (write_src_lit mem 0 literal length) o =
        get8 (write_src_lit mem2 0 literal length) o
      rw [get8_write_src_lit, get8_write_src_lit]
      split_ifs <;> first | rfl | omega
  | set_src_rom addr size =>
    constructor
    · intro mem o h1 h3
      show get8 (write_src_rom mem 0 addr size) o = _
      rw [get8_write_src_rom]
      split_ifs <;> first | rfl | omega
    · intro mem mem2 o h4 he
      show get8 (write_src_rom mem 0 addr size) o = get8 (write_src_rom mem2 0 addr size) o
      rw [get8_write_src_rom, get8_write_src_rom]
      split_ifs <;> first | rfl | omega
  | _ => exact absurd hs (by simp [is_src_call])

/-- The destination kind of a destination setter. -/
theorem dst_write_type (d : setter_call) (hd : is_dst_call d) :
    ∃ kd, (kd = COMM_DST_RAM ∨ kd = COMM_DST_ICS ∨ kd = COMM_DST_COM ∨ kd = COMM_DST_ROM) ∧
      ∀ mem, get8 (dst_write mem d) 0 = dst_type_byte (get8 mem 0) kd := by
  cases d with
  | set_dst_ram addr =>
    exact ⟨COMM_DST_RAM, Or.inl rfl, fun mem => by
      show get8 (write_dst_ram mem 0 addr) 0 = _
      rw [get8_write_dst_ram]; rfl⟩
  | set_dst_ics offset ics =>
    exact ⟨COMM_DST_ICS, Or.inr (Or.inl rfl), fun mem => by
      show get8 (write_dst_ics mem 0 offset (ics - 1)) 0 = _
      rw [get8_write_dst_ics]; rfl⟩
  | set_dst_com =>
    exact ⟨COMM_DST_COM, Or.inr (Or.inr (Or.inl rfl)), fun mem => by
      show get8 (write_dst_com mem 0) 0 = _
      rw [get8_write_dst_com]; rfl⟩
  | set_dst_rom addr =>
    exact ⟨COMM_DST_ROM, Or.inr (Or.inr (Or.inr rfl)), fun mem => by
      show get8 (write_dst_rom mem 0 addr) 0 = _
      rw [get8_write_dst_rom]; rfl⟩
  | _ => exact absurd hd (by simp [is_dst_call])

/-- A destination setter leaves every byte from the source operand on, and
what it leaves at an offset of the destination operand depends on the byte that
was there only. -/
theorem dst_write_bytes (d : setter_call) (hd : is_dst_call d) :
    (∀ mem o, 4 ≤ o → get8 (dst_write mem d) o = get8 mem o) ∧
      (∀ mem mem2 o, 1 ≤ o → o ≤ 3 → get8 mem o = get8 mem2 o →
        get8 (dst_write mem d) o = get8 (dst_write mem2 d) o) := by
  cases d with
  | set_dst_ram addr =>
    constructor
    · intro mem o h4
      show get8 (write_dst_ram mem 0 addr) o = _
      rw [get8_write_dst_ram]
      split_ifs <;> first | rfl | omega
    · intro mem mem2 o h1 h3 he
      show get8 (write_dst_ram mem 0 addr) o = get8 (write_dst_ram mem2 0 addr) o
      rw [get8_write_dst_ram, get8_write_dst_ram]
      split_ifs <;> first | rfl | omega
  | set_dst_ics offset ics =>
    constructor
    · intro mem o h4
      show get8 (write_dst_ics mem 0 offset (ics - 1)) o = _
      rw [get8_write_dst_ics]
      split_ifs <;> first | rfl | omega
    · intro mem mem2 o h1 h3 he
      show get8 (write_dst_ics mem 0 offset (ics - 1)) o =
        get8 (write_dst_ics mem2 0 offset (ics - 1)) o
      rw [get8_write_dst_ics, get8_write_dst_ics]
      split_ifs <;> first | rfl | omega
  | set_dst_com =>
    constructor
    · intro mem o h4
      show get8 (write_dst_com mem 0) o = _
      rw [get8_write_dst_com]
      split_ifs <;> first | rfl | omega
    · intro mem mem2 o h1 h3 he
      show get8 (write_dst_com mem 0) o = get8 (write_dst_com mem2 0) o
      rw [get8_write_dst_com, get8_write_dst_com]
      split_ifs <;> first | rfl | omega
  | set_dst_rom addr =>
    constructor
    · intro mem o h4
      show get8 (write_dst_rom mem 0 addr) o = _
      rw [get8_write_dst_rom]
      split_ifs <;> first | rfl | omega
    · intro mem mem2 o h1 h3 he
      show get8 (write_dst_rom mem 0 addr) o = get8 (write_dst_rom mem2 0 addr) o
      rw [get8_write_dst_rom, get8_write_dst_rom]
      split_ifs <;> first | rfl | omega
  | _ => exact absurd hd (by simp [is_dst_call])

/-! ### The type byte after a source and a destination setter -/

theorem dst_bits_small : ∀ y, y < 4 → ∀ k, k < 4 → (y ||| (16 * k)) &&& 0xB0 = 16 * k := by
  decide

/-- Whatever the order of the two setters, the type byte ends as the
destination kind or-ed with the source kind. -/
theorem type_byte_commutes (t ks kd : Nat) (hs : ks < 4)
    (hd : kd = COMM_DST_RAM ∨ kd = COMM_DST_ICS ∨ kd = COMM_DST_COM ∨ kd = COMM_DST_ROM) :
    dst_type_byte (src_type_byte t ks) kd = src_type_byte (dst_type_byte t kd) ks := by
  obtain ⟨_, _, a, _, _⟩ := src_type_byte_bits t ks hs
  have l : dst_type_byte (src_type_byte t ks) kd = ks ||| kd := by
    unfold dst_type_byte
    rw [a]
  have hy : t &&& 3 < 4 := Nat.lt_succ_of_le Nat.and_le_right
  have r : src_type_byte (dst_type_byte t kd) ks = kd ||| ks := by
    unfold src_type_byte dst_type_byte
    have e : (t &&& COMM_SRC_MASK ||| kd) &&& (COMM_DST_MASK ||| COMM_NUPDATE) = kd := by
      rcases hd with h | h | h | h
      · rw [h]; exact dst_bits_small _ hy 0 (by decide)
      · rw [h]; exact dst_bits_small _ hy 1 (by decide)
      · rw [h]; exact dst_bits_small _ hy 2 (by decide)
      · rw [h]; exact dst_bits_small _ hy 3 (by decide)
    rw [e]
  rw [l, r, Nat.or_comm]

/-- The stores of a source setter and of a destination setter commute. -/
theorem src_dst_write_commute (mem : Payload) (s d : setter_call) (hs : is_src_call s)
    (hd : is_dst_call d) :
    dst_write (src_write mem s) d = src_write (dst_write mem d) s := by
  obtain ⟨ks, hks, s0⟩ := src_write_type s hs
  obtain ⟨kd, hkd, d0⟩ := dst_write_type d hd
  obtain ⟨s1, s4⟩ := src_write_bytes s hs
  obtain ⟨d4, d1⟩ := dst_write_bytes d hd
  apply payload_ext
  intro o _
  by_cases h0 : o = 0
  · rw [h0, d0, s0, s0, d0]
    exact type_byte_commutes _ ks kd hks hkd
  · by_cases h3 : o ≤ 3
    · rw [s1 _ o (by omega) h3]
      exact d1 _ _ o (by omega) h3 (s1 _ o (by omega) h3)
    · rw [d4 _ o (by omega)]
      exact s4 _ _ o (by omega) (d4 _ o (by omega)).symm

/-- C37: on a MOV, logic or arithmetic message, a source setter (RAM, ICS,
literal or ROM) and a destination setter (RAM, ICS, COM or ROM) that both
succeed on the message succeed in either order, and the two orders give the
same message. -/
theorem src_and_dst_setters_commute (m : rcb4_comm) (hm : has_src m.type)
    (s d : setter_call) (hs : is_src_call s) (hd : is_dst_call d)
    (hcs : call_code m s = 0) (hcd : call_code m d = 0) :
    call_code (apply_call m s) d = 0 ∧ call_code (apply_call m d) s = 0 ∧
      apply_call (apply_call m s) d = apply_call (apply_call m d) s := by
  have es := src_call_stores m hm s hs hcs
  have ed := dst_call_stores m (has_src_legal_dst _ hm) d hd hcd
  have ts : (apply_call m s).type = m.type := by rw [es]
  have td : (apply_call m d).type = m.type := by rw [ed]
  have c1 : call_code (apply_call m s) d = 0 := by
    rw [call_code_congr _ m ts d (Or.inr hd)]; exact hcd
  have c2 : call_code (apply_call m d) s = 0 := by
    rw [call_code_congr _ m td s (Or.inl hs)]; exact hcs
  refine ⟨c1, c2, ?_⟩
  have e1 := dst_call_stores (apply_call m s) (has_src_legal_dst _ (by rw [ts]; exact hm)) d hd c1
  have e2 := src_call_stores (apply_call m d) (by rw [td]; exact hm) s hs c2
  rw [e1, e2, es, ed]
  dsimp only
  rw [src_dst_write_commute m.command s d hs hd]

theorem src_and_dst_setters_commute_witness :
    apply_call (apply_call (created RCB4_COMM_MOV) (setter_call.set_src_ram 0x0022 4))
        (setter_call.set_dst_rom 0x012345) =
      apply_call (apply_call (created RCB4_COMM_MOV) (setter_call.set_dst_rom 0x012345))
        (setter_call.set_src_ram 0x0022 4) :=
  (src_and_dst_setters_commute (created RCB4_COMM_MOV) (by decide)
    (setter_call.set_src_ram 0x0022 4) (setter_call.set_dst_rom 0x012345) trivial trivial
    (by decide) (by decide)).2.2

/-! ## The do-not-save flag -/

theorem legal_do_not_save_legal_dst (t : Nat) (h : legal_do_not_save t) : legal_dst t := by
  unfold legal_do_not_save at h
  unfold legal_dst has_src
  tauto

theorem dst_type_byte_bit7 (t kd : Nat)
    (hd : kd = COMM_DST_RAM ∨ kd = COMM_DST_ICS ∨ kd = COMM_DST_COM ∨ kd = COMM_DST_ROM) :
    (dst_type_byte t kd).testBit 7 = false := by
  unfold dst_type_byte
  rw [Nat.testBit_or, Nat.testBit_and]
  have h3 : (COMM_SRC_MASK).testBit 7 = false := by decide
  have hk : kd.testBit 7 = false := by
    rcases hd with h | h | h | h <;> rw [h] <;> decide
  rw [h3, hk]
  simp

theorem src_type_byte_bit7 (t ks : Nat) (hs : ks < 4) :
    (src_type_byte t ks).testBit 7 = t.testBit 7 := by
  unfold src_type_byte
  rw [Nat.testBit_or, Nat.testBit_and]
  have hb : (COMM_DST_MASK ||| COMM_NUPDATE).testBit 7 = true := by decide
  have hk : ks.testBit 7 = false := Nat.testBit_lt_two_pow (by omega)
  rw [hb, hk]
  simp

/-- A successful destination setter leaves the flag clear. -/
theorem dst_call_clears_flag (m : rcb4_comm) (hm : legal_dst m.type) (d : setter_call)
    (hd : is_dst_call d) (h : call_code m d = 0) : nupdate_flag (apply_call m d) = false := by
  obtain ⟨kd, hkd, d0⟩ := dst_write_type d hd
  rw [dst_call_stores m hm d hd h]
  unfold nupdate_flag
  show (get8 (dst_write m.command d) 0).testBit 7 = false
  rw [d0]
  exact dst_type_byte_bit7 _ kd hkd

/-- The flag after `rcb4_command_set_dst_do_not_save`. -/
theorem do_not_save_sets_flag (m : rcb4_comm) (hm : legal_do_not_save m.type) :
    call_code m setter_call.set_dst_do_not_save = 0 ∧
      (apply_call m setter_call.set_dst_do_not_save).type = m.type ∧
      nupdate_flag (apply_call m setter_call.set_dst_do_not_save) = true := by
  have e := set_dst_do_not_save_stores m hm
  refine ⟨?_, ?_, ?_⟩
  · show (rcb4_command_set_dst_do_not_save m).1 = 0
    rw [e]
  · show (rcb4_command_set_dst_do_not_save m).2.type = m.type
    rw [e]
  · show (get8 (rcb4_command_set_dst_do_not_save m).2.command 0).testBit 7 = true
    rw [e]
    show (get8 (write_do_not_save m.command 0) 0).testBit 7 = true
    rw [get8_write_do_not_save, if_pos rfl, or_nupdate_bits _ 7 (by decide)]
    simp

/-- C38: on an AND, OR, XOR, NOT, SHIFT, ADD, SUB, MUL, DIV or MOD message,
every successful destination setter (RAM, ICS, ROM, and COM where it is
accepted) leaves bit 7 of the type byte clear; a call of
`rcb4_command_set_dst_do_not_save` after it succeeds and sets the bit, while a
call before it is undone by the destination setter; every successful source
setter leaves the bit as it was. -/
theorem dst_setter_clears_do_not_save (m : rcb4_comm) (hm : legal_do_not_save m.type) :
    (∀ d, is_dst_call d → call_code m d = 0 →
        nupdate_flag (apply_call m d) = false ∧
        call_code (apply_call m d) setter_call.set_dst_do_not_save = 0 ∧
        nupdate_flag (apply_call (apply_call m d) setter_call.set_dst_do_not_save) = true ∧
        call_code (apply_call m setter_call.set_dst_do_not_save) d = 0 ∧
        nupdate_flag (apply_call (apply_call m setter_call.set_dst_do_not_save) d) = false) ∧
      (∀ s, is_src_call s → call_code m s = 0 →
        nupdate_flag (apply_call m s) = nupdate_flag m) := by
  have hl := legal_do_not_save_legal_dst _ hm
  constructor
  · intro d hd hc
    have ed := dst_call_stores m hl d hd hc
    have td : (apply_call m d).type = m.type := by rw [ed]
    obtain ⟨a, _, b⟩ := do_not_save_sets_flag (apply_call m d) (by rw [td]; exact hm)
    obtain ⟨_, tn, _⟩ := do_not_save_sets_flag m hm
    have c : call_code (apply_call m setter_call.set_dst_do_not_save) d = 0 := by
      rw [call_code_congr _ m tn d (Or.inr hd)]; exact hc
    exact ⟨dst_call_clears_flag m hl d hd hc, a, b, c,
      dst_call_clears_flag _ (by rw [tn]; exact hl) d hd c⟩
  · intro s hs hc
    have hsrc : has_src m.type := by
      rcases src_call_success m s hs hc with a | a
      · exact a
      · rw [a] at hm
        exact absurd hm (by decide)
    obtain ⟨ks, hks, s0⟩ := src_write_type s hs
    rw [src_call_stores m hsrc s hs hc]
    unfold nupdate_flag
    show (get8 (src_write m.command s) 0).testBit 7 = (get8 m.command 0).testBit 7
    rw [s0]
    exact src_type_byte_bit7 _ ks hks

theorem dst_setter_clears_do_not_save_witness :
    nupdate_flag (apply_call and_ram_to_ram setter_call.set_dst_do_not_save) = true ∧
      nupdate_flag (apply_call (apply_call and_ram_to_ram setter_call.set_dst_do_not_save)
        (setter_call.set_dst_ram 0x0010)) = false ∧
      nupdate_flag (apply_call (apply_call and_ram_to_ram (setter_call.set_dst_ram 0x0010))
        setter_call.set_dst_do_not_save) = true :=
  ⟨by decide,
    ((dst_setter_clears_do_not_save and_ram_to_ram (by decide)).1 (setter_call.set_dst_ram 0x0010)
      trivial (by decide)).2.2.2.2,
    ((dst_setter_clears_do_not_save and_ram_to_ram (by decide)).1 (setter_call.set_dst_ram 0x0010)
      trivial (by decide)).2.2.1⟩

/-! ## An earlier destination under a later one -/

/-- C39 fails on the code: on a fresh MOV, the ROM destination `0x012345`
followed by the RAM destination `0x0010` leaves the destination bytes
`10 00 01`, where the RAM destination alone leaves `10 00 00`: the third byte
of the ROM address stays.
Followed by the COM destination, the ROM address stays whole, `45 23 01`, where
the COM destination alone leaves `00 00 00`.  The type byte is the same in both
pairs. -/
theorem earlier_rom_byte_survives :
    call_code (created RCB4_COMM_MOV) (setter_call.set_dst_rom 0x012345) = 0 ∧
      call_code (apply_call (created RCB4_COMM_MOV) (setter_call.set_dst_rom 0x012345))
        (setter_call.set_dst_ram 0x0010) = 0 ∧
      dst_bytes (run_calls (created RCB4_COMM_MOV)
        [setter_call.set_dst_rom 0x012345, setter_call.set_dst_ram 0x0010]) 3 =
          [0x10, 0x00, 0x01] ∧
      dst_bytes (run_calls (created RCB4_COMM_MOV) [setter_call.set_dst_ram 0x0010]) 3 =
          [0x10, 0x00, 0x00] ∧
      get8 (run_calls (created RCB4_COMM_MOV)
        [setter_call.set_dst_rom 0x012345, setter_call.set_dst_ram 0x0010]).command off_type =
        get8 (run_calls (created RCB4_COMM_MOV) [setter_call.set_dst_ram 0x0010]).command
          off_type ∧
      call_code (apply_call (created RCB4_COMM_MOV) (setter_call.set_dst_rom 0x012345))
        setter_call.set_dst_com = 0 ∧
      dst_bytes (run_calls (created RCB4_COMM_MOV)
        [setter_call.set_dst_rom 0x012345, setter_call.set_dst_com]) 3 = [0x45, 0x23, 0x01] ∧
      dst_bytes (run_calls (created RCB4_COMM_MOV) [setter_call.set_dst_com]) 3 =
          [0x00, 0x00, 0x00] := by
  refine ⟨by decide, by decide, by decide, by decide, by decide, by decide, by decide, by decide⟩

/-! ## The declared size of an arithmetic source -/

/-- C40 fails on the code: on every ADD, SUB, MUL, DIV or MOD message
`rcb4_command_set_src_ram` accepts each size from 3 to 118 and stores it as the
declared size of the source, although `rcb4_command_set_data_size` refuses that
size on the same message; `rcb4_command_set_src_ics` and
`rcb4_command_set_src_rom` do so for each size from 3 to 128. -/
theorem math_source_size_not_restricted (m : rcb4_comm) (hm : is_math m.type) (size : Nat)
    (h3 : 3 ≤ size) (h128 : size ≤ 128) :
    (rcb4_command_set_data_size m size).1 = -1 ∧
      (size ≤ 118 → ∀ addr, addr ≤ RCB4_MAX_RAM_ADDRESS →
        (rcb4_command_set_src_ram m addr size).1 = 0 ∧
        get8 (rcb4_command_set_src_ram m addr size).2.command off_src_ram_size = size) ∧
      (∀ offset ics, 1 ≤ ics → ics ≤ RCB4_ICS_QTY →
        (rcb4_command_set_src_ics m offset ics size).1 = 0 ∧
        get8 (rcb4_command_set_src_ics m offset ics size).2.command off_src_ics_size = size) ∧
      (∀ addr, addr ≤ RCB4_MAX_ROM_ADDRESS →
        (rcb4_command_set_src_rom m addr size).1 = 0 ∧
        get8 (rcb4_command_set_src_rom m addr size).2.command off_src_rom_size = size) := by
  have hs : has_src m.type := Or.inr (Or.inr hm)
  have hmod : size % 256 = size := Nat.mod_eq_of_lt (by omega)
  refine ⟨?_, ?_, ?_, ?_⟩
  · rw [set_data_size_math m hm size]
    have c : ¬ (size = 1 ∨ size = 2) := by omega
    rw [if_neg c]
  · intro h118 addr ha
    have a := set_src_ram_accepts m hs addr size (by omega) h118 ha
    refine ⟨a, ?_⟩
    rw [set_src_ram_stores m hs addr size a]
    show get8 (write_src_ram m.command 0 addr size) 6 = size
    rw [get8_write_src_ram, if_pos rfl, hmod]
  · intro offset ics i1 i2
    have a := set_src_ics_accepts m hs offset ics size (by omega) h128 i1 i2
    refine ⟨a, ?_⟩
    rw [set_src_ics_stores m hs offset ics size a]
    show get8 (write_src_ics m.command 0 offset (ics - 1) size) 6 = size
    rw [get8_write_src_ics, if_pos rfl, hmod]
  · intro addr ha
    have a := set_src_rom_accepts m hs addr size (by omega) h128 ha
    refine ⟨a, ?_⟩
    rw [set_src_rom_stores m hs addr size a]
    show get8 (write_src_rom m.command 0 addr size) 7 = size
    rw [get8_write_src_rom, if_pos rfl, hmod]

theorem math_source_size_not_restricted_witness :
    (rcb4_command_set_data_size (created RCB4_COMM_ADD) 4).1 = -1 ∧
      (rcb4_command_set_src_ram (created RCB4_COMM_ADD) 0x0000 4).1 = 0 ∧
      get8 add_ram4.command off_src_ram_size = 4 :=
  ⟨(math_source_size_not_restricted (created RCB4_COMM_ADD) (by decide) 4 (by decide)
      (by decide)).1,
    ((math_source_size_not_restricted (created RCB4_COMM_ADD) (by decide) 4 (by decide)
      (by decide)).2.1 (by decide) 0x0000 (by decide)).1,
    by decide⟩

/-! ## The longest reply expected -/

/-- C36 fails on the code: the MOV made by
`rcb4_command_set_src_ics(comm, 0, 1, 128)` and `rcb4_command_set_dst_com(comm)`,
two calls that succeed, expects a reply of 128 bytes, so that
`rcb4_send_command` reads a frame of 131 bytes, three more than
`RCB4_COMM_MESSAGE_SIZE_ALLOWED`, and hands back its 128 payload bytes. -/
theorem reply_frame_of_131_bytes :
    call_code (created RCB4_COMM_MOV) (setter_call.set_src_ics 0 1 128) = 0 ∧
      call_code (apply_call (created RCB4_COMM_MOV) (setter_call.set_src_ics 0 1 128))
        setter_call.set_dst_com = 0 ∧
      rcb4_command_get_response_size mov_ics128_to_com = 128 ∧
      RCB4_COMM_MESSAGE_SIZE_ALLOWED < rcb4_command_get_response_size mov_ics128_to_com + 3 ∧
      (data_reply RCB4_COMM_MOV (List.replicate 128 0x55)).length = 131 ∧
      rcb4_send_command port_with_long_reply mov_ics128_to_com =
        some (128, List.replicate 128 0x55) := by
  have hr : rcb4_command_get_response_size mov_ics128_to_com = 128 := by decide
  refine ⟨by decide, by decide, hr, by decide, by decide, ?_⟩
  have h := send_command_reply_any_sum port_with_long_reply mov_ics128_to_com
    (List.replicate 128 0x55)
    ((128 + 3 + RCB4_COMM_MOV + (List.replicate 128 0x55).sum) % 256)
    (data_reply RCB4_COMM_MOV (List.replicate 128 0x55)) (by decide) (by decide) (by rfl)
    (by decide) (by decide) (by decide) (by decide) (by decide) (by rfl) (by decide)
  rw [hr] at h
  exact h

/-! ## The size of a message along any sequence of calls -/

theorem servos_set_zero : servos_set zero_payload = 0 := by decide

end Rcb4
